import Mathlib

/-!
Platform object cache of NetworkManager: a shallow embedding

This development embeds `src/platform/nmp-object.{h,c}` and `src/nm-multi-index.c`
and states the properties of the platform cache over the embedding.

Conventions of the embedding.

* A pointer is a machine address, a natural number (`Nat`); `0` is `NULL`.  Objects live in a heap, a map from
  addresses to objects.  The Multi-Index stores `&obj->object`, which is the object's
  address plus a constant offset; the embedding stores the object's address itself,
  which has the same order.
* `g_assert_not_reached ()` aborts the process: a function that can reach it returns an
  `Option`, `none` being the abort.  `nm_assert` is compiled out of production builds
  and is not executed; `g_return_val_if_fail` returns early.
* A `GHashTable` is an association list, searched with the table's equality function.
* Machine integers are `Nat`/`Int`; the 32-bit `guint` arithmetic of the hash functions
  is reduced modulo `2 ^ 32` explicitly.
-/

namespace NM

/-- `G_MAXINT`, which is also `NMP_REF_COUNT_INITSTACK`. -/
def G_MAXINT : Int := 2147483647

/-- The sentinel reference count of a stack-initialised object. -/
def NMP_REF_COUNT_INITSTACK : Int := G_MAXINT

/-! ## Enumerations of `nmp-object.h` -/

/-- The `ObjectType` enumeration. -/
inductive ObjectType
  | OBJECT_TYPE_UNKNOWN
  | OBJECT_TYPE_LINK
  | OBJECT_TYPE_IP4_ADDRESS
  | OBJECT_TYPE_IP6_ADDRESS
  | OBJECT_TYPE_IP4_ROUTE
  | OBJECT_TYPE_IP6_ROUTE
  deriving DecidableEq, Repr

open ObjectType

/-- The numeric value of an `ObjectType`, as stored in the `guint8` of a cache id. -/
def ObjectType.toNat : ObjectType → Nat
  | OBJECT_TYPE_UNKNOWN => 0
  | OBJECT_TYPE_LINK => 1
  | OBJECT_TYPE_IP4_ADDRESS => 2
  | OBJECT_TYPE_IP6_ADDRESS => 3
  | OBJECT_TYPE_IP4_ROUTE => 4
  | OBJECT_TYPE_IP6_ROUTE => 5

/-- The `NMPCacheOpsType` enumeration: the result of a cache operation. -/
inductive NMPCacheOpsType
  | NMP_CACHE_OPS_UNCHANGED
  | NMP_CACHE_OPS_UPDATED
  | NMP_CACHE_OPS_ADDED
  | NMP_CACHE_OPS_REMOVED
  deriving DecidableEq, Repr

open NMPCacheOpsType

/-- The `NMPObjectAspects` bit mask. -/
abbrev NMPObjectAspects := Nat

/-- No aspect. -/
def NMP_OBJECT_ASPECT_NONE : NMPObjectAspects := 0
/-- The public aspect, `1 << 1`. -/
def NMP_OBJECT_ASPECT_PUBLIC : NMPObjectAspects := 2
/-- The netlink aspect, `1 << 2`. -/
def NMP_OBJECT_ASPECT_NETLINK : NMPObjectAspects := 4
/-- The udev aspect, `1 << 3`. -/
def NMP_OBJECT_ASPECT_UDEV : NMPObjectAspects := 8
/-- All aspects: `((__NMP_OBJECT_ASPECT_LAST - 1) << 1) - 1` with `__NMP_OBJECT_ASPECT_LAST = 9`. -/
def NMP_OBJECT_ASPECT_ALL : NMPObjectAspects := 15

/-- Modelled from the spec: the macro `NM_FLAGS_ANY` of `nm-utils-internal.h` (not under
`src/`): some bit of `check` is set in `flags`. -/
def NM_FLAGS_ANY (flags check : Nat) : Bool := (flags &&& check) != 0

/-- Modelled from the spec: the macro `NM_FLAGS_HAS` of `nm-utils-internal.h` (not under
`src/`): the single bit `check` is set in `flags`. -/
def NM_FLAGS_HAS (flags check : Nat) : Bool := (flags &&& check) != 0

/-- The `NMPCacheIdType` enumeration. -/
inductive NMPCacheIdType
  | NMP_CACHE_ID_TYPE_LINKS_ALL
  | NMP_CACHE_ID_TYPE_LINKS_VISIBLE_ONLY
  | NMP_CACHE_ID_TYPE_ADDRROUTE_BY_IFINDEX
  | NMP_CACHE_ID_TYPE_ROUTES_VISIBLE_ALL
  | NMP_CACHE_ID_TYPE_ROUTES_VISIBLE_NO_DEFAULT
  | NMP_CACHE_ID_TYPE_ROUTES_VISIBLE_ONLY_DEFAULT
  deriving DecidableEq, Repr

open NMPCacheIdType

/-- The cache id types `0 .. NMP_CACHE_ID_TYPE_MAX` in the order in which the loops of
`_nmp_cache_update_cache` and `_nmp_cache_update_update` visit them. -/
def NMP_CACHE_ID_TYPES : List NMPCacheIdType :=
  [NMP_CACHE_ID_TYPE_LINKS_ALL, NMP_CACHE_ID_TYPE_LINKS_VISIBLE_ONLY,
   NMP_CACHE_ID_TYPE_ADDRROUTE_BY_IFINDEX, NMP_CACHE_ID_TYPE_ROUTES_VISIBLE_ALL,
   NMP_CACHE_ID_TYPE_ROUTES_VISIBLE_NO_DEFAULT, NMP_CACHE_ID_TYPE_ROUTES_VISIBLE_ONLY_DEFAULT]

/-- The `NMPCacheId` union.  The structure is zeroed by `nmp_cache_id_init` before any field
is set, so its bytes are determined by the id type, the second byte (which is `obj_type`
in `addrroute_by_ifindex` and `is_v4` in `routes_visible`) and `ifindex`. -/
structure NMPCacheId where
  _id_type : NMPCacheIdType
  obj_type : Nat
  ifindex : Int
  deriving DecidableEq, Repr

/-- The `is_v4` member of `routes_visible`: the same byte as `obj_type`. -/
def NMPCacheId.is_v4 (id : NMPCacheId) : Nat := id.obj_type

/-! ## Public structures of `nm-platform.h` -/

/-- Modelled from the spec: the enumeration `NMIPConfigSource` of `nm-platform.h` (not under
`src/`).  The spec names the sources "internal-synthesized" and "kernel-protocol-reported";
a zeroed object has the first value. -/
inductive NMIPConfigSource
  | NM_IP_CONFIG_SOURCE_UNKNOWN
  | NM_IP_CONFIG_SOURCE_INTERNAL
  | NM_IP_CONFIG_SOURCE_RTPROT_KERNEL
  | NM_IP_CONFIG_SOURCE_KERNEL
  | NM_IP_CONFIG_SOURCE_SHARED
  | NM_IP_CONFIG_SOURCE_IP4LL
  | NM_IP_CONFIG_SOURCE_PPP
  | NM_IP_CONFIG_SOURCE_WWAN
  | NM_IP_CONFIG_SOURCE_VPN
  | NM_IP_CONFIG_SOURCE_DHCP
  | NM_IP_CONFIG_SOURCE_RDISC
  | NM_IP_CONFIG_SOURCE_USER
  deriving DecidableEq, Repr

open NMIPConfigSource

/-- Modelled from the spec: `NMPlatformLink` of `nm-platform.h` (not under `src/`): the
identity field `ifindex` and the remaining public attributes (name, type, flags, MTU,
driver information), which the cache only copies and compares as a whole. -/
structure NMPlatformLink where
  ifindex : Int
  attrs : Nat
  deriving DecidableEq, Repr

/-- Modelled from the spec: `NMPlatformIP4Address` of `nm-platform.h` (not under `src/`):
identity fields `ifindex`, `plen`, `address`, then the source and the remaining public
attributes (lifetimes, peer, label). -/
structure NMPlatformIP4Address where
  ifindex : Int
  source : NMIPConfigSource
  address : Nat
  plen : Int
  attrs : Nat
  deriving DecidableEq, Repr

/-- Modelled from the spec: `NMPlatformIP6Address` of `nm-platform.h` (not under `src/`).
The `struct in6_addr` is its 128-bit value, byte `0` being the most significant. -/
structure NMPlatformIP6Address where
  ifindex : Int
  source : NMIPConfigSource
  address : Nat
  plen : Int
  attrs : Nat
  deriving DecidableEq, Repr

/-- Modelled from the spec: `NMPlatformIP4Route` of `nm-platform.h` (not under `src/`):
identity fields `ifindex`, `plen`, `metric`, `network`, then the source and the remaining
public attributes (gateway, mss). -/
structure NMPlatformIP4Route where
  ifindex : Int
  source : NMIPConfigSource
  network : Nat
  plen : Int
  metric : Nat
  attrs : Nat
  deriving DecidableEq, Repr

/-- Modelled from the spec: `NMPlatformIP6Route` of `nm-platform.h` (not under `src/`).
The `struct in6_addr` is its 128-bit value, byte `0` being the most significant. -/
structure NMPlatformIP6Route where
  ifindex : Int
  source : NMIPConfigSource
  network : Nat
  plen : Int
  metric : Nat
  attrs : Nat
  deriving DecidableEq, Repr

/-! ## The object representation of `nmp-object.h` -/

/-- The `netlink` member of `NMPObjectLink`.  `rtnl_link_type` is a `const char *`, compared
as a pointer. -/
structure NMPObjectLinkNetlink where
  is_in_netlink : Nat
  connected_native : Nat
  link_type_unknown_udev : Nat
  arptype : Int
  rtnl_link_type : Nat
  deriving DecidableEq, Repr

/-- The `udev` member of `NMPObjectLink`: a `GUdevDevice *`, `0` when there is none. -/
structure NMPObjectLinkUdev where
  device : Nat
  deriving DecidableEq, Repr

/-- The structure `NMPObjectLink`. -/
structure NMPObjectLink where
  _public : NMPlatformLink
  netlink : NMPObjectLinkNetlink
  udev : NMPObjectLinkUdev
  deriving DecidableEq, Repr

/-- The anonymous union of `struct NMPObject`, tagged by the class of the object.  The
structures `NMPObjectIP4Address` etc. consist of their `_public` member only. -/
inductive NMPObjectData
  | _link (v : NMPObjectLink)
  | _ip4_address (v : NMPlatformIP4Address)
  | _ip6_address (v : NMPlatformIP6Address)
  | _ip4_route (v : NMPlatformIP4Route)
  | _ip6_route (v : NMPlatformIP6Route)
  deriving DecidableEq, Repr

/-- The structure `NMPObject`.  The `_class` pointer is the tag of `data`. -/
structure NMPObject where
  _ref_count : Int
  is_cached : Bool
  data : NMPObjectData
  deriving DecidableEq, Repr

/-- The class of an object, which is the tag of its union; a class is named by its `type`
member. -/
def NMPObjectData._class : NMPObjectData → ObjectType
  | ._link _ => OBJECT_TYPE_LINK
  | ._ip4_address _ => OBJECT_TYPE_IP4_ADDRESS
  | ._ip6_address _ => OBJECT_TYPE_IP6_ADDRESS
  | ._ip4_route _ => OBJECT_TYPE_IP4_ROUTE
  | ._ip6_route _ => OBJECT_TYPE_IP6_ROUTE

/-- The macro `NMP_OBJECT_GET_CLASS`. -/
def NMP_OBJECT_GET_CLASS (obj : NMPObject) : ObjectType := obj.data._class

/-- The member `has_other_aspects` of the class table `nmp_classes`: set for links only. -/
def has_other_aspects : ObjectType → Bool
  | OBJECT_TYPE_LINK => true
  | _ => false

/-- The member `object.ifindex`, common to the public structure of every kind. -/
def object_ifindex (obj : NMPObjectData) : Int :=
  match obj with
  | ._link v => v._public.ifindex
  | ._ip4_address v => v.ifindex
  | ._ip6_address v => v.ifindex
  | ._ip4_route v => v.ifindex
  | ._ip6_route v => v.ifindex

/-! ## Full comparison of the public structures -/

/-- Modelled from the spec: `nm_platform_link_cmp` of `nm-platform.c` (not under `src/`):
a deterministic ordering of the public fields, compared field by field. -/
def nm_platform_link_cmp (a b : NMPlatformLink) : Int :=
  if a.ifindex ≠ b.ifindex then (if a.ifindex < b.ifindex then -1 else 1)
  else if a.attrs ≠ b.attrs then (if a.attrs < b.attrs then -1 else 1)
  else 0

/-- Modelled from the spec: `nm_platform_ip4_address_cmp` of `nm-platform.c` (not under
`src/`): a deterministic ordering of the public fields, compared field by field. -/
def nm_platform_ip4_address_cmp (a b : NMPlatformIP4Address) : Int :=
  if a.ifindex ≠ b.ifindex then (if a.ifindex < b.ifindex then -1 else 1)
  else if a.source ≠ b.source then (if a.source.toCtorIdx < b.source.toCtorIdx then -1 else 1)
  else if a.address ≠ b.address then (if a.address < b.address then -1 else 1)
  else if a.plen ≠ b.plen then (if a.plen < b.plen then -1 else 1)
  else if a.attrs ≠ b.attrs then (if a.attrs < b.attrs then -1 else 1)
  else 0

/-- Modelled from the spec: `nm_platform_ip6_address_cmp` of `nm-platform.c` (not under
`src/`): a deterministic ordering of the public fields, compared field by field. -/
def nm_platform_ip6_address_cmp (a b : NMPlatformIP6Address) : Int :=
  if a.ifindex ≠ b.ifindex then (if a.ifindex < b.ifindex then -1 else 1)
  else if a.source ≠ b.source then (if a.source.toCtorIdx < b.source.toCtorIdx then -1 else 1)
  else if a.address ≠ b.address then (if a.address < b.address then -1 else 1)
  else if a.plen ≠ b.plen then (if a.plen < b.plen then -1 else 1)
  else if a.attrs ≠ b.attrs then (if a.attrs < b.attrs then -1 else 1)
  else 0

/-- Modelled from the spec: `nm_platform_ip4_route_cmp` of `nm-platform.c` (not under
`src/`): a deterministic ordering of the public fields, compared field by field. -/
def nm_platform_ip4_route_cmp (a b : NMPlatformIP4Route) : Int :=
  if a.ifindex ≠ b.ifindex then (if a.ifindex < b.ifindex then -1 else 1)
  else if a.source ≠ b.source then (if a.source.toCtorIdx < b.source.toCtorIdx then -1 else 1)
  else if a.network ≠ b.network then (if a.network < b.network then -1 else 1)
  else if a.plen ≠ b.plen then (if a.plen < b.plen then -1 else 1)
  else if a.metric ≠ b.metric then (if a.metric < b.metric then -1 else 1)
  else if a.attrs ≠ b.attrs then (if a.attrs < b.attrs then -1 else 1)
  else 0

/-- Modelled from the spec: `nm_platform_ip6_route_cmp` of `nm-platform.c` (not under
`src/`): a deterministic ordering of the public fields, compared field by field. -/
def nm_platform_ip6_route_cmp (a b : NMPlatformIP6Route) : Int :=
  if a.ifindex ≠ b.ifindex then (if a.ifindex < b.ifindex then -1 else 1)
  else if a.source ≠ b.source then (if a.source.toCtorIdx < b.source.toCtorIdx then -1 else 1)
  else if a.network ≠ b.network then (if a.network < b.network then -1 else 1)
  else if a.plen ≠ b.plen then (if a.plen < b.plen then -1 else 1)
  else if a.metric ≠ b.metric then (if a.metric < b.metric then -1 else 1)
  else if a.attrs ≠ b.attrs then (if a.attrs < b.attrs then -1 else 1)
  else 0

/-- The class member `cmd_plobj_cmp`, applied to two objects of one class. -/
def cmd_plobj_cmp (obj1 obj2 : NMPObjectData) : Int :=
  match obj1, obj2 with
  | ._link a, ._link b => nm_platform_link_cmp a._public b._public
  | ._ip4_address a, ._ip4_address b => nm_platform_ip4_address_cmp a b
  | ._ip6_address a, ._ip6_address b => nm_platform_ip6_address_cmp a b
  | ._ip4_route a, ._ip4_route b => nm_platform_ip4_route_cmp a b
  | ._ip6_route a, ._ip6_route b => nm_platform_ip6_route_cmp a b
  | _, _ => 1

/-! ## Identity: equality, hash and copy -/

/-- The function `_vt_cmd_plobj_id_equal_link`. -/
def _vt_cmd_plobj_id_equal_link (obj1 obj2 : NMPlatformLink) : Bool :=
  obj1.ifindex == obj2.ifindex

/-- The function `_vt_cmd_plobj_id_equal_ip4_address`. -/
def _vt_cmd_plobj_id_equal_ip4_address (obj1 obj2 : NMPlatformIP4Address) : Bool :=
  obj1.ifindex == obj2.ifindex && obj1.plen == obj2.plen && obj1.address == obj2.address

/-- The function `_vt_cmd_plobj_id_equal_ip6_address`. -/
def _vt_cmd_plobj_id_equal_ip6_address (obj1 obj2 : NMPlatformIP6Address) : Bool :=
  obj1.ifindex == obj2.ifindex && obj1.plen == obj2.plen && obj1.address == obj2.address

/-- The function `_vt_cmd_plobj_id_equal_ip4_route`. -/
def _vt_cmd_plobj_id_equal_ip4_route (obj1 obj2 : NMPlatformIP4Route) : Bool :=
  obj1.ifindex == obj2.ifindex && obj1.plen == obj2.plen && obj1.metric == obj2.metric
    && obj1.network == obj2.network

/-- The function `_vt_cmd_plobj_id_equal_ip6_route`. -/
def _vt_cmd_plobj_id_equal_ip6_route (obj1 obj2 : NMPlatformIP6Route) : Bool :=
  obj1.ifindex == obj2.ifindex && obj1.plen == obj2.plen && obj1.metric == obj2.metric
    && obj1.network == obj2.network

/-- The class member `cmd_plobj_id_equal`, applied to two objects of one class. -/
def cmd_plobj_id_equal (obj1 obj2 : NMPObjectData) : Bool :=
  match obj1, obj2 with
  | ._link a, ._link b => _vt_cmd_plobj_id_equal_link a._public b._public
  | ._ip4_address a, ._ip4_address b => _vt_cmd_plobj_id_equal_ip4_address a b
  | ._ip6_address a, ._ip6_address b => _vt_cmd_plobj_id_equal_ip6_address a b
  | ._ip4_route a, ._ip4_route b => _vt_cmd_plobj_id_equal_ip4_route a b
  | ._ip6_route a, ._ip6_route b => _vt_cmd_plobj_id_equal_ip6_route a b
  | _, _ => false

/-- The conversion `(guint) x` of an `int` to the 32-bit unsigned type. -/
def guint_of_int (x : Int) : Nat := (x % 4294967296).toNat

/-- Byte `i` of a `struct in6_addr`, the address being the 128-bit value whose most
significant byte is byte `0`. -/
def in6_addr_byte (addr : Nat) (i : Nat) : Nat := addr / 256 ^ (15 - i) % 256

/-- The member `s6_addr32[k]` of a `struct in6_addr` on a little-endian host. -/
def in6_addr_s6_addr32 (addr : Nat) (k : Nat) : Nat :=
  in6_addr_byte addr (4 * k) + 256 * in6_addr_byte addr (4 * k + 1)
    + 65536 * in6_addr_byte addr (4 * k + 2) + 16777216 * in6_addr_byte addr (4 * k + 3)

/-- The function `_id_hash_ip6_addr`. -/
def _id_hash_ip6_addr (addr : Nat) : Nat :=
  let hash := (List.range 16).foldl
    (fun hash i => (hash * 33 + in6_addr_byte addr i) % 4294967296) 5381
  let hash := hash ^^^ in6_addr_s6_addr32 addr 0
  let hash := hash ^^^ in6_addr_s6_addr32 addr 1
  let hash := hash ^^^ in6_addr_s6_addr32 addr 2
  let hash := hash ^^^ in6_addr_s6_addr32 addr 3
  hash

/-- The function `_vt_cmd_plobj_id_hash_link`. -/
def _vt_cmd_plobj_id_hash_link (obj : NMPlatformLink) : Nat :=
  let hash := 3982791431
  let hash := (hash + guint_of_int obj.ifindex) % 4294967296
  hash

/-- The function `_vt_cmd_plobj_id_hash_ip4_address`. -/
def _vt_cmd_plobj_id_hash_ip4_address (obj : NMPlatformIP4Address) : Nat :=
  let hash := 3591309853
  let hash := (hash + guint_of_int obj.ifindex) % 4294967296
  let hash := (hash * 33 + guint_of_int obj.plen) % 4294967296
  let hash := (hash * 33 + obj.address % 4294967296) % 4294967296
  hash

/-- The function `_vt_cmd_plobj_id_hash_ip6_address`. -/
def _vt_cmd_plobj_id_hash_ip6_address (obj : NMPlatformIP6Address) : Nat :=
  let hash := 2907861637
  let hash := (hash + guint_of_int obj.ifindex) % 4294967296
  let hash := (hash * 33 + guint_of_int obj.plen) % 4294967296
  let hash := (hash * 33 + _id_hash_ip6_addr obj.address) % 4294967296
  hash

/-- The function `_vt_cmd_plobj_id_hash_ip4_route`. -/
def _vt_cmd_plobj_id_hash_ip4_route (obj : NMPlatformIP4Route) : Nat :=
  let hash := 2569857221
  let hash := (hash + guint_of_int obj.ifindex) % 4294967296
  let hash := (hash * 33 + guint_of_int obj.plen) % 4294967296
  let hash := (hash * 33 + obj.metric % 4294967296) % 4294967296
  let hash := (hash * 33 + obj.network % 4294967296) % 4294967296
  hash

/-- The function `_vt_cmd_plobj_id_hash_ip6_route`. -/
def _vt_cmd_plobj_id_hash_ip6_route (obj : NMPlatformIP6Route) : Nat :=
  let hash := 3999787007
  let hash := (hash + guint_of_int obj.ifindex) % 4294967296
  let hash := (hash * 33 + guint_of_int obj.plen) % 4294967296
  let hash := (hash * 33 + obj.metric % 4294967296) % 4294967296
  let hash := (hash * 33 + _id_hash_ip6_addr obj.network) % 4294967296
  hash

/-- The class member `cmd_plobj_id_hash`. -/
def cmd_plobj_id_hash (obj : NMPObjectData) : Nat :=
  match obj with
  | ._link a => _vt_cmd_plobj_id_hash_link a._public
  | ._ip4_address a => _vt_cmd_plobj_id_hash_ip4_address a
  | ._ip6_address a => _vt_cmd_plobj_id_hash_ip6_address a
  | ._ip4_route a => _vt_cmd_plobj_id_hash_ip4_route a
  | ._ip6_route a => _vt_cmd_plobj_id_hash_ip6_route a

/-- The function `_vt_cmd_plobj_id_copy_link`. -/
def _vt_cmd_plobj_id_copy_link (dst src : NMPlatformLink) : NMPlatformLink :=
  { dst with ifindex := src.ifindex }

/-- The function `_vt_cmd_plobj_id_copy_ip4_address`. -/
def _vt_cmd_plobj_id_copy_ip4_address (dst src : NMPlatformIP4Address) : NMPlatformIP4Address :=
  { dst with ifindex := src.ifindex, plen := src.plen, address := src.address }

/-- The function `_vt_cmd_plobj_id_copy_ip6_address`. -/
def _vt_cmd_plobj_id_copy_ip6_address (dst src : NMPlatformIP6Address) : NMPlatformIP6Address :=
  { dst with ifindex := src.ifindex, plen := src.plen, address := src.address }

/-- The function `_vt_cmd_plobj_id_copy_ip4_route`. -/
def _vt_cmd_plobj_id_copy_ip4_route (dst src : NMPlatformIP4Route) : NMPlatformIP4Route :=
  { dst with ifindex := src.ifindex, plen := src.plen, metric := src.metric,
             network := src.network }

/-- The function `_vt_cmd_plobj_id_copy_ip6_route`. -/
def _vt_cmd_plobj_id_copy_ip6_route (dst src : NMPlatformIP6Route) : NMPlatformIP6Route :=
  { dst with ifindex := src.ifindex, plen := src.plen, metric := src.metric,
             network := src.network }

/-- The class member `cmd_plobj_id_copy`, applied to two objects of one class. -/
def cmd_plobj_id_copy (dst src : NMPObjectData) : NMPObjectData :=
  match dst, src with
  | ._link a, ._link b => ._link { a with _public := _vt_cmd_plobj_id_copy_link a._public b._public }
  | ._ip4_address a, ._ip4_address b => ._ip4_address (_vt_cmd_plobj_id_copy_ip4_address a b)
  | ._ip6_address a, ._ip6_address b => ._ip6_address (_vt_cmd_plobj_id_copy_ip6_address a b)
  | ._ip4_route a, ._ip4_route b => ._ip4_route (_vt_cmd_plobj_id_copy_ip4_route a b)
  | ._ip6_route a, ._ip6_route b => ._ip6_route (_vt_cmd_plobj_id_copy_ip6_route a b)
  | d, _ => d

/-! ## Aspect-scoped equality and copy -/

/-- The function `_vt_cmd_obj_equal_plain`. -/
def _vt_cmd_obj_equal_plain (obj1 obj2 : NMPObjectData) (obj_aspect : NMPObjectAspects) : Bool :=
  if NM_FLAGS_ANY obj_aspect (NMP_OBJECT_ASPECT_PUBLIC ||| NMP_OBJECT_ASPECT_NETLINK) then
    cmd_plobj_cmp obj1 obj2 == 0
  else
    cmd_plobj_id_equal obj1 obj2

/-- The function `_vt_cmd_obj_equal_link`. -/
def _vt_cmd_obj_equal_link (obj1 obj2 : NMPObjectLink) (obj_aspect : NMPObjectAspects) : Bool :=
  if !_vt_cmd_plobj_id_equal_link obj1._public obj2._public then false
  else if NM_FLAGS_ANY obj_aspect NMP_OBJECT_ASPECT_PUBLIC
      && nm_platform_link_cmp obj1._public obj2._public != 0 then false
  else if NM_FLAGS_HAS obj_aspect NMP_OBJECT_ASPECT_NETLINK
      && (obj1.netlink.is_in_netlink != obj2.netlink.is_in_netlink
          || obj1.netlink.connected_native != obj2.netlink.connected_native
          || obj1.netlink.link_type_unknown_udev != obj2.netlink.link_type_unknown_udev
          || obj1.netlink.arptype != obj2.netlink.arptype
          || obj1.netlink.rtnl_link_type != obj2.netlink.rtnl_link_type) then false
  else if NM_FLAGS_HAS obj_aspect NMP_OBJECT_ASPECT_UDEV
      && obj1.udev.device != obj2.udev.device then false
  else true

/-- The class member `cmd_obj_equal`, applied to two objects of one class. -/
def cmd_obj_equal (obj1 obj2 : NMPObjectData) (obj_aspect : NMPObjectAspects) : Bool :=
  match obj1, obj2 with
  | ._link a, ._link b => _vt_cmd_obj_equal_link a b obj_aspect
  | _, _ => _vt_cmd_obj_equal_plain obj1 obj2 obj_aspect

/-- The function `_vt_cmd_obj_copy_plain`: `memcpy` of the public structure, or the copy of
the identity fields. -/
def _vt_cmd_obj_copy_plain (dst src : NMPObjectData) (obj_aspect : NMPObjectAspects) :
    NMPObjectData :=
  if NM_FLAGS_ANY obj_aspect (NMP_OBJECT_ASPECT_PUBLIC ||| NMP_OBJECT_ASPECT_NETLINK) then
    match dst, src with
    | ._ip4_address _, ._ip4_address b => ._ip4_address b
    | ._ip6_address _, ._ip6_address b => ._ip6_address b
    | ._ip4_route _, ._ip4_route b => ._ip4_route b
    | ._ip6_route _, ._ip6_route b => ._ip6_route b
    | d, _ => d
  else
    cmd_plobj_id_copy dst src

/-- The function `_vt_cmd_obj_copy_link`.  Clearing the destination's device and taking a
reference on the source's device leaves the destination with the source's device. -/
def _vt_cmd_obj_copy_link (dst src : NMPObjectLink) (obj_aspect : NMPObjectAspects) :
    NMPObjectLink :=
  let dst : NMPObjectLink :=
    if NM_FLAGS_ANY obj_aspect NMP_OBJECT_ASPECT_PUBLIC then { dst with _public := src._public }
    else { dst with _public := _vt_cmd_plobj_id_copy_link dst._public src._public }
  let dst : NMPObjectLink :=
    if NM_FLAGS_HAS obj_aspect NMP_OBJECT_ASPECT_NETLINK then { dst with netlink := src.netlink }
    else dst
  if NM_FLAGS_HAS obj_aspect NMP_OBJECT_ASPECT_UDEV then
    if src.udev.device != dst.udev.device then { dst with udev := { device := src.udev.device } }
    else dst
  else dst

/-- The class member `cmd_obj_copy`, applied to two objects of one class. -/
def cmd_obj_copy (dst src : NMPObjectData) (obj_aspect : NMPObjectAspects) : NMPObjectData :=
  match dst, src with
  | ._link a, ._link b => ._link (_vt_cmd_obj_copy_link a b obj_aspect)
  | _, _ => _vt_cmd_obj_copy_plain dst src obj_aspect

/-! ## Aliveness and visibility -/

/-- The function `_vt_cmd_obj_is_alive_link`. -/
def _vt_cmd_obj_is_alive_link (obj : NMPObjectLink) : Bool :=
  obj.netlink.is_in_netlink != 0 || obj.udev.device != 0

/-- The function `_vt_cmd_obj_is_alive_ipx_address`. -/
def _vt_cmd_obj_is_alive_ipx_address (_obj : NMPObjectData) : Bool := true

/-- The member `ip_route.source` of a route object. -/
def ip_route_source : NMPObjectData → NMIPConfigSource
  | ._ip4_route v => v.source
  | ._ip6_route v => v.source
  | ._ip4_address v => v.source
  | ._ip6_address v => v.source
  | ._link _ => NM_IP_CONFIG_SOURCE_UNKNOWN

/-- The member `ip_route.plen` of a route object. -/
def ip_route_plen : NMPObjectData → Int
  | ._ip4_route v => v.plen
  | ._ip6_route v => v.plen
  | ._ip4_address v => v.plen
  | ._ip6_address v => v.plen
  | ._link _ => 0

/-- The function `_vt_cmd_obj_is_alive_ipx_route`. -/
def _vt_cmd_obj_is_alive_ipx_route (obj : NMPObjectData) : Bool :=
  ip_route_source obj != NM_IP_CONFIG_SOURCE_INTERNAL

/-- The class member `cmd_obj_is_alive`. -/
def cmd_obj_is_alive (obj : NMPObjectData) : Bool :=
  match obj with
  | ._link v => _vt_cmd_obj_is_alive_link v
  | ._ip4_address _ => _vt_cmd_obj_is_alive_ipx_address obj
  | ._ip6_address _ => _vt_cmd_obj_is_alive_ipx_address obj
  | ._ip4_route _ => _vt_cmd_obj_is_alive_ipx_route obj
  | ._ip6_route _ => _vt_cmd_obj_is_alive_ipx_route obj

/-- The function `_vt_cmd_obj_is_visible_link`. -/
def _vt_cmd_obj_is_visible_link (obj : NMPObjectLink) : Bool :=
  obj.netlink.is_in_netlink != 0

/-- The function `_vt_cmd_obj_is_visible_ipx_address`. -/
def _vt_cmd_obj_is_visible_ipx_address (_obj : NMPObjectData) : Bool := true

/-- The function `_vt_cmd_obj_is_visible_ipx_route`. -/
def _vt_cmd_obj_is_visible_ipx_route (obj : NMPObjectData) : Bool :=
  let source := ip_route_source obj
  source != NM_IP_CONFIG_SOURCE_RTPROT_KERNEL && source != NM_IP_CONFIG_SOURCE_INTERNAL

/-- The class member `cmd_obj_is_visible`. -/
def cmd_obj_is_visible (obj : NMPObjectData) : Bool :=
  match obj with
  | ._link v => _vt_cmd_obj_is_visible_link v
  | ._ip4_address _ => _vt_cmd_obj_is_visible_ipx_address obj
  | ._ip6_address _ => _vt_cmd_obj_is_visible_ipx_address obj
  | ._ip4_route _ => _vt_cmd_obj_is_visible_ipx_route obj
  | ._ip6_route _ => _vt_cmd_obj_is_visible_ipx_route obj

/-! ## Cache identifiers -/

/-- The function `nmp_cache_id_equal`: `memcmp` over the zero-initialised structure. -/
def nmp_cache_id_equal (a b : NMPCacheId) : Bool := decide (a = b)

/-- The function `nmp_cache_id_init`: zero the structure and set the type. -/
def nmp_cache_id_init (id_type : NMPCacheIdType) : NMPCacheId :=
  { _id_type := id_type, obj_type := 0, ifindex := 0 }

/-- The function `nmp_cache_id_init_links`. -/
def nmp_cache_id_init_links (visible_only : Bool) : NMPCacheId :=
  nmp_cache_id_init
    (if visible_only then NMP_CACHE_ID_TYPE_LINKS_VISIBLE_ONLY else NMP_CACHE_ID_TYPE_LINKS_ALL)

/-- The function `nmp_cache_id_init_addrroute_by_ifindex`. -/
def nmp_cache_id_init_addrroute_by_ifindex (obj_type : ObjectType) (ifindex : Int) : NMPCacheId :=
  { nmp_cache_id_init NMP_CACHE_ID_TYPE_ADDRROUTE_BY_IFINDEX with
    obj_type := obj_type.toNat, ifindex := ifindex }

/-- The function `nmp_cache_id_init_routes_visible`; `none` is the `NULL` returned when the
id type is not one of the three visible-routes types. -/
def nmp_cache_id_init_routes_visible (id_type : NMPCacheIdType) (is_v4 : Bool) (ifindex : Int) :
    Option NMPCacheId :=
  if id_type = NMP_CACHE_ID_TYPE_ROUTES_VISIBLE_ALL
      ∨ id_type = NMP_CACHE_ID_TYPE_ROUTES_VISIBLE_NO_DEFAULT
      ∨ id_type = NMP_CACHE_ID_TYPE_ROUTES_VISIBLE_ONLY_DEFAULT then
    some { nmp_cache_id_init id_type with
           obj_type := (if is_v4 then 1 else 0), ifindex := ifindex }
  else none

/-- Modelled from the spec: the macro `NM_PLATFORM_IP_ROUTE_IS_DEFAULT` of `nm-platform.h`
(not under `src/`): a default route is a route of prefix length 0. -/
def NM_PLATFORM_IP_ROUTE_IS_DEFAULT (obj : NMPObjectData) : Bool :=
  ip_route_plen obj == 0

/-- The function `_vt_cmd_obj_init_cache_id_link`.  The result `none` is the return value
`FALSE`; `some out_id` is `TRUE` with `*out_id` set, `some none` being `*out_id = NULL`. -/
def _vt_cmd_obj_init_cache_id_link (obj : NMPObjectLink) (id_type : NMPCacheIdType) :
    Option (Option NMPCacheId) :=
  match id_type with
  | NMP_CACHE_ID_TYPE_LINKS_ALL => some (some (nmp_cache_id_init_links false))
  | NMP_CACHE_ID_TYPE_LINKS_VISIBLE_ONLY =>
    if _vt_cmd_obj_is_visible_link obj then some (some (nmp_cache_id_init_links true))
    else some none
  | _ => none

/-- The function `_vt_cmd_obj_init_cache_id_ip4_address`. -/
def _vt_cmd_obj_init_cache_id_ip4_address (obj : NMPObjectData) (id_type : NMPCacheIdType) :
    Option (Option NMPCacheId) :=
  match id_type with
  | NMP_CACHE_ID_TYPE_ADDRROUTE_BY_IFINDEX =>
    if _vt_cmd_obj_is_visible_ipx_address obj then
      some (some (nmp_cache_id_init_addrroute_by_ifindex OBJECT_TYPE_IP4_ADDRESS
        (object_ifindex obj)))
    else some none
  | _ => none

/-- The function `_vt_cmd_obj_init_cache_id_ip6_address`. -/
def _vt_cmd_obj_init_cache_id_ip6_address (obj : NMPObjectData) (id_type : NMPCacheIdType) :
    Option (Option NMPCacheId) :=
  match id_type with
  | NMP_CACHE_ID_TYPE_ADDRROUTE_BY_IFINDEX =>
    if _vt_cmd_obj_is_visible_ipx_address obj then
      some (some (nmp_cache_id_init_addrroute_by_ifindex OBJECT_TYPE_IP6_ADDRESS
        (object_ifindex obj)))
    else some none
  | _ => none

/-- The function `_vt_cmd_obj_init_cache_id_ip4_route`. -/
def _vt_cmd_obj_init_cache_id_ip4_route (obj : NMPObjectData) (id_type : NMPCacheIdType) :
    Option (Option NMPCacheId) :=
  match id_type with
  | NMP_CACHE_ID_TYPE_ADDRROUTE_BY_IFINDEX =>
    if _vt_cmd_obj_is_visible_ipx_route obj then
      some (some (nmp_cache_id_init_addrroute_by_ifindex OBJECT_TYPE_IP4_ROUTE
        (object_ifindex obj)))
    else some none
  | NMP_CACHE_ID_TYPE_ROUTES_VISIBLE_ALL =>
    if _vt_cmd_obj_is_visible_ipx_route obj then
      some (nmp_cache_id_init_routes_visible id_type true (object_ifindex obj))
    else some none
  | NMP_CACHE_ID_TYPE_ROUTES_VISIBLE_NO_DEFAULT =>
    if _vt_cmd_obj_is_visible_ipx_route obj && !NM_PLATFORM_IP_ROUTE_IS_DEFAULT obj then
      some (nmp_cache_id_init_routes_visible id_type true (object_ifindex obj))
    else some none
  | NMP_CACHE_ID_TYPE_ROUTES_VISIBLE_ONLY_DEFAULT =>
    if _vt_cmd_obj_is_visible_ipx_route obj && NM_PLATFORM_IP_ROUTE_IS_DEFAULT obj then
      some (nmp_cache_id_init_routes_visible id_type true (object_ifindex obj))
    else some none
  | _ => none

/-- The function `_vt_cmd_obj_init_cache_id_ip6_route`. -/
def _vt_cmd_obj_init_cache_id_ip6_route (obj : NMPObjectData) (id_type : NMPCacheIdType) :
    Option (Option NMPCacheId) :=
  match id_type with
  | NMP_CACHE_ID_TYPE_ADDRROUTE_BY_IFINDEX =>
    some (some (nmp_cache_id_init_addrroute_by_ifindex OBJECT_TYPE_IP6_ROUTE
      (object_ifindex obj)))
  | NMP_CACHE_ID_TYPE_ROUTES_VISIBLE_ALL =>
    if _vt_cmd_obj_is_visible_ipx_route obj then
      some (nmp_cache_id_init_routes_visible id_type true (object_ifindex obj))
    else some none
  | NMP_CACHE_ID_TYPE_ROUTES_VISIBLE_NO_DEFAULT =>
    if _vt_cmd_obj_is_visible_ipx_route obj && !NM_PLATFORM_IP_ROUTE_IS_DEFAULT obj then
      some (nmp_cache_id_init_routes_visible id_type true (object_ifindex obj))
    else some none
  | NMP_CACHE_ID_TYPE_ROUTES_VISIBLE_ONLY_DEFAULT =>
    if _vt_cmd_obj_is_visible_ipx_route obj && NM_PLATFORM_IP_ROUTE_IS_DEFAULT obj then
      some (nmp_cache_id_init_routes_visible id_type true (object_ifindex obj))
    else some none
  | _ => none

/-- The class member `cmd_obj_init_cache_id`. -/
def cmd_obj_init_cache_id (obj : NMPObjectData) (id_type : NMPCacheIdType) :
    Option (Option NMPCacheId) :=
  match obj with
  | ._link v => _vt_cmd_obj_init_cache_id_link v id_type
  | ._ip4_address _ => _vt_cmd_obj_init_cache_id_ip4_address obj id_type
  | ._ip6_address _ => _vt_cmd_obj_init_cache_id_ip6_address obj id_type
  | ._ip4_route _ => _vt_cmd_obj_init_cache_id_ip4_route obj id_type
  | ._ip6_route _ => _vt_cmd_obj_init_cache_id_ip6_route obj id_type

/-! ## The heap and the object functions of `nmp-object.c` -/

/-- The heap: the object stored at each address, `none` where no object is allocated. -/
abbrev Heap := Nat → Option NMPObject

/-- The macro `NMP_OBJECT_IS_VALID`: the pointer is not `NULL` and the reference count is
positive. -/
def NMP_OBJECT_IS_VALID (heap : Heap) (obj : Nat) : Bool :=
  obj != 0 &&
    match heap obj with
    | some o => decide (0 < o._ref_count)
    | none => false

/-- The macro `NMP_OBJECT_IS_STACKINIT`. -/
def NMP_OBJECT_IS_STACKINIT (heap : Heap) (obj : Nat) : Bool :=
  obj != 0 &&
    match heap obj with
    | some o => o._ref_count == NMP_REF_COUNT_INITSTACK
    | none => false

/-- The function `nmp_object_get`: the returned pointer (`0` when rejected) and the heap. -/
def nmp_object_get (heap : Heap) (object : Nat) : Nat × Heap :=
  if !NMP_OBJECT_IS_VALID heap object then (0, heap)
  else
    match heap object with
    | none => (0, heap)
    | some o =>
      if o._ref_count = NMP_REF_COUNT_INITSTACK then (0, heap)
      else (object, Function.update heap object (some { o with _ref_count := o._ref_count + 1 }))

/-- The function `nmp_object_put`.  Disposing of an object frees its storage. -/
def nmp_object_put (heap : Heap) (object : Nat) : Heap :=
  if object = 0 then heap
  else
    match heap object with
    | none => heap
    | some o =>
      if ¬ (0 < o._ref_count) then heap
      else if o._ref_count = NMP_REF_COUNT_INITSTACK then heap
      else if o._ref_count - 1 ≤ 0 then Function.update heap object none
      else Function.update heap object (some { o with _ref_count := o._ref_count - 1 })

/-- The zeroed payload that `_nmp_object_new_from_class` allocates for a class. -/
def zeroed_data : ObjectType → NMPObjectData
  | OBJECT_TYPE_IP4_ADDRESS => ._ip4_address ⟨0, NM_IP_CONFIG_SOURCE_UNKNOWN, 0, 0, 0⟩
  | OBJECT_TYPE_IP6_ADDRESS => ._ip6_address ⟨0, NM_IP_CONFIG_SOURCE_UNKNOWN, 0, 0, 0⟩
  | OBJECT_TYPE_IP4_ROUTE => ._ip4_route ⟨0, NM_IP_CONFIG_SOURCE_UNKNOWN, 0, 0, 0, 0⟩
  | OBJECT_TYPE_IP6_ROUTE => ._ip6_route ⟨0, NM_IP_CONFIG_SOURCE_UNKNOWN, 0, 0, 0, 0⟩
  | _ => ._link ⟨⟨0, 0⟩, ⟨0, 0, 0, 0, 0⟩, ⟨0⟩⟩

/-- The function `_nmp_object_new_from_class`: a zeroed object of the class with reference
count 1. -/
def _nmp_object_new_from_class (klass : ObjectType) : NMPObject :=
  { _ref_count := 1, is_cached := false, data := zeroed_data klass }

/-- The function `_nmp_object_stackinit_from_class`. -/
def _nmp_object_stackinit_from_class (klass : ObjectType) : NMPObject :=
  { _ref_count := NMP_REF_COUNT_INITSTACK, is_cached := false, data := zeroed_data klass }

/-- The body of `nmp_object_copy` for two distinct objects: the new contents of `dst`. -/
def nmp_object_copy_value (dst src : NMPObject) (obj_aspect : NMPObjectAspects) : NMPObject :=
  if ¬ (0 < dst._ref_count) then dst
  else if ¬ (0 < src._ref_count) then dst
  else if dst._ref_count = NMP_REF_COUNT_INITSTACK then dst
  else if NMP_OBJECT_GET_CLASS dst ≠ NMP_OBJECT_GET_CLASS src then dst
  else { dst with data := cmd_obj_copy dst.data src.data obj_aspect }

/-- The function `nmp_object_copy`. -/
def nmp_object_copy (heap : Heap) (dst src : Nat) (obj_aspect : NMPObjectAspects) : Heap :=
  if !NMP_OBJECT_IS_VALID heap dst then heap
  else if !NMP_OBJECT_IS_VALID heap src then heap
  else if src = dst then heap
  else
    match heap dst, heap src with
    | some d, some s => Function.update heap dst (some (nmp_object_copy_value d s obj_aspect))
    | _, _ => heap

/-- The function `nmp_object_clone` for a valid object: the contents of the new object. -/
def nmp_object_clone_value (obj : NMPObject) (id_only : Bool) : NMPObject :=
  nmp_object_copy_value (_nmp_object_new_from_class (NMP_OBJECT_GET_CLASS obj)) obj
    (if id_only then NMP_OBJECT_ASPECT_NONE else NMP_OBJECT_ASPECT_ALL)

/-- The body of `nmp_object_equal` for two distinct objects. -/
def nmp_object_equal_value (obj1 obj2 : NMPObject) (obj_aspect : NMPObjectAspects) : Bool :=
  if ¬ (0 < obj1._ref_count) then false
  else if ¬ (0 < obj2._ref_count) then false
  else if NMP_OBJECT_GET_CLASS obj1 ≠ NMP_OBJECT_GET_CLASS obj2 then false
  else cmd_obj_equal obj1.data obj2.data obj_aspect

/-- The function `nmp_object_equal`. -/
def nmp_object_equal (heap : Heap) (obj1 obj2 : Nat) (obj_aspect : NMPObjectAspects) : Bool :=
  if !NMP_OBJECT_IS_VALID heap obj1 then false
  else if !NMP_OBJECT_IS_VALID heap obj2 then false
  else if obj1 = obj2 then true
  else
    match heap obj1, heap obj2 with
    | some o1, some o2 => nmp_object_equal_value o1 o2 obj_aspect
    | _, _ => false

/-- The body of `nmp_object_id_equal` for two distinct objects, neither `NULL`. -/
def nmp_object_id_equal_value (obj1 obj2 : NMPObject) : Bool :=
  if ¬ (0 < obj1._ref_count) then false
  else if ¬ (0 < obj2._ref_count) then false
  else if NMP_OBJECT_GET_CLASS obj1 ≠ NMP_OBJECT_GET_CLASS obj2 then false
  else cmd_plobj_id_equal obj1.data obj2.data

/-- The function `nmp_object_id_equal`. -/
def nmp_object_id_equal (heap : Heap) (obj1 obj2 : Nat) : Bool :=
  if obj1 = obj2 then true
  else if obj1 = 0 ∨ obj2 = 0 then false
  else
    match heap obj1, heap obj2 with
    | some o1, some o2 => nmp_object_id_equal_value o1 o2
    | _, _ => false

/-- The function `nmp_object_id_hash`. -/
def nmp_object_id_hash (heap : Heap) (obj : Nat) : Nat :=
  if obj = 0 then 0
  else if !NMP_OBJECT_IS_VALID heap obj then 0
  else
    match heap obj with
    | some o => cmd_plobj_id_hash o.data
    | none => 0

/-- The function `nmp_object_is_alive`. -/
def nmp_object_is_alive (heap : Heap) (obj : Nat) : Bool :=
  if !NMP_OBJECT_IS_VALID heap obj then false
  else
    match heap obj with
    | some o => cmd_obj_is_alive o.data
    | none => false

/-- The function `nmp_object_is_visible`. -/
def nmp_object_is_visible (heap : Heap) (obj : Nat) : Bool :=
  if !NMP_OBJECT_IS_VALID heap obj then false
  else
    match heap obj with
    | some o => cmd_obj_is_visible o.data
    | none => false

/-! ## The generic Multi-Index of `nm-multi-index.c` -/

section MultiIndex

variable {Id : Type} [DecidableEq Id]

/-- The structure `NMMultiIndex`: a hash table from group keys to `GPtrArray`s.  An array is
the list of its `len` entries `pdata[0 .. len - 1]`, the last of which is `NULL`.  The key
equality `equal_fcn` is the decidable equality of the key type. -/
structure NMMultiIndex (Id : Type) where
  hash : List (Id × List Nat)

/-- The function `g_hash_table_lookup` on the table of a Multi-Index. -/
def g_hash_table_lookup : List (Id × List Nat) → Id → Option (List Nat)
  | [], _ => none
  | (k, v) :: rest, key => if k = key then some v else g_hash_table_lookup rest key

/-- The function `g_hash_table_insert` on the table of a Multi-Index: the value of an
existing key is replaced, a new key is added. -/
def g_hash_table_insert : List (Id × List Nat) → Id → List Nat → List (Id × List Nat)
  | [], key, value => [(key, value)]
  | (k, v) :: rest, key, value =>
    if k = key then (k, value) :: rest else (k, v) :: g_hash_table_insert rest key value

/-- The function `g_hash_table_remove` on the table of a Multi-Index. -/
def g_hash_table_remove : List (Id × List Nat) → Id → List (Id × List Nat)
  | [], _ => []
  | (k, v) :: rest, key => if k = key then rest else (k, v) :: g_hash_table_remove rest key

/-- The loop of `_binary_search`, with the number of remaining iterations made explicit;
`none` when they are used up. -/
def _binary_search_loop (array : List Nat) (value : Nat) : Nat → Int → Int → Option Int
  | 0, _, _ => none
  | fuel + 1, imin, imax =>
    if imin ≤ imax then
      let imid := imin + ((imax - imin) / 2)
      if value < array.getD imid.toNat 0 then
        _binary_search_loop array value fuel imin (imid - 1)
      else if array.getD imid.toNat 0 < value then
        _binary_search_loop array value fuel (imid + 1) imax
      else some imid
    else some (-imin - 1)

/-- The function `_binary_search`: the index of `value`, or `~imin` (that is `-imin - 1`) for
the insertion point `imin`.  The loop is given `len` iterations, which always suffice. -/
def _binary_search (array : List Nat) (value : Nat) : Int :=
  match _binary_search_loop array value array.length 0 ((array.length : Int) - 2) with
  | some i => i
  | none => -1

/-- The function `nm_multi_index_lookup`: the `NULL`-terminated array (`none` for `NULL`)
and `*out_len`. -/
def nm_multi_index_lookup (index : NMMultiIndex Id) (id : Id) : Option (List Nat) × Nat :=
  match g_hash_table_lookup index.hash id with
  | some array => (some array, array.length - 1)
  | none => (none, 0)

/-- The function `nm_multi_index_contains`. -/
def nm_multi_index_contains (index : NMMultiIndex Id) (id : Id) (value : Nat) : Bool :=
  if value = 0 then false
  else
    match g_hash_table_lookup index.hash id with
    | some array => decide (0 ≤ _binary_search array value)
    | none => false

/-- The function `nm_multi_index_lookup_first_by_value`. -/
def nm_multi_index_lookup_first_by_value (index : NMMultiIndex Id) (value : Nat) : Option Id :=
  if value = 0 then none
  else (index.hash.find? (fun e => decide (0 ≤ _binary_search e.2 value))).map (fun e => e.1)

/-- The function `nm_multi_index_foreach`: the visitor's state is threaded through the
groups in table order, and the iteration stops when the visitor returns `false`. -/
def nm_multi_index_foreach_loop {σ : Type} (value : Nat)
    (foreach_func : Id → List Nat → Nat → σ → Bool × σ) :
    List (Id × List Nat) → σ → σ
  | [], user_data => user_data
  | (id, array) :: rest, user_data =>
    if value ≠ 0 ∧ _binary_search array value < 0 then
      nm_multi_index_foreach_loop value foreach_func rest user_data
    else
      match foreach_func id array (array.length - 1) user_data with
      | (false, user_data) => user_data
      | (true, user_data) => nm_multi_index_foreach_loop value foreach_func rest user_data

/-- The function `nm_multi_index_foreach`. -/
def nm_multi_index_foreach {σ : Type} (index : NMMultiIndex Id) (value : Nat)
    (foreach_func : Id → List Nat → Nat → σ → Bool × σ) (user_data : σ) : σ :=
  nm_multi_index_foreach_loop value foreach_func index.hash user_data

/-- The function `g_ptr_array_insert`. -/
def g_ptr_array_insert : List Nat → Nat → Nat → List Nat
  | array, 0, value => value :: array
  | [], _ + 1, value => [value]
  | x :: array, i + 1, value => x :: g_ptr_array_insert array i value

/-- The function `g_ptr_array_remove_index`. -/
def g_ptr_array_remove_index : List Nat → Nat → List Nat
  | [], _ => []
  | _ :: array, 0 => array
  | x :: array, i + 1 => x :: g_ptr_array_remove_index array i

/-- The function `_do_add`.  The key is cloned by `clone_fcn`, which does not fail. -/
def _do_add (index : NMMultiIndex Id) (id : Id) (value : Nat) : Bool × NMMultiIndex Id :=
  match g_hash_table_lookup index.hash id with
  | none => (true, { hash := g_hash_table_insert index.hash id [value, 0] })
  | some array =>
    let i := _binary_search array value
    if 0 ≤ i then (false, index)
    else if G_MAXINT ≤ (array.length : Int) + 1 then (false, index)
    else (true, { hash := g_hash_table_insert index.hash id
                    (g_ptr_array_insert array (-i - 1).toNat value) })

/-- The function `_do_remove`. -/
def _do_remove (index : NMMultiIndex Id) (id : Id) (value : Nat) : Bool × NMMultiIndex Id :=
  match g_hash_table_lookup index.hash id with
  | none => (false, index)
  | some array =>
    if array.length ≤ 2 then
      if array.getD 0 0 ≠ value then (false, index)
      else (true, { hash := g_hash_table_remove index.hash id })
    else
      let i := _binary_search array value
      if i < 0 then (false, index)
      else (true, { hash := g_hash_table_insert index.hash id
                      (g_ptr_array_remove_index array i.toNat) })

/-- The function `nm_multi_index_add`; a key is never `NULL` here. -/
def nm_multi_index_add (index : NMMultiIndex Id) (id : Id) (value : Nat) :
    Bool × NMMultiIndex Id :=
  if value = 0 then (false, index) else _do_add index id value

/-- The function `nm_multi_index_remove`; a key is never `NULL` here. -/
def nm_multi_index_remove (index : NMMultiIndex Id) (id : Id) (value : Nat) :
    Bool × NMMultiIndex Id :=
  if value = 0 then (false, index) else _do_remove index id value

/-- The function `nm_multi_index_move`; `none` is a `NULL` key. -/
def nm_multi_index_move (index : NMMultiIndex Id) (id_old id_new : Option Id) (value : Nat) :
    Bool × NMMultiIndex Id :=
  if value = 0 then (false, index)
  else
    match id_old, id_new with
    | none, none => (true, index)
    | none, some id_new => _do_add index id_new value
    | some id_old, none => _do_remove index id_old value
    | some id_old, some id_new =>
      if id_old = id_new then
        match _do_add index id_new value with
        | (true, index) => (false, index)
        | (false, index) => (true, index)
      else
        match _do_remove index id_old value with
        | (did_remove, index) =>
          match _do_add index id_new value with
          | (did_add, index) => (did_add && did_remove, index)

/-- The function `nm_multi_index_get_num_groups`. -/
def nm_multi_index_get_num_groups (index : NMMultiIndex Id) : Nat := index.hash.length

/-- The function `nm_multi_index_new`. -/
def nm_multi_index_new : NMMultiIndex Id := { hash := [] }

end MultiIndex

/-! ## The platform cache of `nmp-object.c` -/

/-- The structure `_NMPCache`: the primary index `idx_main`, a hash table whose keys are the
cached objects compared by `nmp_object_id_equal`, and the Multi-Index `idx_multi`. -/
structure NMPCache where
  idx_main : List Nat
  idx_multi : NMMultiIndex NMPCacheId

/-- The memory that the cache functions work on: the heap of objects and the cache. -/
structure Store where
  heap : Heap
  cache : NMPCache

/-- The function `nmp_cache_new`. -/
def nmp_cache_new : NMPCache := { idx_main := [], idx_multi := nm_multi_index_new }

/-- The function `g_hash_table_lookup` on the primary index: the stored key that is equal to
`key`, or `0`. -/
def g_hash_table_lookup_main (heap : Heap) (idx_main : List Nat) (key : Nat) : Nat :=
  match idx_main.find? (fun k => nmp_object_id_equal heap k key) with
  | some k => k
  | none => 0

/-- The function `nmp_cache_lookup_multi`. -/
def nmp_cache_lookup_multi (cache : NMPCache) (cache_id : NMPCacheId) : Option (List Nat) × Nat :=
  nm_multi_index_lookup cache.idx_multi cache_id

/-- The function `nmp_cache_lookup_obj`. -/
def nmp_cache_lookup_obj (s : Store) (obj : Nat) : Nat :=
  if obj = 0 then 0 else g_hash_table_lookup_main s.heap s.cache.idx_main obj

/-- The loop of `_nmp_cache_update_cache` over the cache id types; `none` is the abort of
`g_assert_not_reached`. -/
def _nmp_cache_update_cache_loop (data : NMPObjectData) (obj : Nat) (remove : Bool) :
    List NMPCacheIdType → NMMultiIndex NMPCacheId → Option (NMMultiIndex NMPCacheId)
  | [], idx_multi => some idx_multi
  | id_type :: rest, idx_multi =>
    match cmd_obj_init_cache_id data id_type with
    | none => _nmp_cache_update_cache_loop data obj remove rest idx_multi
    | some none => _nmp_cache_update_cache_loop data obj remove rest idx_multi
    | some (some cache_id) =>
      if remove then
        match nm_multi_index_remove idx_multi cache_id obj with
        | (false, _) => none
        | (true, idx_multi) => _nmp_cache_update_cache_loop data obj remove rest idx_multi
      else
        match nm_multi_index_add idx_multi cache_id obj with
        | (false, _) => none
        | (true, idx_multi) => _nmp_cache_update_cache_loop data obj remove rest idx_multi

/-- The function `_nmp_cache_update_cache`. -/
def _nmp_cache_update_cache (s : Store) (obj : Nat) (remove : Bool) : Option Store :=
  match s.heap obj with
  | none => none
  | some o =>
    match _nmp_cache_update_cache_loop o.data obj remove NMP_CACHE_ID_TYPES s.cache.idx_multi with
    | none => none
    | some idx_multi => some { s with cache := { s.cache with idx_multi := idx_multi } }

/-- Writing the member `is_cached` of the object at `obj`. -/
def set_is_cached (heap : Heap) (obj : Nat) (v : Bool) : Heap :=
  match heap obj with
  | none => heap
  | some o => Function.update heap obj (some { o with is_cached := v })

/-- The function `_nmp_cache_update_add`. -/
def _nmp_cache_update_add (s : Store) (obj : Nat) : Option Store :=
  let heap := (nmp_object_get s.heap obj).2
  if g_hash_table_lookup_main heap s.cache.idx_main obj ≠ 0 then none
  else
    let idx_main := obj :: s.cache.idx_main
    let heap := set_is_cached heap obj true
    _nmp_cache_update_cache { heap := heap, cache := { s.cache with idx_main := idx_main } } obj false

/-- The function `_nmp_cache_update_remove`.  Removing the key from the primary index
releases the reference of the cache with `nmp_object_put`. -/
def _nmp_cache_update_remove (s : Store) (obj : Nat) : Option Store :=
  match _nmp_cache_update_cache s obj true with
  | none => none
  | some s =>
    let heap := set_is_cached s.heap obj false
    let key := g_hash_table_lookup_main heap s.cache.idx_main obj
    if key = 0 then none
    else
      some { heap := nmp_object_put heap key,
             cache := { s.cache with idx_main := s.cache.idx_main.erase key } }

/-- The loop of `_nmp_cache_update_update` over the cache id types. -/
def _nmp_cache_update_update_loop (obj_data new_data : NMPObjectData) (obj : Nat) :
    List NMPCacheIdType → NMMultiIndex NMPCacheId → Option (NMMultiIndex NMPCacheId)
  | [], idx_multi => some idx_multi
  | id_type :: rest, idx_multi =>
    match cmd_obj_init_cache_id obj_data id_type with
    | none => _nmp_cache_update_update_loop obj_data new_data obj rest idx_multi
    | some cache_id_obj =>
      match cmd_obj_init_cache_id new_data id_type with
      | none => none
      | some cache_id_new =>
        match nm_multi_index_move idx_multi cache_id_obj cache_id_new obj with
        | (false, _) => none
        | (true, idx_multi) =>
          _nmp_cache_update_update_loop obj_data new_data obj rest idx_multi

/-- The function `_nmp_cache_update_update`; its argument `new` is called `new_` here. -/
def _nmp_cache_update_update (s : Store) (obj new_ : Nat) (obj_aspect : NMPObjectAspects) :
    Option Store :=
  match s.heap obj, s.heap new_ with
  | some o, some n =>
    match _nmp_cache_update_update_loop o.data n.data obj NMP_CACHE_ID_TYPES s.cache.idx_multi with
    | none => none
    | some idx_multi =>
      some { heap := nmp_object_copy s.heap obj new_ obj_aspect,
             cache := { s.cache with idx_multi := idx_multi } }
  | _, _ => none

/-- The result of `nmp_cache_remove` and `nmp_cache_update`: the return value, the values
left in `*out_obj` and `*out_was_visible`, and the memory after the call. -/
structure NMPCacheOpsResult where
  ret : NMPCacheOpsType
  out_obj : Nat
  out_was_visible : Bool
  store : Store

/-- The function `nmp_cache_remove`.  The arguments `has_out_obj` and `has_out_was_visible`
tell whether the caller passed a non-`NULL` `out_obj` and `out_was_visible`. -/
def nmp_cache_remove (s : Store) (obj : Nat) (has_out_obj has_out_was_visible : Bool) :
    Option NMPCacheOpsResult :=
  let old := g_hash_table_lookup_main s.heap s.cache.idx_main obj
  if old = 0 then
    some { ret := NMP_CACHE_OPS_UNCHANGED, out_obj := 0, out_was_visible := false, store := s }
  else
    let r := if has_out_obj then nmp_object_get s.heap old else (0, s.heap)
    let was_visible := if has_out_was_visible then nmp_object_is_visible r.2 old else false
    match _nmp_cache_update_remove { s with heap := r.2 } old with
    | none => none
    | some s =>
      some { ret := NMP_CACHE_OPS_REMOVED, out_obj := r.1, out_was_visible := was_visible,
             store := s }

/-- The function `nmp_cache_update`. -/
def nmp_cache_update (s : Store) (obj : Nat) (obj_aspect : NMPObjectAspects)
    (has_out_obj has_out_was_visible : Bool) : Option NMPCacheOpsResult :=
  let old := g_hash_table_lookup_main s.heap s.cache.idx_main obj
  if old = 0 then
    if !nmp_object_is_alive s.heap obj then
      some { ret := NMP_CACHE_OPS_UNCHANGED, out_obj := 0, out_was_visible := false, store := s }
    else
      let r := if has_out_obj then nmp_object_get s.heap obj else (0, s.heap)
      match _nmp_cache_update_add { s with heap := r.2 } obj with
      | none => none
      | some s =>
        some { ret := NMP_CACHE_OPS_ADDED, out_obj := r.1, out_was_visible := false, store := s }
  else if old = obj then none
  else
    let r := if has_out_obj then nmp_object_get s.heap old else (0, s.heap)
    let was_visible := if has_out_was_visible then nmp_object_is_visible r.2 old else false
    let s : Store := { s with heap := r.2 }
    if nmp_object_equal s.heap old obj obj_aspect then
      some { ret := NMP_CACHE_OPS_UNCHANGED, out_obj := r.1, out_was_visible := was_visible,
             store := s }
    else
      match s.heap old, s.heap obj with
      | some o, some n =>
        let alive :=
          if has_other_aspects (NMP_OBJECT_GET_CLASS o) then
            cmd_obj_is_alive
              (nmp_object_copy_value (nmp_object_clone_value o false) n obj_aspect).data
          else nmp_object_is_alive s.heap obj
        if !alive then
          match _nmp_cache_update_remove s old with
          | none => none
          | some s =>
            some { ret := NMP_CACHE_OPS_REMOVED, out_obj := r.1, out_was_visible := was_visible,
                   store := s }
        else
          match _nmp_cache_update_update s old obj obj_aspect with
          | none => none
          | some s =>
            some { ret := NMP_CACHE_OPS_UPDATED, out_obj := r.1, out_was_visible := was_visible,
                   store := s }
      | _, _ => none


/-! ## Stack-initialised objects and the lookup of a link -/

/-- The function `nmp_object_stackinit`: the contents written to `*obj`; `plobj` is `none` for
`NULL`, otherwise the public structure is copied from it. -/
def nmp_object_stackinit (type : ObjectType) (plobj : Option NMPObjectData) : NMPObject :=
  let obj := _nmp_object_stackinit_from_class type
  match plobj with
  | none => obj
  | some p =>
    match obj.data, p with
    | ._link l, ._link pl =>
      let l : NMPObjectLink := { l with _public := pl._public }
      { obj with data := (._link l) }
    | ._ip4_address _, ._ip4_address b => { obj with data := (._ip4_address b) }
    | ._ip6_address _, ._ip6_address b => { obj with data := (._ip6_address b) }
    | ._ip4_route _, ._ip4_route b => { obj with data := (._ip4_route b) }
    | ._ip6_route _, ._ip6_route b => { obj with data := (._ip6_route b) }
    | _, _ => obj

/-- The function `nmp_object_stackinit_id_link`. -/
def nmp_object_stackinit_id_link (ifindex : Int) : NMPObject :=
  let obj := nmp_object_stackinit OBJECT_TYPE_LINK none
  match obj.data with
  | ._link l =>
    let link : NMPlatformLink := { l._public with ifindex := ifindex }
    let l : NMPObjectLink := { l with _public := link }
    { obj with data := (._link l) }
  | _ => obj

/-- The function `_vt_cmd_obj_stackinit_id_link`. -/
def _vt_cmd_obj_stackinit_id_link (src : NMPObjectLink) : NMPObject :=
  nmp_object_stackinit_id_link src._public.ifindex

/-- The function `nmp_object_stackinit_id_ip4_address`. -/
def nmp_object_stackinit_id_ip4_address (ifindex : Int) (address : Nat) (plen : Int) : NMPObject :=
  let obj := nmp_object_stackinit OBJECT_TYPE_IP4_ADDRESS none
  match obj.data with
  | ._ip4_address a =>
    let a : NMPlatformIP4Address := { a with ifindex := ifindex, address := address, plen := plen }
    { obj with data := (._ip4_address a) }
  | _ => obj

/-- The function `_vt_cmd_obj_stackinit_id_ip4_address`. -/
def _vt_cmd_obj_stackinit_id_ip4_address (src : NMPlatformIP4Address) : NMPObject :=
  nmp_object_stackinit_id_ip4_address src.ifindex src.address src.plen

/-- The function `nmp_object_stackinit_id_ip6_address`; `address` is `none` for `NULL`,
otherwise the value that the pointer refers to when it is read. -/
def nmp_object_stackinit_id_ip6_address (ifindex : Int) (address : Option Nat) (plen : Int) :
    NMPObject :=
  let obj := nmp_object_stackinit OBJECT_TYPE_IP6_ADDRESS none
  match obj.data with
  | ._ip6_address a =>
    let a : NMPlatformIP6Address := { a with ifindex := ifindex }
    let a : NMPlatformIP6Address :=
      match address with
      | some v => { a with address := v }
      | none => a
    let a : NMPlatformIP6Address := { a with plen := plen }
    { obj with data := (._ip6_address a) }
  | _ => obj

/-- The function `_vt_cmd_obj_stackinit_id_ip6_address`.  The address is passed by pointer
and read after `*obj` has been zeroed: `src_now` is the contents of `*src` at that time. -/
def _vt_cmd_obj_stackinit_id_ip6_address (src src_now : NMPlatformIP6Address) : NMPObject :=
  nmp_object_stackinit_id_ip6_address src.ifindex (some src_now.address) src.plen

/-- The function `nmp_object_stackinit_id_ip4_route`. -/
def nmp_object_stackinit_id_ip4_route (ifindex : Int) (network : Nat) (plen : Int)
    (metric : Nat) : NMPObject :=
  let obj := nmp_object_stackinit OBJECT_TYPE_IP4_ROUTE none
  match obj.data with
  | ._ip4_route a =>
    let a : NMPlatformIP4Route :=
      { a with ifindex := ifindex, network := network, plen := plen, metric := metric }
    { obj with data := (._ip4_route a) }
  | _ => obj

/-- The function `_vt_cmd_obj_stackinit_id_ip4_route`. -/
def _vt_cmd_obj_stackinit_id_ip4_route (src : NMPlatformIP4Route) : NMPObject :=
  nmp_object_stackinit_id_ip4_route src.ifindex src.network src.plen src.metric

/-- The function `nmp_object_stackinit_id_ip6_route`; `network` is `none` for `NULL`,
otherwise the value that the pointer refers to when it is read. -/
def nmp_object_stackinit_id_ip6_route (ifindex : Int) (network : Option Nat) (plen : Int)
    (metric : Nat) : NMPObject :=
  let obj := nmp_object_stackinit OBJECT_TYPE_IP6_ROUTE none
  match obj.data with
  | ._ip6_route a =>
    let a : NMPlatformIP6Route := { a with ifindex := ifindex }
    let a : NMPlatformIP6Route :=
      match network with
      | some v => { a with network := v }
      | none => a
    let a : NMPlatformIP6Route := { a with plen := plen, metric := metric }
    { obj with data := (._ip6_route a) }
  | _ => obj

/-- The function `_vt_cmd_obj_stackinit_id_ip6_route`; see
`_vt_cmd_obj_stackinit_id_ip6_address` for `src_now`. -/
def _vt_cmd_obj_stackinit_id_ip6_route (src src_now : NMPlatformIP6Route) : NMPObject :=
  nmp_object_stackinit_id_ip6_route src.ifindex (some src_now.network) src.plen src.metric

/-- The class member `cmd_obj_stackinit_id`: the contents written to `*obj`. -/
def cmd_obj_stackinit_id (src src_now : NMPObjectData) : NMPObject :=
  match src, src_now with
  | ._link a, _ => _vt_cmd_obj_stackinit_id_link a
  | ._ip4_address a, _ => _vt_cmd_obj_stackinit_id_ip4_address a
  | ._ip6_address a, ._ip6_address b => _vt_cmd_obj_stackinit_id_ip6_address a b
  | ._ip6_address a, _ => _vt_cmd_obj_stackinit_id_ip6_address a a
  | ._ip4_route a, _ => _vt_cmd_obj_stackinit_id_ip4_route a
  | ._ip6_route a, ._ip6_route b => _vt_cmd_obj_stackinit_id_ip6_route a b
  | ._ip6_route a, _ => _vt_cmd_obj_stackinit_id_ip6_route a a

/-- The function `nmp_object_stackinit_id`: the memory after the object at `obj` has been
initialised from `src`.  When `obj` and `src` are the same object, the fields that are passed
by pointer are read after the object has been zeroed. -/
def nmp_object_stackinit_id (heap : Heap) (obj src : Nat) : Heap :=
  if obj = 0 then heap
  else
    match heap src with
    | none => heap
    | some s =>
      let src_now := if obj = src then zeroed_data (NMP_OBJECT_GET_CLASS s) else s.data
      Function.update heap obj (some (cmd_obj_stackinit_id s.data src_now))

/-- The function `nmp_cache_lookup_link`.  The local variable `needle` lives at the address
`needle` for the duration of the call. -/
def nmp_cache_lookup_link (s : Store) (needle : Nat) (ifindex : Int) : Nat :=
  g_hash_table_lookup_main
    (Function.update s.heap needle (some (nmp_object_stackinit_id_link ifindex)))
    s.cache.idx_main needle

/-! ## The hash of a cache identifier and the teardown of the cache -/

/-- The numeric value of an `NMPCacheIdType`, as stored in the `guint8` of a cache id. -/
def NMPCacheIdType.toNat : NMPCacheIdType → Nat
  | NMP_CACHE_ID_TYPE_LINKS_ALL => 0
  | NMP_CACHE_ID_TYPE_LINKS_VISIBLE_ONLY => 1
  | NMP_CACHE_ID_TYPE_ADDRROUTE_BY_IFINDEX => 2
  | NMP_CACHE_ID_TYPE_ROUTES_VISIBLE_ALL => 3
  | NMP_CACHE_ID_TYPE_ROUTES_VISIBLE_NO_DEFAULT => 4
  | NMP_CACHE_ID_TYPE_ROUTES_VISIBLE_ONLY_DEFAULT => 5

/-- The `sizeof (NMPCacheId)` bytes of a cache id that `nmp_cache_id_init` has zeroed, on a
little-endian host with a 4-byte `int`: the id type, the second byte, two bytes of padding
and the four bytes of `ifindex`. -/
def NMPCacheId_bytes (id : NMPCacheId) : List Nat :=
  [id._id_type.toNat, id.obj_type % 256, 0, 0,
   guint_of_int id.ifindex % 256, guint_of_int id.ifindex / 256 % 256,
   guint_of_int id.ifindex / 65536 % 256, guint_of_int id.ifindex / 16777216 % 256]

/-- The conversion to `guint` of the byte `c` read through a `char *`, `char` being signed. -/
def guint_of_char (c : Nat) : Nat := if c < 128 then c else 4294967296 - 256 + c

/-- The function `nmp_cache_id_hash`: `hash = ((hash << 5) + hash) + ((char *) id)[i]` over
the bytes of the id, in 32-bit unsigned arithmetic. -/
def nmp_cache_id_hash (id : NMPCacheId) : Nat :=
  (NMPCacheId_bytes id).foldl
    (fun hash c => ((hash * 32 % 4294967296 + hash) % 4294967296 + guint_of_char c) % 4294967296)
    5381

/-- The loop of `nmp_cache_free`, with the number of remaining iterations made explicit:
while the primary index is not empty, the first object that the iterator yields is removed
with `_nmp_cache_update_remove`.  The result is `none` when the iterations are used up,
`some none` when `g_assert_not_reached` aborts, and otherwise the state at the end of the
loop. -/
def nmp_cache_free_loop : Nat → Store → Option (Option Store)
  | 0, _ => none
  | fuel + 1, s =>
    match s.cache.idx_main with
    | [] => some (some s)
    | obj :: _ =>
      match _nmp_cache_update_remove s obj with
      | none => some none
      | some s => nmp_cache_free_loop fuel s

/-- The function `nmp_cache_free`: the loop, which is given one iteration more than there
are cached objects, and then the release of the two indexes and of the cache; the result is
the heap that is left. -/
def nmp_cache_free (s : Store) : Option (Option Heap) :=
  match nmp_cache_free_loop (s.cache.idx_main.length + 1) s with
  | none => none
  | some none => some none
  | some (some s) => some (some s.heap)
/-! ## Predicates used to state the properties -/

section SpecDefs

variable {Id : Type} [DecidableEq Id]

/-- The outcome of a search: the value is found at index `r`, or `r` encodes the insertion point. -/
def search_result (ms : List Nat) (value : Nat) (r : Int) : Prop :=
  (0 ≤ r ∧ r < ms.length ∧ ms.getD r.toNat 0 = value) ∨
  (∃ p : Nat, r = -(p : Int) - 1 ∧ p ≤ ms.length ∧ (∀ j, j < p → ms.getD j 0 < value) ∧
    (∀ j, p ≤ j → j < ms.length → value < ms.getD j 0))

/-- Well-formedness of a `GPtrArray` of a Multi-Index: at least one member, the members
strictly ascending and none of them `NULL`, and the final entry `NULL`. -/
def GPtrArrayWF (array : List Nat) : Prop :=
  array.getLast? = some 0 ∧ array.dropLast ≠ [] ∧
    array.dropLast.Pairwise (fun a b => a < b) ∧ ∀ m ∈ array.dropLast, m ≠ 0

instance (array : List Nat) : Decidable (GPtrArrayWF array) := by
  unfold GPtrArrayWF; infer_instance

/-- Well-formedness of a Multi-Index: the keys of the table are distinct and every array is
well formed. -/
def nm_multi_index_wf (index : NMMultiIndex Id) : Prop :=
  (index.hash.map Prod.fst).Nodup ∧ ∀ e ∈ index.hash, GPtrArrayWF e.2

instance (index : NMMultiIndex Id) : Decidable (nm_multi_index_wf index) := by
  unfold nm_multi_index_wf; infer_instance

/-- The members of a group: the first `*out_len` entries of the array that
`nm_multi_index_lookup` returns, none when it returns `NULL`. -/
def nm_multi_index_members (index : NMMultiIndex Id) (id : Id) : List Nat :=
  match nm_multi_index_lookup index id with
  | (some array, len) => array.take len
  | (none, _) => []

/-- No array of the index has reached the length at which `_do_add` refuses to grow it. -/
def nm_multi_index_has_room (index : NMMultiIndex Id) : Prop :=
  ∀ e ∈ index.hash, (e.2.length : Int) + 1 < G_MAXINT

instance (index : NMMultiIndex Id) : Decidable (nm_multi_index_has_room index) := by
  unfold nm_multi_index_has_room; infer_instance

end SpecDefs

/-- The identity of an object: the zeroed object of its class with the identity fields
copied in by `cmd_plobj_id_copy`. -/
def object_identity (obj : NMPObjectData) : NMPObjectData :=
  cmd_plobj_id_copy (zeroed_data obj._class) obj

/-- The identity of the object at an address, `none` when there is no valid object. -/
def ptr_key (heap : Heap) (p : Nat) : Option NMPObjectData :=
  match heap p with
  | some o => if 0 < o._ref_count then some (object_identity o.data) else none
  | none => none

/-- The payload of the object at an address. -/
def data_at (heap : Heap) (p : Nat) : Option NMPObjectData :=
  match heap p with
  | some o => some o.data
  | none => none

/-- The member `_ref_count` of the object at an address. -/
def ref_count_at (heap : Heap) (p : Nat) : Int :=
  match heap p with
  | some o => o._ref_count
  | none => 0

/-- The member `is_cached` of the object at an address. -/
def is_cached_at (heap : Heap) (p : Nat) : Bool :=
  match heap p with
  | some o => o.is_cached
  | none => false

/-- The state of the primary index that every call maintains: the keys are distinct
addresses of valid objects marked `is_cached`, no two of them identity-equal. -/
def nmp_cache_main_wf (s : Store) : Prop :=
  s.cache.idx_main.Nodup ∧
  (∀ p ∈ s.cache.idx_main,
    p ≠ 0 ∧ NMP_OBJECT_IS_VALID s.heap p = true ∧ is_cached_at s.heap p = true) ∧
  (∀ p ∈ s.cache.idx_main, ∀ q ∈ s.cache.idx_main,
    nmp_object_id_equal s.heap p q = true → p = q)

instance (s : Store) : Decidable (nmp_cache_main_wf s) := by
  unfold nmp_cache_main_wf; infer_instance

/-- The heap after the assignment `*out_obj = nmp_object_get (x)`, made when `out_obj` is
not `NULL`. -/
def out_obj_heap (has_out_obj : Bool) (heap : Heap) (x : Nat) : Heap :=
  (if has_out_obj then nmp_object_get heap x else (0, heap)).2

/-- The aliveness that `nmp_cache_update` tests before it updates or removes `old`: that of
the merged object for a link, that of the candidate otherwise. -/
def nmp_cache_update_alive (heap : Heap) (old obj : Nat) (obj_aspect : NMPObjectAspects) : Bool :=
  match heap old, heap obj with
  | some o, some n =>
    if has_other_aspects (NMP_OBJECT_GET_CLASS o) then
      cmd_obj_is_alive (nmp_object_copy_value (nmp_object_clone_value o false) n obj_aspect).data
    else nmp_object_is_alive heap obj
  | _, _ => false

/-- The cache states that valid use reaches from the empty cache.  The caller allocates
objects (`alloc`), releases references that it owns (`put`), and calls `nmp_cache_update`
with a valid heap object that is not cached and `nmp_cache_remove` with a valid object; a
call that aborts reaches no state. -/
inductive Reachable : Store → Prop
  | init : Reachable { heap := fun _ => none, cache := nmp_cache_new }
  | alloc (s : Store) (p : Nat) (o : NMPObject) :
      Reachable s → p ≠ 0 → s.heap p = none → 0 < o._ref_count → o.is_cached = false →
      Reachable { s with heap := Function.update s.heap p (some o) }
  | put (s : Store) (p : Nat) :
      Reachable s → NMP_OBJECT_IS_VALID s.heap p = true →
      (∀ o, s.heap p = some o → o.is_cached = true → 1 < o._ref_count) →
      Reachable { s with heap := nmp_object_put s.heap p }
  | update (s : Store) (p : Nat) (obj_aspect : NMPObjectAspects)
      (has_out_obj has_out_was_visible : Bool) (r : NMPCacheOpsResult) :
      Reachable s → NMP_OBJECT_IS_VALID s.heap p = true →
      NMP_OBJECT_IS_STACKINIT s.heap p = false → is_cached_at s.heap p = false →
      nmp_cache_update s p obj_aspect has_out_obj has_out_was_visible = some r →
      Reachable r.store
  | remove (s : Store) (p : Nat) (has_out_obj has_out_was_visible : Bool)
      (r : NMPCacheOpsResult) :
      Reachable s → NMP_OBJECT_IS_VALID s.heap p = true →
      nmp_cache_remove s p has_out_obj has_out_was_visible = some r →
      Reachable r.store


/-- Secondary-index consistency: every cached object is a member of a group exactly when
the derivation of its kind, evaluated on its current state for the type of the group, yields
that group. -/
def nmp_cache_consistent (s : Store) : Prop :=
  ∀ p ∈ s.cache.idx_main, ∀ d, data_at s.heap p = some d → ∀ g : NMPCacheId,
    nm_multi_index_contains s.cache.idx_multi g p = true ↔
      cmd_obj_init_cache_id d g._id_type = some (some g)

/-! ## Concrete cache states -/

/-- A link with interface index 5 that netlink reports, without a udev device. -/
def demo_link_netlink : NMPObject :=
  { _ref_count := 1, is_cached := false,
    data := ._link ⟨⟨5, 0⟩, ⟨1, 0, 0, 0, 0⟩, ⟨0⟩⟩ }

/-- A candidate for the link with interface index 5 that carries only a udev device. -/
def demo_link_udev : NMPObject :=
  { _ref_count := 1, is_cached := false,
    data := ._link ⟨⟨5, 0⟩, ⟨0, 0, 0, 0, 0⟩, ⟨7⟩⟩ }

/-- A candidate for the link with interface index 5 that is neither in netlink nor has a
udev device. -/
def demo_link_dead : NMPObject :=
  { _ref_count := 1, is_cached := false,
    data := ._link ⟨⟨5, 0⟩, ⟨0, 0, 0, 0, 0⟩, ⟨0⟩⟩ }

/-- The empty cache with an empty heap. -/
def demo_store0 : Store := { heap := fun _ => none, cache := nmp_cache_new }

/-- The caller has allocated the netlink link at address 100. -/
def demo_store1 : Store :=
  { demo_store0 with heap := Function.update demo_store0.heap 100 (some demo_link_netlink) }

/-- The caller has allocated the udev candidate at address 200. -/
def demo_store2 : Store :=
  { demo_store1 with heap := Function.update demo_store1.heap 200 (some demo_link_udev) }

/-- The caller has allocated a second netlink link, with the data of the first, at address
300, and a dead link at address 400. -/
def demo_store2b : Store :=
  { demo_store2 with
    heap := Function.update (Function.update demo_store2.heap 300 (some demo_link_netlink))
      400 (some demo_link_dead) }

/-- The call `nmp_cache_update` with the netlink link and mask NETLINK on the empty cache. -/
def demo_result3 : NMPCacheOpsResult :=
  match nmp_cache_update demo_store2b 100 NMP_OBJECT_ASPECT_NETLINK false false with
  | some r => r
  | none => ⟨NMP_CACHE_OPS_UNCHANGED, 0, false, demo_store2b⟩

/-- The following call `nmp_cache_update` with the udev candidate and mask UDEV. -/
def demo_result4 : NMPCacheOpsResult :=
  match nmp_cache_update demo_result3.store 200 NMP_OBJECT_ASPECT_UDEV false false with
  | some r => r
  | none => ⟨NMP_CACHE_OPS_UNCHANGED, 0, false, demo_store2b⟩

/-- An IPv4 route 10/8 on interface 3 with metric 1, configured by the user. -/
def demo_route_user : NMPObject :=
  { _ref_count := 1, is_cached := false,
    data := ._ip4_route ⟨3, NM_IP_CONFIG_SOURCE_USER, 10, 8, 1, 0⟩ }

/-- A candidate with the identity of `demo_route_user` whose source is internal. -/
def demo_route_internal : NMPObject :=
  { _ref_count := 1, is_cached := false,
    data := ._ip4_route ⟨3, NM_IP_CONFIG_SOURCE_INTERNAL, 10, 8, 1, 0⟩ }

/-- A candidate with the identity of `demo_route_user` and other public attributes. -/
def demo_route_changed : NMPObject :=
  { _ref_count := 1, is_cached := false,
    data := ._ip4_route ⟨3, NM_IP_CONFIG_SOURCE_DHCP, 10, 8, 1, 9⟩ }

/-- The caller has allocated the three routes at the addresses 100, 200 and 300. -/
def demo_route_store : Store :=
  { demo_store0 with
    heap := Function.update (Function.update (Function.update demo_store0.heap 100
      (some demo_route_user)) 200 (some demo_route_internal)) 300 (some demo_route_changed) }

/-- The call `nmp_cache_update` with the user route and mask PUBLIC on the empty cache. -/
def demo_route_result : NMPCacheOpsResult :=
  match nmp_cache_update demo_route_store 100 NMP_OBJECT_ASPECT_PUBLIC false false with
  | some r => r
  | none => ⟨NMP_CACHE_OPS_UNCHANGED, 0, false, demo_route_store⟩


/-- A link with interface index 5 that netlink reports and that has the udev device 7. -/
def demo_link_both : NMPObject :=
  { _ref_count := 1, is_cached := false,
    data := ._link ⟨⟨5, 0⟩, ⟨1, 0, 0, 0, 0⟩, ⟨7⟩⟩ }

/-- The empty cache; the caller has allocated the link with both aspects at address 100 and
a netlink link of the same interface index at address 200. -/
def demo_store_both : Store :=
  { demo_store0 with
    heap := Function.update (Function.update demo_store0.heap 100 (some demo_link_both))
      200 (some demo_link_netlink) }

/-- An IPv4 route 10/8 on interface 3 with metric 1 that the kernel protocol reports. -/
def demo_route_kernel : NMPObject :=
  { _ref_count := 1, is_cached := false,
    data := ._ip4_route ⟨3, NM_IP_CONFIG_SOURCE_RTPROT_KERNEL, 10, 8, 1, 0⟩ }

/-- The IPv4 default route on interface 3 with metric 1, configured by the user. -/
def demo_route_default : NMPObject :=
  { _ref_count := 1, is_cached := false,
    data := ._ip4_route ⟨3, NM_IP_CONFIG_SOURCE_USER, 0, 0, 1, 0⟩ }

/-- The empty cache; the caller has allocated the default route at address 100 and the
route 10/8 at address 200. -/
def demo_route_pair_store : Store :=
  { demo_store0 with
    heap := Function.update (Function.update demo_store0.heap 100 (some demo_route_default))
      200 (some demo_route_user) }

/-- An IPv6 route on interface 3 with metric 1, configured by the user. -/
def demo_route6_user : NMPObject :=
  { _ref_count := 1, is_cached := false,
    data := ._ip6_route ⟨3, NM_IP_CONFIG_SOURCE_USER, 10, 8, 1, 0⟩ }

/-- The empty cache; the caller has allocated the IPv4 route at address 100 and the IPv6
route at address 200. -/
def demo_route46_store : Store :=
  { demo_store0 with
    heap := Function.update (Function.update demo_store0.heap 100 (some demo_route_user))
      200 (some demo_route6_user) }

/-- The call `nmp_cache_update` with the IPv4 route and mask PUBLIC on the empty cache. -/
def demo_route46_result1 : NMPCacheOpsResult :=
  match nmp_cache_update demo_route46_store 100 NMP_OBJECT_ASPECT_PUBLIC false false with
  | some r => r
  | none => ⟨NMP_CACHE_OPS_UNCHANGED, 0, false, demo_route46_store⟩

/-- The following call `nmp_cache_update` with the IPv6 route and mask PUBLIC. -/
def demo_route46_result2 : NMPCacheOpsResult :=
  match nmp_cache_update demo_route46_result1.store 200 NMP_OBJECT_ASPECT_PUBLIC false false with
  | some r => r
  | none => ⟨NMP_CACHE_OPS_UNCHANGED, 0, false, demo_route46_store⟩

/-- The members `1, 2, ..., G_MAXINT - 2` of a group that `_do_add` refuses to grow. -/
def demo_full_members : List Nat := List.range' 1 2147483645

/-- An index whose only group, under the key 0, is full. -/
def demo_full_index : NMMultiIndex Nat := { hash := [(0, demo_full_members ++ [0])] }

/-- The call `nmp_cache_update` with the link with both aspects and mask NETLINK. -/
def demo_both_result : NMPCacheOpsResult :=
  match nmp_cache_update demo_store_both 100 NMP_OBJECT_ASPECT_NETLINK false false with
  | some r => r
  | none => ⟨NMP_CACHE_OPS_UNCHANGED, 0, false, demo_store_both⟩

/-! ## Specification-level definitions for the Multi-Index and the identity hash -/

section SpecDefs2

variable {Id : Type} [DecidableEq Id]

/-- The index states that are reached from a new index by calls of `nm_multi_index_add`,
`nm_multi_index_remove` and `nm_multi_index_move`, with any arguments. -/
inductive NMMultiIndexReachable : NMMultiIndex Id → Prop
  | new : NMMultiIndexReachable nm_multi_index_new
  | add (index : NMMultiIndex Id) (id : Id) (value : Nat) :
      NMMultiIndexReachable index → NMMultiIndexReachable (nm_multi_index_add index id value).2
  | remove (index : NMMultiIndex Id) (id : Id) (value : Nat) :
      NMMultiIndexReachable index →
      NMMultiIndexReachable (nm_multi_index_remove index id value).2
  | move (index : NMMultiIndex Id) (id_old id_new : Option Id) (value : Nat) :
      NMMultiIndexReachable index →
      NMMultiIndexReachable (nm_multi_index_move index id_old id_new value).2

/-- Visiting a list of groups in order, until the visitor returns false: the visitor is
called with the key, the array and the number of members of a group. -/
def visit_groups {σ : Type} (visitor : Id → List Nat → Nat → σ → Bool × σ) :
    List (Id × List Nat) → σ → σ
  | [], user_data => user_data
  | (id, array) :: rest, user_data =>
    let r := visitor id array (array.length - 1) user_data
    if r.1 then visit_groups visitor rest r.2 else r.2

end SpecDefs2

/-- One step of the identity hash: the running 32-bit hash times 33 plus the term. -/
def id_hash_step (hash term : Nat) : Nat := (hash * 33 + term) % 4294967296

/-- The identity hash of a route in the order of the specification's words: the seed plus
the interface index, then the prefix length, then the network, then the metric. -/
def spec_route_id_hash (seed : Nat) (ifindex plen : Int) (network metric : Nat) : Nat :=
  id_hash_step (id_hash_step (id_hash_step ((seed + guint_of_int ifindex) % 4294967296)
    (guint_of_int plen)) (network % 4294967296)) (metric % 4294967296)

/-- An index with two groups: the full group under the key 0, and the group of the single
member `G_MAXINT - 1` under the key 1. -/
def demo_full_index2 : NMMultiIndex Nat :=
  { hash := [(0, demo_full_members ++ [0]), (1, [2147483646, 0])] }

/-- A heap whose only object, at address 100, is a link with `G_MAXINT - 1` references. -/
def demo_heap_refs : Heap :=
  Function.update (fun _ => none) 100
    (some { _ref_count := 2147483646, is_cached := false,
            data := ._link ⟨⟨5, 0⟩, ⟨1, 0, 0, 0, 0⟩, ⟨0⟩⟩ })

/-- Two payloads have the same kind and equal identity fields: the interface index of a
link; the interface index, the prefix length and the address of an address; the interface
index, the prefix length, the metric and the network of a route. -/
def same_identity_fields : NMPObjectData → NMPObjectData → Prop
  | ._link x, ._link y => x._public.ifindex = y._public.ifindex
  | ._ip4_address x, ._ip4_address y =>
    x.ifindex = y.ifindex ∧ x.plen = y.plen ∧ x.address = y.address
  | ._ip6_address x, ._ip6_address y =>
    x.ifindex = y.ifindex ∧ x.plen = y.plen ∧ x.address = y.address
  | ._ip4_route x, ._ip4_route y =>
    x.ifindex = y.ifindex ∧ x.plen = y.plen ∧ x.metric = y.metric ∧ x.network = y.network
  | ._ip6_route x, ._ip6_route y =>
    x.ifindex = y.ifindex ∧ x.plen = y.plen ∧ x.metric = y.metric ∧ x.network = y.network
  | _, _ => False

instance (a b : NMPObjectData) : Decidable (same_identity_fields a b) := by
  cases a <;> cases b <;> unfold same_identity_fields <;> infer_instance

/-- A link with the interface index 5 whose other fields all differ from those of the link
of `demo_heap_refs`. -/
def demo_link_changed : NMPObject :=
  { _ref_count := 3, is_cached := true, data := ._link ⟨⟨5, 9⟩, ⟨0, 1, 0, 2, 0⟩, ⟨7⟩⟩ }

/-- The call `nmp_cache_update`, with both outputs requested, with the candidate at address
300, which is equal to the link that `demo_result3` holds in the cache. -/
def demo_result3_equal : NMPCacheOpsResult :=
  match nmp_cache_update demo_result3.store 300 NMP_OBJECT_ASPECT_ALL true true with
  | some r => r
  | none => ⟨NMP_CACHE_OPS_REMOVED, 0, false, demo_store2b⟩

/-- An IPv6 route on interface 3 with metric 1 that the kernel protocol reports. -/
def demo_route6_kernel : NMPObject :=
  { _ref_count := 1, is_cached := false,
    data := ._ip6_route ⟨3, NM_IP_CONFIG_SOURCE_RTPROT_KERNEL, 10, 8, 1, 0⟩ }

/-- The empty cache; the caller has allocated the IPv6 kernel route at address 100. -/
def demo_route6_kernel_store : Store :=
  { demo_store0 with heap := Function.update demo_store0.heap 100 (some demo_route6_kernel) }

/-- The call `nmp_cache_update` with the IPv6 kernel route and mask PUBLIC on the empty
cache. -/
def demo_route6_kernel_result : NMPCacheOpsResult :=
  match nmp_cache_update demo_route6_kernel_store 100 NMP_OBJECT_ASPECT_PUBLIC false false with
  | some r => r
  | none => ⟨NMP_CACHE_OPS_UNCHANGED, 0, false, demo_route6_kernel_store⟩

/-- The call `nmp_cache_update`, with both outputs requested, with the udev candidate at
address 200 in the cache of `demo_result3`. -/
def demo_result3_updated : NMPCacheOpsResult :=
  match nmp_cache_update demo_result3.store 200 NMP_OBJECT_ASPECT_UDEV true true with
  | some r => r
  | none => ⟨NMP_CACHE_OPS_UNCHANGED, 0, false, demo_store2b⟩

/-- The empty cache; the caller has allocated, at address 100, a link that has `G_MAXINT - 1`
references. -/
def demo_refs_store : Store := { heap := demo_heap_refs, cache := nmp_cache_new }

/-- The call `nmp_cache_update` with the link of `demo_refs_store` and mask NETLINK. -/
def demo_refs_result : NMPCacheOpsResult :=
  match nmp_cache_update demo_refs_store 100 NMP_OBJECT_ASPECT_NETLINK false false with
  | some r => r
  | none => ⟨NMP_CACHE_OPS_UNCHANGED, 0, false, demo_refs_store⟩

/-- The following call `nmp_cache_remove` with the same link. -/
def demo_refs_removed : NMPCacheOpsResult :=
  match nmp_cache_remove demo_refs_result.store 100 false false with
  | some r => r
  | none => ⟨NMP_CACHE_OPS_UNCHANGED, 0, false, demo_refs_store⟩

/-- The state at the end of the loop of `nmp_cache_free` on the cache of `demo_result3`. -/
def demo_result3_freed : Store :=
  match nmp_cache_free_loop 2 demo_result3.store with
  | some (some s) => s
  | _ => demo_result3.store

/-- An IPv4 route with the data of `demo_route_user` that has `G_MAXINT - 1` references. -/
def demo_route_refs : NMPObject :=
  { _ref_count := 2147483646, is_cached := false,
    data := ._ip4_route ⟨3, NM_IP_CONFIG_SOURCE_USER, 10, 8, 1, 0⟩ }

/-- The empty cache; the caller has allocated the route with `G_MAXINT - 1` references at
address 100 and the candidate `demo_route_changed` at address 200. -/
def demo_route_refs_store : Store :=
  { demo_store0 with
    heap := Function.update (Function.update demo_store0.heap 100 (some demo_route_refs))
      200 (some demo_route_changed) }

/-- The call `nmp_cache_update` with the route at address 100 and mask PUBLIC on the empty
cache: the reference of the cache takes the count of the route to `G_MAXINT`. -/
def demo_route_refs_added : NMPCacheOpsResult :=
  match nmp_cache_update demo_route_refs_store 100 NMP_OBJECT_ASPECT_PUBLIC false false with
  | some r => r
  | none => ⟨NMP_CACHE_OPS_UNCHANGED, 0, false, demo_route_refs_store⟩

/-- The same call with both outputs requested. -/
def demo_route_refs_reported : NMPCacheOpsResult :=
  match nmp_cache_update demo_route_refs_added.store 200 NMP_OBJECT_ASPECT_PUBLIC true true with
  | some r => r
  | none => ⟨NMP_CACHE_OPS_UNCHANGED, 0, false, demo_route_refs_store⟩

/-- A candidate for the link with interface index 5 that netlink reports and that has the
udev device 8. -/
def demo_link_seen : NMPObject :=
  { _ref_count := 1, is_cached := false,
    data := ._link ⟨⟨5, 0⟩, ⟨1, 0, 0, 0, 0⟩, ⟨8⟩⟩ }

/-- The empty cache; the caller has allocated the link `demo_link_udev`, which is not in
netlink, at address 100 and the candidate `demo_link_seen` at address 200. -/
def demo_hidden_store : Store :=
  { demo_store0 with
    heap := Function.update (Function.update demo_store0.heap 100 (some demo_link_udev))
      200 (some demo_link_seen) }

/-- The call `nmp_cache_update` with the link at address 100 and mask ALL on the empty
cache. -/
def demo_hidden_added : NMPCacheOpsResult :=
  match nmp_cache_update demo_hidden_store 100 NMP_OBJECT_ASPECT_ALL false false with
  | some r => r
  | none => ⟨NMP_CACHE_OPS_UNCHANGED, 0, false, demo_hidden_store⟩

/-- The following call `nmp_cache_update` with the candidate at address 200 and mask UDEV. -/
def demo_hidden_updated : NMPCacheOpsResult :=
  match nmp_cache_update demo_hidden_added.store 200 NMP_OBJECT_ASPECT_UDEV false false with
  | some r => r
  | none => ⟨NMP_CACHE_OPS_UNCHANGED, 0, false, demo_hidden_store⟩

/-- The following call `nmp_cache_remove` with the probe at address 200 and both outputs
requested. -/
def demo_hidden_removed : NMPCacheOpsResult :=
  match nmp_cache_remove demo_hidden_updated.store 200 true true with
  | some r => r
  | none => ⟨NMP_CACHE_OPS_UNCHANGED, 0, false, demo_hidden_store⟩

theorem getD_append_null (ms : List Nat) (j : Nat) : (ms ++ [0]).getD j 0 = ms.getD j 0 := by
  by_cases h : j < ms.length
  · exact List.getD_append ms [0] 0 j h
  · have h1 : ms.length ≤ j := Nat.le_of_not_lt h
    rw [List.getD_eq_default ms 0 h1]
    by_cases h2 : j < (ms ++ [0]).length
    · have h3 : j = ms.length := by
        simp at h2; omega
      subst h3
      simp
    · exact List.getD_eq_default _ 0 (Nat.le_of_not_lt h2)

theorem sorted_getD_lt {ms : List Nat} (hs : ms.Pairwise (fun a b => a < b)) {i j : Nat}
    (hij : i < j) (hj : j < ms.length) : ms.getD i 0 < ms.getD j 0 := by
  have hi : i < ms.length := Nat.lt_trans hij hj
  rw [List.getD_eq_getElem ms 0 hi, List.getD_eq_getElem ms 0 hj]
  exact List.pairwise_iff_getElem.mp hs i j hi hj hij

theorem _binary_search_loop_spec (ms : List Nat) (value : Nat)
    (hs : ms.Pairwise (fun a b => a < b)) :
    ∀ (fuel : Nat) (imin imax : Int), 0 ≤ imin → imax < ms.length → imin ≤ imax + 1 →
      imax - imin + 2 ≤ fuel →
      (∀ j : Nat, (j : Int) < imin → ms.getD j 0 < value) →
      (∀ j : Nat, imax < (j : Int) → j < ms.length → value < ms.getD j 0) →
      ∃ r, _binary_search_loop (ms ++ [0]) value fuel imin imax = some r ∧
        search_result ms value r := by
  intro fuel
  induction fuel with
  | zero => intro imin imax h0 h1 h2 h3; omega
  | succ fuel ih =>
    intro imin imax h0 h1 h2 h3 hlo hhi
    unfold _binary_search_loop
    by_cases hle : imin ≤ imax
    · simp only [hle, if_true, getD_append_null]
      have hmid0 : 0 ≤ imin + (imax - imin) / 2 := by omega
      have hmid1 : imin + (imax - imin) / 2 ≤ imax := by omega
      have hmid2 : imin ≤ imin + (imax - imin) / 2 := by omega
      obtain ⟨m, hm⟩ : ∃ m : Nat, imin + (imax - imin) / 2 = (m : Int) :=
        ⟨(imin + (imax - imin) / 2).toNat, by omega⟩
      rw [hm] at hmid0 hmid1 hmid2 ⊢
      simp only [Int.toNat_ofNat]
      have hmlen : m < ms.length := by omega
      by_cases hlt : value < ms.getD m 0
      · simp only [hlt, if_true]
        have e1 : ((m : Int) - 1) < ms.length := by omega
        have e2 : imin ≤ ((m : Int) - 1) + 1 := by omega
        have e3 : ((m : Int) - 1) - imin + 2 ≤ fuel := by
          have := h3
          push_cast at this
          omega
        apply ih imin ((m : Int) - 1) h0 e1 e2 e3 hlo
        intro j hj1 hj2
        by_cases hjm : j = m
        · subst hjm; exact hlt
        · have : m < j := by omega
          exact Nat.lt_trans hlt (sorted_getD_lt hs this hj2)
      · simp only [hlt, if_false]
        by_cases hgt : ms.getD m 0 < value
        · simp only [hgt, if_true]
          have e1 : (0 : Int) ≤ (m : Int) + 1 := by omega
          have e2 : (m : Int) + 1 ≤ imax + 1 := by omega
          have e3 : imax - ((m : Int) + 1) + 2 ≤ fuel := by
            have := h3
            push_cast at this
            omega
          apply ih ((m : Int) + 1) imax e1 h1 e2 e3 _ hhi
          intro j hj
          by_cases hjm : j = m
          · subst hjm; exact hgt
          · have : j < m := by omega
            exact Nat.lt_trans (sorted_getD_lt hs this hmlen) hgt
        · simp only [hgt, if_false]
          refine ⟨(m : Int), rfl, Or.inl ⟨by omega, by omega, ?_⟩⟩
          simp only [Int.toNat_ofNat]
          omega
    · simp only [hle, if_false]
      refine ⟨-imin - 1, rfl, Or.inr ⟨imin.toNat, by omega, by omega, ?_, ?_⟩⟩
      · intro j hj; exact hlo j (by omega)
      · intro j hj1 hj2; exact hhi j (by omega) hj2

theorem _binary_search_spec (ms : List Nat) (value : Nat)
    (hs : ms.Pairwise (fun a b => a < b)) :
    search_result ms value (_binary_search (ms ++ [0]) value) := by
  unfold _binary_search
  obtain ⟨r, hr, hres⟩ := _binary_search_loop_spec ms value hs (ms ++ [0]).length 0
    (((ms ++ [0]).length : Int) - 2) (by omega) (by simp; omega) (by simp; omega) (by simp)
    (by intro j hj; omega) (by intro j hj1 hj2; simp at hj1; omega)
  rw [hr]
  exact hres

/-! ## Arrays -/

theorem GPtrArrayWF_append_null (ms : List Nat) :
    GPtrArrayWF (ms ++ [0]) ↔ ms ≠ [] ∧ ms.Pairwise (fun a b => a < b) ∧ ∀ m ∈ ms, m ≠ 0 := by
  unfold GPtrArrayWF
  simp

theorem GPtrArrayWF_eq {array : List Nat} (h : GPtrArrayWF array) :
    array = array.dropLast ++ [0] := by
  obtain ⟨h1, -⟩ := h
  have := List.dropLast_append_getLast? 0 h1
  exact this.symm

theorem mem_g_ptr_array_insert (ms : List Nat) (p v x : Nat) :
    x ∈ g_ptr_array_insert ms p v ↔ x = v ∨ x ∈ ms := by
  induction ms generalizing p with
  | nil => cases p <;> simp [g_ptr_array_insert]
  | cons a ms ih =>
    cases p with
    | zero => simp [g_ptr_array_insert]
    | succ p => simp [g_ptr_array_insert, ih]; tauto

theorem g_ptr_array_insert_append (ms : List Nat) (p v : Nat) (hp : p ≤ ms.length) (l : List Nat) :
    g_ptr_array_insert (ms ++ l) p v = g_ptr_array_insert ms p v ++ l := by
  induction ms generalizing p with
  | nil =>
    have : p = 0 := by simpa using hp
    subst this
    cases l <;> simp [g_ptr_array_insert]
  | cons a ms ih =>
    cases p with
    | zero => simp [g_ptr_array_insert]
    | succ p =>
      simp only [List.cons_append, g_ptr_array_insert, List.cons.injEq, true_and]
      exact ih p (by simpa using hp)

theorem g_ptr_array_insert_sorted (ms : List Nat) (p v : Nat)
    (hs : ms.Pairwise (fun a b => a < b))
    (hlo : ∀ j, j < p → ms.getD j 0 < v)
    (hhi : ∀ j, p ≤ j → j < ms.length → v < ms.getD j 0) :
    (g_ptr_array_insert ms p v).Pairwise (fun a b => a < b) := by
  induction ms generalizing p with
  | nil => cases p <;> simp [g_ptr_array_insert]
  | cons a ms ih =>
    cases p with
    | zero =>
      simp only [g_ptr_array_insert]
      refine List.pairwise_cons.mpr ⟨?_, hs⟩
      intro x hx
      obtain ⟨n, hn, rfl⟩ := List.mem_iff_getElem.mp hx
      have := hhi n (Nat.zero_le _) hn
      rwa [List.getD_eq_getElem _ 0 hn] at this
    | succ p =>
      simp only [g_ptr_array_insert]
      have hs' := List.pairwise_cons.mp hs
      refine List.pairwise_cons.mpr ⟨?_, ih p hs'.2 ?_ ?_⟩
      · intro x hx
        rcases (mem_g_ptr_array_insert ms p v x).mp hx with rfl | hx
        · have := hlo 0 (Nat.succ_pos _)
          simpa using this
        · exact hs'.1 x hx
      · intro j hj
        have := hlo (j + 1) (by omega)
        simpa using this
      · intro j hj1 hj2
        have := hhi (j + 1) (by omega) (by simp; omega)
        simpa using this

theorem g_ptr_array_remove_index_append (ms : List Nat) (i : Nat) (hi : i < ms.length)
    (l : List Nat) :
    g_ptr_array_remove_index (ms ++ l) i = g_ptr_array_remove_index ms i ++ l := by
  induction ms generalizing i with
  | nil => simp at hi
  | cons a ms ih =>
    cases i with
    | zero => simp [g_ptr_array_remove_index]
    | succ i =>
      simp only [List.cons_append, g_ptr_array_remove_index, List.cons.injEq, true_and]
      exact ih i (by simpa using hi)

theorem g_ptr_array_remove_index_eq_erase (ms : List Nat) (i : Nat) (hn : ms.Nodup)
    (hi : i < ms.length) :
    g_ptr_array_remove_index ms i = ms.erase (ms.getD i 0) := by
  induction ms generalizing i with
  | nil => simp at hi
  | cons a ms ih =>
    cases i with
    | zero => simp [g_ptr_array_remove_index]
    | succ i =>
      have hn' := List.nodup_cons.mp hn
      have hi' : i < ms.length := by simpa using hi
      have hmem : ms.getD i 0 ∈ ms := by
        rw [List.getD_eq_getElem _ 0 hi']; exact List.getElem_mem _
      have hne : a ≠ ms.getD i 0 := by
        intro h; exact hn'.1 (h ▸ hmem)
      simp only [g_ptr_array_remove_index, List.getD_cons_succ]
      rw [List.erase_cons_tail (by simpa using hne), ih i hn'.2 hi']

theorem sorted_nodup {ms : List Nat} (hs : ms.Pairwise (fun a b => a < b)) : ms.Nodup :=
  hs.imp (fun h => Nat.ne_of_lt h)

/-! ## The hash table of a Multi-Index -/

section Table

variable {Id : Type} [DecidableEq Id]

theorem g_hash_table_lookup_insert (t : List (Id × List Nat)) (k k' : Id) (v : List Nat) :
    g_hash_table_lookup (g_hash_table_insert t k v) k' =
      if k = k' then some v else g_hash_table_lookup t k' := by
  induction t with
  | nil => simp [g_hash_table_insert, g_hash_table_lookup]
  | cons e t ih =>
    obtain ⟨a, b⟩ := e
    by_cases h : a = k
    · subst h
      by_cases h' : a = k' <;> simp [g_hash_table_insert, g_hash_table_lookup, h']
    · by_cases h' : a = k'
      · subst h'
        have : ¬ k = a := fun e => h e.symm
        simp [g_hash_table_insert, g_hash_table_lookup, h, this]
      · simp [g_hash_table_insert, g_hash_table_lookup, h, h', ih]

theorem g_hash_table_lookup_none_of_not_mem (t : List (Id × List Nat)) (k : Id)
    (h : k ∉ t.map Prod.fst) : g_hash_table_lookup t k = none := by
  induction t with
  | nil => rfl
  | cons e t ih =>
    obtain ⟨a, b⟩ := e
    simp only [List.map_cons, List.mem_cons, not_or] at h
    have : ¬ a = k := fun e => h.1 e.symm
    simp [g_hash_table_lookup, this, ih h.2]

theorem g_hash_table_lookup_remove (t : List (Id × List Nat)) (k k' : Id)
    (hn : (t.map Prod.fst).Nodup) :
    g_hash_table_lookup (g_hash_table_remove t k) k' =
      if k = k' then none else g_hash_table_lookup t k' := by
  induction t with
  | nil => simp [g_hash_table_remove, g_hash_table_lookup]
  | cons e t ih =>
    obtain ⟨a, b⟩ := e
    simp only [List.map_cons, List.nodup_cons] at hn
    by_cases h : a = k
    · subst h
      by_cases h' : a = k'
      · subst h'
        simp [g_hash_table_remove, g_hash_table_lookup_none_of_not_mem t a hn.1]
      · simp [g_hash_table_remove, g_hash_table_lookup, h']
    · by_cases h' : a = k'
      · subst h'
        have : ¬ k = a := fun e => h e.symm
        simp [g_hash_table_remove, g_hash_table_lookup, h, this]
      · simp [g_hash_table_remove, g_hash_table_lookup, h, h', ih hn.2]

theorem mem_of_g_hash_table_lookup (t : List (Id × List Nat)) (k : Id) (v : List Nat)
    (h : g_hash_table_lookup t k = some v) : (k, v) ∈ t := by
  induction t with
  | nil => simp [g_hash_table_lookup] at h
  | cons e t ih =>
    obtain ⟨a, b⟩ := e
    by_cases h' : a = k
    · subst h'
      simp [g_hash_table_lookup] at h
      simp [h]
    · simp [g_hash_table_lookup, h'] at h
      exact List.mem_cons_of_mem _ (ih h)

theorem g_hash_table_lookup_of_mem (t : List (Id × List Nat)) (k : Id) (v : List Nat)
    (hn : (t.map Prod.fst).Nodup) (h : (k, v) ∈ t) : g_hash_table_lookup t k = some v := by
  induction t with
  | nil => simp at h
  | cons e t ih =>
    obtain ⟨a, b⟩ := e
    simp only [List.map_cons, List.nodup_cons] at hn
    rcases List.mem_cons.mp h with h | h
    · cases h
      simp [g_hash_table_lookup]
    · have : a ≠ k := by
        intro e; subst e
        exact hn.1 (List.mem_map.mpr ⟨(a, v), h, rfl⟩)
      simp [g_hash_table_lookup, this, ih hn.2 h]

theorem mem_g_hash_table_insert (t : List (Id × List Nat)) (k : Id) (v : List Nat)
    (e : Id × List Nat) (h : e ∈ g_hash_table_insert t k v) : e = (k, v) ∨ e ∈ t := by
  induction t with
  | nil => simp [g_hash_table_insert] at h; exact Or.inl h
  | cons x t ih =>
    obtain ⟨a, b⟩ := x
    by_cases h' : a = k
    · subst h'
      simp [g_hash_table_insert] at h
      rcases h with h | h
      · exact Or.inl h
      · exact Or.inr (List.mem_cons_of_mem _ h)
    · simp [g_hash_table_insert, h'] at h
      rcases h with h | h
      · exact Or.inr (by simp [h])
      · rcases ih h with h | h
        · exact Or.inl h
        · exact Or.inr (List.mem_cons_of_mem _ h)

theorem mem_keys_g_hash_table_insert (t : List (Id × List Nat)) (k : Id) (v : List Nat)
    (a : Id) : a ∈ (g_hash_table_insert t k v).map Prod.fst ↔ a = k ∨ a ∈ t.map Prod.fst := by
  induction t with
  | nil => simp [g_hash_table_insert]
  | cons x t ih =>
    obtain ⟨c, b⟩ := x
    by_cases h' : c = k
    · subst h'
      simp [g_hash_table_insert]
    · simp only [g_hash_table_insert, h', if_false, List.map_cons, List.mem_cons, ih]
      tauto

theorem nodup_keys_g_hash_table_insert (t : List (Id × List Nat)) (k : Id) (v : List Nat)
    (hn : (t.map Prod.fst).Nodup) : ((g_hash_table_insert t k v).map Prod.fst).Nodup := by
  induction t with
  | nil => simp [g_hash_table_insert]
  | cons x t ih =>
    obtain ⟨c, b⟩ := x
    simp only [List.map_cons, List.nodup_cons] at hn
    by_cases h' : c = k
    · subst h'
      simp only [g_hash_table_insert, if_true, List.map_cons, List.nodup_cons]
      exact hn
    · simp only [g_hash_table_insert, h', if_false, List.map_cons, List.nodup_cons]
      refine ⟨?_, ih hn.2⟩
      rw [mem_keys_g_hash_table_insert]
      intro h
      rcases h with h | h
      · exact h' h
      · exact hn.1 h

theorem g_hash_table_remove_sublist (t : List (Id × List Nat)) (k : Id) :
    (g_hash_table_remove t k).Sublist t := by
  induction t with
  | nil => simp [g_hash_table_remove]
  | cons x t ih =>
    obtain ⟨c, b⟩ := x
    by_cases h' : c = k
    · simp [g_hash_table_remove, h']
    · simp only [g_hash_table_remove, h', if_false]
      exact List.Sublist.cons₂ _ ih

end Table

/-! ## Specification of the Multi-Index operations -/

section IndexSpec

variable {Id : Type} [DecidableEq Id]

theorem nm_multi_index_members_of_lookup {index : NMMultiIndex Id} {id : Id} {ms : List Nat}
    (h : g_hash_table_lookup index.hash id = some (ms ++ [0])) :
    nm_multi_index_members index id = ms := by
  simp [nm_multi_index_members, nm_multi_index_lookup, h]

theorem nm_multi_index_members_of_lookup_none {index : NMMultiIndex Id} {id : Id}
    (h : g_hash_table_lookup index.hash id = none) :
    nm_multi_index_members index id = [] := by
  simp [nm_multi_index_members, nm_multi_index_lookup, h]

theorem nm_multi_index_wf_lookup {index : NMMultiIndex Id} (hwf : nm_multi_index_wf index)
    {id : Id} {array : List Nat} (h : g_hash_table_lookup index.hash id = some array) :
    ∃ ms, array = ms ++ [0] ∧ ms ≠ [] ∧ ms.Pairwise (fun a b => a < b) ∧ ∀ m ∈ ms, m ≠ 0 := by
  have hmem := mem_of_g_hash_table_lookup _ _ _ h
  have hw := hwf.2 _ hmem
  refine ⟨array.dropLast, GPtrArrayWF_eq hw, hw.2.1, hw.2.2.1, hw.2.2.2⟩

theorem _binary_search_nonneg_iff (ms : List Nat) (value : Nat)
    (hs : ms.Pairwise (fun a b => a < b)) :
    0 ≤ _binary_search (ms ++ [0]) value ↔ value ∈ ms := by
  rcases _binary_search_spec ms value hs with ⟨h0, h1, h2⟩ | ⟨p, hp, hple, hlo, hhi⟩
  · refine ⟨fun _ => ?_, fun _ => h0⟩
    have hlt : (_binary_search (ms ++ [0]) value).toNat < ms.length := by omega
    rw [List.getD_eq_getElem _ 0 hlt] at h2
    rw [← h2]; exact List.getElem_mem _
  · constructor
    · intro h; omega
    · intro h
      exfalso
      obtain ⟨n, hn, rfl⟩ := List.mem_iff_getElem.mp h
      by_cases hnp : n < p
      · have := hlo n hnp
        rw [List.getD_eq_getElem _ 0 hn] at this
        omega
      · have := hhi n (by omega) hn
        rw [List.getD_eq_getElem _ 0 hn] at this
        omega

theorem nm_multi_index_contains_iff {index : NMMultiIndex Id} (hwf : nm_multi_index_wf index)
    (id : Id) (value : Nat) :
    nm_multi_index_contains index id value = true ↔
      value ≠ 0 ∧ value ∈ nm_multi_index_members index id := by
  unfold nm_multi_index_contains
  by_cases hv : value = 0
  · simp [hv]
  · simp only [hv, if_false, ne_eq, not_false_eq_true, true_and]
    cases hl : g_hash_table_lookup index.hash id with
    | none => simp [nm_multi_index_members_of_lookup_none hl]
    | some array =>
      obtain ⟨ms, rfl, -, hs, -⟩ := nm_multi_index_wf_lookup hwf hl
      simp only [nm_multi_index_members_of_lookup hl, decide_eq_true_eq]
      exact _binary_search_nonneg_iff ms value hs

theorem nm_multi_index_members_insert (index : NMMultiIndex Id) (id id' : Id) (ms : List Nat) :
    nm_multi_index_members { hash := g_hash_table_insert index.hash id (ms ++ [0]) } id' =
      if id = id' then ms else nm_multi_index_members index id' := by
  simp only [nm_multi_index_members, nm_multi_index_lookup, g_hash_table_lookup_insert]
  by_cases h : id = id'
  · simp [h]
  · simp [h]

theorem nm_multi_index_wf_insert {index : NMMultiIndex Id} (hwf : nm_multi_index_wf index)
    (id : Id) (ms : List Nat) (h1 : ms ≠ []) (h2 : ms.Pairwise (fun a b => a < b))
    (h3 : ∀ m ∈ ms, m ≠ 0) :
    nm_multi_index_wf ({ hash := g_hash_table_insert index.hash id (ms ++ [0]) } :
      NMMultiIndex Id) := by
  refine ⟨nodup_keys_g_hash_table_insert _ _ _ hwf.1, ?_⟩
  intro e he
  rcases mem_g_hash_table_insert _ _ _ _ he with rfl | he
  · exact (GPtrArrayWF_append_null ms).mpr ⟨h1, h2, h3⟩
  · exact hwf.2 e he

/-- Specification of `_do_add`: it fails without effect when the value is a member of the
group, and otherwise (there being room) adds exactly the pair of the group and the value. -/
theorem _do_add_spec {index : NMMultiIndex Id} (hwf : nm_multi_index_wf index)
    (id : Id) (value : Nat) (hv : value ≠ 0) :
    (value ∈ nm_multi_index_members index id → _do_add index id value = (false, index)) ∧
    (value ∉ nm_multi_index_members index id →
      ((nm_multi_index_members index id).length : Int) + 2 < G_MAXINT →
      (_do_add index id value).1 = true ∧ nm_multi_index_wf (_do_add index id value).2 ∧
      ∀ id' x, x ∈ nm_multi_index_members (_do_add index id value).2 id' ↔
        (x ∈ nm_multi_index_members index id' ∨ (id' = id ∧ x = value))) := by
  unfold _do_add
  cases hl : g_hash_table_lookup index.hash id with
  | none =>
    simp only [nm_multi_index_members_of_lookup_none hl, List.not_mem_nil, false_implies,
      not_false_eq_true, true_implies, true_and]
    intro _
    have e : [value, 0] = [value] ++ [0] := rfl
    rw [e]
    refine ⟨nm_multi_index_wf_insert hwf id [value] (by simp) (by simp) (by simpa using hv), ?_⟩
    intro id' x
    rw [nm_multi_index_members_insert]
    by_cases h : id = id'
    · subst h
      simp [nm_multi_index_members_of_lookup_none hl]
    · have h' : ¬ id' = id := fun e => h e.symm
      simp [h, h']
  | some array =>
    obtain ⟨ms, rfl, hne, hs, hnn⟩ := nm_multi_index_wf_lookup hwf hl
    simp only [nm_multi_index_members_of_lookup hl]
    have hiff := _binary_search_nonneg_iff ms value hs
    constructor
    · intro hmem
      simp [hiff.mpr hmem]
    · intro hnmem hroom
      have hneg : ¬ 0 ≤ _binary_search (ms ++ [0]) value := fun h => hnmem (hiff.mp h)
      have hr' : ¬ G_MAXINT ≤ ((ms ++ [0]).length : Int) + 1 := by
        simp only [List.length_append, List.length_singleton]; push_cast; omega
      simp only [hneg, if_false, hr']
      rcases _binary_search_spec ms value hs with ⟨h0, -⟩ | ⟨p, hp, hple, hlo, hhi⟩
      · exact absurd h0 hneg
      · have hpn : (-_binary_search (ms ++ [0]) value - 1).toNat = p := by omega
        rw [hpn, g_ptr_array_insert_append ms p value hple]
        refine ⟨trivial, nm_multi_index_wf_insert hwf id _ ?_ ?_ ?_, ?_⟩
        · intro h
          have := (mem_g_ptr_array_insert ms p value value).mpr (Or.inl rfl)
          rw [h] at this; simp at this
        · exact g_ptr_array_insert_sorted ms p value hs hlo hhi
        · intro m hm
          rcases (mem_g_ptr_array_insert ms p value m).mp hm with rfl | hm
          · exact hv
          · exact hnn m hm
        · intro id' x
          rw [nm_multi_index_members_insert]
          by_cases h : id = id'
          · subst h
            simp only [if_true, nm_multi_index_members_of_lookup hl, mem_g_ptr_array_insert,
              true_and]
            exact or_comm
          · have h' : ¬ id' = id := fun e => h e.symm
            simp [h, h']

theorem nm_multi_index_members_remove {index : NMMultiIndex Id}
    (hn : (index.hash.map Prod.fst).Nodup) (id id' : Id) :
    nm_multi_index_members ({ hash := g_hash_table_remove index.hash id } : NMMultiIndex Id) id' =
      if id = id' then [] else nm_multi_index_members index id' := by
  simp only [nm_multi_index_members, nm_multi_index_lookup, g_hash_table_lookup_remove _ _ _ hn]
  by_cases h : id = id'
  · simp [h]
  · simp [h]

theorem nm_multi_index_wf_remove {index : NMMultiIndex Id} (hwf : nm_multi_index_wf index)
    (id : Id) :
    nm_multi_index_wf ({ hash := g_hash_table_remove index.hash id } : NMMultiIndex Id) := by
  have hsub := g_hash_table_remove_sublist index.hash id
  refine ⟨List.Nodup.sublist (List.Sublist.map Prod.fst hsub) hwf.1, ?_⟩
  intro e he
  exact hwf.2 e (hsub.subset he)

theorem _do_add_members_other (index : NMMultiIndex Id) (id id' : Id) (value : Nat)
    (h : id' ≠ id) :
    nm_multi_index_members (_do_add index id value).2 id' = nm_multi_index_members index id' := by
  have h' : ¬ id = id' := fun e => h e.symm
  unfold _do_add
  cases hl : g_hash_table_lookup index.hash id with
  | none =>
    simp [nm_multi_index_members, nm_multi_index_lookup, g_hash_table_lookup_insert, h']
  | some array =>
    simp only
    split
    · rfl
    · split
      · rfl
      · simp [nm_multi_index_members, nm_multi_index_lookup, g_hash_table_lookup_insert, h']

theorem _do_remove_members_other {index : NMMultiIndex Id}
    (hn : (index.hash.map Prod.fst).Nodup) (id id' : Id) (value : Nat) (h : id' ≠ id) :
    nm_multi_index_members (_do_remove index id value).2 id' =
      nm_multi_index_members index id' := by
  have h' : ¬ id = id' := fun e => h e.symm
  unfold _do_remove
  cases hl : g_hash_table_lookup index.hash id with
  | none => rfl
  | some array =>
    simp only
    split
    · split
      · rfl
      · simp [nm_multi_index_members, nm_multi_index_lookup,
          g_hash_table_lookup_remove _ _ _ hn, h']
    · split
      · rfl
      · simp [nm_multi_index_members, nm_multi_index_lookup, g_hash_table_lookup_insert, h']

theorem nm_multi_index_room_of_has_room {index : NMMultiIndex Id}
    (h : nm_multi_index_has_room index) (id : Id) :
    ((nm_multi_index_members index id).length : Int) + 2 < G_MAXINT := by
  unfold nm_multi_index_members nm_multi_index_lookup
  cases hl : g_hash_table_lookup index.hash id with
  | none => simp [G_MAXINT]
  | some array =>
    have := h _ (mem_of_g_hash_table_lookup _ _ _ hl)
    simp only [List.length_take, G_MAXINT] at this ⊢
    omega

/-- Specification of `_do_remove`: it fails without effect when the value is not a member of
the group, and otherwise removes exactly the pair of the group and the value. -/
theorem _do_remove_spec {index : NMMultiIndex Id} (hwf : nm_multi_index_wf index)
    (id : Id) (value : Nat) :
    (value ∉ nm_multi_index_members index id → _do_remove index id value = (false, index)) ∧
    (value ∈ nm_multi_index_members index id →
      (_do_remove index id value).1 = true ∧ nm_multi_index_wf (_do_remove index id value).2 ∧
      ∀ id' x, x ∈ nm_multi_index_members (_do_remove index id value).2 id' ↔
        (x ∈ nm_multi_index_members index id' ∧ ¬ (id' = id ∧ x = value))) := by
  unfold _do_remove
  cases hl : g_hash_table_lookup index.hash id with
  | none =>
    simp [nm_multi_index_members_of_lookup_none hl]
  | some array =>
    obtain ⟨ms, rfl, hne, hs, hnn⟩ := nm_multi_index_wf_lookup hwf hl
    simp only [nm_multi_index_members_of_lookup hl]
    by_cases hlen : (ms ++ [0]).length ≤ 2
    · simp only [hlen, if_true]
      have hms : ∃ m, ms = [m] := by
        match ms, hne, hlen with
        | [m], _, _ => exact ⟨m, rfl⟩
        | _ :: _ :: _, _, h => simp at h
      obtain ⟨m, rfl⟩ := hms
      by_cases hm : m = value
      · subst hm
        simp only [List.singleton_append, List.getD_cons_zero, ne_eq, not_true_eq_false,
          if_false, List.mem_singleton, not_true_eq_false, false_implies, true_implies, true_and]
        refine ⟨nm_multi_index_wf_remove hwf id, ?_⟩
        intro id' x
        rw [nm_multi_index_members_remove hwf.1]
        by_cases h : id = id'
        · subst h
          simp [nm_multi_index_members_of_lookup hl]
        · have h' : ¬ id' = id := fun e => h e.symm
          simp [h, h']
      · have hm' : ¬ value = m := fun e => hm e.symm
        simp [hm, hm']
    · simp only [hlen, if_false]
      have hiff := _binary_search_nonneg_iff ms value hs
      constructor
      · intro hnmem
        have : _binary_search (ms ++ [0]) value < 0 := by
          by_contra h
          exact hnmem (hiff.mp (by omega))
        simp [this]
      · intro hmem
        have hnn0 : ¬ _binary_search (ms ++ [0]) value < 0 := by
          have := hiff.mpr hmem; omega
        simp only [hnn0, if_false]
        rcases _binary_search_spec ms value hs with ⟨h0, h1, h2⟩ | ⟨p, hp, -⟩
        · have hlt : (_binary_search (ms ++ [0]) value).toNat < ms.length := by omega
          rw [g_ptr_array_remove_index_append ms _ hlt,
            g_ptr_array_remove_index_eq_erase ms _ (sorted_nodup hs) hlt, h2]
          have hlen2 : 2 ≤ ms.length := by simp at hlen; omega
          refine ⟨trivial, nm_multi_index_wf_insert hwf id _ ?_ ?_ ?_, ?_⟩
          · intro h
            have := congrArg List.length h
            rw [List.length_erase_of_mem hmem] at this
            simp at this; omega
          · exact List.Pairwise.sublist (List.erase_sublist _ _) hs
          · intro m hm
            exact hnn m (List.mem_of_mem_erase hm)
          · intro id' x
            rw [nm_multi_index_members_insert]
            by_cases h : id = id'
            · subst h
              simp only [if_true, nm_multi_index_members_of_lookup hl, true_and,
                (sorted_nodup hs).mem_erase_iff]
              exact and_comm
            · have h' : ¬ id' = id := fun e => h e.symm
              simp [h, h']
        · omega

end IndexSpec


section MoveSpec
variable {Id : Type} [DecidableEq Id]

/-- Specification of `nm_multi_index_move` when the value is in the old group and not in a
different new group: the call succeeds and the value is afterwards in the new group only. -/
theorem nm_multi_index_move_spec {index : NMMultiIndex Id} (hwf : nm_multi_index_wf index)
    (value : Nat) (hv : value ≠ 0) (id_old id_new : Option Id)
    (hin : ∀ g, id_old = some g → value ∈ nm_multi_index_members index g)
    (hout : ∀ g, id_new = some g → id_old ≠ some g → value ∉ nm_multi_index_members index g)
    (hroom : ∀ g, id_new = some g →
      ((nm_multi_index_members index g).length : Int) + 2 < G_MAXINT) :
    (nm_multi_index_move index id_old id_new value).1 = true ∧
    nm_multi_index_wf (nm_multi_index_move index id_old id_new value).2 ∧
    (∀ g x, x ∈ nm_multi_index_members (nm_multi_index_move index id_old id_new value).2 g ↔
      if x = value ∧ (id_old = some g ∨ id_new = some g) then id_new = some g
      else x ∈ nm_multi_index_members index g) ∧
    (∀ g, id_old ≠ some g → id_new ≠ some g →
      nm_multi_index_members (nm_multi_index_move index id_old id_new value).2 g =
        nm_multi_index_members index g) := by
  unfold nm_multi_index_move
  simp only [hv, if_false]
  cases id_old with
  | none =>
    cases id_new with
    | none => simp [hwf]
    | some gn =>
      simp only
      have hnot := hout gn rfl (by simp)
      obtain ⟨a, b, c⟩ := (_do_add_spec hwf gn value hv).2 hnot (hroom gn rfl)
      refine ⟨a, b, ?_, ?_⟩
      · intro g x
        rw [c g x]
        by_cases hx : x = value
        · by_cases hg : gn = g
          · subst hg; simp [hx]
          · have hg' : ¬ g = gn := fun e => hg e.symm
            simp [hx, hg, hg']
        · simp [hx]
      · intro g _ hg
        have : g ≠ gn := fun e => hg (by rw [e])
        exact _do_add_members_other index gn g value this
  | some go =>
    cases id_new with
    | none =>
      simp only
      obtain ⟨a, b, c⟩ := (_do_remove_spec hwf go value).2 (hin go rfl)
      refine ⟨a, b, ?_, ?_⟩
      · intro g x
        rw [c g x]
        by_cases hx : x = value
        · by_cases hg : go = g
          · subst hg; simp [hx]
          · have hg' : ¬ g = go := fun e => hg e.symm
            simp [hx, hg, hg']
        · simp [hx]
      · intro g hg _
        have : g ≠ go := fun e => hg (by rw [e])
        exact _do_remove_members_other hwf.1 go g value this
    | some gn =>
      simp only
      by_cases he : go = gn
      · subst he
        have := (_do_add_spec hwf go value hv).1 (hin go rfl)
        simp only [this, if_true]
        refine ⟨trivial, hwf, ?_, ?_⟩
        · intro g x
          by_cases hx : x = value
          · by_cases hg : go = g
            · subst hg; simp [hx, hin go rfl]
            · simp [hx, hg]
          · simp [hx]
        · intro g _ _; trivial
      · simp only [he, if_false]
        obtain ⟨a, b, c⟩ := (_do_remove_spec hwf go value).2 (hin go rfl)
        have hnot : value ∉ nm_multi_index_members (_do_remove index go value).2 gn := by
          rw [c gn value]
          intro h
          exact hout gn rfl (by simpa using he) h.1
        have hroom' : ((nm_multi_index_members (_do_remove index go value).2 gn).length : Int)
            + 2 < G_MAXINT := by
          rw [_do_remove_members_other hwf.1 go gn value (fun e => he e.symm)]
          exact hroom gn rfl
        obtain ⟨a', b', c'⟩ := (_do_add_spec b gn value hv).2 hnot hroom'
        refine ⟨?_, b', ?_, ?_⟩
        · simp only [a, a', Bool.and_self]
        · intro g x
          rw [c' g x, c g x]
          by_cases hx : x = value
          · by_cases hg : go = g
            · subst hg
              have : ¬ gn = go := fun e => he e.symm
              simp [hx, he, this]
            · have hg' : ¬ g = go := fun e => hg e.symm
              by_cases hg2 : gn = g
              · subst hg2; simp [hx, hg]
              · have hg2' : ¬ g = gn := fun e => hg2 e.symm
                simp [hx, hg, hg', hg2, hg2']
          · simp [hx]
        · intro g hg hg2
          have n1 : g ≠ go := fun e => hg (by rw [e])
          have n2 : g ≠ gn := fun e => hg2 (by rw [e])
          rw [_do_add_members_other _ gn g value n2, _do_remove_members_other hwf.1 go g value n1]

end MoveSpec
/-! ## Identity of objects -/

theorem cmd_plobj_id_equal_iff (a b : NMPObjectData) :
    cmd_plobj_id_equal a b = true ↔ object_identity a = object_identity b := by
  cases a <;> cases b <;>
    simp [cmd_plobj_id_equal, object_identity, cmd_plobj_id_copy, zeroed_data,
      NMPObjectData._class, _vt_cmd_plobj_id_equal_link, _vt_cmd_plobj_id_equal_ip4_address,
      _vt_cmd_plobj_id_equal_ip6_address, _vt_cmd_plobj_id_equal_ip4_route,
      _vt_cmd_plobj_id_equal_ip6_route, _vt_cmd_plobj_id_copy_link,
      _vt_cmd_plobj_id_copy_ip4_address, _vt_cmd_plobj_id_copy_ip6_address,
      _vt_cmd_plobj_id_copy_ip4_route, _vt_cmd_plobj_id_copy_ip6_route] <;> tauto

theorem object_identity_class {a b : NMPObjectData} (h : object_identity a = object_identity b) :
    a._class = b._class := by
  revert h
  cases a <;> cases b <;>
    simp [object_identity, cmd_plobj_id_copy, zeroed_data, NMPObjectData._class]

theorem object_identity_cmd_obj_copy (dst src : NMPObjectData) (M : NMPObjectAspects)
    (hc : dst._class = src._class) :
    object_identity (cmd_obj_copy dst src M) = object_identity src := by
  cases dst <;> cases src <;> simp [NMPObjectData._class] at hc <;>
    simp only [cmd_obj_copy, _vt_cmd_obj_copy_plain, _vt_cmd_obj_copy_link] <;>
    split_ifs <;>
    simp [object_identity, cmd_plobj_id_copy, zeroed_data,
      NMPObjectData._class, _vt_cmd_plobj_id_copy_link,
      _vt_cmd_plobj_id_copy_ip4_address, _vt_cmd_plobj_id_copy_ip6_address,
      _vt_cmd_plobj_id_copy_ip4_route, _vt_cmd_plobj_id_copy_ip6_route]

/-! ## The heap operations and the identity of objects -/

theorem nmp_object_id_equal_iff (h : Heap) (p q : Nat) (hp : p ≠ 0) (hq : q ≠ 0) (hpq : p ≠ q) :
    nmp_object_id_equal h p q = true ↔ ptr_key h p = ptr_key h q ∧ ptr_key h p ≠ none := by
  unfold nmp_object_id_equal ptr_key
  simp only [hpq, hp, hq, if_false, or_self]
  cases hhp : h p with
  | none => simp
  | some a =>
    cases hhq : h q with
    | none => simp
    | some b =>
      simp only [nmp_object_id_equal_value, NMP_OBJECT_GET_CLASS]
      by_cases ha : 0 < a._ref_count
      · by_cases hb : 0 < b._ref_count
        · simp only [ha, hb, not_true_eq_false, if_false, if_true, ne_eq, Option.some.injEq,
            not_false_eq_true, and_true, reduceCtorEq]
          constructor
          · intro hc
            split at hc
            · exact absurd hc (by simp)
            · exact (cmd_plobj_id_equal_iff _ _).mp hc
          · intro hc
            have := object_identity_class hc
            simp [this, (cmd_plobj_id_equal_iff _ _).mpr hc]
        · simp [ha, hb]
      · simp [ha]

theorem nmp_object_id_equal_congr (h h' : Heap) (p q : Nat)
    (h1 : ptr_key h' p = ptr_key h p) (h2 : ptr_key h' q = ptr_key h q) :
    nmp_object_id_equal h' p q = nmp_object_id_equal h p q := by
  by_cases hpq : p = q
  · simp [nmp_object_id_equal, hpq]
  · by_cases hp : p = 0
    · simp [nmp_object_id_equal, hpq, hp]
    · by_cases hq : q = 0
      · simp [nmp_object_id_equal, hpq, hq]
      · have a := nmp_object_id_equal_iff h p q hp hq hpq
        have b := nmp_object_id_equal_iff h' p q hp hq hpq
        rw [h1, h2] at b
        rw [Bool.eq_iff_iff, a, b]

theorem nmp_object_id_equal_comm (h : Heap) (p q : Nat) :
    nmp_object_id_equal h p q = nmp_object_id_equal h q p := by
  by_cases hpq : p = q
  · simp [hpq]
  · have hqp : q ≠ p := fun e => hpq e.symm
    by_cases hp : p = 0
    · subst hp
      simp [nmp_object_id_equal, hqp, Ne.symm hqp]
    · by_cases hq : q = 0
      · subst hq
        simp [nmp_object_id_equal, hp, Ne.symm hp]
      · have a := nmp_object_id_equal_iff h p q hp hq hpq
        have b := nmp_object_id_equal_iff h q p hq hp hqp
        rw [Bool.eq_iff_iff, a, b]
        constructor
        · rintro ⟨e, n⟩; exact ⟨e.symm, e ▸ n⟩
        · rintro ⟨e, n⟩; exact ⟨e.symm, e ▸ n⟩

theorem find?_congr_mem {α : Type} (l : List α) (f g : α → Bool) (h : ∀ x ∈ l, f x = g x) :
    l.find? f = l.find? g := by
  induction l with
  | nil => rfl
  | cons a l ih =>
    simp only [List.find?_cons, h a (List.mem_cons_self _ _)]
    rw [ih (fun x hx => h x (List.mem_cons_of_mem _ hx))]

theorem g_hash_table_lookup_main_congr (h h' : Heap) (idx : List Nat) (key : Nat)
    (h1 : ∀ k ∈ idx, ptr_key h' k = ptr_key h k) (h2 : ptr_key h' key = ptr_key h key) :
    g_hash_table_lookup_main h' idx key = g_hash_table_lookup_main h idx key := by
  unfold g_hash_table_lookup_main
  have : ∀ k ∈ idx, nmp_object_id_equal h' k key = nmp_object_id_equal h k key :=
    fun k hk => nmp_object_id_equal_congr h h' k key (h1 k hk) h2
  rw [find?_congr_mem idx _ _ this]

theorem g_hash_table_lookup_main_eq_zero {h : Heap} {idx : List Nat} {key : Nat}
    (hnz : ∀ k ∈ idx, k ≠ 0) (h0 : g_hash_table_lookup_main h idx key = 0) :
    ∀ k ∈ idx, nmp_object_id_equal h k key = false := by
  unfold g_hash_table_lookup_main at h0
  cases hf : idx.find? (fun k => nmp_object_id_equal h k key) with
  | none =>
    intro k hk
    have := List.find?_eq_none.mp hf k hk
    simpa using this
  | some k =>
    rw [hf] at h0
    simp only at h0
    exact absurd h0 (hnz k (List.mem_of_find?_eq_some hf))

theorem g_hash_table_lookup_main_ne_zero {h : Heap} {idx : List Nat} {key : Nat}
    (h0 : g_hash_table_lookup_main h idx key ≠ 0) :
    g_hash_table_lookup_main h idx key ∈ idx ∧
      nmp_object_id_equal h (g_hash_table_lookup_main h idx key) key = true := by
  unfold g_hash_table_lookup_main at h0 ⊢
  cases hf : idx.find? (fun k => nmp_object_id_equal h k key) with
  | none => rw [hf] at h0; simp at h0
  | some k =>
    simp only
    exact ⟨List.mem_of_find?_eq_some hf, by simpa using List.find?_some hf⟩


theorem ptr_key_update_ne (h : Heap) (p q : Nat) (v : Option NMPObject) (hq : q ≠ p) :
    ptr_key (Function.update h p v) q = ptr_key h q := by
  simp [ptr_key, Function.update, hq]

theorem NMP_OBJECT_IS_VALID_update_ne (h : Heap) (p q : Nat) (v : Option NMPObject)
    (hq : q ≠ p) :
    NMP_OBJECT_IS_VALID (Function.update h p v) q = NMP_OBJECT_IS_VALID h q := by
  simp [NMP_OBJECT_IS_VALID, Function.update, hq]

theorem is_cached_at_update_ne (h : Heap) (p q : Nat) (v : Option NMPObject) (hq : q ≠ p) :
    is_cached_at (Function.update h p v) q = is_cached_at h q := by
  simp [is_cached_at, Function.update, hq]

theorem nmp_object_get_heap (h : Heap) (p : Nat) :
    (nmp_object_get h p).2 = h ∨
      ∃ o, h p = some o ∧ 0 < o._ref_count ∧
        (nmp_object_get h p).2 =
          Function.update h p (some { o with _ref_count := o._ref_count + 1 }) := by
  unfold nmp_object_get
  by_cases hv : NMP_OBJECT_IS_VALID h p = true
  · cases hp : h p with
    | none => simp [hv]
    | some o =>
      have h0 : 0 < o._ref_count := by
        have : ¬ p = 0 ∧ 0 < o._ref_count := by simpa [NMP_OBJECT_IS_VALID, hp] using hv
        exact this.2
      by_cases hs : o._ref_count = NMP_REF_COUNT_INITSTACK
      · simp [hv, hs]
      · simp [hv, hs, h0]
  · simp [hv]

theorem ptr_key_nmp_object_get (h : Heap) (p q : Nat) :
    ptr_key (nmp_object_get h p).2 q = ptr_key h q := by
  rcases nmp_object_get_heap h p with e | ⟨o, hp, h0, e⟩
  · rw [e]
  · rw [e]
    by_cases hq : q = p
    · subst hq
      have : 0 < o._ref_count + 1 := by omega
      simp [ptr_key, hp, h0, this]
    · exact ptr_key_update_ne _ _ _ _ hq

theorem NMP_OBJECT_IS_VALID_nmp_object_get (h : Heap) (p q : Nat) :
    NMP_OBJECT_IS_VALID (nmp_object_get h p).2 q = NMP_OBJECT_IS_VALID h q := by
  rcases nmp_object_get_heap h p with e | ⟨o, hp, h0, e⟩
  · rw [e]
  · rw [e]
    by_cases hq : q = p
    · subst hq
      have : 0 < o._ref_count + 1 := by omega
      simp [NMP_OBJECT_IS_VALID, hp, h0, this]
    · exact NMP_OBJECT_IS_VALID_update_ne _ _ _ _ hq

theorem is_cached_at_nmp_object_get (h : Heap) (p q : Nat) :
    is_cached_at (nmp_object_get h p).2 q = is_cached_at h q := by
  rcases nmp_object_get_heap h p with e | ⟨o, hp, h0, e⟩
  · rw [e]
  · rw [e]
    by_cases hq : q = p
    · subst hq
      simp [is_cached_at, hp]
    · exact is_cached_at_update_ne _ _ _ _ hq

theorem ptr_key_set_is_cached (h : Heap) (p q : Nat) (v : Bool) :
    ptr_key (set_is_cached h p v) q = ptr_key h q := by
  unfold set_is_cached
  cases hp : h p with
  | none => rfl
  | some o =>
    by_cases hq : q = p
    · subst hq; simp [ptr_key, hp]
    · exact ptr_key_update_ne _ _ _ _ hq

theorem NMP_OBJECT_IS_VALID_set_is_cached (h : Heap) (p q : Nat) (v : Bool) :
    NMP_OBJECT_IS_VALID (set_is_cached h p v) q = NMP_OBJECT_IS_VALID h q := by
  unfold set_is_cached
  cases hp : h p with
  | none => rfl
  | some o =>
    by_cases hq : q = p
    · subst hq; simp [NMP_OBJECT_IS_VALID, hp]
    · exact NMP_OBJECT_IS_VALID_update_ne _ _ _ _ hq

theorem is_cached_at_set_is_cached_ne (h : Heap) (p q : Nat) (v : Bool) (hq : q ≠ p) :
    is_cached_at (set_is_cached h p v) q = is_cached_at h q := by
  unfold set_is_cached
  cases hp : h p with
  | none => rfl
  | some o => exact is_cached_at_update_ne _ _ _ _ hq

theorem is_cached_at_set_is_cached_same (h : Heap) (p : Nat) (v : Bool)
    (hv : NMP_OBJECT_IS_VALID h p = true) : is_cached_at (set_is_cached h p v) p = v := by
  unfold set_is_cached
  cases hp : h p with
  | none => simp [NMP_OBJECT_IS_VALID, hp] at hv
  | some o => simp [is_cached_at]

theorem nmp_object_copy_heap (h : Heap) (dst src : Nat) (M : NMPObjectAspects) :
    nmp_object_copy h dst src M = h ∨
      ∃ d s, h dst = some d ∧ h src = some s ∧ 0 < d._ref_count ∧ 0 < s._ref_count ∧
        dst ≠ 0 ∧ src ≠ 0 ∧ src ≠ dst ∧ d.data._class = s.data._class ∧
        d._ref_count ≠ NMP_REF_COUNT_INITSTACK ∧
        nmp_object_copy h dst src M =
          Function.update h dst (some { d with data := cmd_obj_copy d.data s.data M }) := by
  unfold nmp_object_copy
  by_cases hvd : NMP_OBJECT_IS_VALID h dst = true
  · by_cases hvs : NMP_OBJECT_IS_VALID h src = true
    · by_cases hne : src = dst
      · simp [hvd, hvs, hne]
      · cases hd : h dst with
        | none => simp [NMP_OBJECT_IS_VALID, hd] at hvd
        | some d =>
          cases hs : h src with
          | none => simp [NMP_OBJECT_IS_VALID, hs] at hvs
          | some s =>
            have hd0 : dst ≠ 0 ∧ 0 < d._ref_count := by
              simpa [NMP_OBJECT_IS_VALID, hd] using hvd
            have hs0 : src ≠ 0 ∧ 0 < s._ref_count := by
              simpa [NMP_OBJECT_IS_VALID, hs] using hvs
            simp only [hvd, hvs, hne, Bool.not_true, Bool.false_eq_true, if_false]
            unfold nmp_object_copy_value
            by_cases c3 : d._ref_count = NMP_REF_COUNT_INITSTACK
            · left
              simp [hd0.2, hs0.2, c3, ← hd]
            · by_cases c4 : NMP_OBJECT_GET_CLASS d = NMP_OBJECT_GET_CLASS s
              · right
                refine ⟨d, s, rfl, rfl, hd0.2, hs0.2, hd0.1, hs0.1, hne, c4, c3, ?_⟩
                simp [hd0.2, hs0.2, c3, c4]
              · left
                simp [hd0.2, hs0.2, c3, c4, ← hd]
    · simp [hvd, hvs]
  · simp [hvd]

theorem NMP_OBJECT_IS_VALID_nmp_object_copy (h : Heap) (dst src q : Nat) (M : NMPObjectAspects) :
    NMP_OBJECT_IS_VALID (nmp_object_copy h dst src M) q = NMP_OBJECT_IS_VALID h q := by
  rcases nmp_object_copy_heap h dst src M with e | ⟨d, s, hd, hs, hd0, hs0, -, -, -, -, -, e⟩
  · rw [e]
  · rw [e]
    by_cases hq : q = dst
    · subst hq
      simp [NMP_OBJECT_IS_VALID, hd]
    · exact NMP_OBJECT_IS_VALID_update_ne _ _ _ _ hq

theorem is_cached_at_nmp_object_copy (h : Heap) (dst src q : Nat) (M : NMPObjectAspects) :
    is_cached_at (nmp_object_copy h dst src M) q = is_cached_at h q := by
  rcases nmp_object_copy_heap h dst src M with e | ⟨d, s, hd, hs, hd0, hs0, -, -, -, -, -, e⟩
  · rw [e]
  · rw [e]
    by_cases hq : q = dst
    · subst hq
      simp [is_cached_at, hd]
    · exact is_cached_at_update_ne _ _ _ _ hq

theorem ptr_key_nmp_object_copy (h : Heap) (dst src q : Nat) (M : NMPObjectAspects)
    (he : nmp_object_id_equal h dst src = true) :
    ptr_key (nmp_object_copy h dst src M) q = ptr_key h q := by
  rcases nmp_object_copy_heap h dst src M with e | ⟨d, s, hd, hs, hd0, hs0, n1, n2, n3, hc, -, e⟩
  · rw [e]
  · rw [e]
    by_cases hq : q = dst
    · subst hq
      have hk := (nmp_object_id_equal_iff h q src n1 n2 (fun e => n3 e.symm)).mp he
      simp only [ptr_key, hd, hs, hd0, hs0, if_true, Option.some.injEq] at hk
      simp only [ptr_key, Function.update_same, hd, hd0, if_true, Option.some.injEq]
      rw [object_identity_cmd_obj_copy _ _ _ hc, hk.1]
    · exact ptr_key_update_ne _ _ _ _ hq

theorem nmp_object_put_ne (h : Heap) (p q : Nat) (hq : q ≠ p) : nmp_object_put h p q = h q := by
  unfold nmp_object_put
  by_cases hp0 : p = 0
  · simp [hp0]
  · cases hp : h p with
    | none => simp [hp0]
    | some o =>
      simp only [hp0, if_false]
      split_ifs <;> simp [Function.update, hq]

theorem nmp_object_put_owned (h : Heap) (p : Nat) (o : NMPObject) (hp : h p = some o)
    (h1 : 1 < o._ref_count) :
    ptr_key (nmp_object_put h p) p = ptr_key h p ∧
    NMP_OBJECT_IS_VALID (nmp_object_put h p) p = NMP_OBJECT_IS_VALID h p ∧
    is_cached_at (nmp_object_put h p) p = is_cached_at h p := by
  unfold nmp_object_put
  by_cases hp0 : p = 0
  · simp [hp0]
  · have a : 0 < o._ref_count := by omega
    have b : ¬ o._ref_count - 1 ≤ 0 := by omega
    have c : 0 < o._ref_count - 1 := by omega
    by_cases hs : o._ref_count = NMP_REF_COUNT_INITSTACK
    · simp [hp0, hp, a, hs]
    · simp [hp0, hp, a, hs, b, ptr_key, NMP_OBJECT_IS_VALID, is_cached_at, c]

/-! ## The primary index under the cache operations -/

theorem nmp_cache_main_wf_transfer (s s' : Store)
    (hidx : s'.cache.idx_main = s.cache.idx_main)
    (hh : ∀ q ∈ s.cache.idx_main, ptr_key s'.heap q = ptr_key s.heap q ∧
      NMP_OBJECT_IS_VALID s'.heap q = NMP_OBJECT_IS_VALID s.heap q ∧
      is_cached_at s'.heap q = is_cached_at s.heap q)
    (hwf : nmp_cache_main_wf s) : nmp_cache_main_wf s' := by
  obtain ⟨h1, h2, h3⟩ := hwf
  refine ⟨hidx ▸ h1, ?_, ?_⟩
  · intro p hp
    rw [hidx] at hp
    obtain ⟨a, b, c⟩ := h2 p hp
    obtain ⟨_, e2, e3⟩ := hh p hp
    exact ⟨a, e2 ▸ b, e3 ▸ c⟩
  · intro p hp q hq he
    rw [hidx] at hp hq
    rw [nmp_object_id_equal_congr s.heap s'.heap p q (hh p hp).1 (hh q hq).1] at he
    exact h3 p hp q hq he

theorem _nmp_cache_update_cache_some {s s' : Store} {obj : Nat} {remove : Bool}
    (h : _nmp_cache_update_cache s obj remove = some s') :
    s'.heap = s.heap ∧ s'.cache.idx_main = s.cache.idx_main ∧
      ∃ o, s.heap obj = some o ∧
        _nmp_cache_update_cache_loop o.data obj remove NMP_CACHE_ID_TYPES s.cache.idx_multi =
          some s'.cache.idx_multi := by
  unfold _nmp_cache_update_cache at h
  cases ho : s.heap obj with
  | none => simp [ho] at h
  | some o =>
    simp only [ho] at h
    cases hl : _nmp_cache_update_cache_loop o.data obj remove NMP_CACHE_ID_TYPES
        s.cache.idx_multi with
    | none => simp [hl] at h
    | some idx =>
      simp only [hl, Option.some.injEq] at h
      subst h
      exact ⟨rfl, rfl, o, rfl, hl⟩

theorem _nmp_cache_update_add_some {s s' : Store} {obj : Nat}
    (h : _nmp_cache_update_add s obj = some s') :
    g_hash_table_lookup_main (nmp_object_get s.heap obj).2 s.cache.idx_main obj = 0 ∧
    s'.heap = set_is_cached (nmp_object_get s.heap obj).2 obj true ∧
    s'.cache.idx_main = obj :: s.cache.idx_main ∧
    ∃ o, s'.heap obj = some o ∧
      _nmp_cache_update_cache_loop o.data obj false NMP_CACHE_ID_TYPES s.cache.idx_multi =
        some s'.cache.idx_multi := by
  unfold _nmp_cache_update_add at h
  simp only at h
  split at h
  · simp at h
  · rename_i hl
    simp only [ne_eq, Decidable.not_not] at hl
    obtain ⟨a, b, o, c, d⟩ := _nmp_cache_update_cache_some h
    simp only at a b c d
    exact ⟨hl, a, b, o, a ▸ c, d⟩

theorem _nmp_cache_update_remove_some {s s' : Store} {obj : Nat}
    (h : _nmp_cache_update_remove s obj = some s') :
    g_hash_table_lookup_main (set_is_cached s.heap obj false) s.cache.idx_main obj ≠ 0 ∧
    s'.heap = nmp_object_put (set_is_cached s.heap obj false)
      (g_hash_table_lookup_main (set_is_cached s.heap obj false) s.cache.idx_main obj) ∧
    s'.cache.idx_main = s.cache.idx_main.erase
      (g_hash_table_lookup_main (set_is_cached s.heap obj false) s.cache.idx_main obj) ∧
    ∃ o, s.heap obj = some o ∧
      _nmp_cache_update_cache_loop o.data obj true NMP_CACHE_ID_TYPES s.cache.idx_multi =
        some s'.cache.idx_multi := by
  unfold _nmp_cache_update_remove at h
  cases h1 : _nmp_cache_update_cache s obj true with
  | none => simp [h1] at h
  | some s1 =>
    obtain ⟨a, b, o, c, d⟩ := _nmp_cache_update_cache_some h1
    simp only [h1, a, b] at h
    split at h
    · simp at h
    · rename_i hk
      simp only [Option.some.injEq] at h
      subst h
      exact ⟨hk, rfl, rfl, o, c, d⟩

theorem _nmp_cache_update_update_some {s s' : Store} {obj new_ : Nat} {M : NMPObjectAspects}
    (h : _nmp_cache_update_update s obj new_ M = some s') :
    s'.heap = nmp_object_copy s.heap obj new_ M ∧ s'.cache.idx_main = s.cache.idx_main ∧
    ∃ o n, s.heap obj = some o ∧ s.heap new_ = some n ∧
      _nmp_cache_update_update_loop o.data n.data obj NMP_CACHE_ID_TYPES s.cache.idx_multi =
        some s'.cache.idx_multi := by
  unfold _nmp_cache_update_update at h
  cases ho : s.heap obj with
  | none => simp [ho] at h
  | some o =>
    cases hn : s.heap new_ with
    | none => simp [ho, hn] at h
    | some n =>
      simp only [ho, hn] at h
      cases hl : _nmp_cache_update_update_loop o.data n.data obj NMP_CACHE_ID_TYPES
          s.cache.idx_multi with
      | none => simp [hl] at h
      | some idx =>
        simp only [hl, Option.some.injEq] at h
        subst h
        exact ⟨rfl, rfl, o, n, rfl, rfl, hl⟩


theorem nmp_cache_update_some {s : Store} {obj : Nat} {M : NMPObjectAspects} {b1 b2 : Bool}
    {r : NMPCacheOpsResult} (h : nmp_cache_update s obj M b1 b2 = some r) :
    ∃ old, g_hash_table_lookup_main s.heap s.cache.idx_main obj = old ∧
    ((old = 0 ∧
      nmp_object_is_alive s.heap obj = false ∧ r.ret = NMP_CACHE_OPS_UNCHANGED ∧
      r.out_obj = 0 ∧ r.out_was_visible = false ∧ r.store = s) ∨
    (old = 0 ∧
      nmp_object_is_alive s.heap obj = true ∧ r.ret = NMP_CACHE_OPS_ADDED ∧
      r.out_was_visible = false ∧
      _nmp_cache_update_add { s with heap := (out_obj_heap b1 s.heap obj) } obj = some r.store) ∨
    (old ≠ 0 ∧ old ≠ obj ∧
      nmp_object_equal (out_obj_heap b1 s.heap old) old obj M = true ∧
      r.ret = NMP_CACHE_OPS_UNCHANGED ∧
      r.store = { s with heap := (out_obj_heap b1 s.heap old) }) ∨
    (old ≠ 0 ∧ old ≠ obj ∧
      nmp_object_equal (out_obj_heap b1 s.heap old) old obj M = false ∧
      nmp_cache_update_alive (out_obj_heap b1 s.heap old) old obj M = false ∧
      r.ret = NMP_CACHE_OPS_REMOVED ∧
      _nmp_cache_update_remove { s with heap := (out_obj_heap b1 s.heap old) } old
        = some r.store) ∨
    (old ≠ 0 ∧ old ≠ obj ∧
      nmp_object_equal (out_obj_heap b1 s.heap old) old obj M = false ∧
      nmp_cache_update_alive (out_obj_heap b1 s.heap old) old obj M = true ∧
      r.ret = NMP_CACHE_OPS_UPDATED ∧
      _nmp_cache_update_update { s with heap := (out_obj_heap b1 s.heap old) } old obj M
        = some r.store)) := by
  unfold nmp_cache_update at h
  simp only at h
  generalize hold : g_hash_table_lookup_main s.heap s.cache.idx_main obj = old at h ⊢
  refine ⟨old, rfl, ?_⟩
  by_cases h0 : old = 0
  · simp only [h0, if_true] at h
    by_cases ha : nmp_object_is_alive s.heap obj = true
    · simp only [ha, Bool.not_true, Bool.false_eq_true, if_false] at h
      right; left
      cases hadd : _nmp_cache_update_add
          { s with heap := (if b1 = true then nmp_object_get s.heap obj else (0, s.heap)).2 }
          obj with
      | none => simp [hadd] at h
      | some s' =>
        simp only [hadd, Option.some.injEq] at h
        subst h
        exact ⟨h0, ha, rfl, rfl, hadd⟩
    · simp only [ha, Bool.not_false, if_true, Option.some.injEq] at h
      subst h
      left
      exact ⟨h0, by simpa using ha, rfl, rfl, rfl, rfl⟩
  · simp only [h0, if_false] at h
    by_cases h1 : old = obj
    · simp [h1] at h
    · simp only [h1, if_false] at h
      right; right
      have hg2 : out_obj_heap b1 s.heap old =
          (if b1 = true then nmp_object_get s.heap old else (0, s.heap)).2 := rfl
      rw [hg2]
      generalize (if b1 = true then nmp_object_get s.heap old else (0, s.heap)) = g at h ⊢
      split at h
      · rename_i he
        simp only [Option.some.injEq] at h
        subst h
        left
        exact ⟨h0, h1, he, rfl, rfl⟩
      · rename_i he
        right
        have he' : nmp_object_equal g.2 old obj M = false := by
          simpa using he
        unfold nmp_cache_update_alive
        split at h
        · rename_i o n ho hn
          try simp only [ho, hn]
          generalize (if has_other_aspects (NMP_OBJECT_GET_CLASS o) = true then
              cmd_obj_is_alive (nmp_object_copy_value (nmp_object_clone_value o false) n M).data
            else nmp_object_is_alive g.2 obj) = alive at h ⊢
          cases alive with
          | false =>
            left
            simp only [Bool.not_false, if_true] at h
            split at h
            · simp at h
            · rename_i s' hrm
              simp only [Option.some.injEq] at h
              subst h
              exact ⟨h0, h1, he', rfl, rfl, hrm⟩
          | true =>
            right
            simp only [Bool.not_true, Bool.false_eq_true, if_false] at h
            split at h
            · simp at h
            · rename_i s' hup
              simp only [Option.some.injEq] at h
              subst h
              exact ⟨h0, h1, he', rfl, rfl, hup⟩
        · simp at h

theorem nmp_cache_remove_some {s : Store} {obj : Nat} {b1 b2 : Bool}
    {r : NMPCacheOpsResult} (h : nmp_cache_remove s obj b1 b2 = some r) :
    ∃ old, g_hash_table_lookup_main s.heap s.cache.idx_main obj = old ∧
    ((old = 0 ∧ r.ret = NMP_CACHE_OPS_UNCHANGED ∧ r.out_obj = 0 ∧ r.out_was_visible = false ∧
      r.store = s) ∨
    (old ≠ 0 ∧ r.ret = NMP_CACHE_OPS_REMOVED ∧
      r.out_obj = (if b1 then (nmp_object_get s.heap old).1 else 0) ∧
      r.out_was_visible =
        (if b2 then nmp_object_is_visible (out_obj_heap b1 s.heap old) old else false) ∧
      _nmp_cache_update_remove { s with heap := (out_obj_heap b1 s.heap old) } old
        = some r.store)) := by
  unfold nmp_cache_remove at h
  simp only at h
  generalize hold : g_hash_table_lookup_main s.heap s.cache.idx_main obj = old at h ⊢
  refine ⟨old, rfl, ?_⟩
  by_cases h0 : old = 0
  · simp only [h0, if_true, Option.some.injEq] at h
    subst h
    left
    exact ⟨h0, rfl, rfl, rfl, rfl⟩
  · simp only [h0, if_false] at h
    right
    have hg2 : out_obj_heap b1 s.heap old =
        (if b1 = true then nmp_object_get s.heap old else (0, s.heap)).2 := rfl
    have hg1 : (if b1 = true then (nmp_object_get s.heap old).1 else 0) =
        (if b1 = true then nmp_object_get s.heap old else (0, s.heap)).1 := by
      cases b1 <;> rfl
    rw [hg2, hg1]
    generalize (if b1 = true then nmp_object_get s.heap old else (0, s.heap)) = g at h ⊢
    split at h
    · simp at h
    · rename_i s' hrm
      simp only [Option.some.injEq] at h
      subst h
      exact ⟨h0, rfl, rfl, rfl, hrm⟩

theorem nmp_cache_main_wf_out_obj_heap (s : Store) (b : Bool) (x : Nat)
    (hwf : nmp_cache_main_wf s) :
    nmp_cache_main_wf { s with heap := (out_obj_heap b s.heap x) } := by
  refine nmp_cache_main_wf_transfer s _ rfl ?_ hwf
  intro q _
  cases b
  · exact ⟨rfl, rfl, rfl⟩
  · exact ⟨ptr_key_nmp_object_get _ _ _, NMP_OBJECT_IS_VALID_nmp_object_get _ _ _,
      is_cached_at_nmp_object_get _ _ _⟩

theorem ptr_key_out_obj_heap (h : Heap) (b : Bool) (x q : Nat) :
    ptr_key (out_obj_heap b h x) q = ptr_key h q := by
  cases b
  · rfl
  · exact ptr_key_nmp_object_get _ _ _

theorem NMP_OBJECT_IS_VALID_out_obj_heap (h : Heap) (b : Bool) (x q : Nat) :
    NMP_OBJECT_IS_VALID (out_obj_heap b h x) q = NMP_OBJECT_IS_VALID h q := by
  cases b
  · rfl
  · exact NMP_OBJECT_IS_VALID_nmp_object_get _ _ _

theorem is_cached_at_out_obj_heap (h : Heap) (b : Bool) (x q : Nat) :
    is_cached_at (out_obj_heap b h x) q = is_cached_at h q := by
  cases b
  · rfl
  · exact is_cached_at_nmp_object_get _ _ _

theorem nmp_cache_main_wf_add {s s' : Store} {obj : Nat} (hwf : nmp_cache_main_wf s)
    (hv : NMP_OBJECT_IS_VALID s.heap obj = true) (hc : is_cached_at s.heap obj = false)
    (h : _nmp_cache_update_add s obj = some s') : nmp_cache_main_wf s' := by
  obtain ⟨hl, hheap, hidx, -⟩ := _nmp_cache_update_add_some h
  obtain ⟨h1, h2, h3⟩ := hwf
  have hnot : obj ∉ s.cache.idx_main := by
    intro hm
    have := (h2 obj hm).2.2
    rw [hc] at this
    exact absurd this (by simp)
  have hobj0 : obj ≠ 0 := by
    intro e; simp [NMP_OBJECT_IS_VALID, e] at hv
  have hkey : ∀ q, ptr_key s'.heap q = ptr_key s.heap q := by
    intro q; rw [hheap, ptr_key_set_is_cached, ptr_key_nmp_object_get]
  have hval : ∀ q, NMP_OBJECT_IS_VALID s'.heap q = NMP_OBJECT_IS_VALID s.heap q := by
    intro q; rw [hheap, NMP_OBJECT_IS_VALID_set_is_cached, NMP_OBJECT_IS_VALID_nmp_object_get]
  have hne : ∀ q ∈ s.cache.idx_main, nmp_object_id_equal s.heap q obj = false := by
    intro q hq
    have := g_hash_table_lookup_main_eq_zero (fun k hk => (h2 k hk).1) hl q hq
    rwa [nmp_object_id_equal_congr s.heap _ q obj (ptr_key_nmp_object_get _ _ _)
      (ptr_key_nmp_object_get _ _ _)] at this
  refine ⟨?_, ?_, ?_⟩
  · rw [hidx]; exact List.nodup_cons.mpr ⟨hnot, h1⟩
  · intro p hp
    rw [hidx] at hp
    rcases List.mem_cons.mp hp with rfl | hp
    · refine ⟨hobj0, (hval p).trans hv, ?_⟩
      rw [hheap]
      apply is_cached_at_set_is_cached_same
      rw [NMP_OBJECT_IS_VALID_nmp_object_get]; exact hv
    · have hpo : p ≠ obj := fun e => hnot (e ▸ hp)
      refine ⟨(h2 p hp).1, (hval p).trans (h2 p hp).2.1, ?_⟩
      rw [hheap, is_cached_at_set_is_cached_ne _ _ _ _ hpo, is_cached_at_nmp_object_get]
      exact (h2 p hp).2.2
  · intro p hp q hq he
    rw [hidx] at hp hq
    rw [nmp_object_id_equal_congr s.heap s'.heap p q (hkey p) (hkey q)] at he
    rcases List.mem_cons.mp hp with hp' | hp'
    · rcases List.mem_cons.mp hq with hq' | hq'
      · rw [hp', hq']
      · rw [hp', nmp_object_id_equal_comm, hne q hq'] at he
        exact absurd he (by simp)
    · rcases List.mem_cons.mp hq with hq' | hq'
      · rw [hq', hne p hp'] at he
        exact absurd he (by simp)
      · exact h3 p hp' q hq' he

theorem nmp_cache_main_wf_remove {s s' : Store} {obj : Nat} (hwf : nmp_cache_main_wf s)
    (hobj : obj ∈ s.cache.idx_main)
    (h : _nmp_cache_update_remove s obj = some s') :
    nmp_cache_main_wf s' ∧ s'.cache.idx_main = s.cache.idx_main.erase obj ∧
      s'.heap = nmp_object_put (set_is_cached s.heap obj false) obj := by
  obtain ⟨hk, hheap, hidx, -⟩ := _nmp_cache_update_remove_some h
  obtain ⟨h1, h2, h3⟩ := hwf
  have hkey : g_hash_table_lookup_main (set_is_cached s.heap obj false) s.cache.idx_main obj
      = obj := by
    obtain ⟨hm, he⟩ := g_hash_table_lookup_main_ne_zero hk
    rw [nmp_object_id_equal_congr s.heap _ _ obj (ptr_key_set_is_cached _ _ _ _)
      (ptr_key_set_is_cached _ _ _ _)] at he
    exact h3 _ hm obj hobj he
  rw [hkey] at hheap hidx
  refine ⟨⟨?_, ?_, ?_⟩, hidx, hheap⟩
  · rw [hidx]; exact h1.erase _
  · intro p hp
    rw [hidx] at hp
    have hp' := (h1.mem_erase_iff.mp hp)
    have hpm := hp'.2
    have hpo : p ≠ obj := hp'.1
    have e : s'.heap p = set_is_cached s.heap obj false p := by
      rw [hheap]; exact nmp_object_put_ne _ _ _ hpo
    refine ⟨(h2 p hpm).1, ?_, ?_⟩
    · have := NMP_OBJECT_IS_VALID_set_is_cached s.heap obj p false
      simp only [NMP_OBJECT_IS_VALID, e] at this ⊢
      rw [this]; exact (h2 p hpm).2.1
    · have := is_cached_at_set_is_cached_ne s.heap obj p false hpo
      simp only [is_cached_at, e] at this ⊢
      rw [this]; exact (h2 p hpm).2.2
  · intro p hp q hq he
    rw [hidx] at hp hq
    have hp' := (h1.mem_erase_iff.mp hp)
    have hq' := (h1.mem_erase_iff.mp hq)
    have kp : ptr_key s'.heap p = ptr_key s.heap p := by
      have e : s'.heap p = set_is_cached s.heap obj false p := by
        rw [hheap]; exact nmp_object_put_ne _ _ _ hp'.1
      have := ptr_key_set_is_cached s.heap obj p false
      simp only [ptr_key, e] at this ⊢
      exact this
    have kq : ptr_key s'.heap q = ptr_key s.heap q := by
      have e : s'.heap q = set_is_cached s.heap obj false q := by
        rw [hheap]; exact nmp_object_put_ne _ _ _ hq'.1
      have := ptr_key_set_is_cached s.heap obj q false
      simp only [ptr_key, e] at this ⊢
      exact this
    rw [nmp_object_id_equal_congr s.heap s'.heap p q kp kq] at he
    exact h3 p hp'.2 q hq'.2 he

theorem nmp_cache_main_wf_update {s s' : Store} {obj new_ : Nat} {M : NMPObjectAspects}
    (hwf : nmp_cache_main_wf s) (he : nmp_object_id_equal s.heap obj new_ = true)
    (h : _nmp_cache_update_update s obj new_ M = some s') : nmp_cache_main_wf s' := by
  obtain ⟨hheap, hidx, -⟩ := _nmp_cache_update_update_some h
  refine nmp_cache_main_wf_transfer s s' hidx ?_ hwf
  intro q _
  rw [hheap]
  exact ⟨ptr_key_nmp_object_copy _ _ _ _ _ he, NMP_OBJECT_IS_VALID_nmp_object_copy _ _ _ _ _,
    is_cached_at_nmp_object_copy _ _ _ _ _⟩

theorem nmp_cache_main_wf_of_update {s : Store} {obj : Nat} {M : NMPObjectAspects}
    {b1 b2 : Bool} {r : NMPCacheOpsResult} (hwf : nmp_cache_main_wf s)
    (hv : NMP_OBJECT_IS_VALID s.heap obj = true) (hc : is_cached_at s.heap obj = false)
    (h : nmp_cache_update s obj M b1 b2 = some r) : nmp_cache_main_wf r.store := by
  obtain ⟨old, hold, hcases⟩ := nmp_cache_update_some h
  rcases hcases with ⟨-, -, -, -, -, e⟩ | ⟨-, -, -, -, e⟩ | ⟨-, -, -, -, e⟩ |
    ⟨h0, -, -, -, -, e⟩ | ⟨h0, -, -, -, -, e⟩
  · rw [e]; exact hwf
  · refine nmp_cache_main_wf_add (nmp_cache_main_wf_out_obj_heap s b1 obj hwf) ?_ ?_ e
    · simp only [NMP_OBJECT_IS_VALID_out_obj_heap]; exact hv
    · simp only [is_cached_at_out_obj_heap]; exact hc
  · rw [e]; exact nmp_cache_main_wf_out_obj_heap s b1 old hwf
  · have hm := (g_hash_table_lookup_main_ne_zero (hold ▸ h0)).1
    rw [hold] at hm
    exact (nmp_cache_main_wf_remove (nmp_cache_main_wf_out_obj_heap s b1 old hwf) hm e).1
  · have hm := (g_hash_table_lookup_main_ne_zero (hold ▸ h0)).2
    rw [hold] at hm
    refine nmp_cache_main_wf_update (nmp_cache_main_wf_out_obj_heap s b1 old hwf) ?_ e
    simp only
    rw [nmp_object_id_equal_congr s.heap _ old obj (ptr_key_out_obj_heap _ _ _ _)
      (ptr_key_out_obj_heap _ _ _ _)]
    exact hm

theorem nmp_cache_main_wf_of_remove {s : Store} {obj : Nat}
    {b1 b2 : Bool} {r : NMPCacheOpsResult} (hwf : nmp_cache_main_wf s)
    (h : nmp_cache_remove s obj b1 b2 = some r) : nmp_cache_main_wf r.store := by
  obtain ⟨old, hold, hcases⟩ := nmp_cache_remove_some h
  rcases hcases with ⟨-, -, -, -, e⟩ | ⟨h0, -, -, -, e⟩
  · rw [e]; exact hwf
  · have hm := (g_hash_table_lookup_main_ne_zero (hold ▸ h0)).1
    rw [hold] at hm
    exact (nmp_cache_main_wf_remove (nmp_cache_main_wf_out_obj_heap s b1 old hwf) hm e).1

theorem ptr_key_congr {h h' : Heap} {q : Nat} (e : h' q = h q) : ptr_key h' q = ptr_key h q := by
  simp only [ptr_key, e]

theorem NMP_OBJECT_IS_VALID_congr {h h' : Heap} {q : Nat} (e : h' q = h q) :
    NMP_OBJECT_IS_VALID h' q = NMP_OBJECT_IS_VALID h q := by
  simp only [NMP_OBJECT_IS_VALID, e]

theorem is_cached_at_congr {h h' : Heap} {q : Nat} (e : h' q = h q) :
    is_cached_at h' q = is_cached_at h q := by
  simp only [is_cached_at, e]

theorem heap_some_of_valid {h : Heap} {p : Nat} (hv : NMP_OBJECT_IS_VALID h p = true) :
    p ≠ 0 ∧ ∃ o, h p = some o ∧ 0 < o._ref_count := by
  unfold NMP_OBJECT_IS_VALID at hv
  cases hp : h p with
  | none => simp [hp] at hv
  | some o =>
    simp only [hp, Bool.and_eq_true, bne_iff_ne, ne_eq, decide_eq_true_eq] at hv
    exact ⟨hv.1, o, rfl, hv.2⟩

/-- Every reachable cache state has a well-formed primary index. -/
theorem nmp_cache_main_wf_of_reachable {s : Store} (h : Reachable s) : nmp_cache_main_wf s := by
  induction h with
  | init =>
    refine ⟨List.nodup_nil, ?_, ?_⟩ <;> intro p hp <;> simp [nmp_cache_new] at hp
  | alloc s p o _ hp0 hnone href hcached ih =>
    refine nmp_cache_main_wf_transfer s _ rfl ?_ ih
    intro q hq
    have hqp : q ≠ p := by
      intro e
      obtain ⟨-, o', ho', -⟩ := heap_some_of_valid (ih.2.1 q hq).2.1
      rw [e, hnone] at ho'
      exact absurd ho' (by simp)
    exact ⟨ptr_key_update_ne _ _ _ _ hqp, NMP_OBJECT_IS_VALID_update_ne _ _ _ _ hqp,
      is_cached_at_update_ne _ _ _ _ hqp⟩
  | put s p _ hv hown ih =>
    refine nmp_cache_main_wf_transfer s _ rfl ?_ ih
    intro q hq
    by_cases hqp : q = p
    · subst hqp
      obtain ⟨-, o, ho, -⟩ := heap_some_of_valid hv
      have hc := (ih.2.1 q hq).2.2
      simp only [is_cached_at, ho] at hc
      exact nmp_object_put_owned s.heap q o ho (hown o ho hc)
    · have e := nmp_object_put_ne s.heap p q hqp
      exact ⟨ptr_key_congr e, NMP_OBJECT_IS_VALID_congr e, is_cached_at_congr e⟩
  | update s p M b1 b2 r _ hv _ hc hr ih => exact nmp_cache_main_wf_of_update ih hv hc hr
  | remove s p b1 b2 r _ _ hr ih => exact nmp_cache_main_wf_of_remove ih hr

/-! ## The secondary index under the cache operations -/

theorem cmd_obj_init_cache_id_type {d : NMPObjectData} {t : NMPCacheIdType} {g : NMPCacheId}
    (h : cmd_obj_init_cache_id d t = some (some g)) : g._id_type = t := by
  cases d <;> cases t <;>
    simp only [cmd_obj_init_cache_id, _vt_cmd_obj_init_cache_id_link,
      _vt_cmd_obj_init_cache_id_ip4_address, _vt_cmd_obj_init_cache_id_ip6_address,
      _vt_cmd_obj_init_cache_id_ip4_route, _vt_cmd_obj_init_cache_id_ip6_route,
      nmp_cache_id_init_links, nmp_cache_id_init_addrroute_by_ifindex,
      nmp_cache_id_init_routes_visible, nmp_cache_id_init, Bool.false_eq_true, if_false,
      if_true, reduceCtorEq, or_true, true_or, or_self] at h <;>
    (try split_ifs at h) <;>
    (try simp only [Option.some.injEq, reduceCtorEq] at h) <;>
    (try (subst h; rfl))

theorem cmd_obj_init_cache_id_none_class {a b : NMPObjectData} (t : NMPCacheIdType)
    (hc : a._class = b._class) :
    cmd_obj_init_cache_id a t = none ↔ cmd_obj_init_cache_id b t = none := by
  cases a <;> cases b <;> simp [NMPObjectData._class] at hc <;> cases t <;>
    simp only [cmd_obj_init_cache_id, _vt_cmd_obj_init_cache_id_link,
      _vt_cmd_obj_init_cache_id_ip4_address, _vt_cmd_obj_init_cache_id_ip6_address,
      _vt_cmd_obj_init_cache_id_ip4_route, _vt_cmd_obj_init_cache_id_ip6_route] <;>
    (try split_ifs) <;> simp

theorem _nmp_cache_update_cache_loop_add (d : NMPObjectData) (p : Nat) (hp : p ≠ 0) :
    ∀ (types : List NMPCacheIdType) (idx : NMMultiIndex NMPCacheId), types.Nodup →
      nm_multi_index_wf idx →
      (∀ g : NMPCacheId, g._id_type ∈ types →
        ((nm_multi_index_members idx g).length : Int) + 2 < G_MAXINT) →
      (∀ g : NMPCacheId, g._id_type ∈ types → p ∉ nm_multi_index_members idx g) →
      ∃ idx', _nmp_cache_update_cache_loop d p false types idx = some idx' ∧
        nm_multi_index_wf idx' ∧
        (∀ g x, x ∈ nm_multi_index_members idx' g ↔
          (x ∈ nm_multi_index_members idx g ∨
            (x = p ∧ g._id_type ∈ types ∧
              cmd_obj_init_cache_id d g._id_type = some (some g)))) ∧
        (∀ g : NMPCacheId, g._id_type ∉ types →
          nm_multi_index_members idx' g = nm_multi_index_members idx g) := by
  intro types
  induction types with
  | nil =>
    intro idx _ hwf _ _
    exact ⟨idx, rfl, hwf, by simp, by simp⟩
  | cons t rest ih =>
    intro idx hnd hwf hroom hnot
    have hnd' := List.nodup_cons.mp hnd
    have hroom' : ∀ g : NMPCacheId, g._id_type ∈ rest →
        ((nm_multi_index_members idx g).length : Int) + 2 < G_MAXINT :=
      fun g hg => hroom g (List.mem_cons_of_mem _ hg)
    have hnot' : ∀ g : NMPCacheId, g._id_type ∈ rest → p ∉ nm_multi_index_members idx g :=
      fun g hg => hnot g (List.mem_cons_of_mem _ hg)
    unfold _nmp_cache_update_cache_loop
    cases hd : cmd_obj_init_cache_id d t with
    | none =>
      simp only
      obtain ⟨idx', e, w, m, o⟩ := ih idx hnd'.2 hwf hroom' hnot'
      refine ⟨idx', e, w, ?_, ?_⟩
      · intro g x
        rw [m g x]
        by_cases hg : g._id_type = t
        · simp [hg, hd, hnd'.1]
        · simp [hg]
      · intro g hg
        exact o g (fun h => hg (List.mem_cons_of_mem _ h))
    | some oc =>
      cases oc with
      | none =>
        simp only
        obtain ⟨idx', e, w, m, o⟩ := ih idx hnd'.2 hwf hroom' hnot'
        refine ⟨idx', e, w, ?_, ?_⟩
        · intro g x
          rw [m g x]
          by_cases hg : g._id_type = t
          · simp [hg, hd, hnd'.1]
          · simp [hg]
        · intro g hg
          exact o g (fun h => hg (List.mem_cons_of_mem _ h))
      | some cid =>
        have hct := cmd_obj_init_cache_id_type hd
        have hcm : cid._id_type ∈ t :: rest := by rw [hct]; exact List.mem_cons_self _ _
        obtain ⟨a, b, c⟩ := (_do_add_spec hwf cid p hp).2 (hnot cid hcm) (hroom cid hcm)
        have hother : ∀ g : NMPCacheId, g._id_type ∈ rest →
            nm_multi_index_members (_do_add idx cid p).2 g = nm_multi_index_members idx g := by
          intro g hg
          apply _do_add_members_other
          intro e
          rw [e, hct] at hg
          exact hnd'.1 hg
        obtain ⟨idx', e, w, m, o⟩ := ih (_do_add idx cid p).2 hnd'.2 b
          (fun g hg => by rw [hother g hg]; exact hroom' g hg)
          (fun g hg => by rw [hother g hg]; exact hnot' g hg)
        have hadd : nm_multi_index_add idx cid p = (true, (_do_add idx cid p).2) := by
          unfold nm_multi_index_add
          simp only [hp, if_false]
          rw [← a]
        simp only [Bool.false_eq_true, if_false, hadd]
        refine ⟨idx', e, w, ?_, ?_⟩
        · intro g x
          rw [m g x, c g x]
          by_cases hg : g._id_type = t
          · have hgr : g._id_type ∉ rest := hg ▸ hnd'.1
            by_cases hgc : g = cid
            · subst hgc
              simp [hg, hd, hgr]
              intro h1 h2; exact absurd h2 hnd'.1
            · have : ¬ some (some cid) = some (some g) := by
                intro e; simp at e; exact hgc e.symm
              simp [hg, hd, hgr, hgc, this]
          · have hgc : g ≠ cid := by
              intro e; rw [e] at hg; exact hg hct
            simp [hg, hgc]
        · intro g hg
          have hg1 : g._id_type ∉ rest := fun h => hg (List.mem_cons_of_mem _ h)
          have hg2 : g ≠ cid := by
            intro e; rw [e, hct] at hg; exact hg (List.mem_cons_self _ _)
          rw [o g hg1]
          exact _do_add_members_other idx cid g p hg2


theorem _nmp_cache_update_cache_loop_remove (d : NMPObjectData) (p : Nat) (hp : p ≠ 0) :
    ∀ (types : List NMPCacheIdType) (idx : NMMultiIndex NMPCacheId), types.Nodup →
      nm_multi_index_wf idx →
      (∀ g : NMPCacheId, g._id_type ∈ types →
        cmd_obj_init_cache_id d g._id_type = some (some g) →
        p ∈ nm_multi_index_members idx g) →
      ∃ idx', _nmp_cache_update_cache_loop d p true types idx = some idx' ∧
        nm_multi_index_wf idx' ∧
        (∀ g x, x ∈ nm_multi_index_members idx' g ↔
          (x ∈ nm_multi_index_members idx g ∧
            ¬ (x = p ∧ g._id_type ∈ types ∧
              cmd_obj_init_cache_id d g._id_type = some (some g)))) ∧
        (∀ g : NMPCacheId, g._id_type ∉ types →
          nm_multi_index_members idx' g = nm_multi_index_members idx g) := by
  intro types
  induction types with
  | nil =>
    intro idx _ hwf _
    exact ⟨idx, rfl, hwf, by simp, by simp⟩
  | cons t rest ih =>
    intro idx hnd hwf hin
    have hnd' := List.nodup_cons.mp hnd
    have hin' : ∀ g : NMPCacheId, g._id_type ∈ rest →
        cmd_obj_init_cache_id d g._id_type = some (some g) →
        p ∈ nm_multi_index_members idx g :=
      fun g hg => hin g (List.mem_cons_of_mem _ hg)
    unfold _nmp_cache_update_cache_loop
    cases hd : cmd_obj_init_cache_id d t with
    | none =>
      simp only
      obtain ⟨idx', e, w, m, o⟩ := ih idx hnd'.2 hwf hin'
      refine ⟨idx', e, w, ?_, ?_⟩
      · intro g x
        rw [m g x]
        by_cases hg : g._id_type = t
        · simp [hg, hd, hnd'.1]
        · simp [hg]
      · intro g hg
        exact o g (fun h => hg (List.mem_cons_of_mem _ h))
    | some oc =>
      cases oc with
      | none =>
        simp only
        obtain ⟨idx', e, w, m, o⟩ := ih idx hnd'.2 hwf hin'
        refine ⟨idx', e, w, ?_, ?_⟩
        · intro g x
          rw [m g x]
          by_cases hg : g._id_type = t
          · simp [hg, hd, hnd'.1]
          · simp [hg]
        · intro g hg
          exact o g (fun h => hg (List.mem_cons_of_mem _ h))
      | some cid =>
        have hct := cmd_obj_init_cache_id_type hd
        have hcm : cid._id_type ∈ t :: rest := by rw [hct]; exact List.mem_cons_self _ _
        obtain ⟨a, b, c⟩ := (_do_remove_spec hwf cid p).2 (hin cid hcm (by rw [hct]; exact hd))
        have hother : ∀ g : NMPCacheId, g._id_type ∈ rest →
            nm_multi_index_members (_do_remove idx cid p).2 g =
              nm_multi_index_members idx g := by
          intro g hg
          apply _do_remove_members_other hwf.1
          intro e
          rw [e, hct] at hg
          exact hnd'.1 hg
        obtain ⟨idx', e, w, m, o⟩ := ih (_do_remove idx cid p).2 hnd'.2 b
          (fun g hg hdg => by rw [hother g hg]; exact hin' g hg hdg)
        have hrm : nm_multi_index_remove idx cid p = (true, (_do_remove idx cid p).2) := by
          unfold nm_multi_index_remove
          simp only [hp, if_false]
          rw [← a]
        simp only [if_true, hrm]
        refine ⟨idx', e, w, ?_, ?_⟩
        · intro g x
          rw [m g x, c g x]
          by_cases hg : g._id_type = t
          · have hgr : g._id_type ∉ rest := hg ▸ hnd'.1
            by_cases hgc : g = cid
            · subst hgc
              simp [hg, hd, hgr, hnd'.1]
            · have : ¬ some (some cid) = some (some g) := by
                intro e; simp at e; exact hgc e.symm
              simp [hg, hd, hnd'.1, hgc, this]
          · have hgc : g ≠ cid := by
              intro e; rw [e] at hg; exact hg hct
            simp [hg, hgc]
        · intro g hg
          have hg1 : g._id_type ∉ rest := fun h => hg (List.mem_cons_of_mem _ h)
          have hg2 : g ≠ cid := by
            intro e; rw [e, hct] at hg; exact hg (List.mem_cons_self _ _)
          rw [o g hg1]
          exact _do_remove_members_other hwf.1 cid g p hg2

theorem _nmp_cache_update_update_loop_spec (dold dnew : NMPObjectData) (p : Nat) (hp : p ≠ 0)
    (hc : dold._class = dnew._class) :
    ∀ (types : List NMPCacheIdType) (idx : NMMultiIndex NMPCacheId), types.Nodup →
      nm_multi_index_wf idx →
      (∀ g : NMPCacheId, g._id_type ∈ types →
        ((nm_multi_index_members idx g).length : Int) + 2 < G_MAXINT) →
      (∀ g : NMPCacheId, g._id_type ∈ types →
        (p ∈ nm_multi_index_members idx g ↔
          cmd_obj_init_cache_id dold g._id_type = some (some g))) →
      ∃ idx', _nmp_cache_update_update_loop dold dnew p types idx = some idx' ∧
        nm_multi_index_wf idx' ∧
        (∀ g x, x ∈ nm_multi_index_members idx' g ↔
          if x = p ∧ g._id_type ∈ types then
            cmd_obj_init_cache_id dnew g._id_type = some (some g)
          else x ∈ nm_multi_index_members idx g) ∧
        (∀ g : NMPCacheId, g._id_type ∉ types →
          nm_multi_index_members idx' g = nm_multi_index_members idx g) := by
  intro types
  induction types with
  | nil =>
    intro idx _ hwf _ _
    exact ⟨idx, rfl, hwf, by simp, by simp⟩
  | cons t rest ih =>
    intro idx hnd hwf hroom hcons
    have hnd' := List.nodup_cons.mp hnd
    have hroom' : ∀ g : NMPCacheId, g._id_type ∈ rest →
        ((nm_multi_index_members idx g).length : Int) + 2 < G_MAXINT :=
      fun g hg => hroom g (List.mem_cons_of_mem _ hg)
    have hcons' : ∀ g : NMPCacheId, g._id_type ∈ rest →
        (p ∈ nm_multi_index_members idx g ↔
          cmd_obj_init_cache_id dold g._id_type = some (some g)) :=
      fun g hg => hcons g (List.mem_cons_of_mem _ hg)
    unfold _nmp_cache_update_update_loop
    cases hd : cmd_obj_init_cache_id dold t with
    | none =>
      simp only
      have hdn : cmd_obj_init_cache_id dnew t = none :=
        (cmd_obj_init_cache_id_none_class t hc).mp hd
      obtain ⟨idx', e, w, m, o⟩ := ih idx hnd'.2 hwf hroom' hcons'
      refine ⟨idx', e, w, ?_, ?_⟩
      · intro g x
        rw [m g x]
        by_cases hg : g._id_type = t
        · have h1 := hcons g (by rw [hg]; exact List.mem_cons_self _ _)
          rw [hg, hd] at h1
          by_cases hx : x = p
          · subst hx
            simp [hg, hdn, hnd'.1, h1]
          · simp [hx]
        · simp [hg]
      · intro g hg
        exact o g (fun h => hg (List.mem_cons_of_mem _ h))
    | some go =>
      simp only
      cases hdn : cmd_obj_init_cache_id dnew t with
      | none =>
        have := (cmd_obj_init_cache_id_none_class t hc).mpr hdn
        rw [hd] at this
        exact absurd this (by simp)
      | some gn =>
        simp only
        have htypeo : ∀ g, go = some g → g._id_type = t := by
          intro g e; subst e; exact cmd_obj_init_cache_id_type hd
        have htypen : ∀ g, gn = some g → g._id_type = t := by
          intro g e; subst e; exact cmd_obj_init_cache_id_type hdn
        have hmemt : ∀ g : NMPCacheId, g._id_type = t →
            (p ∈ nm_multi_index_members idx g ↔ go = some g) := by
          intro g hg
          have h1 := hcons g (by rw [hg]; exact List.mem_cons_self _ _)
          rw [hg, hd] at h1
          rw [h1]
          constructor
          · intro e; simpa using e
          · intro e; rw [e]
        obtain ⟨a, b, c, c2⟩ := nm_multi_index_move_spec hwf p hp go gn
          (fun g e => (hmemt g (htypeo g e)).mpr e)
          (fun g e ne => fun hm => ne ((hmemt g (htypen g e)).mp hm))
          (fun g e => hroom g (by rw [htypen g e]; exact List.mem_cons_self _ _))
        have hother : ∀ g : NMPCacheId, g._id_type ≠ t →
            nm_multi_index_members (nm_multi_index_move idx go gn p).2 g =
              nm_multi_index_members idx g := by
          intro g hg
          apply c2
          · intro e; exact hg (htypeo g e)
          · intro e; exact hg (htypen g e)
        have hrest : ∀ g : NMPCacheId, g._id_type ∈ rest → g._id_type ≠ t := by
          intro g hg e; rw [e] at hg; exact hnd'.1 hg
        obtain ⟨idx', e, w, m, o⟩ := ih (nm_multi_index_move idx go gn p).2 hnd'.2 b
          (fun g hg => by rw [hother g (hrest g hg)]; exact hroom' g hg)
          (fun g hg => by rw [hother g (hrest g hg)]; exact hcons' g hg)
        have hmv : nm_multi_index_move idx go gn p =
            (true, (nm_multi_index_move idx go gn p).2) := by
          rw [← a]
        rw [hmv]
        simp only
        refine ⟨idx', e, w, ?_, ?_⟩
        · intro g x
          rw [m g x]
          by_cases hg : g._id_type = t
          · have hgr : g._id_type ∉ rest := hg ▸ hnd'.1
            rw [c g x]
            by_cases hx : x = p
            · subst hx
              have hgn : cmd_obj_init_cache_id dnew g._id_type = some (some g) ↔ gn = some g := by
                rw [hg, hdn]
                constructor
                · intro e; simpa using e
                · intro e; rw [e]
              simp only [hgr, and_false, if_false, true_and, hg, List.mem_cons_self, and_self,
                if_true]
              rw [hg] at hgn
              rw [hgn]
              by_cases h1 : go = some g ∨ gn = some g
              · simp [h1]
              · simp only [h1, if_false]
                rw [hmemt g hg]
                simp only [not_or] at h1
                simp [h1.1, h1.2]
            · simp [hx]
          · rw [hother g hg]
            simp [hg]
        · intro g hg
          have hg1 : g._id_type ∉ rest := fun h => hg (List.mem_cons_of_mem _ h)
          have hg2 : g._id_type ≠ t := fun e => hg (by rw [e]; exact List.mem_cons_self _ _)
          rw [o g hg1]
          exact hother g hg2

/-! ## The results of `nmp_cache_update` case by case -/

theorem nmp_cache_update_eq_unchanged_absent {s : Store} {obj : Nat} (M : NMPObjectAspects)
    (b1 b2 : Bool) (h0 : g_hash_table_lookup_main s.heap s.cache.idx_main obj = 0)
    (ha : nmp_object_is_alive s.heap obj = false) :
    nmp_cache_update s obj M b1 b2 =
      some { ret := NMP_CACHE_OPS_UNCHANGED, out_obj := 0, out_was_visible := false,
             store := s } := by
  unfold nmp_cache_update
  simp [h0, ha]

theorem nmp_cache_update_eq_added {s s' : Store} {obj : Nat} (M : NMPObjectAspects)
    (b1 b2 : Bool) (h0 : g_hash_table_lookup_main s.heap s.cache.idx_main obj = 0)
    (ha : nmp_object_is_alive s.heap obj = true)
    (hadd : _nmp_cache_update_add { s with heap := (out_obj_heap b1 s.heap obj) } obj = some s') :
    nmp_cache_update s obj M b1 b2 =
      some { ret := NMP_CACHE_OPS_ADDED,
             out_obj := (if b1 then nmp_object_get s.heap obj else (0, s.heap)).1,
             out_was_visible := false, store := s' } := by
  unfold nmp_cache_update
  unfold out_obj_heap at hadd
  simp [h0, ha, hadd]

theorem nmp_cache_update_eq_removed {s s' : Store} {obj old : Nat} (M : NMPObjectAspects)
    (b1 b2 : Bool) (hold : g_hash_table_lookup_main s.heap s.cache.idx_main obj = old)
    (h0 : old ≠ 0) (h1 : old ≠ obj)
    (he : nmp_object_equal (out_obj_heap b1 s.heap old) old obj M = false)
    (hv1 : NMP_OBJECT_IS_VALID s.heap old = true) (hv2 : NMP_OBJECT_IS_VALID s.heap obj = true)
    (hal : nmp_cache_update_alive (out_obj_heap b1 s.heap old) old obj M = false)
    (hrm : _nmp_cache_update_remove { s with heap := (out_obj_heap b1 s.heap old) } old
      = some s') :
    nmp_cache_update s obj M b1 b2 =
      some { ret := NMP_CACHE_OPS_REMOVED,
             out_obj := (if b1 then nmp_object_get s.heap old else (0, s.heap)).1,
             out_was_visible :=
               (if b2 then nmp_object_is_visible (out_obj_heap b1 s.heap old) old else false),
             store := s' } := by
  have v1 := (NMP_OBJECT_IS_VALID_out_obj_heap s.heap b1 old old).trans hv1
  have v2 := (NMP_OBJECT_IS_VALID_out_obj_heap s.heap b1 old obj).trans hv2
  obtain ⟨-, o, ho, -⟩ := heap_some_of_valid v1
  obtain ⟨-, n, hn, -⟩ := heap_some_of_valid v2
  unfold nmp_cache_update
  unfold nmp_cache_update_alive at hal
  unfold out_obj_heap at he hal hrm ho hn ⊢
  simp only [ho, hn] at hal
  simp [hold, h0, h1, he, ho, hn, hal, hrm]

theorem data_at_congr {h h' : Heap} {q : Nat} (e : h' q = h q) : data_at h' q = data_at h q := by
  simp only [data_at, e]

theorem data_at_update_ne (h : Heap) (p q : Nat) (v : Option NMPObject) (hq : q ≠ p) :
    data_at (Function.update h p v) q = data_at h q := by
  simp [data_at, Function.update, hq]

theorem data_at_nmp_object_get (h : Heap) (p q : Nat) :
    data_at (nmp_object_get h p).2 q = data_at h q := by
  rcases nmp_object_get_heap h p with e | ⟨o, hp, h0, e⟩
  · rw [e]
  · rw [e]
    by_cases hq : q = p
    · subst hq
      simp [data_at, hp]
    · exact data_at_update_ne _ _ _ _ hq

theorem data_at_out_obj_heap (h : Heap) (b : Bool) (x q : Nat) :
    data_at (out_obj_heap b h x) q = data_at h q := by
  cases b
  · rfl
  · exact data_at_nmp_object_get _ _ _

theorem data_at_set_is_cached (h : Heap) (p q : Nat) (v : Bool) :
    data_at (set_is_cached h p v) q = data_at h q := by
  unfold set_is_cached
  cases hp : h p with
  | none => rfl
  | some o =>
    by_cases hq : q = p
    · subst hq; simp [data_at, hp]
    · exact data_at_update_ne _ _ _ _ hq

theorem data_at_of_valid {h : Heap} {p : Nat} (hv : NMP_OBJECT_IS_VALID h p = true) :
    ∃ d, data_at h p = some d := by
  obtain ⟨-, o, ho, -⟩ := heap_some_of_valid hv
  exact ⟨o.data, by simp [data_at, ho]⟩

theorem data_at_some {h : Heap} {p : Nat} {d : NMPObjectData} (hd : data_at h p = some d) :
    ∃ o, h p = some o ∧ o.data = d := by
  unfold data_at at hd
  cases hp : h p with
  | none => simp [hp] at hd
  | some o =>
    simp only [hp, Option.some.injEq] at hd
    exact ⟨o, rfl, hd⟩

theorem _nmp_cache_update_cache_eq {s : Store} {obj : Nat} {remove : Bool} {d : NMPObjectData}
    {idx' : NMMultiIndex NMPCacheId} (hd : data_at s.heap obj = some d)
    (hloop : _nmp_cache_update_cache_loop d obj remove NMP_CACHE_ID_TYPES s.cache.idx_multi
      = some idx') :
    _nmp_cache_update_cache s obj remove =
      some { s with cache := { s.cache with idx_multi := idx' } } := by
  obtain ⟨o, ho, rfl⟩ := data_at_some hd
  unfold _nmp_cache_update_cache
  simp [ho, hloop]

theorem _nmp_cache_update_add_eq {s : Store} {obj : Nat} {d : NMPObjectData}
    {idx' : NMMultiIndex NMPCacheId}
    (hl : g_hash_table_lookup_main (nmp_object_get s.heap obj).2 s.cache.idx_main obj = 0)
    (hd : data_at s.heap obj = some d)
    (hloop : _nmp_cache_update_cache_loop d obj false NMP_CACHE_ID_TYPES s.cache.idx_multi
      = some idx') :
    _nmp_cache_update_add s obj =
      some { heap := set_is_cached (nmp_object_get s.heap obj).2 obj true,
             cache := { idx_main := obj :: s.cache.idx_main, idx_multi := idx' } } := by
  unfold _nmp_cache_update_add
  simp only [hl, ne_eq, not_true_eq_false, if_false]
  rw [@_nmp_cache_update_cache_eq _ _ _ d idx']
  · simp only [data_at_set_is_cached, data_at_nmp_object_get]; exact hd
  · exact hloop

theorem _nmp_cache_update_remove_eq {s : Store} {obj : Nat} {d : NMPObjectData}
    {idx' : NMMultiIndex NMPCacheId} (h0 : obj ≠ 0)
    (hd : data_at s.heap obj = some d)
    (hloop : _nmp_cache_update_cache_loop d obj true NMP_CACHE_ID_TYPES s.cache.idx_multi
      = some idx')
    (hk : g_hash_table_lookup_main (set_is_cached s.heap obj false) s.cache.idx_main obj = obj) :
    _nmp_cache_update_remove s obj =
      some { heap := nmp_object_put (set_is_cached s.heap obj false) obj,
             cache := { idx_main := s.cache.idx_main.erase obj, idx_multi := idx' } } := by
  unfold _nmp_cache_update_remove
  rw [_nmp_cache_update_cache_eq hd hloop]
  simp [hk, h0]

theorem NMP_CACHE_ID_TYPES_nodup : NMP_CACHE_ID_TYPES.Nodup := by decide

theorem mem_NMP_CACHE_ID_TYPES (t : NMPCacheIdType) : t ∈ NMP_CACHE_ID_TYPES := by
  cases t <;> decide

theorem nm_multi_index_lookup_first_by_value_none {Id : Type} [DecidableEq Id]
    {index : NMMultiIndex Id} (hwf : nm_multi_index_wf index) {value : Nat}
    (h : nm_multi_index_lookup_first_by_value index value = none) (id : Id) :
    value ∉ nm_multi_index_members index id := by
  unfold nm_multi_index_lookup_first_by_value at h
  by_cases hv : value = 0
  · subst hv
    intro hm
    unfold nm_multi_index_members nm_multi_index_lookup at hm
    cases hl : g_hash_table_lookup index.hash id with
    | none => simp [hl] at hm
    | some array =>
      obtain ⟨ms, rfl, -, -, hnn⟩ := nm_multi_index_wf_lookup hwf hl
      simp [hl] at hm
      exact hnn 0 hm rfl
  · simp only [hv, if_false, Option.map_eq_none'] at h
    intro hm
    cases hl : g_hash_table_lookup index.hash id with
    | none => rw [nm_multi_index_members_of_lookup_none hl] at hm; simp at hm
    | some array =>
      obtain ⟨ms, rfl, -, hs, -⟩ := nm_multi_index_wf_lookup hwf hl
      rw [nm_multi_index_members_of_lookup hl] at hm
      have := List.find?_eq_none.mp h (id, ms ++ [0]) (mem_of_g_hash_table_lookup _ _ _ hl)
      simp only [decide_eq_true_eq] at this
      exact this ((_binary_search_nonneg_iff ms value hs).mpr hm)

theorem valid_of_nmp_object_is_alive {h : Heap} {p : Nat}
    (ha : nmp_object_is_alive h p = true) : NMP_OBJECT_IS_VALID h p = true := by
  unfold nmp_object_is_alive at ha
  by_cases hv : NMP_OBJECT_IS_VALID h p = true
  · exact hv
  · simp [hv] at ha

theorem g_hash_table_lookup_main_cons_self (h : Heap) (idx : List Nat) (p : Nat) :
    g_hash_table_lookup_main h (p :: idx) p = p := by
  simp [g_hash_table_lookup_main, nmp_object_id_equal]

/-- The result of `nmp_cache_update` for a live candidate whose identity is not cached, in a
cache whose Multi-Index is well formed and does not hold the candidate's address. -/
theorem nmp_cache_update_added_result (s : Store) (obj : Nat) (M : NMPObjectAspects)
    (b1 b2 : Bool)
    (hwf : nm_multi_index_wf s.cache.idx_multi)
    (hroom : nm_multi_index_has_room s.cache.idx_multi)
    (hfresh : nm_multi_index_lookup_first_by_value s.cache.idx_multi obj = none)
    (habsent : nmp_cache_lookup_obj s obj = 0)
    (halive : nmp_object_is_alive s.heap obj = true) :
    ∃ d idx', data_at s.heap obj = some d ∧
      nm_multi_index_wf idx' ∧
      (∀ g x, x ∈ nm_multi_index_members idx' g ↔
        (x ∈ nm_multi_index_members s.cache.idx_multi g ∨
          (x = obj ∧ cmd_obj_init_cache_id d g._id_type = some (some g)))) ∧
      nmp_cache_update s obj M b1 b2 =
        some { ret := NMP_CACHE_OPS_ADDED,
               out_obj := (if b1 then nmp_object_get s.heap obj else (0, s.heap)).1,
               out_was_visible := false,
               store := { heap := set_is_cached
                            (nmp_object_get (out_obj_heap b1 s.heap obj) obj).2 obj true,
                          cache := { idx_main := obj :: s.cache.idx_main,
                                     idx_multi := idx' } } } := by
  have hv := valid_of_nmp_object_is_alive halive
  obtain ⟨h0, -⟩ := heap_some_of_valid hv
  obtain ⟨d, hd⟩ := data_at_of_valid hv
  have hl : g_hash_table_lookup_main s.heap s.cache.idx_main obj = 0 := by
    simpa [nmp_cache_lookup_obj, h0] using habsent
  obtain ⟨idx', e, w, m, -⟩ := _nmp_cache_update_cache_loop_add d obj h0 NMP_CACHE_ID_TYPES
    s.cache.idx_multi NMP_CACHE_ID_TYPES_nodup hwf
    (fun g _ => nm_multi_index_room_of_has_room hroom g)
    (fun g _ => nm_multi_index_lookup_first_by_value_none hwf hfresh g)
  refine ⟨d, idx', hd, w, ?_, ?_⟩
  · intro g x
    rw [m g x]
    simp [mem_NMP_CACHE_ID_TYPES]
  · apply nmp_cache_update_eq_added M b1 b2 hl halive
    apply _nmp_cache_update_add_eq (d := d)
    · simp only
      rw [g_hash_table_lookup_main_congr s.heap _ _ _ _ _]
      · exact hl
      · intro k _
        rw [ptr_key_nmp_object_get, ptr_key_out_obj_heap]
      · rw [ptr_key_nmp_object_get, ptr_key_out_obj_heap]
    · simp only [data_at_out_obj_heap]; exact hd
    · exact e

theorem nm_platform_link_cmp_eq_zero (a b : NMPlatformLink) :
    nm_platform_link_cmp a b = 0 ↔ a = b := by
  cases a; cases b
  simp only [nm_platform_link_cmp, NMPlatformLink.mk.injEq]
  split_ifs <;> simp_all

theorem nm_platform_ip4_address_cmp_eq_zero (a b : NMPlatformIP4Address) :
    nm_platform_ip4_address_cmp a b = 0 ↔ a = b := by
  cases a; cases b
  simp only [nm_platform_ip4_address_cmp, NMPlatformIP4Address.mk.injEq]
  split_ifs <;> simp_all

theorem nm_platform_ip6_address_cmp_eq_zero (a b : NMPlatformIP6Address) :
    nm_platform_ip6_address_cmp a b = 0 ↔ a = b := by
  cases a; cases b
  simp only [nm_platform_ip6_address_cmp, NMPlatformIP6Address.mk.injEq]
  split_ifs <;> simp_all

theorem nm_platform_ip4_route_cmp_eq_zero (a b : NMPlatformIP4Route) :
    nm_platform_ip4_route_cmp a b = 0 ↔ a = b := by
  cases a; cases b
  simp only [nm_platform_ip4_route_cmp, NMPlatformIP4Route.mk.injEq]
  split_ifs <;> simp_all

theorem nm_platform_ip6_route_cmp_eq_zero (a b : NMPlatformIP6Route) :
    nm_platform_ip6_route_cmp a b = 0 ↔ a = b := by
  cases a; cases b
  simp only [nm_platform_ip6_route_cmp, NMPlatformIP6Route.mk.injEq]
  split_ifs <;> simp_all

theorem nmp_object_equal_eq (h : Heap) (p q : Nat) (M : NMPObjectAspects) :
    nmp_object_equal h p q M =
      (NMP_OBJECT_IS_VALID h p && NMP_OBJECT_IS_VALID h q &&
        (decide (p = q) ||
          match data_at h p, data_at h q with
          | some a, some b => decide (a._class = b._class) && cmd_obj_equal a b M
          | _, _ => false)) := by
  unfold nmp_object_equal
  by_cases hp : NMP_OBJECT_IS_VALID h p = true
  · by_cases hq : NMP_OBJECT_IS_VALID h q = true
    · obtain ⟨-, a, ha, ha0⟩ := heap_some_of_valid hp
      obtain ⟨-, b, hb, hb0⟩ := heap_some_of_valid hq
      by_cases hpq : p = q
      · simp [hp, hq, hpq]
      · simp only [hp, hq, hpq, Bool.not_true, Bool.false_eq_true, if_false, ha, hb,
          nmp_object_equal_value, ha0, hb0, not_true_eq_false, NMP_OBJECT_GET_CLASS, data_at,
          Bool.and_self, decide_False, Bool.false_or, Bool.true_and]
        by_cases hc : a.data._class = b.data._class
        · simp [hc]
        · simp [hc]
    · simp [hp, hq]
  · simp [hp]

theorem nmp_object_equal_congr (h h' : Heap) (p q : Nat) (M : NMPObjectAspects)
    (v1 : NMP_OBJECT_IS_VALID h' p = NMP_OBJECT_IS_VALID h p)
    (v2 : NMP_OBJECT_IS_VALID h' q = NMP_OBJECT_IS_VALID h q)
    (d1 : data_at h' p = data_at h p) (d2 : data_at h' q = data_at h q) :
    nmp_object_equal h' p q M = nmp_object_equal h p q M := by
  rw [nmp_object_equal_eq, nmp_object_equal_eq, v1, v2, d1, d2]

theorem nmp_cache_lookup_obj_mem {s : Store} {obj : Nat} (h : nmp_cache_lookup_obj s obj ≠ 0) :
    obj ≠ 0 ∧ nmp_cache_lookup_obj s obj = g_hash_table_lookup_main s.heap s.cache.idx_main obj ∧
      nmp_cache_lookup_obj s obj ∈ s.cache.idx_main ∧
      nmp_object_id_equal s.heap (nmp_cache_lookup_obj s obj) obj = true := by
  unfold nmp_cache_lookup_obj at h ⊢
  by_cases h0 : obj = 0
  · simp [h0] at h
  · simp only [h0, if_false] at h ⊢
    exact ⟨h0, trivial, g_hash_table_lookup_main_ne_zero h⟩

theorem cmd_plobj_id_hash_object_identity (d : NMPObjectData) :
    cmd_plobj_id_hash (object_identity d) = cmd_plobj_id_hash d := by
  cases d <;> rfl

theorem nmp_object_id_hash_eq (h : Heap) (q : Nat) :
    nmp_object_id_hash h q =
      if q = 0 then 0 else
        match ptr_key h q with
        | some d => cmd_plobj_id_hash d
        | none => 0 := by
  unfold nmp_object_id_hash ptr_key NMP_OBJECT_IS_VALID
  by_cases h0 : q = 0
  · simp [h0]
  · cases hq : h q with
    | none => simp [h0]
    | some o =>
      by_cases hr : 0 < o._ref_count
      · simp [h0, hr, cmd_plobj_id_hash_object_identity]
      · simp [h0, hr]

theorem nmp_object_id_hash_congr {h h' : Heap} {q : Nat} (e : ptr_key h' q = ptr_key h q) :
    nmp_object_id_hash h' q = nmp_object_id_hash h q := by
  rw [nmp_object_id_hash_eq, nmp_object_id_hash_eq, e]

/-- What equality of identities means, kind by kind. -/
theorem object_identity_eq_iff (a b : NMPObjectData) :
    object_identity a = object_identity b ↔
      match a, b with
      | ._link x, ._link y => x._public.ifindex = y._public.ifindex
      | ._ip4_address x, ._ip4_address y =>
        x.ifindex = y.ifindex ∧ x.plen = y.plen ∧ x.address = y.address
      | ._ip6_address x, ._ip6_address y =>
        x.ifindex = y.ifindex ∧ x.plen = y.plen ∧ x.address = y.address
      | ._ip4_route x, ._ip4_route y =>
        x.ifindex = y.ifindex ∧ x.plen = y.plen ∧ x.metric = y.metric ∧ x.network = y.network
      | ._ip6_route x, ._ip6_route y =>
        x.ifindex = y.ifindex ∧ x.plen = y.plen ∧ x.metric = y.metric ∧ x.network = y.network
      | _, _ => False := by
  cases a <;> cases b <;>
    simp [object_identity, cmd_plobj_id_copy, zeroed_data, NMPObjectData._class,
      _vt_cmd_plobj_id_copy_link, _vt_cmd_plobj_id_copy_ip4_address,
      _vt_cmd_plobj_id_copy_ip6_address, _vt_cmd_plobj_id_copy_ip4_route,
      _vt_cmd_plobj_id_copy_ip6_route] <;> tauto

theorem data_at_nmp_object_copy (h : Heap) (dst src : Nat) (M : NMPObjectAspects) :
    (∀ q, q ≠ dst → data_at (nmp_object_copy h dst src M) q = data_at h q) ∧
    (data_at (nmp_object_copy h dst src M) dst = data_at h dst ∨
      ∃ d n, data_at h dst = some d ∧ data_at h src = some n ∧ d._class = n._class ∧
        ref_count_at h dst ≠ NMP_REF_COUNT_INITSTACK ∧
        data_at (nmp_object_copy h dst src M) dst = some (cmd_obj_copy d n M)) := by
  rcases nmp_object_copy_heap h dst src M with e | ⟨d, s, hd, hs, -, -, -, -, -, hc, hst, e⟩
  · rw [e]; exact ⟨fun _ _ => rfl, Or.inl rfl⟩
  · rw [e]
    refine ⟨fun q hq => data_at_update_ne _ _ _ _ hq, Or.inr ⟨d.data, s.data, ?_, ?_, hc, ?_, ?_⟩⟩
    · simp [data_at, hd]
    · simp [data_at, hs]
    · simp [ref_count_at, hd, hst]
    · simp [data_at]

theorem link_ifindex_of_nmp_object_id_equal {h : Heap} {p q : Nat} {l1 l2 : NMPObjectLink}
    (he : nmp_object_id_equal h p q = true) (hp : data_at h p = some (._link l1))
    (hq : data_at h q = some (._link l2)) : l1._public.ifindex = l2._public.ifindex := by
  by_cases hpq : p = q
  · subst hpq
    rw [hp] at hq
    simp only [Option.some.injEq, NMPObjectData._link.injEq] at hq
    rw [hq]
  · obtain ⟨a, ha, had⟩ := data_at_some hp
    obtain ⟨b, hb, hbd⟩ := data_at_some hq
    unfold nmp_object_id_equal at he
    simp only [hpq, if_false, ha, hb] at he
    split at he
    · simp at he
    · unfold nmp_object_id_equal_value at he
      split_ifs at he
      rw [had, hbd] at he
      simpa [cmd_plobj_id_equal, _vt_cmd_plobj_id_equal_link] using he

theorem nmp_object_is_alive_eq (h : Heap) (p : Nat) :
    nmp_object_is_alive h p =
      (NMP_OBJECT_IS_VALID h p &&
        match data_at h p with
        | some d => cmd_obj_is_alive d
        | none => false) := by
  unfold nmp_object_is_alive data_at
  by_cases hv : NMP_OBJECT_IS_VALID h p = true
  · cases hp : h p <;> simp [hv]
  · simp [hv]

theorem valid_of_nmp_object_id_equal {h : Heap} {p q : Nat}
    (he : nmp_object_id_equal h p q = true) (hpq : p ≠ q) :
    NMP_OBJECT_IS_VALID h p = true ∧ NMP_OBJECT_IS_VALID h q = true ∧
      ∃ d n, data_at h p = some d ∧ data_at h q = some n ∧ d._class = n._class := by
  unfold nmp_object_id_equal at he
  simp only [hpq, if_false] at he
  split_ifs at he with h0
  simp only [not_or] at h0
  split at he
  · rename_i a b ha hb
    unfold nmp_object_id_equal_value at he
    split_ifs at he with c1 c2 c3
    simp only [not_not] at c1 c2
    simp only [NMP_OBJECT_GET_CLASS, ne_eq, not_not] at c3
    refine ⟨?_, ?_, a.data, b.data, ?_, ?_, c3⟩
    · simp [NMP_OBJECT_IS_VALID, ha, h0.1, c1]
    · simp [NMP_OBJECT_IS_VALID, hb, h0.2, c2]
    · simp [data_at, ha]
    · simp [data_at, hb]
  · simp at he

theorem nmp_object_clone_value_ref (o : NMPObject) (k : Int) (hr : 0 < o._ref_count)
    (hk : 0 < k) (id_only : Bool) :
    nmp_object_clone_value { o with _ref_count := k } id_only = nmp_object_clone_value o id_only := by
  simp [nmp_object_clone_value, nmp_object_copy_value, NMP_OBJECT_GET_CLASS, hr, hk]

theorem nmp_cache_update_alive_out_obj_heap (h : Heap) (b : Bool) (old obj : Nat)
    (M : NMPObjectAspects) (hne : old ≠ obj) :
    nmp_cache_update_alive (out_obj_heap b h old) old obj M =
      nmp_cache_update_alive h old obj M := by
  cases b
  · rfl
  · simp only [out_obj_heap, if_true]
    rcases nmp_object_get_heap h old with e | ⟨o, ho, h0, e⟩
    · rw [e]
    · rw [e]
      have hobj : Function.update h old (some { o with _ref_count := o._ref_count + 1 }) obj
          = h obj := by
        simp [Function.update, Ne.symm hne]
      unfold nmp_cache_update_alive
      simp only [Function.update_same, hobj, ho]
      cases hn : h obj with
      | none => rfl
      | some n =>
        simp only [NMP_OBJECT_GET_CLASS]
        rw [nmp_object_clone_value_ref o _ h0 (by omega)]
        have : nmp_object_is_alive
            (Function.update h old (some { o with _ref_count := o._ref_count + 1 })) obj
            = nmp_object_is_alive h obj := by
          simp [nmp_object_is_alive, NMP_OBJECT_IS_VALID, hobj]
        rw [this]

theorem g_hash_table_lookup_main_self {s : Store} (hwf : nmp_cache_main_wf s) {p : Nat}
    (hp : p ∈ s.cache.idx_main) : g_hash_table_lookup_main s.heap s.cache.idx_main p = p := by
  have hne : g_hash_table_lookup_main s.heap s.cache.idx_main p ≠ 0 := by
    unfold g_hash_table_lookup_main
    cases hf : s.cache.idx_main.find? (fun k => nmp_object_id_equal s.heap k p) with
    | none =>
      have := List.find?_eq_none.mp hf p hp
      simp [nmp_object_id_equal] at this
    | some k =>
      simp only
      exact (hwf.2.1 k (List.mem_of_find?_eq_some hf)).1
  obtain ⟨hm, he⟩ := g_hash_table_lookup_main_ne_zero hne
  exact hwf.2.2 _ hm p hp he

theorem nmp_object_id_equal_trans {h : Heap} {a b c : Nat} (hab : nmp_object_id_equal h a c = true)
    (hbc : nmp_object_id_equal h b c = true) (ha : a ≠ 0) (hb : b ≠ 0) (hc : c ≠ 0)
    (h1 : a ≠ c) (h2 : b ≠ c) : nmp_object_id_equal h a b = true := by
  by_cases h3 : a = b
  · simp [nmp_object_id_equal, h3]
  · have e1 := (nmp_object_id_equal_iff h a c ha hc h1).mp hab
    have e2 := (nmp_object_id_equal_iff h b c hb hc h2).mp hbc
    exact (nmp_object_id_equal_iff h a b ha hb h3).mpr ⟨e1.1.trans e2.1.symm, e1.2⟩

/-! ## The concrete cache states -/

theorem demo_store2b_reachable : Reachable demo_store2b :=
  Reachable.alloc _ 400 demo_link_dead
    (Reachable.alloc demo_store2 300 demo_link_netlink
      (Reachable.alloc demo_store1 200 demo_link_udev
        (Reachable.alloc demo_store0 100 demo_link_netlink Reachable.init (by decide) rfl
          (by decide) rfl)
        (by decide) rfl (by decide) rfl)
      (by decide) rfl (by decide) rfl)
    (by decide) rfl (by decide) rfl

theorem demo_result3_eq :
    nmp_cache_update demo_store2b 100 NMP_OBJECT_ASPECT_NETLINK false false = some demo_result3 :=
  rfl

theorem demo_result3_reachable : Reachable demo_result3.store :=
  Reachable.update demo_store2b 100 NMP_OBJECT_ASPECT_NETLINK false false demo_result3
    demo_store2b_reachable (by decide) (by decide) (by decide) demo_result3_eq

theorem demo_result4_eq :
    nmp_cache_update demo_result3.store 200 NMP_OBJECT_ASPECT_UDEV false false
      = some demo_result4 :=
  rfl

theorem demo_result4_reachable : Reachable demo_result4.store :=
  Reachable.update demo_result3.store 200 NMP_OBJECT_ASPECT_UDEV false false demo_result4
    demo_result3_reachable (by decide) (by decide) (by decide) demo_result4_eq

theorem demo_route_store_reachable : Reachable demo_route_store :=
  Reachable.alloc _ 300 demo_route_changed
    (Reachable.alloc _ 200 demo_route_internal
      (Reachable.alloc demo_store0 100 demo_route_user Reachable.init (by decide) rfl
        (by decide) rfl)
      (by decide) rfl (by decide) rfl)
    (by decide) rfl (by decide) rfl

theorem demo_route_result_eq :
    nmp_cache_update demo_route_store 100 NMP_OBJECT_ASPECT_PUBLIC false false
      = some demo_route_result :=
  rfl

theorem demo_route_result_reachable : Reachable demo_route_result.store :=
  Reachable.update demo_route_store 100 NMP_OBJECT_ASPECT_PUBLIC false false demo_route_result
    demo_route_store_reachable (by decide) (by decide) (by decide) demo_route_result_eq

/-- After an Added update on a Multi-Index that did not hold the candidate's address, the
group membership of the new cached object matches its derivation. -/
theorem nmp_cache_update_added_consistent {s : Store} {obj : Nat} {M : NMPObjectAspects}
    {b1 b2 : Bool} {r : NMPCacheOpsResult}
    (hwf : nm_multi_index_wf s.cache.idx_multi)
    (hroom : nm_multi_index_has_room s.cache.idx_multi)
    (hfresh : nm_multi_index_lookup_first_by_value s.cache.idx_multi obj = none)
    (habsent : nmp_cache_lookup_obj s obj = 0)
    (halive : nmp_object_is_alive s.heap obj = true)
    (hr : nmp_cache_update s obj M b1 b2 = some r) :
    ∀ d, data_at s.heap obj = some d → ∀ g : NMPCacheId,
      nm_multi_index_contains r.store.cache.idx_multi g obj = true ↔
        cmd_obj_init_cache_id d g._id_type = some (some g) := by
  obtain ⟨d, idx', hd, w, m, e⟩ :=
    nmp_cache_update_added_result s obj M b1 b2 hwf hroom hfresh habsent halive
  rw [hr] at e
  simp only [Option.some.injEq] at e
  subst e
  intro d' hd' g
  rw [hd] at hd'
  simp only [Option.some.injEq] at hd'
  subst hd'
  have hv := valid_of_nmp_object_is_alive halive
  obtain ⟨h0, -⟩ := heap_some_of_valid hv
  simp only
  rw [nm_multi_index_contains_iff w, m g obj]
  have := nm_multi_index_lookup_first_by_value_none hwf hfresh g
  simp [h0, this]

theorem demo_route_result_consistent : ∀ g : NMPCacheId,
    nm_multi_index_contains demo_route_result.store.cache.idx_multi g 100 = true ↔
      cmd_obj_init_cache_id demo_route_user.data g._id_type = some (some g) :=
  nmp_cache_update_added_consistent (s := demo_route_store) (by decide) (by decide) (by decide)
    (by decide) (by decide) demo_route_result_eq demo_route_user.data rfl


theorem g_hash_table_lookup_main_of_lookup_obj_zero {s : Store} {obj : Nat}
    (h : nmp_cache_lookup_obj s obj = 0) :
    g_hash_table_lookup_main s.heap s.cache.idx_main obj = 0 := by
  unfold nmp_cache_lookup_obj at h
  by_cases h0 : obj = 0
  · subst h0
    unfold g_hash_table_lookup_main
    cases hf : s.cache.idx_main.find? (fun k => nmp_object_id_equal s.heap k 0) with
    | none => rfl
    | some k =>
      have := List.find?_some hf
      simp only at this ⊢
      by_contra hk
      simp [nmp_object_id_equal, hk] at this
  · simpa [h0] using h

/-! ## Well-formedness of the Multi-Index is an invariant -/

section IndexWf

variable {Id : Type} [DecidableEq Id]

theorem _do_add_wf {index : NMMultiIndex Id} (hwf : nm_multi_index_wf index)
    (id : Id) (value : Nat) (hv : value ≠ 0) :
    nm_multi_index_wf (_do_add index id value).2 := by
  by_cases hm : value ∈ nm_multi_index_members index id
  · rw [(_do_add_spec hwf id value hv).1 hm]
    exact hwf
  · by_cases hroom : ((nm_multi_index_members index id).length : Int) + 2 < G_MAXINT
    · exact ((_do_add_spec hwf id value hv).2 hm hroom).2.1
    · unfold _do_add
      cases hl : g_hash_table_lookup index.hash id with
      | none =>
        rw [nm_multi_index_members_of_lookup_none hl] at hroom
        exact absurd (by simp [G_MAXINT]) hroom
      | some array =>
        obtain ⟨ms, rfl, -, -, -⟩ := nm_multi_index_wf_lookup hwf hl
        rw [nm_multi_index_members_of_lookup hl] at hroom
        have hfull : G_MAXINT ≤ ((ms ++ [0]).length : Int) + 1 := by
          simp only [List.length_append, List.length_singleton]
          push_cast
          omega
        simp only [hfull, if_true]
        split_ifs <;> exact hwf

theorem _do_remove_wf {index : NMMultiIndex Id} (hwf : nm_multi_index_wf index)
    (id : Id) (value : Nat) :
    nm_multi_index_wf (_do_remove index id value).2 := by
  by_cases hm : value ∈ nm_multi_index_members index id
  · exact ((_do_remove_spec hwf id value).2 hm).2.1
  · rw [(_do_remove_spec hwf id value).1 hm]
    exact hwf

theorem nm_multi_index_add_wf {index : NMMultiIndex Id} (hwf : nm_multi_index_wf index)
    (id : Id) (value : Nat) :
    nm_multi_index_wf (nm_multi_index_add index id value).2 := by
  unfold nm_multi_index_add
  split_ifs with h
  · exact hwf
  · exact _do_add_wf hwf id value h

theorem nm_multi_index_remove_wf {index : NMMultiIndex Id} (hwf : nm_multi_index_wf index)
    (id : Id) (value : Nat) :
    nm_multi_index_wf (nm_multi_index_remove index id value).2 := by
  unfold nm_multi_index_remove
  split_ifs with h
  · exact hwf
  · exact _do_remove_wf hwf id value

theorem nm_multi_index_move_wf {index : NMMultiIndex Id} (hwf : nm_multi_index_wf index)
    (id_old id_new : Option Id) (value : Nat) :
    nm_multi_index_wf (nm_multi_index_move index id_old id_new value).2 := by
  unfold nm_multi_index_move
  split_ifs with h
  · exact hwf
  · cases id_old with
    | none =>
      cases id_new with
      | none => exact hwf
      | some gn => exact _do_add_wf hwf gn value h
    | some go =>
      cases id_new with
      | none => exact _do_remove_wf hwf go value
      | some gn =>
        simp only
        split_ifs with he
        · have := _do_add_wf hwf gn value h
          cases hr : _do_add index gn value with
          | mk b idx =>
            rw [hr] at this
            cases b <;> exact this
        · exact _do_add_wf (_do_remove_wf hwf go value) gn value h

end IndexWf

section Groups

variable {Id : Type} [DecidableEq Id]

theorem nm_multi_index_has_room_of_members {index : NMMultiIndex Id}
    (hwf : nm_multi_index_wf index)
    (h : ∀ g, ((nm_multi_index_members index g).length : Int) + 2 < G_MAXINT) :
    nm_multi_index_has_room index := by
  intro e he
  have hl := g_hash_table_lookup_of_mem index.hash e.1 e.2 hwf.1 he
  obtain ⟨ms, hms, -, -, -⟩ := nm_multi_index_wf_lookup hwf hl
  have := h e.1
  rw [hms] at hl
  rw [nm_multi_index_members_of_lookup hl] at this
  rw [hms]
  simp only [List.length_append, List.length_singleton]
  push_cast
  omega

theorem nm_multi_index_lookup_first_by_value_eq_none {index : NMMultiIndex Id}
    (hwf : nm_multi_index_wf index) {value : Nat}
    (h : ∀ g, value ∉ nm_multi_index_members index g) :
    nm_multi_index_lookup_first_by_value index value = none := by
  unfold nm_multi_index_lookup_first_by_value
  by_cases hv : value = 0
  · simp [hv]
  · simp only [hv, if_false, Option.map_eq_none']
    rw [List.find?_eq_none]
    intro e he
    have hl := g_hash_table_lookup_of_mem index.hash e.1 e.2 hwf.1 he
    have hc := nm_multi_index_contains_iff hwf e.1 value
    unfold nm_multi_index_contains at hc
    simp only [hv, if_false, hl] at hc
    intro hb
    exact h e.1 (hc.mp hb).2

theorem nm_multi_index_lookup_singleton {index : NMMultiIndex Id}
    (hwf : nm_multi_index_wf index) (g : Id) (p : Nat)
    (h : ∀ x, x ∈ nm_multi_index_members index g ↔ x = p) :
    nm_multi_index_lookup index g = (some [p, 0], 1) := by
  cases hl : g_hash_table_lookup index.hash g with
  | none =>
    have := (h p).mpr rfl
    rw [nm_multi_index_members_of_lookup_none hl] at this
    simp at this
  | some array =>
    obtain ⟨ms, rfl, hne, hs, -⟩ := nm_multi_index_wf_lookup hwf hl
    rw [nm_multi_index_members_of_lookup hl] at h
    have hms : ms = [p] := by
      cases ms with
      | nil => exact absurd rfl hne
      | cons a rest =>
        have ha : a = p := (h a).mp (List.mem_cons_self _ _)
        cases rest with
        | nil => rw [ha]
        | cons b rest' =>
          have hb : b = p := (h b).mp (by simp)
          have hlt : a < b := by
            have := List.pairwise_cons.mp hs
            exact this.1 b (List.mem_cons_self _ _)
          omega
    subst hms
    simp [nm_multi_index_lookup, hl]

theorem nm_multi_index_members_nodup {index : NMMultiIndex Id}
    (hwf : nm_multi_index_wf index) (g : Id) : (nm_multi_index_members index g).Nodup := by
  cases hl : g_hash_table_lookup index.hash g with
  | none => rw [nm_multi_index_members_of_lookup_none hl]; exact List.nodup_nil
  | some array =>
    obtain ⟨ms, rfl, -, hs, -⟩ := nm_multi_index_wf_lookup hwf hl
    rw [nm_multi_index_members_of_lookup hl]
    exact sorted_nodup hs

theorem nm_multi_index_members_length_le_one {index : NMMultiIndex Id}
    (hwf : nm_multi_index_wf index) (g : Id) (p : Nat)
    (h : ∀ x, x ∈ nm_multi_index_members index g → x = p) :
    (nm_multi_index_members index g).length ≤ 1 := by
  have hn := nm_multi_index_members_nodup hwf g
  generalize nm_multi_index_members index g = l at h hn
  cases l with
  | nil => simp
  | cons a rest =>
    cases rest with
    | nil => simp
    | cons b rest' =>
      have ha := h a (by simp)
      have hb := h b (by simp)
      simp only [List.nodup_cons, List.mem_cons] at hn
      exact absurd (Or.inl (ha.trans hb.symm)) hn.1

end Groups

theorem nm_multi_index_members_new (g : NMPCacheId) :
    nm_multi_index_members (nm_multi_index_new : NMMultiIndex NMPCacheId) g = [] := rfl

theorem ptr_key_of_data_at {h : Heap} {p : Nat} {d : NMPObjectData}
    (hv : NMP_OBJECT_IS_VALID h p = true) (hd : data_at h p = some d) :
    ptr_key h p = some (object_identity d) := by
  obtain ⟨-, o, ho, hr⟩ := heap_some_of_valid hv
  simp only [data_at, ho, Option.some.injEq] at hd
  simp [ptr_key, ho, hr, hd]

/-- Two live objects of different identities, added one after the other to the empty cache:
both calls return Added, and an address is a member of a group exactly when it is one of the
two objects and the derivation of that object yields the group. -/
theorem nmp_cache_update_two_added (s : Store) (p q : Nat) (M N : NMPObjectAspects)
    (b1 b2 b3 b4 : Bool) (d1 d2 : NMPObjectData)
    (hempty : s.cache = nmp_cache_new)
    (hp : nmp_object_is_alive s.heap p = true) (hq : nmp_object_is_alive s.heap q = true)
    (hd1 : data_at s.heap p = some d1) (hd2 : data_at s.heap q = some d2)
    (hpq : p ≠ q) (hid : object_identity d1 ≠ object_identity d2) :
    ∃ r1 r2, nmp_cache_update s p M b1 b2 = some r1 ∧ r1.ret = NMP_CACHE_OPS_ADDED ∧
      nmp_cache_update r1.store q N b3 b4 = some r2 ∧ r2.ret = NMP_CACHE_OPS_ADDED ∧
      nm_multi_index_wf r2.store.cache.idx_multi ∧
      ∀ g x, x ∈ nm_multi_index_members r2.store.cache.idx_multi g ↔
        ((x = p ∧ cmd_obj_init_cache_id d1 g._id_type = some (some g)) ∨
          (x = q ∧ cmd_obj_init_cache_id d2 g._id_type = some (some g))) := by
  have hvp := valid_of_nmp_object_is_alive hp
  have hvq := valid_of_nmp_object_is_alive hq
  obtain ⟨hp0, -⟩ := heap_some_of_valid hvp
  obtain ⟨hq0, -⟩ := heap_some_of_valid hvq
  have e1 : s.cache.idx_multi = nm_multi_index_new := by rw [hempty]; rfl
  have e2 : s.cache.idx_main = [] := by rw [hempty]; rfl
  have hwf0 : nm_multi_index_wf s.cache.idx_multi := by
    rw [e1]; exact ⟨List.nodup_nil, fun e he => by simp [nm_multi_index_new] at he⟩
  have hroom0 : nm_multi_index_has_room s.cache.idx_multi := by
    rw [e1]; intro e he; simp [nm_multi_index_new] at he
  have hfresh0 : nm_multi_index_lookup_first_by_value s.cache.idx_multi p = none := by
    rw [e1]; simp [nm_multi_index_lookup_first_by_value, nm_multi_index_new]
  have habs0 : nmp_cache_lookup_obj s p = 0 := by
    simp [nmp_cache_lookup_obj, e2, g_hash_table_lookup_main]
  obtain ⟨d, idx1, hd, w1, m1, eq1⟩ :=
    nmp_cache_update_added_result s p M b1 b2 hwf0 hroom0 hfresh0 habs0 hp
  rw [hd1] at hd
  simp only [Option.some.injEq] at hd
  subst hd
  have m1' : ∀ g x, x ∈ nm_multi_index_members idx1 g ↔
      (x = p ∧ cmd_obj_init_cache_id d1 g._id_type = some (some g)) := by
    intro g x
    rw [m1 g x, e1, nm_multi_index_members_new]
    simp
  · have hk : ∀ x, ptr_key (set_is_cached (nmp_object_get (out_obj_heap b1 s.heap p) p).2 p true) x
        = ptr_key s.heap x := by
      intro x
      rw [ptr_key_set_is_cached, ptr_key_nmp_object_get, ptr_key_out_obj_heap]
    have hroom1 : nm_multi_index_has_room idx1 := by
      apply nm_multi_index_has_room_of_members w1
      intro g
      have := nm_multi_index_members_length_le_one w1 g p (fun x hx => ((m1' g x).mp hx).1)
      simp only [G_MAXINT]
      omega
    have hfresh1 : nm_multi_index_lookup_first_by_value idx1 q = none := by
      apply nm_multi_index_lookup_first_by_value_eq_none w1
      intro g hg
      exact hpq ((m1' g q).mp hg).1.symm
    have hne : nmp_object_id_equal s.heap p q = false := by
      rw [Bool.eq_false_iff]
      intro h
      have := (nmp_object_id_equal_iff s.heap p q hp0 hq0 hpq).mp h
      rw [ptr_key_of_data_at hvp hd1, ptr_key_of_data_at hvq hd2] at this
      exact hid (Option.some.inj this.1)
    have habs1 : nmp_cache_lookup_obj
        { heap := set_is_cached (nmp_object_get (out_obj_heap b1 s.heap p) p).2 p true,
          cache := { idx_main := p :: s.cache.idx_main, idx_multi := idx1 } } q = 0 := by
      simp only [nmp_cache_lookup_obj, hq0, if_false, e2, g_hash_table_lookup_main,
        List.find?_cons, List.find?_nil]
      rw [nmp_object_id_equal_congr s.heap _ p q (hk p) (hk q), hne]
    have hvq1 : NMP_OBJECT_IS_VALID
        (set_is_cached (nmp_object_get (out_obj_heap b1 s.heap p) p).2 p true) q = true := by
      rw [NMP_OBJECT_IS_VALID_set_is_cached, NMP_OBJECT_IS_VALID_nmp_object_get,
        NMP_OBJECT_IS_VALID_out_obj_heap]
      exact hvq
    have hdq1 : data_at
        (set_is_cached (nmp_object_get (out_obj_heap b1 s.heap p) p).2 p true) q = some d2 := by
      rw [data_at_set_is_cached, data_at_nmp_object_get, data_at_out_obj_heap]
      exact hd2
    have hq1 : nmp_object_is_alive
        (set_is_cached (nmp_object_get (out_obj_heap b1 s.heap p) p).2 p true) q = true := by
      rw [nmp_object_is_alive_eq] at hq ⊢
      rw [hvq1, hdq1]
      rw [hvq, hd2] at hq
      exact hq
    obtain ⟨d, idx2, hd, w2, m2, eq2⟩ :=
      nmp_cache_update_added_result _ q N b3 b4 w1 hroom1 hfresh1 habs1 hq1
    rw [hdq1] at hd
    simp only [Option.some.injEq] at hd
    subst hd
    refine ⟨_, _, eq1, rfl, eq2, rfl, w2, ?_⟩
    intro g x
    simp only
    rw [m2 g x, m1' g x]

theorem nmp_object_put_self (h : Heap) (p : Nat) :
    nmp_object_put h p p = h p ∨ nmp_object_put h p p = none ∨
      ∃ o, h p = some o ∧ 1 < o._ref_count ∧
        nmp_object_put h p p = some { o with _ref_count := o._ref_count - 1 } := by
  unfold nmp_object_put
  by_cases hp0 : p = 0
  · simp [hp0]
  · cases hp : h p with
    | none => simp [hp0, hp]
    | some o =>
      simp only [hp0, if_false]
      by_cases h1 : 0 < o._ref_count
      · by_cases h2 : o._ref_count = NMP_REF_COUNT_INITSTACK
        · left; simp [h1, h2, hp]
        · by_cases h3 : o._ref_count - 1 ≤ 0
          · right; left; simp [h1, h2, h3]
          · right; right
            exact ⟨o, rfl, by omega, by simp [h1, h2, h3]⟩
      · left; simp [h1, hp]

theorem ptr_key_nmp_object_put_self (h : Heap) (p : Nat) :
    ptr_key (nmp_object_put h p) p = none ∨ ptr_key (nmp_object_put h p) p = ptr_key h p := by
  rcases nmp_object_put_self h p with e | e | ⟨o, ho, h1, e⟩
  · right; simp only [ptr_key, e]
  · left; simp only [ptr_key, e]
  · right
    have a : 0 < o._ref_count - 1 := by omega
    have b : 0 < o._ref_count := by omega
    simp [ptr_key, e, ho, a, b]

theorem is_cached_at_nmp_object_put (h : Heap) (p q : Nat)
    (hc : is_cached_at (nmp_object_put h p) q = true) : is_cached_at h q = true := by
  by_cases hq : q = p
  · subst hq
    rcases nmp_object_put_self h q with e | e | ⟨o, ho, h1, e⟩
    · simpa only [is_cached_at, e] using hc
    · simp [is_cached_at, e] at hc
    · simp only [is_cached_at, e] at hc
      simp [is_cached_at, ho, hc]
  · rw [is_cached_at_congr (nmp_object_put_ne h p q hq)] at hc
    exact hc

theorem nmp_object_get_ne (h : Heap) (p q : Nat) (hq : q ≠ p) : (nmp_object_get h p).2 q = h q := by
  rcases nmp_object_get_heap h p with e | ⟨o, -, -, e⟩
  · rw [e]
  · rw [e]; simp [Function.update, hq]

theorem out_obj_heap_ne (h : Heap) (b : Bool) (p q : Nat) (hq : q ≠ p) :
    out_obj_heap b h p q = h q := by
  cases b
  · rfl
  · exact nmp_object_get_ne h p q hq

theorem set_is_cached_ne (h : Heap) (p q : Nat) (v : Bool) (hq : q ≠ p) :
    set_is_cached h p v q = h q := by
  unfold set_is_cached
  cases hp : h p with
  | none => rfl
  | some o => simp [Function.update, hq]

theorem nmp_object_get_fst (h : Heap) (p : Nat) (hv : NMP_OBJECT_IS_VALID h p = true)
    (hs : NMP_OBJECT_IS_STACKINIT h p = false) : (nmp_object_get h p).1 = p := by
  obtain ⟨h0, o, ho, hr⟩ := heap_some_of_valid hv
  have : ¬ o._ref_count = NMP_REF_COUNT_INITSTACK := by
    intro e
    simp [NMP_OBJECT_IS_STACKINIT, h0, ho, e] at hs
  simp [nmp_object_get, hv, ho, this]

theorem nmp_object_is_visible_out_obj_heap (h : Heap) (b : Bool) (x q : Nat) :
    nmp_object_is_visible (out_obj_heap b h x) q = nmp_object_is_visible h q := by
  have hv := NMP_OBJECT_IS_VALID_out_obj_heap h b x q
  have hd := data_at_out_obj_heap h b x q
  unfold nmp_object_is_visible
  rw [hv]
  unfold data_at at hd
  cases h1 : out_obj_heap b h x q <;> cases h2 : h q <;> simp_all

theorem g_hash_table_lookup_main_of_none {h : Heap} {idx : List Nat} {key : Nat}
    (hn : ∀ k ∈ idx, nmp_object_id_equal h k key = false) :
    g_hash_table_lookup_main h idx key = 0 := by
  unfold g_hash_table_lookup_main
  have : idx.find? (fun k => nmp_object_id_equal h k key) = none := by
    rw [List.find?_eq_none]
    intro k hk
    simp [hn k hk]
  rw [this]

/-- The result of `nmp_cache_remove` when the primary index holds an object of the probe's
identity. -/
theorem nmp_cache_remove_eq_removed {s s' : Store} {obj old : Nat} (b1 b2 : Bool)
    (hold : g_hash_table_lookup_main s.heap s.cache.idx_main obj = old) (h0 : old ≠ 0)
    (hrm : _nmp_cache_update_remove { s with heap := (out_obj_heap b1 s.heap old) } old
      = some s') :
    nmp_cache_remove s obj b1 b2 =
      some { ret := NMP_CACHE_OPS_REMOVED,
             out_obj := (if b1 then nmp_object_get s.heap old else (0, s.heap)).1,
             out_was_visible :=
               (if b2 then nmp_object_is_visible (out_obj_heap b1 s.heap old) old else false),
             store := s' } := by
  unfold nmp_cache_remove
  unfold out_obj_heap at hrm ⊢
  simp only [hold, h0, if_false]
  rw [hrm]


/-! ## The outcomes of the Multi-Index operations -/

section IndexOutcome

variable {Id : Type} [DecidableEq Id]

/-- A full group refuses a new member: `_do_add` returns false and leaves the index as it is. -/
theorem _do_add_full {index : NMMultiIndex Id} (hwf : nm_multi_index_wf index)
    (id : Id) (value : Nat)
    (hfull : ¬ ((nm_multi_index_members index id).length : Int) + 2 < G_MAXINT) :
    _do_add index id value = (false, index) := by
  unfold _do_add
  cases hl : g_hash_table_lookup index.hash id with
  | none =>
    rw [nm_multi_index_members_of_lookup_none hl] at hfull
    exact absurd (by simp [G_MAXINT]) hfull
  | some array =>
    obtain ⟨ms, rfl, -, -, -⟩ := nm_multi_index_wf_lookup hwf hl
    rw [nm_multi_index_members_of_lookup hl] at hfull
    have hf : G_MAXINT ≤ ((ms ++ [0]).length : Int) + 1 := by
      simp only [List.length_append, List.length_singleton]
      push_cast
      omega
    simp only [hf, if_true]
    split_ifs <;> rfl

/-- The three outcomes of `nm_multi_index_add` for a non-null member. -/
theorem nm_multi_index_add_cases {index : NMMultiIndex Id} (hwf : nm_multi_index_wf index)
    (id : Id) (value : Nat) (hv : value ≠ 0) :
    ((value ∈ nm_multi_index_members index id ∨
        ¬ ((nm_multi_index_members index id).length : Int) + 2 < G_MAXINT) →
      nm_multi_index_add index id value = (false, index)) ∧
    (value ∉ nm_multi_index_members index id →
      ((nm_multi_index_members index id).length : Int) + 2 < G_MAXINT →
      (nm_multi_index_add index id value).1 = true ∧
      nm_multi_index_wf (nm_multi_index_add index id value).2 ∧
      ∀ id' x, x ∈ nm_multi_index_members (nm_multi_index_add index id value).2 id' ↔
        (x ∈ nm_multi_index_members index id' ∨ (id' = id ∧ x = value))) := by
  have e : nm_multi_index_add index id value = _do_add index id value := by
    simp [nm_multi_index_add, hv]
  rw [e]
  refine ⟨?_, (_do_add_spec hwf id value hv).2⟩
  intro h
  rcases h with h | h
  · exact (_do_add_spec hwf id value hv).1 h
  · exact _do_add_full hwf id value h

/-- The members of every group after `_do_remove`. -/
theorem _do_remove_members {index : NMMultiIndex Id} (hwf : nm_multi_index_wf index)
    (id : Id) (value : Nat) (id' : Id) (x : Nat) :
    x ∈ nm_multi_index_members (_do_remove index id value).2 id' ↔
      (x ∈ nm_multi_index_members index id' ∧ ¬ (id' = id ∧ x = value)) := by
  by_cases hm : value ∈ nm_multi_index_members index id
  · exact ((_do_remove_spec hwf id value).2 hm).2.2 id' x
  · rw [(_do_remove_spec hwf id value).1 hm]
    constructor
    · intro h
      refine ⟨h, ?_⟩
      rintro ⟨rfl, rfl⟩
      exact hm h
    · exact fun h => h.1

theorem g_hash_table_insert_length (t : List (Id × List Nat)) (k : Id) (v : List Nat) :
    (g_hash_table_insert t k v).length =
      t.length + (if g_hash_table_lookup t k = none then 1 else 0) := by
  induction t with
  | nil => simp [g_hash_table_insert, g_hash_table_lookup]
  | cons e t ih =>
    obtain ⟨a, b⟩ := e
    by_cases h : a = k
    · simp [g_hash_table_insert, g_hash_table_lookup, h]
    · simp [g_hash_table_insert, g_hash_table_lookup, h, ih]
      omega

theorem _do_add_num_groups (index : NMMultiIndex Id) (id : Id) (value : Nat)
    (h : (_do_add index id value).1 = true) :
    nm_multi_index_get_num_groups (_do_add index id value).2 =
      nm_multi_index_get_num_groups index +
        (if (nm_multi_index_lookup index id).1 = none then 1 else 0) := by
  unfold _do_add at h ⊢
  unfold nm_multi_index_get_num_groups nm_multi_index_lookup
  cases hl : g_hash_table_lookup index.hash id with
  | none => simp [g_hash_table_insert_length, hl]
  | some array =>
    simp only [hl] at h ⊢
    split_ifs at h ⊢ <;> simp_all [g_hash_table_insert_length]

end IndexOutcome

/-! ## A full group -/

theorem demo_full_members_length : demo_full_members.length = 2147483645 := by
  unfold demo_full_members
  exact List.length_range' _ _ _

theorem demo_full_members_mem (x : Nat) : x ∈ demo_full_members ↔ 1 ≤ x ∧ x < 2147483646 := by
  unfold demo_full_members
  rw [List.mem_range'_1]

theorem demo_full_index_lookup :
    g_hash_table_lookup demo_full_index.hash 0 = some (demo_full_members ++ [0]) := by
  simp [demo_full_index, g_hash_table_lookup]

theorem demo_full_index_wf : nm_multi_index_wf demo_full_index := by
  refine ⟨by simp [demo_full_index], ?_⟩
  intro e he
  simp only [demo_full_index, List.mem_singleton] at he
  subst he
  rw [GPtrArrayWF_append_null]
  refine ⟨?_, ?_, ?_⟩
  · intro h
    have := demo_full_members_length
    rw [h] at this
    simp at this
  · unfold demo_full_members
    exact List.pairwise_lt_range' _ _
  · intro m hm
    have := (demo_full_members_mem m).mp hm
    omega

theorem demo_full_index_members : nm_multi_index_members demo_full_index 0 = demo_full_members :=
  nm_multi_index_members_of_lookup demo_full_index_lookup

/-- The full group refuses the member `G_MAXINT - 1`, which it does not hold. -/
theorem demo_full_index_add :
    2147483646 ∉ nm_multi_index_members demo_full_index 0 ∧
    nm_multi_index_add demo_full_index 0 2147483646 = (false, demo_full_index) := by
  have hm : 2147483646 ∉ nm_multi_index_members demo_full_index 0 := by
    rw [demo_full_index_members, demo_full_members_mem]
    omega
  refine ⟨hm, ?_⟩
  apply (nm_multi_index_add_cases demo_full_index_wf 0 2147483646 (by omega)).1
  right
  rw [demo_full_index_members, demo_full_members_length]
  simp [G_MAXINT]

theorem nm_multi_index_move_unequal {Id : Type} [DecidableEq Id] (index : NMMultiIndex Id)
    (A B : Id) (m : Nat) (hm : m ≠ 0) (hAB : A ≠ B) :
    nm_multi_index_move index (some A) (some B) m =
      ((_do_add (_do_remove index A m).2 B m).1 && (_do_remove index A m).1,
        (_do_add (_do_remove index A m).2 B m).2) := by
  simp [nm_multi_index_move, hm, hAB]

theorem demo_full_index_do_add :
    _do_add demo_full_index 0 2147483646 = (false, demo_full_index) := by
  have e := demo_full_index_add.2
  have e2 : nm_multi_index_add demo_full_index 0 2147483646
      = _do_add demo_full_index 0 2147483646 := by
    unfold nm_multi_index_add
    rw [if_neg (by omega)]
  rw [← e2]
  exact e

theorem demo_full_index_do_remove :
    _do_remove demo_full_index 1 2147483646 = (false, demo_full_index) := by
  have hl : g_hash_table_lookup demo_full_index.hash 1 = none := by
    simp [demo_full_index, g_hash_table_lookup]
  unfold _do_remove
  rw [hl]

theorem demo_full_index_move :
    nm_multi_index_move demo_full_index (some 1) (some 0) 2147483646
      = (false, demo_full_index) := by
  rw [nm_multi_index_move_unequal _ _ _ _ (by omega) (by omega), demo_full_index_do_remove,
    demo_full_index_do_add]
  rfl


/-! ## The cache with an IPv4 and an IPv6 route -/

theorem demo_route46_store_reachable : Reachable demo_route46_store :=
  Reachable.alloc _ 200 demo_route6_user
    (Reachable.alloc demo_store0 100 demo_route_user Reachable.init (by decide) rfl
      (by decide) rfl)
    (by decide) rfl (by decide) rfl

theorem demo_route46_result1_reachable : Reachable demo_route46_result1.store :=
  Reachable.update demo_route46_store 100 NMP_OBJECT_ASPECT_PUBLIC false false
    demo_route46_result1 demo_route46_store_reachable (by decide) (by decide) (by decide) rfl

theorem demo_route46_result2_reachable : Reachable demo_route46_result2.store :=
  Reachable.update demo_route46_result1.store 200 NMP_OBJECT_ASPECT_PUBLIC false false
    demo_route46_result2 demo_route46_result1_reachable (by decide) (by decide) (by decide) rfl

/-! ## Lemmas on removal, moves, visits, identity and probes -/

/-! ## The outcomes of `nm_multi_index_remove` and `nm_multi_index_move` -/

section RemoveOutcome

variable {Id : Type} [DecidableEq Id]

theorem g_hash_table_remove_length (t : List (Id × List Nat)) (k : Id) :
    (g_hash_table_remove t k).length + (if g_hash_table_lookup t k = none then 0 else 1) =
      t.length := by
  induction t with
  | nil => simp [g_hash_table_remove, g_hash_table_lookup]
  | cons e t ih =>
    obtain ⟨a, b⟩ := e
    by_cases h : a = k
    · simp [g_hash_table_remove, g_hash_table_lookup, h]
    · simp only [g_hash_table_remove, g_hash_table_lookup, h, if_false, List.length_cons]
      omega

theorem nm_multi_index_lookup_none_of_members {index : NMMultiIndex Id}
    (hwf : nm_multi_index_wf index) (g : Id) (h : nm_multi_index_members index g = []) :
    nm_multi_index_lookup index g = (none, 0) := by
  cases hl : g_hash_table_lookup index.hash g with
  | none => simp [nm_multi_index_lookup, hl]
  | some array =>
    obtain ⟨ms, rfl, hne, -, -⟩ := nm_multi_index_wf_lookup hwf hl
    rw [nm_multi_index_members_of_lookup hl] at h
    exact absurd h hne

theorem nm_multi_index_lookup_some_of_members {index : NMMultiIndex Id}
    (g : Id) (h : nm_multi_index_members index g ≠ []) :
    (nm_multi_index_lookup index g).1 ≠ none := by
  cases hl : g_hash_table_lookup index.hash g with
  | none => exact absurd (nm_multi_index_members_of_lookup_none hl) h
  | some array => simp [nm_multi_index_lookup, hl]

/-- The number of groups after a successful `_do_remove`: one less exactly when the member
was the only one of its group. -/
theorem _do_remove_num_groups {index : NMMultiIndex Id} (hwf : nm_multi_index_wf index)
    (g : Id) (m : Nat) (hm : m ∈ nm_multi_index_members index g) :
    nm_multi_index_get_num_groups (_do_remove index g m).2 +
        (if nm_multi_index_members index g = [m] then 1 else 0) =
      nm_multi_index_get_num_groups index := by
  unfold _do_remove nm_multi_index_get_num_groups
  cases hl : g_hash_table_lookup index.hash g with
  | none =>
    rw [nm_multi_index_members_of_lookup_none hl] at hm
    simp at hm
  | some array =>
    obtain ⟨ms, rfl, hne, hs, -⟩ := nm_multi_index_wf_lookup hwf hl
    rw [nm_multi_index_members_of_lookup hl] at hm ⊢
    by_cases hlen : (ms ++ [0]).length ≤ 2
    · have hms : ∃ x, ms = [x] := by
        match ms, hne, hlen with
        | [x], _, _ => exact ⟨x, rfl⟩
        | _ :: _ :: _, _, h => simp at h
      obtain ⟨x, rfl⟩ := hms
      have hx : x = m := by
        simp only [List.mem_singleton] at hm
        exact hm.symm
      subst hx
      have := g_hash_table_remove_length index.hash g
      simp only [hl] at this
      simpa using this
    · have hiff := _binary_search_nonneg_iff ms m hs
      have hnn0 : ¬ _binary_search (ms ++ [0]) m < 0 := by
        have := hiff.mpr hm; omega
      have hne1 : ms ≠ [m] := by
        intro e
        rw [e] at hlen
        simp at hlen
      simp only [hlen, hnn0, hne1, if_false, g_hash_table_insert_length, hl]
      simp

end RemoveOutcome

section MoveOutcome

variable {Id : Type} [DecidableEq Id]

theorem nm_multi_index_move_equal (index : NMMultiIndex Id) (A : Id) (m : Nat) (hm : m ≠ 0) :
    nm_multi_index_move index (some A) (some A) m =
      (!(_do_add index A m).1, (_do_add index A m).2) := by
  simp only [nm_multi_index_move, hm, if_false, if_true]
  cases h : _do_add index A m with
  | mk b idx => cases b <;> rfl

theorem nm_multi_index_move_null (index : NMMultiIndex Id) (a b : Option Id) :
    nm_multi_index_move index a b 0 = (false, index) := by
  simp [nm_multi_index_move]

end MoveOutcome

/-! ## The index with a full group and a group of one member -/

theorem demo_full_index2_lookup0 :
    g_hash_table_lookup demo_full_index2.hash 0 = some (demo_full_members ++ [0]) := by
  simp [demo_full_index2, g_hash_table_lookup]

theorem demo_full_index2_lookup1 :
    g_hash_table_lookup demo_full_index2.hash 1 = some ([2147483646] ++ [0]) := by
  simp [demo_full_index2, g_hash_table_lookup]

theorem demo_full_index2_wf : nm_multi_index_wf demo_full_index2 := by
  refine ⟨by simp [demo_full_index2], ?_⟩
  intro e he
  simp only [demo_full_index2, List.mem_cons, List.mem_singleton, List.not_mem_nil,
    or_false] at he
  rcases he with he | he
  · subst he
    exact demo_full_index_wf.2 (0, demo_full_members ++ [0]) (by simp [demo_full_index])
  · subst he
    have : ([2147483646, 0] : List Nat) = [2147483646] ++ [0] := rfl
    simp only [this]
    rw [GPtrArrayWF_append_null]
    simp

theorem demo_full_index2_members0 :
    nm_multi_index_members demo_full_index2 0 = demo_full_members :=
  nm_multi_index_members_of_lookup demo_full_index2_lookup0

theorem demo_full_index2_members1 :
    nm_multi_index_members demo_full_index2 1 = [2147483646] :=
  nm_multi_index_members_of_lookup demo_full_index2_lookup1

theorem demo_full_index2_do_remove :
    _do_remove demo_full_index2 1 2147483646 = (true, demo_full_index) := by
  unfold _do_remove
  rw [demo_full_index2_lookup1]
  have e : g_hash_table_remove demo_full_index2.hash 1 = demo_full_index.hash := by
    simp [demo_full_index2, demo_full_index, g_hash_table_remove]
  simp only [List.singleton_append, List.length_cons, List.length_nil, Nat.reduceAdd,
    Nat.le_refl, if_true, List.getD_cons_zero, ne_eq, not_true_eq_false, if_false, e]

theorem demo_full_index2_move :
    nm_multi_index_move demo_full_index2 (some 1) (some 0) 2147483646
      = (false, demo_full_index) := by
  rw [nm_multi_index_move_unequal _ _ _ _ (by omega) (by omega), demo_full_index2_do_remove,
    demo_full_index_do_add]
  rfl

theorem demo_full_index_move_equal :
    nm_multi_index_move demo_full_index (some 0) (some 0) 2147483646
      = (true, demo_full_index) := by
  rw [nm_multi_index_move_equal _ _ _ (by omega), demo_full_index_do_add]
  rfl

theorem visit_groups_foreach_loop {Id σ : Type} (value : Nat)
    (visitor : Id → List Nat → Nat → σ → Bool × σ) :
    ∀ (t : List (Id × List Nat)) (u : σ),
      nm_multi_index_foreach_loop value visitor t u =
        visit_groups visitor
          (t.filter (fun e => decide (value = 0 ∨ 0 ≤ _binary_search e.2 value))) u := by
  intro t
  induction t with
  | nil => intro u; rfl
  | cons e t ih =>
    intro u
    obtain ⟨id, array⟩ := e
    unfold nm_multi_index_foreach_loop
    by_cases hc : value ≠ 0 ∧ _binary_search array value < 0
    · have hf : ¬ (value = 0 ∨ 0 ≤ _binary_search array value) := by
        intro h
        rcases h with h | h
        · exact hc.1 h
        · omega
      rw [if_pos hc, List.filter_cons, if_neg (by simpa using hf)]
      exact ih u
    · have hf : value = 0 ∨ 0 ≤ _binary_search array value := by
        by_cases h0 : value = 0
        · exact Or.inl h0
        · right
          by_contra h
          exact hc ⟨h0, by omega⟩
      rw [if_neg hc, List.filter_cons, if_pos (by simpa using hf)]
      unfold visit_groups
      cases hr : visitor id array (array.length - 1) u with
      | mk b u' =>
        cases b
        · simp
        · simp only [if_true]
          exact ih u'

section ReachableIndex

variable {Id : Type} [DecidableEq Id]

theorem nm_multi_index_wf_of_index_reachable {index : NMMultiIndex Id}
    (h : NMMultiIndexReachable index) : nm_multi_index_wf index := by
  induction h with
  | new => exact ⟨List.nodup_nil, fun e he => by simp [nm_multi_index_new] at he⟩
  | add index id value _ ih => exact nm_multi_index_add_wf ih id value
  | remove index id value _ ih => exact nm_multi_index_remove_wf ih id value
  | move index id_old id_new value _ ih => exact nm_multi_index_move_wf ih id_old id_new value

theorem nm_multi_index_lookup_first_by_value_some {index : NMMultiIndex Id}
    (hwf : nm_multi_index_wf index) {value : Nat} {g : Id}
    (h : nm_multi_index_lookup_first_by_value index value = some g) :
    nm_multi_index_contains index g value = true := by
  unfold nm_multi_index_lookup_first_by_value at h
  by_cases hv : value = 0
  · simp [hv] at h
  · simp only [hv, if_false, Option.map_eq_some'] at h
    obtain ⟨e, he, rfl⟩ := h
    have hmem := List.mem_of_find?_eq_some he
    have hp := List.find?_some he
    have hl := g_hash_table_lookup_of_mem index.hash e.1 e.2 hwf.1 hmem
    unfold nm_multi_index_contains
    simp only [hv, if_false, hl]
    exact hp

end ReachableIndex

theorem same_identity_fields_iff (a b : NMPObjectData) :
    same_identity_fields a b ↔ object_identity a = object_identity b := by
  rw [object_identity_eq_iff]
  cases a <;> cases b <;> simp [same_identity_fields]

theorem ptr_key_eq_some_iff {h : Heap} {p : Nat} {o : NMPObject} (ho : h p = some o) :
    ptr_key h p = if 0 < o._ref_count then some (object_identity o.data) else none := by
  simp [ptr_key, ho]

/-- Transitivity of `nmp_object_id_equal`, for any three pointers. -/
theorem nmp_object_id_equal_trans_general {h : Heap} {a b c : Nat}
    (hab : nmp_object_id_equal h a b = true) (hbc : nmp_object_id_equal h b c = true) :
    nmp_object_id_equal h a c = true := by
  by_cases e1 : a = b
  · rw [e1]; exact hbc
  · by_cases e2 : b = c
    · rw [← e2]; exact hab
    · by_cases e3 : a = c
      · simp [nmp_object_id_equal, e3]
      · have n1 : ¬ (a = 0 ∨ b = 0) := by
          intro h0
          simp [nmp_object_id_equal, e1, h0] at hab
        have n2 : ¬ (b = 0 ∨ c = 0) := by
          intro h0
          simp [nmp_object_id_equal, e2, h0] at hbc
        have ha : a ≠ 0 := fun h0 => n1 (Or.inl h0)
        have hb : b ≠ 0 := fun h0 => n1 (Or.inr h0)
        have hc : c ≠ 0 := fun h0 => n2 (Or.inr h0)
        have k1 := (nmp_object_id_equal_iff h a b ha hb e1).mp hab
        have k2 := (nmp_object_id_equal_iff h b c hb hc e2).mp hbc
        exact (nmp_object_id_equal_iff h a c ha hc e3).mpr ⟨k1.1.trans k2.1, k1.2⟩

/-- For two valid objects at different addresses, `nmp_object_id_equal` compares the
identities of the payloads. -/
theorem nmp_object_id_equal_valid {h : Heap} {a b : Nat} {x y : NMPObject}
    (ha : h a = some x) (hb : h b = some y) (hva : NMP_OBJECT_IS_VALID h a = true)
    (hvb : NMP_OBJECT_IS_VALID h b = true) :
    nmp_object_id_equal h a b = true ↔ same_identity_fields x.data y.data := by
  obtain ⟨a0, x', hx', hx0⟩ := heap_some_of_valid hva
  obtain ⟨b0, y', hy', hy0⟩ := heap_some_of_valid hvb
  rw [ha] at hx'; rw [hb] at hy'
  simp only [Option.some.injEq] at hx' hy'
  subst hx' hy'
  rw [same_identity_fields_iff]
  by_cases e : a = b
  · subst e
    rw [ha] at hb
    simp only [Option.some.injEq] at hb
    subst hb
    simp [nmp_object_id_equal]
  · rw [nmp_object_id_equal_iff h a b a0 b0 e, ptr_key_eq_some_iff ha, ptr_key_eq_some_iff hb]
    simp [hx0, hy0]

theorem cmd_obj_stackinit_id_eq (d : NMPObjectData) :
    cmd_obj_stackinit_id d d = ⟨NMP_REF_COUNT_INITSTACK, false, object_identity d⟩ := by
  cases d <;> rfl

theorem object_identity_idem (d : NMPObjectData) :
    object_identity (object_identity d) = object_identity d := by
  cases d <;> rfl

theorem nmp_object_stackinit_id_heap {heap : Heap} {probe src : Nat} {o : NMPObject}
    (hp : probe ≠ 0) (hps : probe ≠ src) (ho : heap src = some o) :
    nmp_object_stackinit_id heap probe src =
      Function.update heap probe
        (some ⟨NMP_REF_COUNT_INITSTACK, false, object_identity o.data⟩) := by
  unfold nmp_object_stackinit_id
  simp only [hp, if_false, ho, hps]
  rw [cmd_obj_stackinit_id_eq]

theorem ptr_key_stackinit (heap : Heap) (p : Nat) (d : NMPObjectData) :
    ptr_key (Function.update heap p (some ⟨NMP_REF_COUNT_INITSTACK, false, object_identity d⟩)) p
      = some (object_identity d) := by
  have : (0 : Int) < NMP_REF_COUNT_INITSTACK := by decide
  simp [ptr_key, this, object_identity_idem]

theorem ptr_key_of_valid {heap : Heap} {p : Nat} {o : NMPObject} (ho : heap p = some o)
    (hv : NMP_OBJECT_IS_VALID heap p = true) : ptr_key heap p = some (object_identity o.data) := by
  obtain ⟨-, o', ho', h0⟩ := heap_some_of_valid hv
  rw [ho] at ho'
  simp only [Option.some.injEq] at ho'
  subst ho'
  simp [ptr_key, ho, h0]

/-- Two keys that are identity-equal to each other find the same entry of the primary
index. -/
theorem g_hash_table_lookup_main_of_id_equal {heap : Heap} (idx : List Nat) {a b : Nat}
    (h : nmp_object_id_equal heap a b = true) :
    g_hash_table_lookup_main heap idx a = g_hash_table_lookup_main heap idx b := by
  unfold g_hash_table_lookup_main
  have : (fun k => nmp_object_id_equal heap k a) = (fun k => nmp_object_id_equal heap k b) := by
    funext k
    rw [Bool.eq_iff_iff]
    constructor
    · intro hk
      exact nmp_object_id_equal_trans_general hk h
    · intro hk
      rw [nmp_object_id_equal_comm] at h
      exact nmp_object_id_equal_trans_general hk h
  rw [this]

/-- A cached object is identity-equal to the needle of `nmp_cache_lookup_link` exactly when
it is a link with the interface index of the needle. -/
theorem nmp_object_id_equal_needle {s : Store} (hwf : nmp_cache_main_wf s) {needle : Nat}
    (hn : needle ≠ 0) (hnc : needle ∉ s.cache.idx_main) (ifindex : Int) {k : Nat}
    (hk : k ∈ s.cache.idx_main) :
    nmp_object_id_equal
        (Function.update s.heap needle (some (nmp_object_stackinit_id_link ifindex))) k needle
        = true ↔
      ∃ l, data_at s.heap k = some (._link l) ∧ l._public.ifindex = ifindex := by
  obtain ⟨k0, kv, -⟩ := hwf.2.1 k hk
  obtain ⟨-, x, hx, hx0⟩ := heap_some_of_valid kv
  have hkn : k ≠ needle := fun e => hnc (e ▸ hk)
  have e1 : Function.update s.heap needle (some (nmp_object_stackinit_id_link ifindex)) k
      = some x := by
    rw [Function.update_noteq hkn]; exact hx
  have e2 : Function.update s.heap needle (some (nmp_object_stackinit_id_link ifindex)) needle
      = some (nmp_object_stackinit_id_link ifindex) := Function.update_same _ _ _
  have v1 : NMP_OBJECT_IS_VALID
      (Function.update s.heap needle (some (nmp_object_stackinit_id_link ifindex))) k = true := by
    rw [NMP_OBJECT_IS_VALID_update_ne _ _ _ _ hkn]; exact kv
  have v2 : NMP_OBJECT_IS_VALID
      (Function.update s.heap needle (some (nmp_object_stackinit_id_link ifindex))) needle
        = true := by
    have : (0 : Int) < NMP_REF_COUNT_INITSTACK := by decide
    simp only [NMP_OBJECT_IS_VALID, e2, Bool.and_eq_true, bne_iff_ne, ne_eq, decide_eq_true_eq]
    exact ⟨hn, this⟩
  rw [nmp_object_id_equal_valid e1 e2 v1 v2]
  simp only [data_at, hx, Option.some.injEq]
  have hd : (nmp_object_stackinit_id_link ifindex).data
      = ._link ⟨⟨ifindex, 0⟩, ⟨0, 0, 0, 0, 0⟩, ⟨0⟩⟩ := rfl
  rw [hd]
  cases hxd : x.data <;> simp [same_identity_fields]

theorem nmp_cache_lookup_link_found {s : Store} (hwf : nmp_cache_main_wf s) {needle : Nat}
    (hn : needle ≠ 0) (hnc : needle ∉ s.cache.idx_main) (ifindex : Int) {p : Nat}
    (hp : p ∈ s.cache.idx_main) {l : NMPObjectLink} (hd : data_at s.heap p = some (._link l))
    (hi : l._public.ifindex = ifindex) : nmp_cache_lookup_link s needle ifindex = p := by
  have hnz : ∀ k ∈ s.cache.idx_main, k ≠ 0 := fun k hk => (hwf.2.1 k hk).1
  have hpe := (nmp_object_id_equal_needle hwf hn hnc ifindex hp).mpr ⟨l, hd, hi⟩
  have hne : nmp_cache_lookup_link s needle ifindex ≠ 0 := by
    intro h0
    have := g_hash_table_lookup_main_eq_zero hnz h0 p hp
    rw [hpe] at this
    exact absurd this (by simp)
  obtain ⟨hr, he⟩ := g_hash_table_lookup_main_ne_zero hne
  have hr2 : nmp_cache_lookup_link s needle ifindex ∈ s.cache.idx_main := hr
  have he2 : nmp_object_id_equal
      (Function.update s.heap needle (some (nmp_object_stackinit_id_link ifindex)))
      (nmp_cache_lookup_link s needle ifindex) needle = true := he
  generalize nmp_cache_lookup_link s needle ifindex = r at hr2 he2
  rw [nmp_object_id_equal_comm] at hpe
  have hrp := nmp_object_id_equal_trans_general he2 hpe
  have hrn : r ≠ needle := fun e => hnc (e ▸ hr2)
  have hpn : p ≠ needle := fun e => hnc (e ▸ hp)
  rw [nmp_object_id_equal_congr s.heap _ r p (ptr_key_update_ne _ _ _ _ hrn)
    (ptr_key_update_ne _ _ _ _ hpn)] at hrp
  exact hwf.2.2 r hr2 p hp hrp

theorem nmp_cache_lookup_link_absent {s : Store} (hwf : nmp_cache_main_wf s) {needle : Nat}
    (hn : needle ≠ 0) (hnc : needle ∉ s.cache.idx_main) (ifindex : Int)
    (hno : ∀ p ∈ s.cache.idx_main, ∀ l, data_at s.heap p = some (._link l) →
      l._public.ifindex ≠ ifindex) : nmp_cache_lookup_link s needle ifindex = 0 := by
  apply g_hash_table_lookup_main_of_none
  intro k hk
  rw [Bool.eq_false_iff]
  intro he
  obtain ⟨l, hd, hi⟩ := (nmp_object_id_equal_needle hwf hn hnc ifindex hk).mp he
  exact hno k hk l hd hi


/-! ## Lemmas on cache identifiers, the search, frames, copies and cache steps -/

theorem ObjectType_toNat_injective {a b : ObjectType} (h : a.toNat = b.toNat) : a = b := by
  cases a <;> cases b <;> simp [ObjectType.toNat] at h <;> rfl

theorem NMPCacheIdType_toNat_injective {a b : NMPCacheIdType} (h : a.toNat = b.toNat) :
    a = b := by
  cases a <;> cases b <;> simp [NMPCacheIdType.toNat] at h <;> rfl

theorem guint_of_int_injective {x y : Int} (hx1 : -2147483648 ≤ x) (hx2 : x ≤ 2147483647)
    (hy1 : -2147483648 ≤ y) (hy2 : y ≤ 2147483647) (h : guint_of_int x = guint_of_int y) :
    x = y := by
  unfold guint_of_int at h
  have h1 : x % 4294967296 = y % 4294967296 := by
    have a1 : 0 ≤ x % 4294967296 := Int.emod_nonneg _ (by decide)
    have a2 : 0 ≤ y % 4294967296 := Int.emod_nonneg _ (by decide)
    omega
  omega

theorem guint_of_int_lt (x : Int) : guint_of_int x < 4294967296 := by
  unfold guint_of_int
  have a1 : 0 ≤ x % 4294967296 := Int.emod_nonneg _ (by decide)
  have a2 : x % 4294967296 < 4294967296 := Int.emod_lt_of_pos _ (by decide)
  omega

theorem guint_bytes (u : Nat) (hu : u < 4294967296) :
    u = u % 256 + 256 * (u / 256 % 256) + 65536 * (u / 65536 % 256)
      + 16777216 * (u / 16777216 % 256) := by
  omega

/-- The bytes of two zeroed cache ids are equal exactly when the ids are equal, the second
byte and `ifindex` being in the range of their C types. -/
theorem NMPCacheId_bytes_eq_iff (a b : NMPCacheId) (ha : a.obj_type < 256)
    (hb : b.obj_type < 256) (ha1 : -2147483648 ≤ a.ifindex) (ha2 : a.ifindex ≤ 2147483647)
    (hb1 : -2147483648 ≤ b.ifindex) (hb2 : b.ifindex ≤ 2147483647) :
    NMPCacheId_bytes a = NMPCacheId_bytes b ↔ a = b := by
  constructor
  · intro h
    obtain ⟨t, o, i⟩ := a
    obtain ⟨t', o', i'⟩ := b
    simp only [NMPCacheId_bytes, List.cons.injEq, and_true, true_and] at h
    obtain ⟨h1, h2, h3, h4, h5, h6⟩ := h
    have e1 := NMPCacheIdType_toNat_injective h1
    have e2 : o = o' := by
      simp only at ha hb
      omega
    have e3 : guint_of_int i = guint_of_int i' := by
      rw [guint_bytes _ (guint_of_int_lt i), guint_bytes _ (guint_of_int_lt i'), h3, h4, h5, h6]
    have e4 : i = i' := guint_of_int_injective ha1 ha2 hb1 hb2 e3
    rw [e1, e2, e4]
  · intro h
    rw [h]

theorem search_result_unique {ms : List Nat} {value : Nat}
    (hs : ms.Pairwise (fun a b => a < b)) {r r' : Int}
    (h : search_result ms value r) (h' : search_result ms value r') : r = r' := by
  rcases h with ⟨h0, h1, h2⟩ | ⟨p, hp, hple, hlo, hhi⟩
  · rcases h' with ⟨h0', h1', h2'⟩ | ⟨p', hp', hple', hlo', hhi'⟩
    · by_contra hne
      have hlt : r.toNat < ms.length := by omega
      have hlt' : r'.toNat < ms.length := by omega
      rcases Nat.lt_or_gt_of_ne (show r.toNat ≠ r'.toNat by omega) with hc | hc
      · have := sorted_getD_lt hs hc hlt'
        omega
      · have := sorted_getD_lt hs hc hlt
        omega
    · exfalso
      have hlt : r.toNat < ms.length := by omega
      by_cases hnp : r.toNat < p'
      · have := hlo' r.toNat hnp
        omega
      · have := hhi' r.toNat (by omega) hlt
        omega
  · rcases h' with ⟨h0', h1', h2'⟩ | ⟨p', hp', hple', hlo', hhi'⟩
    · exfalso
      have hlt : r'.toNat < ms.length := by omega
      by_cases hnp : r'.toNat < p
      · have := hlo r'.toNat hnp
        omega
      · have := hhi r'.toNat (by omega) hlt
        omega
    · have : p = p' := by
        by_contra hne
        rcases Nat.lt_or_gt_of_ne hne with hc | hc
        · have a := hlo' p hc
          have b := hhi p (le_refl p) (by omega)
          omega
        · have a := hlo p' hc
          have b := hhi' p' (le_refl p') (by omega)
          omega
      omega

theorem int_complement_eq (p : Nat) : ~~~(p : Int) = -(p : Int) - 1 := by
  show Int.not (p : Int) = _
  simp only [Int.not]
  rw [Int.negSucc_eq]
  omega

section Frame

variable {Id : Type} [DecidableEq Id]

theorem nm_multi_index_members_sorted {index : NMMultiIndex Id}
    (hwf : nm_multi_index_wf index) (g : Id) :
    (nm_multi_index_members index g).Pairwise (fun a b => a < b) := by
  cases hl : g_hash_table_lookup index.hash g with
  | none => rw [nm_multi_index_members_of_lookup_none hl]; exact List.Pairwise.nil
  | some array =>
    obtain ⟨ms, rfl, -, hs, -⟩ := nm_multi_index_wf_lookup hwf hl
    rw [nm_multi_index_members_of_lookup hl]
    exact hs

theorem nm_multi_index_members_ne_zero {index : NMMultiIndex Id}
    (hwf : nm_multi_index_wf index) (g : Id) : (0 : Nat) ∉ nm_multi_index_members index g := by
  intro h
  cases hl : g_hash_table_lookup index.hash g with
  | none => rw [nm_multi_index_members_of_lookup_none hl] at h; simp at h
  | some array =>
    obtain ⟨ms, rfl, -, -, hnn⟩ := nm_multi_index_wf_lookup hwf hl
    rw [nm_multi_index_members_of_lookup hl] at h
    exact hnn 0 h rfl

/-- Two strictly ascending lists with the same members are equal. -/
theorem sorted_ext {l1 l2 : List Nat} (h1 : l1.Pairwise (fun a b => a < b))
    (h2 : l2.Pairwise (fun a b => a < b)) (h : ∀ x, x ∈ l1 ↔ x ∈ l2) : l1 = l2 := by
  have p : l1.Perm l2 := (List.perm_ext_iff_of_nodup (sorted_nodup h1) (sorted_nodup h2)).mpr h
  exact List.eq_of_perm_of_sorted p h1 h2

/-- Two well-formed indexes whose groups agree on every pair other than `(g, m)` have the
same members in every other group and, in the group of `g`, the same members other than `m`
in the same order. -/
theorem nm_multi_index_frame_of_members {index index' : NMMultiIndex Id} {g : Id} {m : Nat}
    (hwf : nm_multi_index_wf index) (hwf' : nm_multi_index_wf index')
    (h : ∀ g' x, ¬ (g' = g ∧ x = m) →
      (x ∈ nm_multi_index_members index' g' ↔ x ∈ nm_multi_index_members index g')) :
    (∀ g' m', ¬ (g' = g ∧ m' = m) →
      nm_multi_index_contains index' g' m' = nm_multi_index_contains index g' m') ∧
    (∀ g', g' ≠ g → nm_multi_index_members index' g' = nm_multi_index_members index g') ∧
    (∀ g', (nm_multi_index_members index' g').filter (fun x => decide (x ≠ m)) =
      (nm_multi_index_members index g').filter (fun x => decide (x ≠ m))) := by
  refine ⟨?_, ?_, ?_⟩
  · intro g' m' hne
    rw [Bool.eq_iff_iff, nm_multi_index_contains_iff hwf', nm_multi_index_contains_iff hwf,
      h g' m' hne]
  · intro g' hg
    apply sorted_ext (nm_multi_index_members_sorted hwf' g') (nm_multi_index_members_sorted hwf g')
    intro x
    exact h g' x (fun c => hg c.1)
  · intro g'
    apply sorted_ext (List.Pairwise.filter _ (nm_multi_index_members_sorted hwf' g'))
      (List.Pairwise.filter _ (nm_multi_index_members_sorted hwf g'))
    intro x
    simp only [List.mem_filter, decide_eq_true_eq]
    constructor
    · rintro ⟨hx, hxm⟩
      exact ⟨(h g' x (fun c => hxm c.2)).mp hx, hxm⟩
    · rintro ⟨hx, hxm⟩
      exact ⟨(h g' x (fun c => hxm c.2)).mpr hx, hxm⟩

end Frame

theorem cmd_plobj_cmp_self (d : NMPObjectData) : cmd_plobj_cmp d d = 0 := by
  cases d <;> simp only [cmd_plobj_cmp]
  · exact (nm_platform_link_cmp_eq_zero _ _).mpr rfl
  · exact (nm_platform_ip4_address_cmp_eq_zero _ _).mpr rfl
  · exact (nm_platform_ip6_address_cmp_eq_zero _ _).mpr rfl
  · exact (nm_platform_ip4_route_cmp_eq_zero _ _).mpr rfl
  · exact (nm_platform_ip6_route_cmp_eq_zero _ _).mpr rfl

/-- The payload that `cmd_obj_copy` leaves in the destination is identity-equal and
aspect-scoped-equal to the source. -/
theorem cmd_obj_equal_cmd_obj_copy (d s : NMPObjectData) (M : NMPObjectAspects)
    (hc : d._class = s._class) :
    cmd_plobj_id_equal (cmd_obj_copy d s M) s = true ∧
    cmd_obj_equal (cmd_obj_copy d s M) s M = true ∧
    (cmd_obj_copy d s M)._class = s._class := by
  cases d <;> cases s <;> simp [NMPObjectData._class] at hc
  · rename_i x y
    simp only [cmd_obj_copy, cmd_obj_equal, cmd_plobj_id_equal, _vt_cmd_obj_copy_link,
      _vt_cmd_obj_equal_link, _vt_cmd_plobj_id_equal_link, _vt_cmd_plobj_id_copy_link,
      NMPObjectData._class]
    by_cases h1 : NM_FLAGS_ANY M NMP_OBJECT_ASPECT_PUBLIC = true <;>
    by_cases h2 : NM_FLAGS_HAS M NMP_OBJECT_ASPECT_NETLINK = true <;>
    by_cases h3 : NM_FLAGS_HAS M NMP_OBJECT_ASPECT_UDEV = true <;>
    by_cases h4 : y.udev.device = x.udev.device <;>
    simp [h1, h2, h3, h4, (nm_platform_link_cmp_eq_zero y._public y._public).mpr rfl]
  all_goals
    simp only [cmd_obj_copy, cmd_obj_equal, _vt_cmd_obj_copy_plain, _vt_cmd_obj_equal_plain]
    split_ifs with h1
    · simp [cmd_plobj_cmp_self, cmd_plobj_id_equal, _vt_cmd_plobj_id_equal_ip4_address,
        _vt_cmd_plobj_id_equal_ip6_address, _vt_cmd_plobj_id_equal_ip4_route,
        _vt_cmd_plobj_id_equal_ip6_route, NMPObjectData._class]
    · simp [cmd_plobj_id_copy, cmd_plobj_id_equal, _vt_cmd_plobj_id_equal_ip4_address,
        _vt_cmd_plobj_id_equal_ip6_address, _vt_cmd_plobj_id_equal_ip4_route,
        _vt_cmd_plobj_id_equal_ip6_route, _vt_cmd_plobj_id_copy_ip4_address,
        _vt_cmd_plobj_id_copy_ip6_address, _vt_cmd_plobj_id_copy_ip4_route,
        _vt_cmd_plobj_id_copy_ip6_route, NMPObjectData._class]

/-- The parts of a link that `_vt_cmd_obj_copy_link` leaves unchanged. -/
theorem _vt_cmd_obj_copy_link_frame (x y : NMPObjectLink) (M : NMPObjectAspects) :
    (_vt_cmd_obj_copy_link x y M)._public.ifindex = y._public.ifindex ∧
    (NM_FLAGS_ANY M NMP_OBJECT_ASPECT_PUBLIC = false →
      (_vt_cmd_obj_copy_link x y M)._public.attrs = x._public.attrs) ∧
    (NM_FLAGS_HAS M NMP_OBJECT_ASPECT_NETLINK = false →
      (_vt_cmd_obj_copy_link x y M).netlink = x.netlink) ∧
    (NM_FLAGS_HAS M NMP_OBJECT_ASPECT_UDEV = false →
      (_vt_cmd_obj_copy_link x y M).udev = x.udev) := by
  simp only [_vt_cmd_obj_copy_link, _vt_cmd_plobj_id_copy_link]
  by_cases h1 : NM_FLAGS_ANY M NMP_OBJECT_ASPECT_PUBLIC = true <;>
  by_cases h2 : NM_FLAGS_HAS M NMP_OBJECT_ASPECT_NETLINK = true <;>
  by_cases h3 : NM_FLAGS_HAS M NMP_OBJECT_ASPECT_UDEV = true <;>
  by_cases h4 : y.udev.device = x.udev.device <;>
  simp [h1, h2, h3, h4]

theorem nmp_object_equal_of_data {h : Heap} {p q : Nat} {a b : NMPObject} {M : NMPObjectAspects}
    (hp : h p = some a) (hq : h q = some b) (hvp : NMP_OBJECT_IS_VALID h p = true)
    (hvq : NMP_OBJECT_IS_VALID h q = true) (hc : a.data._class = b.data._class)
    (he : cmd_obj_equal a.data b.data M = true) : nmp_object_equal h p q M = true := by
  rw [nmp_object_equal_eq]
  simp [hvp, hvq, data_at, hp, hq, hc, he]

theorem nmp_object_id_equal_of_data {h : Heap} {p q : Nat} {a b : NMPObject}
    (hp : h p = some a) (hq : h q = some b) (hvp : NMP_OBJECT_IS_VALID h p = true)
    (hvq : NMP_OBJECT_IS_VALID h q = true)
    (he : cmd_plobj_id_equal a.data b.data = true) : nmp_object_id_equal h p q = true := by
  by_cases e : p = q
  · simp [nmp_object_id_equal, e]
  · obtain ⟨p0, a', ha', ha0⟩ := heap_some_of_valid hvp
    obtain ⟨q0, b', hb', hb0⟩ := heap_some_of_valid hvq
    rw [hp] at ha'; rw [hq] at hb'
    simp only [Option.some.injEq] at ha' hb'
    subst ha' hb'
    rw [nmp_object_id_equal_iff h p q p0 q0 e]
    simp [ptr_key, hp, hq, ha0, hb0, (cmd_plobj_id_equal_iff _ _).mp he]

/-- The contents of a clone of a valid object. -/
theorem nmp_object_clone_value_eq (o : NMPObject) (id_only : Bool) (hv : 0 < o._ref_count) :
    nmp_object_clone_value o id_only =
      { _ref_count := 1, is_cached := false,
        data := cmd_obj_copy (zeroed_data (NMP_OBJECT_GET_CLASS o)) o.data
          (if id_only then NMP_OBJECT_ASPECT_NONE else NMP_OBJECT_ASPECT_ALL) } := by
  have hz : (zeroed_data (NMP_OBJECT_GET_CLASS o))._class = o.data._class := by
    cases hd : o.data <;> simp [NMP_OBJECT_GET_CLASS, hd, NMPObjectData._class, zeroed_data]
  simp only [nmp_object_clone_value, nmp_object_copy_value, _nmp_object_new_from_class]
  have h1 : (1 : Int) ≠ NMP_REF_COUNT_INITSTACK := by decide
  have hz' : (zeroed_data o.data._class)._class = o.data._class := hz
  simp [hv, h1, NMP_OBJECT_GET_CLASS, hz']

/-- The outputs of `nmp_cache_update`, by the result of the lookup of the candidate. -/
theorem nmp_cache_update_outputs {s : Store} {obj : Nat} {M : NMPObjectAspects} {b1 b2 : Bool}
    {r : NMPCacheOpsResult} (h : nmp_cache_update s obj M b1 b2 = some r) :
    (g_hash_table_lookup_main s.heap s.cache.idx_main obj = 0 →
      r.out_was_visible = false ∧
      (r.ret = NMP_CACHE_OPS_UNCHANGED ∨ r.ret = NMP_CACHE_OPS_ADDED)) ∧
    (g_hash_table_lookup_main s.heap s.cache.idx_main obj ≠ 0 →
      r.ret ≠ NMP_CACHE_OPS_ADDED ∧
      r.out_obj = (if b1 = true then
        nmp_object_get s.heap (g_hash_table_lookup_main s.heap s.cache.idx_main obj)
        else (0, s.heap)).1 ∧
      r.out_was_visible = (if b2 = true then
        nmp_object_is_visible
          (out_obj_heap b1 s.heap (g_hash_table_lookup_main s.heap s.cache.idx_main obj))
          (g_hash_table_lookup_main s.heap s.cache.idx_main obj)
        else false)) := by
  unfold nmp_cache_update at h
  simp only at h
  generalize g_hash_table_lookup_main s.heap s.cache.idx_main obj = old at h ⊢
  by_cases h0 : old = 0
  · refine ⟨fun _ => ?_, fun hne => absurd h0 hne⟩
    simp only [h0, if_true] at h
    split at h
    · simp only [Option.some.injEq] at h
      subst h
      exact ⟨rfl, Or.inl rfl⟩
    · split at h
      · simp at h
      · simp only [Option.some.injEq] at h
        subst h
        exact ⟨rfl, Or.inr rfl⟩
  · refine ⟨fun he => absurd he h0, fun _ => ?_⟩
    simp only [h0, if_false] at h
    by_cases h1 : old = obj
    · simp [h1] at h
    · simp only [h1, if_false] at h
      have hg2 : out_obj_heap b1 s.heap old =
          (if b1 = true then nmp_object_get s.heap old else (0, s.heap)).2 := rfl
      rw [hg2]
      generalize (if b1 = true then nmp_object_get s.heap old else (0, s.heap)) = g at h ⊢
      repeat' split at h
      all_goals first
        | (simp at h; done)
        | (simp only [Option.some.injEq] at h
           subst h
           refine ⟨by simp, rfl, ?_⟩
           cases b2 <;> simp_all)

/-- What a call of `nmp_cache_update` with a well-formed primary index does to the primary
index and to the heap. -/
theorem nmp_cache_update_step {s : Store} {obj : Nat} {M : NMPObjectAspects} {b1 b2 : Bool}
    {r : NMPCacheOpsResult} (hwf : nmp_cache_main_wf s)
    (h : nmp_cache_update s obj M b1 b2 = some r) :
    r.store = s ∨
    (nmp_object_is_alive s.heap obj = true ∧ r.ret = NMP_CACHE_OPS_ADDED ∧
      r.store.cache.idx_main = obj :: s.cache.idx_main ∧
      r.store.heap = set_is_cached (nmp_object_get (out_obj_heap b1 s.heap obj) obj).2 obj true) ∨
    (∃ old ∈ s.cache.idx_main, r.ret = NMP_CACHE_OPS_UNCHANGED ∧
      r.store = { s with heap := out_obj_heap b1 s.heap old }) ∨
    (∃ old ∈ s.cache.idx_main, r.ret = NMP_CACHE_OPS_REMOVED ∧
      r.store.cache.idx_main = s.cache.idx_main.erase old ∧
      r.store.heap = nmp_object_put (set_is_cached (out_obj_heap b1 s.heap old) old false) old) ∨
    (∃ old ∈ s.cache.idx_main, r.ret = NMP_CACHE_OPS_UPDATED ∧ old ≠ obj ∧
      nmp_object_id_equal s.heap old obj = true ∧
      nmp_cache_update_alive (out_obj_heap b1 s.heap old) old obj M = true ∧
      r.store.cache.idx_main = s.cache.idx_main ∧
      r.store.heap = nmp_object_copy (out_obj_heap b1 s.heap old) old obj M) := by
  obtain ⟨old, hold, hcases⟩ := nmp_cache_update_some h
  rcases hcases with ⟨-, -, -, -, -, e⟩ | ⟨-, ha, hret, -, e⟩ | ⟨h0, -, -, hret, e⟩ |
    ⟨h0, -, -, -, hret, e⟩ | ⟨h0, h1, -, hal, hret, e⟩
  · exact Or.inl e
  · obtain ⟨-, hheap, hidx, -⟩ := _nmp_cache_update_add_some e
    exact Or.inr (Or.inl ⟨ha, hret, hidx, hheap⟩)
  · have hm := (g_hash_table_lookup_main_ne_zero (hold ▸ h0)).1
    rw [hold] at hm
    exact Or.inr (Or.inr (Or.inl ⟨old, hm, hret, e⟩))
  · have hm := (g_hash_table_lookup_main_ne_zero (hold ▸ h0)).1
    rw [hold] at hm
    obtain ⟨-, hidx, hheap⟩ :=
      nmp_cache_main_wf_remove (nmp_cache_main_wf_out_obj_heap s b1 old hwf) hm e
    exact Or.inr (Or.inr (Or.inr (Or.inl ⟨old, hm, hret, hidx, hheap⟩)))
  · obtain ⟨hm, he⟩ := g_hash_table_lookup_main_ne_zero (hold ▸ h0)
    rw [hold] at hm he
    obtain ⟨hheap, hidx, -⟩ := _nmp_cache_update_update_some e
    exact Or.inr (Or.inr (Or.inr (Or.inr ⟨old, hm, hret, h1, he, hal, hidx, hheap⟩)))

/-- What a call of `nmp_cache_remove` with a well-formed primary index does to the primary
index and to the heap. -/
theorem nmp_cache_remove_step {s : Store} {obj : Nat} {b1 b2 : Bool}
    {r : NMPCacheOpsResult} (hwf : nmp_cache_main_wf s)
    (h : nmp_cache_remove s obj b1 b2 = some r) :
    r.store = s ∨
    (∃ old ∈ s.cache.idx_main, r.ret = NMP_CACHE_OPS_REMOVED ∧
      r.store.cache.idx_main = s.cache.idx_main.erase old ∧
      r.store.heap = nmp_object_put (set_is_cached (out_obj_heap b1 s.heap old) old false) old) := by
  obtain ⟨old, hold, hcases⟩ := nmp_cache_remove_some h
  rcases hcases with ⟨-, -, -, -, e⟩ | ⟨h0, hret, -, -, e⟩
  · exact Or.inl e
  · have hm := (g_hash_table_lookup_main_ne_zero (hold ▸ h0)).1
    rw [hold] at hm
    obtain ⟨-, hidx, hheap⟩ :=
      nmp_cache_main_wf_remove (nmp_cache_main_wf_out_obj_heap s b1 old hwf) hm e
    exact Or.inr ⟨old, hm, hret, hidx, hheap⟩

theorem nmp_object_is_alive_of_valid_data {h h' : Heap} {q : Nat}
    (hv : NMP_OBJECT_IS_VALID h' q = NMP_OBJECT_IS_VALID h q)
    (hd : data_at h' q = data_at h q) : nmp_object_is_alive h' q = nmp_object_is_alive h q := by
  rw [nmp_object_is_alive_eq, nmp_object_is_alive_eq, hv, hd]

theorem nmp_object_is_alive_congr {h h' : Heap} {q : Nat} (e : h' q = h q) :
    nmp_object_is_alive h' q = nmp_object_is_alive h q :=
  nmp_object_is_alive_of_valid_data (NMP_OBJECT_IS_VALID_congr e) (data_at_congr e)

/-- The heap of a removal at the objects that stay in the primary index. -/
theorem removed_heap_ne (h : Heap) (b : Bool) (old q : Nat) (hq : q ≠ old) :
    nmp_object_put (set_is_cached (out_obj_heap b h old) old false) old q = h q := by
  rw [nmp_object_put_ne _ _ _ hq, set_is_cached_ne _ _ _ _ hq, out_obj_heap_ne _ _ _ _ hq]

theorem cmd_obj_copy_zeroed_link (x : NMPObjectLink) :
    cmd_obj_copy (zeroed_data OBJECT_TYPE_LINK) (._link x) NMP_OBJECT_ASPECT_ALL = ._link x := by
  simp only [cmd_obj_copy, zeroed_data, _vt_cmd_obj_copy_link]
  have h1 : NM_FLAGS_ANY NMP_OBJECT_ASPECT_ALL NMP_OBJECT_ASPECT_PUBLIC = true := by decide
  have h2 : NM_FLAGS_HAS NMP_OBJECT_ASPECT_ALL NMP_OBJECT_ASPECT_NETLINK = true := by decide
  have h3 : NM_FLAGS_HAS NMP_OBJECT_ASPECT_ALL NMP_OBJECT_ASPECT_UDEV = true := by decide
  simp only [h1, h2, h3, if_true]
  by_cases h4 : x.udev.device = 0
  · obtain ⟨a, b, ⟨c⟩⟩ := x
    simp only at h4
    subst h4
    simp
  · obtain ⟨a, b, ⟨c⟩⟩ := x
    simp only at h4
    simp [h4]

theorem cmd_obj_is_alive_copy_plain (d n : NMPObjectData) (M : NMPObjectAspects)
    (hc : d._class = n._class) (hk : has_other_aspects d._class = false)
    (hd : cmd_obj_is_alive d = true) (hn : cmd_obj_is_alive n = true) :
    cmd_obj_is_alive (cmd_obj_copy d n M) = true := by
  cases d <;> cases n <;> simp [NMPObjectData._class, has_other_aspects] at hc hk <;>
    simp only [cmd_obj_copy, _vt_cmd_obj_copy_plain] <;> split_ifs
  all_goals first
    | exact hn
    | (simp only [cmd_plobj_id_copy, cmd_obj_is_alive, _vt_cmd_obj_is_alive_ipx_address,
        _vt_cmd_obj_is_alive_ipx_route, ip_route_source, _vt_cmd_plobj_id_copy_ip4_route,
        _vt_cmd_plobj_id_copy_ip6_route] at hd ⊢
       try exact hd)

/-- The payload of an updated object is alive when the test of `nmp_cache_update` says so
and the object was alive before. -/
theorem cmd_obj_is_alive_cmd_obj_copy {h : Heap} {old obj : Nat} {M : NMPObjectAspects}
    {d n : NMPObjectData} (hvo : NMP_OBJECT_IS_VALID h old = true)
    (hvn : NMP_OBJECT_IS_VALID h obj = true)
    (hd : data_at h old = some d) (hn : data_at h obj = some n) (hc : d._class = n._class)
    (hal : nmp_cache_update_alive h old obj M = true) (hda : cmd_obj_is_alive d = true) :
    cmd_obj_is_alive (cmd_obj_copy d n M) = true := by
  obtain ⟨-, o, ho, ho0⟩ := heap_some_of_valid hvo
  obtain ⟨-, o', ho', ho0'⟩ := heap_some_of_valid hvn
  simp only [data_at, ho, ho', Option.some.injEq] at hd hn
  subst hd hn
  unfold nmp_cache_update_alive at hal
  simp only [ho, ho'] at hal
  by_cases hk : has_other_aspects (NMP_OBJECT_GET_CLASS o) = true
  · simp only [hk, if_true] at hal
    rw [nmp_object_clone_value_eq o false ho0] at hal
    cases hod : o.data with
    | _link x =>
      cases hnd : o'.data with
      | _link y =>
        have h1 : (1 : Int) ≠ NMP_REF_COUNT_INITSTACK := by decide
        simp only [nmp_object_copy_value, NMP_OBJECT_GET_CLASS, hod, hnd, NMPObjectData._class,
          Bool.false_eq_true, if_false] at hal
        rw [cmd_obj_copy_zeroed_link] at hal
        simpa [ho0', h1, NMPObjectData._class, cmd_obj_copy] using hal
      | _ => simp [hod, hnd, NMPObjectData._class] at hc
    | _ => simp [NMP_OBJECT_GET_CLASS, hod, NMPObjectData._class, has_other_aspects] at hk
  · simp only [hk, if_false] at hal
    rw [nmp_object_is_alive_eq, hvn] at hal
    simp only [data_at, ho', Bool.true_and] at hal
    have hk' : has_other_aspects o.data._class = false := by
      simpa [NMP_OBJECT_GET_CLASS] using hk
    exact cmd_obj_is_alive_copy_plain o.data o'.data M hc hk' hda hal

theorem ref_count_at_congr {h h' : Heap} {q : Nat} (e : h' q = h q) :
    ref_count_at h' q = ref_count_at h q := by
  simp only [ref_count_at, e]

theorem ref_count_at_nmp_object_get_ge (h : Heap) (p q : Nat) :
    ref_count_at h q ≤ ref_count_at (nmp_object_get h p).2 q := by
  rcases nmp_object_get_heap h p with e | ⟨o, hp, h0, e⟩
  · rw [e]
  · rw [e]
    by_cases hq : q = p
    · subst hq
      simp [ref_count_at, hp]
    · rw [ref_count_at_congr (Function.update_noteq hq _ _)]

theorem ref_count_at_out_obj_heap_ge (h : Heap) (b : Bool) (x q : Nat) :
    ref_count_at h q ≤ ref_count_at (out_obj_heap b h x) q := by
  cases b
  · exact le_refl _
  · exact ref_count_at_nmp_object_get_ge h x q

theorem ref_count_at_set_is_cached (h : Heap) (p q : Nat) (v : Bool) :
    ref_count_at (set_is_cached h p v) q = ref_count_at h q := by
  unfold set_is_cached
  cases hp : h p with
  | none => rfl
  | some o =>
    by_cases hq : q = p
    · subst hq
      simp [ref_count_at, hp]
    · exact ref_count_at_congr (Function.update_noteq hq _ _)

theorem ref_count_at_nmp_object_copy (h : Heap) (dst src q : Nat) (M : NMPObjectAspects) :
    ref_count_at (nmp_object_copy h dst src M) q = ref_count_at h q := by
  rcases nmp_object_copy_heap h dst src M with e | ⟨d, s, hd, hs, hd0, hs0, -, -, -, -, -, e⟩
  · rw [e]
  · rw [e]
    by_cases hq : q = dst
    · subst hq
      simp [ref_count_at, hd]
    · exact ref_count_at_congr (Function.update_noteq hq _ _)

/-- In every reachable cache state the objects marked `is_cached` are in the primary
index. -/
theorem mem_idx_main_of_is_cached {s : Store} (h : Reachable s) :
    ∀ p, is_cached_at s.heap p = true → p ∈ s.cache.idx_main := by
  induction h with
  | init => intro p hp; simp [is_cached_at] at hp
  | alloc s p o hr hp0 hnone href hcached ih =>
    intro q hq
    by_cases hqp : q = p
    · subst hqp
      simp [is_cached_at, hcached] at hq
    · rw [is_cached_at_update_ne _ _ _ _ hqp] at hq
      exact ih q hq
  | put s p hr hv hown ih =>
    intro q hq
    exact ih q (is_cached_at_nmp_object_put _ _ _ hq)
  | update s p M b1 b2 r hr hv hst hc hres ih =>
    have hwf := nmp_cache_main_wf_of_reachable hr
    rcases nmp_cache_update_step hwf hres with e | ⟨ha, -, hidx, hheap⟩ |
      ⟨old, hm, -, e⟩ | ⟨old, hm, -, hidx, hheap⟩ | ⟨old, hm, -, hne, he, hal, hidx, hheap⟩
    · rw [e]; exact ih
    · intro q hq
      rw [hidx]
      by_cases hqp : q = p
      · exact List.mem_cons.mpr (Or.inl hqp)
      · rw [hheap, is_cached_at_set_is_cached_ne _ _ _ _ hqp, is_cached_at_nmp_object_get,
          is_cached_at_out_obj_heap] at hq
        exact List.mem_cons.mpr (Or.inr (ih q hq))
    · intro q hq
      rw [e] at hq ⊢
      simp only [is_cached_at_out_obj_heap] at hq
      exact ih q hq
    · intro q hq
      rw [hheap] at hq
      rw [hidx]
      have h1 := is_cached_at_nmp_object_put _ _ _ hq
      have hvo : NMP_OBJECT_IS_VALID (out_obj_heap b1 s.heap old) old = true := by
        rw [NMP_OBJECT_IS_VALID_out_obj_heap]; exact (hwf.2.1 old hm).2.1
      by_cases hqo : q = old
      · subst hqo
        rw [is_cached_at_set_is_cached_same _ _ _ hvo] at h1
        exact absurd h1 (by simp)
      · rw [is_cached_at_set_is_cached_ne _ _ _ _ hqo, is_cached_at_out_obj_heap] at h1
        exact (List.Nodup.mem_erase_iff hwf.1).mpr ⟨hqo, ih q h1⟩
    · intro q hq
      rw [hheap, is_cached_at_nmp_object_copy, is_cached_at_out_obj_heap] at hq
      rw [hidx]
      exact ih q hq
  | remove s p b1 b2 r hr hv hres ih =>
    have hwf := nmp_cache_main_wf_of_reachable hr
    rcases nmp_cache_remove_step hwf hres with e | ⟨old, hm, -, hidx, hheap⟩
    · rw [e]; exact ih
    · intro q hq
      rw [hheap] at hq
      rw [hidx]
      have h1 := is_cached_at_nmp_object_put _ _ _ hq
      have hvo : NMP_OBJECT_IS_VALID (out_obj_heap b1 s.heap old) old = true := by
        rw [NMP_OBJECT_IS_VALID_out_obj_heap]; exact (hwf.2.1 old hm).2.1
      by_cases hqo : q = old
      · subst hqo
        rw [is_cached_at_set_is_cached_same _ _ _ hvo] at h1
        exact absurd h1 (by simp)
      · rw [is_cached_at_set_is_cached_ne _ _ _ _ hqo, is_cached_at_out_obj_heap] at h1
        exact (List.Nodup.mem_erase_iff hwf.1).mpr ⟨hqo, ih q h1⟩

/-- The reference counts after a removal from the primary index, and the object that
leaves. -/
theorem removed_counts {s : Store} (hwf : nmp_cache_main_wf s) {b1 : Bool} {old : Nat}
    {idx' : List Nat} {heap' : Heap} (hm : old ∈ s.cache.idx_main)
    (hidx : idx' = s.cache.idx_main.erase old)
    (hheap : heap' = nmp_object_put (set_is_cached (out_obj_heap b1 s.heap old) old false) old) :
    (∀ p ∈ s.cache.idx_main, p ∈ idx' → ref_count_at s.heap p ≤ ref_count_at heap' p) ∧
    (∀ p ∈ s.cache.idx_main, p ∉ idx' →
      heap' = nmp_object_put (set_is_cached (out_obj_heap b1 s.heap p) p false) p ∧
      is_cached_at (set_is_cached (out_obj_heap b1 s.heap p) p false) p = false) := by
  constructor
  · intro p hp hp'
    rw [hidx] at hp'
    have hne := ((List.Nodup.mem_erase_iff hwf.1).mp hp').1
    rw [hheap, ref_count_at_congr (removed_heap_ne s.heap b1 old p hne)]
  · intro p hp hp'
    have hpo : p = old := by
      by_contra hne
      exact hp' (hidx ▸ (List.Nodup.mem_erase_iff hwf.1).mpr ⟨hne, hp⟩)
    subst hpo
    refine ⟨hheap, ?_⟩
    apply is_cached_at_set_is_cached_same
    rw [NMP_OBJECT_IS_VALID_out_obj_heap]
    exact (hwf.2.1 p hp).2.1

/-! ## Further concrete states: a route at the reference-count sentinel, a stale group
membership, and a cache with a full group -/

theorem demo_route_refs_store_reachable : Reachable demo_route_refs_store :=
  Reachable.alloc _ 200 demo_route_changed
    (Reachable.alloc demo_store0 100 demo_route_refs Reachable.init (by decide) rfl
      (by decide) rfl)
    (by decide) rfl (by decide) rfl

theorem demo_route_refs_added_eq :
    nmp_cache_update demo_route_refs_store 100 NMP_OBJECT_ASPECT_PUBLIC false false
      = some demo_route_refs_added :=
  rfl

theorem demo_route_refs_added_reachable : Reachable demo_route_refs_added.store :=
  Reachable.update demo_route_refs_store 100 NMP_OBJECT_ASPECT_PUBLIC false false
    demo_route_refs_added demo_route_refs_store_reachable (by decide) (by decide) (by decide)
    demo_route_refs_added_eq

theorem demo_hidden_store_reachable : Reachable demo_hidden_store :=
  Reachable.alloc _ 200 demo_link_seen
    (Reachable.alloc demo_store0 100 demo_link_udev Reachable.init (by decide) rfl
      (by decide) rfl)
    (by decide) rfl (by decide) rfl

theorem demo_hidden_added_reachable : Reachable demo_hidden_added.store :=
  Reachable.update demo_hidden_store 100 NMP_OBJECT_ASPECT_ALL false false demo_hidden_added
    demo_hidden_store_reachable (by decide) (by decide) (by decide) rfl

theorem demo_hidden_updated_reachable : Reachable demo_hidden_updated.store :=
  Reachable.update demo_hidden_added.store 200 NMP_OBJECT_ASPECT_UDEV false false
    demo_hidden_updated demo_hidden_added_reachable (by decide) (by decide) (by decide) rfl

/-- Wherever `nmp_cache_update` returns and an object was cached under the identity of the
candidate, that object is not the candidate. -/
theorem nmp_cache_update_lookup_ne {s : Store} {obj : Nat} {M : NMPObjectAspects} {b1 b2 : Bool}
    {r : NMPCacheOpsResult} (h : nmp_cache_update s obj M b1 b2 = some r)
    (h0 : g_hash_table_lookup_main s.heap s.cache.idx_main obj ≠ 0) :
    g_hash_table_lookup_main s.heap s.cache.idx_main obj ≠ obj := by
  obtain ⟨old, hold, hcase⟩ := nmp_cache_update_some h
  subst hold
  rcases hcase with ⟨e, -⟩ | ⟨e, -⟩ | ⟨-, e, -⟩ | ⟨-, e, -⟩ | ⟨-, e, -⟩
  · exact absurd e h0
  · exact absurd e h0
  · exact e
  · exact e
  · exact e

/-- The pointer that `nmp_object_get` returns. -/
theorem nmp_object_get_fst_eq (h : Heap) (p : Nat) (hv : NMP_OBJECT_IS_VALID h p = true) :
    (nmp_object_get h p).1 = if NMP_OBJECT_IS_STACKINIT h p = true then 0 else p := by
  obtain ⟨h0, o, ho, hr⟩ := heap_some_of_valid hv
  by_cases e : o._ref_count = NMP_REF_COUNT_INITSTACK
  · simp [nmp_object_get, NMP_OBJECT_IS_STACKINIT, hv, ho, e, h0]
  · simp [nmp_object_get, NMP_OBJECT_IS_STACKINIT, hv, ho, e, h0]

/-- C1 (secondary-index consistency) does not hold of the code: after the netlink link
with interface index 5 is added with mask NETLINK, an update with mask UDEV by a candidate
that carries only a udev device returns Updated and leaves a reachable cache in which the
link is visible but is not a member of the visible-links group. -/
theorem nmp_cache_update_udev_breaks_consistency :
    Reachable demo_result4.store ∧ demo_result4.ret = NMP_CACHE_OPS_UPDATED ∧
    nmp_object_is_visible demo_result4.store.heap 100 = true ∧
    nm_multi_index_contains demo_result4.store.cache.idx_multi (nmp_cache_id_init_links true) 100
      = false ∧
    ¬ nmp_cache_consistent demo_result4.store := by
  refine ⟨demo_result4_reachable, by decide, by decide, by decide, ?_⟩
  intro h
  have := h 100 (by decide) _ rfl (nmp_cache_id_init_links true)
  exact absurd (this.mpr (by decide)) (by decide)

/-- C2 (no fatal assertion through valid use) does not hold of the code: in the reachable
cache left by the two updates of C1, `nmp_cache_remove` with a valid probe for the link
aborts, because `nm_multi_index_remove` for the visible-links group returns false in
`_nmp_cache_update_cache`. -/
theorem nmp_cache_remove_aborts_after_udev_update :
    Reachable demo_result4.store ∧ NMP_OBJECT_IS_VALID demo_result4.store.heap 200 = true ∧
    is_cached_at demo_result4.store.heap 200 = false ∧
    nmp_cache_lookup_obj demo_result4.store 200 = 100 ∧
    cmd_obj_init_cache_id (NMPObjectData._link ⟨⟨5, 0⟩, ⟨1, 0, 0, 0, 0⟩, ⟨7⟩⟩)
      NMP_CACHE_ID_TYPE_LINKS_VISIBLE_ONLY = some (some (nmp_cache_id_init_links true)) ∧
    data_at demo_result4.store.heap 100
      = some (NMPObjectData._link ⟨⟨5, 0⟩, ⟨1, 0, 0, 0, 0⟩, ⟨7⟩⟩) ∧
    (nm_multi_index_remove demo_result4.store.cache.idx_multi (nmp_cache_id_init_links true)
      100).1 = false ∧
    nmp_cache_remove demo_result4.store 200 false false = none :=
  ⟨demo_result4_reachable, by decide, by decide, by decide, by decide, by decide, by decide, rfl⟩

/-- C3 (identity uniqueness): in every cache state reachable by `nmp_cache_update` and
`nmp_cache_remove` calls the primary index holds each address once, and no two distinct
cached objects are `nmp_object_id_equal`. -/
theorem nmp_cache_identity_unique (s : Store) (h : Reachable s) :
    s.cache.idx_main.Nodup ∧
    ∀ p ∈ s.cache.idx_main, ∀ q ∈ s.cache.idx_main,
      nmp_object_id_equal s.heap p q = true → p = q :=
  ⟨(nmp_cache_main_wf_of_reachable h).1, (nmp_cache_main_wf_of_reachable h).2.2⟩

/-- Witness of C3: the reachable cache left by the two updates of the link with interface index 5. -/
theorem nmp_cache_identity_unique_witness :
    Reachable demo_result4.store ∧
    (demo_result4.store.cache.idx_main.Nodup ∧
    ∀ p ∈ demo_result4.store.cache.idx_main, ∀ q ∈ demo_result4.store.cache.idx_main,
      nmp_object_id_equal demo_result4.store.heap p q = true → p = q) :=
  ⟨demo_result4_reachable, nmp_cache_identity_unique demo_result4.store demo_result4_reachable⟩

/-- C4 as stated does not hold: with mask NONE a cached route is aspect-scoped-equal to every
candidate of its identity, so the update with a dead candidate (source internal) returns
Unchanged and the route stays cached. -/
theorem nmp_cache_update_mask_none_keeps_route :
    Reachable demo_route_result.store ∧
    nmp_cache_lookup_obj demo_route_result.store 200 = 100 ∧
    nmp_cache_update_alive demo_route_result.store.heap 100 200 NMP_OBJECT_ASPECT_NONE = false ∧
    (nmp_cache_update demo_route_result.store 200 NMP_OBJECT_ASPECT_NONE false false).map
      (fun r => (r.ret, nmp_cache_lookup_obj r.store 200)) =
        some (NMP_CACHE_OPS_UNCHANGED, 100) :=
  ⟨demo_route_result_reachable, by decide, by decide, by decide⟩

/-- C4 (aliveness/removal equivalence, as amended): in a cache whose primary index and
Multi-Index are well formed, for every cached object `old` whose group membership matches
its derivation and every candidate with `old`'s identity and mask `M` such that `old` is not
aspect-scoped-equal to the candidate under `M` and the merged result (for a Link: `old`
overlaid with the candidate's aspects in `M`; for the other kinds: the candidate) is not
alive, `nmp_cache_update` returns Removed, `old` is removed from the primary index and from
every secondary group, and a subsequent `nmp_cache_lookup_obj` with that identity returns
absent. -/
theorem nmp_cache_update_dead_removed (s : Store) (obj : Nat) (M : NMPObjectAspects)
    (b1 b2 : Bool) (d : NMPObjectData)
    (hmain : nmp_cache_main_wf s)
    (hwf : nm_multi_index_wf s.cache.idx_multi)
    (hold : nmp_cache_lookup_obj s obj ≠ 0)
    (hnc : obj ∉ s.cache.idx_main)
    (hd : data_at s.heap (nmp_cache_lookup_obj s obj) = some d)
    (hdiff : nmp_object_equal s.heap (nmp_cache_lookup_obj s obj) obj M = false)
    (hdead : nmp_cache_update_alive s.heap (nmp_cache_lookup_obj s obj) obj M = false)
    (hcons : ∀ g : NMPCacheId,
      nm_multi_index_contains s.cache.idx_multi g (nmp_cache_lookup_obj s obj) = true ↔
        cmd_obj_init_cache_id d g._id_type = some (some g)) :
    ∃ r, nmp_cache_update s obj M b1 b2 = some r ∧ r.ret = NMP_CACHE_OPS_REMOVED ∧
      nmp_cache_lookup_obj s obj ∉ r.store.cache.idx_main ∧
      (∀ g : NMPCacheId,
        nm_multi_index_contains r.store.cache.idx_multi g (nmp_cache_lookup_obj s obj) = false) ∧
      nmp_cache_lookup_obj r.store obj = 0 := by
  obtain ⟨hobj0, hl, hm, heq⟩ := nmp_cache_lookup_obj_mem hold
  generalize nmp_cache_lookup_obj s obj = old at *
  have hne : old ≠ obj := fun e => hnc (e ▸ hm)
  obtain ⟨hv1, hv2, -⟩ := valid_of_nmp_object_id_equal heq hne
  have he' : nmp_object_equal (out_obj_heap b1 s.heap old) old obj M = false := by
    rw [nmp_object_equal_congr s.heap _ _ _ _ (NMP_OBJECT_IS_VALID_out_obj_heap _ _ _ _)
      (NMP_OBJECT_IS_VALID_out_obj_heap _ _ _ _) (data_at_out_obj_heap _ _ _ _)
      (data_at_out_obj_heap _ _ _ _)]
    exact hdiff
  have hal : nmp_cache_update_alive (out_obj_heap b1 s.heap old) old obj M = false := by
    rw [nmp_cache_update_alive_out_obj_heap _ _ _ _ _ hne]
    exact hdead
  have hmem : ∀ g : NMPCacheId, old ∈ nm_multi_index_members s.cache.idx_multi g ↔
      cmd_obj_init_cache_id d g._id_type = some (some g) := by
    intro g
    rw [← hcons g, nm_multi_index_contains_iff hwf]
    simp [hold]
  obtain ⟨idx', e, w, m, -⟩ := _nmp_cache_update_cache_loop_remove d old hold
    NMP_CACHE_ID_TYPES s.cache.idx_multi NMP_CACHE_ID_TYPES_nodup hwf
    (fun g _ hg => (hmem g).mpr hg)
  have hmain1 := nmp_cache_main_wf_out_obj_heap s b1 old hmain
  have hk : g_hash_table_lookup_main (set_is_cached (out_obj_heap b1 s.heap old) old false)
      s.cache.idx_main old = old := by
    have := g_hash_table_lookup_main_self hmain1 (p := old) hm
    rw [g_hash_table_lookup_main_congr (out_obj_heap b1 s.heap old) _ _ _
      (fun k _ => ptr_key_set_is_cached _ _ _ _) (ptr_key_set_is_cached _ _ _ _)]
    exact this
  have hrm : _nmp_cache_update_remove { s with heap := (out_obj_heap b1 s.heap old) } old =
      some { heap := nmp_object_put (set_is_cached (out_obj_heap b1 s.heap old) old false) old,
             cache := { idx_main := s.cache.idx_main.erase old, idx_multi := idx' } } := by
    apply _nmp_cache_update_remove_eq (d := d) hold
    · simp only [data_at_out_obj_heap]; exact hd
    · exact e
    · exact hk
  refine ⟨_, nmp_cache_update_eq_removed M b1 b2 hl.symm hold hne he' hv1 hv2 hal hrm, rfl,
    ?_, ?_, ?_⟩
  · simp only
    exact fun h => (hmain.1.mem_erase_iff.mp h).1 rfl
  · intro g
    simp only
    cases hcn : nm_multi_index_contains idx' g old with
    | false => rfl
    | true =>
      have := ((nm_multi_index_contains_iff w g old).mp hcn).2
      rw [m g old] at this
      exact absurd ⟨rfl, mem_NMP_CACHE_ID_TYPES _, (hmem g).mp this.1⟩ this.2
  · simp only [nmp_cache_lookup_obj, hobj0, if_false]
    unfold g_hash_table_lookup_main
    cases hf : (s.cache.idx_main.erase old).find?
        (fun k => nmp_object_id_equal
          (nmp_object_put (set_is_cached (out_obj_heap b1 s.heap old) old false) old) k obj) with
    | none => rfl
    | some k =>
      exfalso
      have hkm := hmain.1.mem_erase_iff.mp (List.mem_of_find?_eq_some hf)
      have hke := List.find?_some hf
      simp only at hke
      have key : ∀ q, q ≠ old → ptr_key
          (nmp_object_put (set_is_cached (out_obj_heap b1 s.heap old) old false) old) q
          = ptr_key s.heap q := by
        intro q hq
        rw [ptr_key_congr (nmp_object_put_ne _ _ _ hq), ptr_key_set_is_cached,
          ptr_key_out_obj_heap]
      rw [nmp_object_id_equal_congr s.heap _ k obj (key k hkm.1) (key obj (Ne.symm hne))] at hke
      have hk0 := (hmain.2.1 k hkm.2).1
      have hkobj : k ≠ obj := fun e => hnc (e ▸ hkm.2)
      have := nmp_object_id_equal_trans hke heq hk0 hold hobj0 hkobj hne
      exact hkm.1 (hmain.2.2 k hkm.2 old hm this)

/-- Witness of C4 as amended: the cached user route and the candidate whose source is internal, with mask PUBLIC. -/
theorem nmp_cache_update_dead_removed_witness :
    nmp_cache_main_wf demo_route_result.store ∧
    nm_multi_index_wf demo_route_result.store.cache.idx_multi ∧
    nmp_cache_lookup_obj demo_route_result.store 200 ≠ 0 ∧
    200 ∉ demo_route_result.store.cache.idx_main ∧
    data_at demo_route_result.store.heap (nmp_cache_lookup_obj demo_route_result.store 200)
      = some demo_route_user.data ∧
    nmp_object_equal demo_route_result.store.heap
      (nmp_cache_lookup_obj demo_route_result.store 200) 200 NMP_OBJECT_ASPECT_PUBLIC = false ∧
    nmp_cache_update_alive demo_route_result.store.heap
      (nmp_cache_lookup_obj demo_route_result.store 200) 200 NMP_OBJECT_ASPECT_PUBLIC = false ∧
    ∃ r, nmp_cache_update demo_route_result.store 200 NMP_OBJECT_ASPECT_PUBLIC true true = some r ∧
      r.ret = NMP_CACHE_OPS_REMOVED ∧
      nmp_cache_lookup_obj demo_route_result.store 200 ∉ r.store.cache.idx_main ∧
      (∀ g : NMPCacheId, nm_multi_index_contains r.store.cache.idx_multi g
        (nmp_cache_lookup_obj demo_route_result.store 200) = false) ∧
      nmp_cache_lookup_obj r.store 200 = 0 :=
  ⟨by decide, by decide, by decide, by decide, by decide, by decide, by decide,
    nmp_cache_update_dead_removed demo_route_result.store 200 NMP_OBJECT_ASPECT_PUBLIC true true
      demo_route_user.data (by decide) (by decide) (by decide) (by decide) (by decide)
      (by decide) (by decide) demo_route_result_consistent⟩

/-- C5 as stated does not hold: a Link candidate whose netlink aspect says
`is_in_netlink = 0`, passed with mask NETLINK to a cache that holds no object of its
identity, is added when it carries a udev device, although the candidate restricted to the
netlink aspect is not alive. -/
theorem nmp_cache_update_adds_candidate_dead_under_mask :
    nmp_cache_lookup_obj demo_store2b 200 = 0 ∧
    cmd_obj_is_alive (nmp_object_copy_value (nmp_object_clone_value demo_link_udev true)
      demo_link_udev NMP_OBJECT_ASPECT_NETLINK).data = false ∧
    (nmp_cache_update demo_store2b 200 NMP_OBJECT_ASPECT_NETLINK false false).map
      (fun r => (r.ret, nmp_cache_lookup_obj r.store 200)) = some (NMP_CACHE_OPS_ADDED, 200) :=
  ⟨by decide, by decide, by decide⟩

/-- C5 (update of an absent identity, dead candidate, as amended): when no cached object has
the candidate's identity and the candidate, with all the aspects that it carries, is not
alive, `nmp_cache_update` returns Unchanged, sets no output and leaves the heap, the
primary index and all secondary groups unchanged, whatever the aspect mask. -/
theorem nmp_cache_update_absent_dead_unchanged (s : Store) (obj : Nat) (M : NMPObjectAspects)
    (b1 b2 : Bool) (habsent : nmp_cache_lookup_obj s obj = 0)
    (hdead : nmp_object_is_alive s.heap obj = false) :
    nmp_cache_update s obj M b1 b2 =
      some { ret := NMP_CACHE_OPS_UNCHANGED, out_obj := 0, out_was_visible := false,
             store := s } :=
  nmp_cache_update_eq_unchanged_absent M b1 b2
    (g_hash_table_lookup_main_of_lookup_obj_zero habsent) hdead

/-- Witness of C5 as amended: the dead link at address 400 and the empty cache. -/
theorem nmp_cache_update_absent_dead_unchanged_witness :
    nmp_cache_lookup_obj demo_store2b 400 = 0 ∧
    nmp_object_is_alive demo_store2b.heap 400 = false ∧
    nmp_cache_update demo_store2b 400 NMP_OBJECT_ASPECT_NETLINK true true =
      some { ret := NMP_CACHE_OPS_UNCHANGED, out_obj := 0, out_was_visible := false,
             store := demo_store2b } :=
  ⟨by decide, by decide,
    nmp_cache_update_absent_dead_unchanged demo_store2b 400 NMP_OBJECT_ASPECT_NETLINK true true
      (by decide) (by decide)⟩

/-- C8 (aspect isolation for links): for every cached Link and every candidate with the same
ifindex, an `nmp_cache_update` with mask NETLINK that returns Updated leaves the cached
Link's udev handle and its public fields unchanged, and an update with mask UDEV that returns
Updated leaves the cached Link's netlink aspect (`is_in_netlink`, `connected_native`,
`link_type_unknown_udev`, `arptype`, `rtnl_link_type`) and its public fields unchanged. -/
theorem nmp_cache_update_link_aspect_isolation (s : Store) (obj : Nat) (M : NMPObjectAspects)
    (b1 b2 : Bool) (r : NMPCacheOpsResult) (l : NMPObjectLink)
    (h : nmp_cache_update s obj M b1 b2 = some r)
    (hret : r.ret = NMP_CACHE_OPS_UPDATED)
    (hl : data_at s.heap (nmp_cache_lookup_obj s obj) = some (._link l)) :
    ∃ l', data_at r.store.heap (nmp_cache_lookup_obj s obj) = some (._link l') ∧
      (M = NMP_OBJECT_ASPECT_NETLINK → l'.udev = l.udev ∧ l'._public = l._public) ∧
      (M = NMP_OBJECT_ASPECT_UDEV → l'.netlink = l.netlink ∧ l'._public = l._public) := by
  obtain ⟨old, hold, hcases⟩ := nmp_cache_update_some h
  rcases hcases with ⟨-, -, e, -⟩ | ⟨-, -, e, -⟩ | ⟨-, -, -, e, -⟩ |
    ⟨-, -, -, -, e, -⟩ | ⟨h0, h1, -, -, -, e⟩
  · rw [e] at hret; simp at hret
  · rw [e] at hret; simp at hret
  · rw [e] at hret; simp at hret
  · rw [e] at hret; simp at hret
  · obtain ⟨hm, heq⟩ := g_hash_table_lookup_main_ne_zero (hold ▸ h0)
    rw [hold] at hm heq
    have hobj0 : obj ≠ 0 := by
      intro e0
      subst e0
      simp [nmp_object_id_equal, h0] at heq
    have hlk : nmp_cache_lookup_obj s obj = old := by
      simp [nmp_cache_lookup_obj, hobj0, hold]
    rw [hlk] at hl ⊢
    obtain ⟨hheap, -, -⟩ := _nmp_cache_update_update_some e
    rw [hheap]
    simp only
    have hd1 : data_at (out_obj_heap b1 s.heap old) old = some (._link l) := by
      rw [data_at_out_obj_heap]; exact hl
    obtain ⟨-, hcopy⟩ := data_at_nmp_object_copy (out_obj_heap b1 s.heap old) old obj M
    rcases hcopy with e1 | ⟨d, n, hd, hn, hc, -, e1⟩
    · rw [e1, hd1]
      exact ⟨l, rfl, fun _ => ⟨rfl, rfl⟩, fun _ => ⟨rfl, rfl⟩⟩
    · rw [hd1] at hd
      simp only [Option.some.injEq] at hd
      subst hd
      cases n with
      | _link l2 =>
        have hi : l._public.ifindex = l2._public.ifindex := by
          apply link_ifindex_of_nmp_object_id_equal (h := out_obj_heap b1 s.heap old) _ hd1 hn
          rw [nmp_object_id_equal_congr s.heap _ old obj (ptr_key_out_obj_heap _ _ _ _)
            (ptr_key_out_obj_heap _ _ _ _)]
          exact heq
        rw [e1]
        refine ⟨_, rfl, ?_, ?_⟩
        · intro hM
          subst hM
          have f1 : NM_FLAGS_ANY NMP_OBJECT_ASPECT_NETLINK NMP_OBJECT_ASPECT_PUBLIC = false := by
            decide
          have f2 : NM_FLAGS_HAS NMP_OBJECT_ASPECT_NETLINK NMP_OBJECT_ASPECT_NETLINK = true := by
            decide
          have f3 : NM_FLAGS_HAS NMP_OBJECT_ASPECT_NETLINK NMP_OBJECT_ASPECT_UDEV = false := by
            decide
          have hp : _vt_cmd_plobj_id_copy_link l._public l2._public = l._public := by
            simp [_vt_cmd_plobj_id_copy_link, ← hi]
          simp [_vt_cmd_obj_copy_link, f1, f2, f3, hp]
        · intro hM
          subst hM
          have f1 : NM_FLAGS_ANY NMP_OBJECT_ASPECT_UDEV NMP_OBJECT_ASPECT_PUBLIC = false := by
            decide
          have f2 : NM_FLAGS_HAS NMP_OBJECT_ASPECT_UDEV NMP_OBJECT_ASPECT_NETLINK = false := by
            decide
          have f3 : NM_FLAGS_HAS NMP_OBJECT_ASPECT_UDEV NMP_OBJECT_ASPECT_UDEV = true := by
            decide
          have hp : _vt_cmd_plobj_id_copy_link l._public l2._public = l._public := by
            simp [_vt_cmd_plobj_id_copy_link, ← hi]
          simp only [_vt_cmd_obj_copy_link, f1, f2, f3, hp, Bool.false_eq_true, if_false,
            if_true]
          split_ifs <;> exact ⟨rfl, rfl⟩
      | _ip4_address _ => simp [NMPObjectData._class] at hc
      | _ip6_address _ => simp [NMPObjectData._class] at hc
      | _ip4_route _ => simp [NMPObjectData._class] at hc
      | _ip6_route _ => simp [NMPObjectData._class] at hc

/-- Witness of C8: the cached netlink link and the update with mask UDEV by the udev candidate. -/
theorem nmp_cache_update_link_aspect_isolation_witness :
    nmp_cache_update demo_result3.store 200 NMP_OBJECT_ASPECT_UDEV false false
      = some demo_result4 ∧
    demo_result4.ret = NMP_CACHE_OPS_UPDATED ∧
    data_at demo_result3.store.heap (nmp_cache_lookup_obj demo_result3.store 200)
      = some (._link ⟨⟨5, 0⟩, ⟨1, 0, 0, 0, 0⟩, ⟨0⟩⟩) ∧
    ∃ l', data_at demo_result4.store.heap (nmp_cache_lookup_obj demo_result3.store 200)
        = some (._link l') ∧
      (NMP_OBJECT_ASPECT_UDEV = NMP_OBJECT_ASPECT_NETLINK →
        l'.udev = (⟨⟨5, 0⟩, ⟨1, 0, 0, 0, 0⟩, ⟨0⟩⟩ : NMPObjectLink).udev ∧
        l'._public = (⟨⟨5, 0⟩, ⟨1, 0, 0, 0, 0⟩, ⟨0⟩⟩ : NMPObjectLink)._public) ∧
      (NMP_OBJECT_ASPECT_UDEV = NMP_OBJECT_ASPECT_UDEV →
        l'.netlink = (⟨⟨5, 0⟩, ⟨1, 0, 0, 0, 0⟩, ⟨0⟩⟩ : NMPObjectLink).netlink ∧
        l'._public = (⟨⟨5, 0⟩, ⟨1, 0, 0, 0, 0⟩, ⟨0⟩⟩ : NMPObjectLink)._public) :=
  ⟨demo_result4_eq, by decide, by decide,
    nmp_cache_update_link_aspect_isolation demo_result3.store 200 NMP_OBJECT_ASPECT_UDEV
      false false demo_result4 ⟨⟨5, 0⟩, ⟨1, 0, 0, 0, 0⟩, ⟨0⟩⟩ demo_result4_eq (by decide)
      (by decide)⟩

/-- C10 (identity immutability): for every `nmp_cache_update` call that returns Updated or
Unchanged, every object of the primary index is still in it, and its identity (its kind and
its identity fields, see `object_identity_eq_iff`) and its `nmp_object_id_hash` are the same
after the call as before it, for every kind and every aspect mask. -/
theorem nmp_cache_update_identity_immutable (s : Store) (obj : Nat) (M : NMPObjectAspects)
    (b1 b2 : Bool) (r : NMPCacheOpsResult)
    (h : nmp_cache_update s obj M b1 b2 = some r)
    (hret : r.ret = NMP_CACHE_OPS_UPDATED ∨ r.ret = NMP_CACHE_OPS_UNCHANGED) :
    ∀ q ∈ s.cache.idx_main, q ∈ r.store.cache.idx_main ∧
      ptr_key r.store.heap q = ptr_key s.heap q ∧
      nmp_object_id_hash r.store.heap q = nmp_object_id_hash s.heap q := by
  have key : r.store.cache.idx_main = s.cache.idx_main ∧
      ∀ q, ptr_key r.store.heap q = ptr_key s.heap q := by
    obtain ⟨old, hold, hcases⟩ := nmp_cache_update_some h
    rcases hcases with ⟨-, -, -, -, -, e⟩ | ⟨-, -, e, -⟩ | ⟨-, -, -, -, e⟩ |
      ⟨-, -, -, -, e, -⟩ | ⟨h0, -, -, -, -, e⟩
    · rw [e]; exact ⟨rfl, fun _ => rfl⟩
    · rw [e] at hret; simp at hret
    · rw [e]; exact ⟨rfl, fun q => ptr_key_out_obj_heap _ _ _ _⟩
    · rw [e] at hret; simp at hret
    · obtain ⟨hheap, hidx, -⟩ := _nmp_cache_update_update_some e
      have hm := (g_hash_table_lookup_main_ne_zero (hold ▸ h0)).2
      rw [hold] at hm
      refine ⟨hidx, fun q => ?_⟩
      rw [hheap]
      simp only
      rw [ptr_key_nmp_object_copy, ptr_key_out_obj_heap]
      rw [nmp_object_id_equal_congr s.heap _ old obj (ptr_key_out_obj_heap _ _ _ _)
        (ptr_key_out_obj_heap _ _ _ _)]
      exact hm
  intro q hq
  exact ⟨key.1 ▸ hq, key.2 q, nmp_object_id_hash_congr (key.2 q)⟩

/-- Witness of C10: the update with mask UDEV of the cached netlink link. -/
theorem nmp_cache_update_identity_immutable_witness :
    nmp_cache_update demo_result3.store 200 NMP_OBJECT_ASPECT_UDEV false false
      = some demo_result4 ∧
    (demo_result4.ret = NMP_CACHE_OPS_UPDATED ∨ demo_result4.ret = NMP_CACHE_OPS_UNCHANGED) ∧
    ∀ q ∈ demo_result3.store.cache.idx_main, q ∈ demo_result4.store.cache.idx_main ∧
      ptr_key demo_result4.store.heap q = ptr_key demo_result3.store.heap q ∧
      nmp_object_id_hash demo_result4.store.heap q
        = nmp_object_id_hash demo_result3.store.heap q :=
  ⟨demo_result4_eq, by decide,
    nmp_cache_update_identity_immutable demo_result3.store 200 NMP_OBJECT_ASPECT_UDEV false false
      demo_result4 demo_result4_eq (by decide)⟩

/-! ## Claims C11 to C20 -/

/-- C11 (remove contract) does not hold of the code.  In the reachable cache left by the two
updates of C1, the link at address 100 is cached and identity-equal to the valid probe at
address 300, yet `nmp_cache_remove` with that probe does not return Removed: it reaches
`g_assert_not_reached`, because the update with mask UDEV took the link out of the
visible-links group although the link is visible.  In the reachable cache
`demo_hidden_updated`, where a link that is not in netlink was updated with mask UDEV by a
candidate that is in netlink, `nmp_cache_remove` returns Removed and reports the link at
address 100, but afterwards the link is still a member of the visible-links group, which
`nmp_cache_lookup_multi` still returns: the update had put the link, which is not visible,
into that group.  Both come from `nmp_cache_update` passing `obj` instead of `obj_merged` to
`_nmp_cache_update_update`. -/
theorem nmp_cache_remove_contract_broken_after_udev_update :
    (Reachable demo_result4.store ∧
      NMP_OBJECT_IS_VALID demo_result4.store.heap 300 = true ∧
      nmp_cache_lookup_obj demo_result4.store 300 = 100 ∧
      100 ∈ demo_result4.store.cache.idx_main ∧
      nmp_object_id_equal demo_result4.store.heap 100 300 = true ∧
      nmp_cache_remove demo_result4.store 300 true true = none) ∧
    (Reachable demo_hidden_updated.store ∧
      NMP_OBJECT_IS_VALID demo_hidden_updated.store.heap 200 = true ∧
      nmp_cache_lookup_obj demo_hidden_updated.store 200 = 100 ∧
      nmp_object_is_visible demo_hidden_updated.store.heap 100 = false ∧
      nmp_cache_remove demo_hidden_updated.store 200 true true = some demo_hidden_removed ∧
      demo_hidden_removed.ret = NMP_CACHE_OPS_REMOVED ∧
      demo_hidden_removed.out_obj = 100 ∧
      nmp_cache_lookup_obj demo_hidden_removed.store 200 = 0 ∧
      nm_multi_index_contains demo_hidden_removed.store.cache.idx_multi
        (nmp_cache_id_init_links true) 100 = true ∧
      nmp_cache_lookup_multi demo_hidden_removed.store.cache (nmp_cache_id_init_links true)
        = (some [100, 0], 1)) :=
  ⟨⟨demo_result4_reachable, by decide, by decide, by decide, by decide, rfl⟩,
   ⟨demo_hidden_updated_reachable, by decide, by decide, by decide, rfl, by decide, by decide,
     by decide, by decide, by decide⟩⟩

/-- The contract of `nmp_cache_remove` in a consistent cache: in a cache whose primary index
and Multi-Index are well formed and in which the group membership of the object cached under
the probe's identity matches its derivation, `nmp_cache_remove` with a valid probe returns;
it returns Unchanged, reports no
object and `was_visible = false` and leaves the cache unchanged if and only if no cached
object is identity-equal to the probe; otherwise it returns Removed, reports the previously
cached object (when `out_obj` is passed and the object is not ephemeral) together with its
visibility before removal (when `out_was_visible` is passed), clears that object's
`is_cached` flag, and afterwards the object is found neither by `nmp_cache_lookup_obj` nor in
the primary index nor in any secondary group, while every other cached object, its data and
its group memberships are unchanged. -/
theorem nmp_cache_remove_contract (s : Store) (obj : Nat) (b1 b2 : Bool)
    (hmain : nmp_cache_main_wf s)
    (hwf : nm_multi_index_wf s.cache.idx_multi)
    (hprobe : NMP_OBJECT_IS_VALID s.heap obj = true)
    (hcons : ∀ d, data_at s.heap (nmp_cache_lookup_obj s obj) = some d → ∀ g : NMPCacheId,
      nm_multi_index_contains s.cache.idx_multi g (nmp_cache_lookup_obj s obj) = true ↔
        cmd_obj_init_cache_id d g._id_type = some (some g)) :
    ∃ r, nmp_cache_remove s obj b1 b2 = some r ∧
      ((r.ret = NMP_CACHE_OPS_UNCHANGED ∧ r.out_obj = 0 ∧ r.out_was_visible = false ∧
          r.store = s) ↔
        ∀ q ∈ s.cache.idx_main, nmp_object_id_equal s.heap q obj = false) ∧
      (∀ old ∈ s.cache.idx_main, nmp_object_id_equal s.heap old obj = true →
        r.ret = NMP_CACHE_OPS_REMOVED ∧
        (b1 = true → NMP_OBJECT_IS_STACKINIT s.heap old = false → r.out_obj = old) ∧
        (b2 = true → r.out_was_visible = nmp_object_is_visible s.heap old) ∧
        is_cached_at r.store.heap old = false ∧
        nmp_cache_lookup_obj r.store obj = 0 ∧
        old ∉ r.store.cache.idx_main ∧
        (∀ g : NMPCacheId, nm_multi_index_contains r.store.cache.idx_multi g old = false) ∧
        (∀ q ∈ s.cache.idx_main, q ≠ old →
          q ∈ r.store.cache.idx_main ∧ r.store.heap q = s.heap q ∧
          ∀ g : NMPCacheId, nm_multi_index_contains r.store.cache.idx_multi g q =
            nm_multi_index_contains s.cache.idx_multi g q)) := by
  obtain ⟨hobj0, -⟩ := heap_some_of_valid hprobe
  have hlk : nmp_cache_lookup_obj s obj = g_hash_table_lookup_main s.heap s.cache.idx_main obj := by
    simp [nmp_cache_lookup_obj, hobj0]
  by_cases h0 : g_hash_table_lookup_main s.heap s.cache.idx_main obj = 0
  · have hnone := g_hash_table_lookup_main_eq_zero (fun k hk => (hmain.2.1 k hk).1) h0
    refine ⟨⟨NMP_CACHE_OPS_UNCHANGED, 0, false, s⟩, ?_, ?_, ?_⟩
    · unfold nmp_cache_remove
      simp [h0]
    · exact ⟨fun _ => hnone, fun _ => ⟨rfl, rfl, rfl, rfl⟩⟩
    · intro old ho he
      rw [hnone old ho] at he
      exact absurd he (by decide)
  · obtain ⟨hm, heq⟩ := g_hash_table_lookup_main_ne_zero h0
    rw [hlk] at hcons
    generalize hold : g_hash_table_lookup_main s.heap s.cache.idx_main obj = old0 at *
    have hv1 : NMP_OBJECT_IS_VALID s.heap old0 = true := (hmain.2.1 old0 hm).2.1
    obtain ⟨d, hd⟩ := data_at_of_valid hv1
    have hmem : ∀ g : NMPCacheId, old0 ∈ nm_multi_index_members s.cache.idx_multi g ↔
        cmd_obj_init_cache_id d g._id_type = some (some g) := by
      intro g
      rw [← hcons d hd g, nm_multi_index_contains_iff hwf]
      simp [h0]
    obtain ⟨idx', e, w, m, -⟩ := _nmp_cache_update_cache_loop_remove d old0 h0
      NMP_CACHE_ID_TYPES s.cache.idx_multi NMP_CACHE_ID_TYPES_nodup hwf
      (fun g _ hg => (hmem g).mpr hg)
    have hmain1 := nmp_cache_main_wf_out_obj_heap s b1 old0 hmain
    have hk : g_hash_table_lookup_main (set_is_cached (out_obj_heap b1 s.heap old0) old0 false)
        s.cache.idx_main old0 = old0 := by
      have := g_hash_table_lookup_main_self hmain1 (p := old0) hm
      rw [g_hash_table_lookup_main_congr (out_obj_heap b1 s.heap old0) _ _ _
        (fun k _ => ptr_key_set_is_cached _ _ _ _) (ptr_key_set_is_cached _ _ _ _)]
      exact this
    have hrm : _nmp_cache_update_remove { s with heap := (out_obj_heap b1 s.heap old0) } old0 =
        some { heap := nmp_object_put (set_is_cached (out_obj_heap b1 s.heap old0) old0 false)
                 old0,
               cache := { idx_main := s.cache.idx_main.erase old0, idx_multi := idx' } } := by
      apply _nmp_cache_update_remove_eq (d := d) h0
      · simp only [data_at_out_obj_heap]; exact hd
      · exact e
      · exact hk
    have huniq : ∀ old ∈ s.cache.idx_main, nmp_object_id_equal s.heap old obj = true →
        old = old0 := by
      intro old ho he
      by_cases h1 : old = obj
      · by_cases h2 : old0 = obj
        · rw [h1, h2]
        · rw [← h1] at heq
          exact (hmain.2.2 old0 hm old ho heq).symm
      · by_cases h2 : old0 = obj
        · rw [h2] at hm
          rw [h2]
          exact hmain.2.2 old ho obj hm he
        · exact hmain.2.2 old ho old0 hm
            (nmp_object_id_equal_trans he heq (hmain.2.1 old ho).1 h0 hobj0 h1 h2)
    have hother : ∀ q, q ≠ old0 →
        nmp_object_put (set_is_cached (out_obj_heap b1 s.heap old0) old0 false) old0 q
          = s.heap q := by
      intro q hq
      rw [nmp_object_put_ne _ _ _ hq, set_is_cached_ne _ _ _ _ hq, out_obj_heap_ne _ _ _ _ hq]
    refine ⟨_, nmp_cache_remove_eq_removed b1 b2 hold h0 hrm, ?_, ?_⟩
    · constructor
      · intro h
        have h1 := h.1
        simp only at h1
        exact absurd h1 (by decide)
      · intro h
        rw [h old0 hm] at heq
        exact absurd heq (by decide)
    · intro old ho he
      have hoo := huniq old ho he
      subst hoo
      refine ⟨rfl, ?_, ?_, ?_, ?_, ?_, ?_, ?_⟩
      · intro hb hs
        simp only [hb, if_true]
        exact nmp_object_get_fst _ _ hv1 hs
      · intro hb
        simp only [hb, if_true]
        exact nmp_object_is_visible_out_obj_heap _ _ _ _
      · simp only
        cases hc : is_cached_at
            (nmp_object_put (set_is_cached (out_obj_heap b1 s.heap old) old false) old) old with
        | false => rfl
        | true =>
          have := is_cached_at_nmp_object_put _ _ _ hc
          rw [is_cached_at_set_is_cached_same _ _ _
            ((NMP_OBJECT_IS_VALID_out_obj_heap _ _ _ _).trans hv1)] at this
          exact absurd this (by decide)
      · simp only [nmp_cache_lookup_obj, hobj0, if_false]
        apply g_hash_table_lookup_main_of_none
        intro k hk
        have hkm := hmain.1.mem_erase_iff.mp hk
        have hk0 := (hmain.2.1 k hkm.2).1
        rw [Bool.eq_false_iff]
        intro hke
        by_cases hko : k = obj
        · rw [hko] at hkm
          exact hkm.1 (hmain.2.2 obj hkm.2 old ho (by
            rw [nmp_object_id_equal_comm]; exact he))
        · have e1 := (nmp_object_id_equal_iff _ k obj hk0 hobj0 hko).mp hke
          rw [ptr_key_congr (hother k hkm.1)] at e1
          by_cases hoo : obj = old
          · subst hoo
            rcases ptr_key_nmp_object_put_self
              (set_is_cached (out_obj_heap b1 s.heap obj) obj false) obj with e2 | e2
            · rw [e2] at e1
              exact e1.2 e1.1
            · rw [e2, ptr_key_set_is_cached, ptr_key_out_obj_heap] at e1
              exact hkm.1 (hmain.2.2 k hkm.2 obj ho
                ((nmp_object_id_equal_iff _ k obj hk0 hobj0 hko).mpr e1))
          · rw [ptr_key_congr (hother obj hoo)] at e1
            have hke' := (nmp_object_id_equal_iff _ k obj hk0 hobj0 hko).mpr e1
            exact hkm.1 (hmain.2.2 k hkm.2 old ho
              (nmp_object_id_equal_trans hke' he hk0 h0 hobj0 hko (Ne.symm hoo)))
      · simp only
        exact fun h => (hmain.1.mem_erase_iff.mp h).1 rfl
      · intro g
        simp only
        cases hcn : nm_multi_index_contains idx' g old with
        | false => rfl
        | true =>
          have := ((nm_multi_index_contains_iff w g old).mp hcn).2
          rw [m g old] at this
          exact absurd ⟨rfl, mem_NMP_CACHE_ID_TYPES _, (hmem g).mp this.1⟩ this.2
      · intro q hq hqo
        refine ⟨hmain.1.mem_erase_iff.mpr ⟨hqo, hq⟩, hother q hqo, ?_⟩
        intro g
        simp only
        rw [Bool.eq_iff_iff, nm_multi_index_contains_iff w, nm_multi_index_contains_iff hwf,
          m g q]
        simp [hqo]

/-- An instance of `nmp_cache_remove_contract`: the cache that holds the netlink link at
address 100, and the probe of the same interface index at address 300. -/
theorem nmp_cache_remove_contract_witness :
    nmp_cache_main_wf demo_result3.store ∧
    nm_multi_index_wf demo_result3.store.cache.idx_multi ∧
    NMP_OBJECT_IS_VALID demo_result3.store.heap 300 = true ∧
    nmp_cache_lookup_obj demo_result3.store 300 = 100 ∧
    ∃ r, nmp_cache_remove demo_result3.store 300 true true = some r ∧
      ((r.ret = NMP_CACHE_OPS_UNCHANGED ∧ r.out_obj = 0 ∧ r.out_was_visible = false ∧
          r.store = demo_result3.store) ↔
        ∀ q ∈ demo_result3.store.cache.idx_main,
          nmp_object_id_equal demo_result3.store.heap q 300 = false) ∧
      (∀ old ∈ demo_result3.store.cache.idx_main,
        nmp_object_id_equal demo_result3.store.heap old 300 = true →
        r.ret = NMP_CACHE_OPS_REMOVED ∧
        (true = true → NMP_OBJECT_IS_STACKINIT demo_result3.store.heap old = false →
          r.out_obj = old) ∧
        (true = true → r.out_was_visible = nmp_object_is_visible demo_result3.store.heap old) ∧
        is_cached_at r.store.heap old = false ∧
        nmp_cache_lookup_obj r.store 300 = 0 ∧
        old ∉ r.store.cache.idx_main ∧
        (∀ g : NMPCacheId, nm_multi_index_contains r.store.cache.idx_multi g old = false) ∧
        (∀ q ∈ demo_result3.store.cache.idx_main, q ≠ old →
          q ∈ r.store.cache.idx_main ∧ r.store.heap q = demo_result3.store.heap q ∧
          ∀ g : NMPCacheId, nm_multi_index_contains r.store.cache.idx_multi g q =
            nm_multi_index_contains demo_result3.store.cache.idx_multi g q)) :=
  ⟨by decide, by decide, by decide, by decide,
    nmp_cache_remove_contract demo_result3.store 300 true true (by decide) (by decide)
      (by decide)
      (fun d hd => nmp_cache_update_added_consistent (s := demo_store2b) (by decide)
        (by decide) (by decide) (by decide) (by decide) demo_result3_eq d hd)⟩

/-- C12 as stated does not hold: the Link at address 100, which carries a udev device, is
added with mask NETLINK; afterwards the object that the primary index returns for its
identity is the candidate itself, at address 100, and it still has the udev device. -/
theorem nmp_cache_update_added_is_candidate :
    nmp_cache_lookup_obj demo_store_both 200 = 0 ∧
    (nmp_cache_update demo_store_both 100 NMP_OBJECT_ASPECT_NETLINK false false).map
      (fun r => (r.ret, nmp_cache_lookup_obj r.store 200, data_at r.store.heap 100)) =
        some (NMP_CACHE_OPS_ADDED, 100,
          some (NMPObjectData._link ⟨⟨5, 0⟩, ⟨1, 0, 0, 0, 0⟩, ⟨7⟩⟩)) := by
  decide

/-- C12 (what the cache holds after Added, as amended): after `nmp_cache_update` returns
Added, whatever the aspect mask, the object held by the primary index under the candidate's
identity is the candidate itself: its address is a key of the primary index and the result
of `nmp_cache_lookup_obj`, it is marked `is_cached`, and its data, with every aspect that
the candidate carried, is unchanged. -/
theorem nmp_cache_update_added_holds_candidate (s : Store) (obj : Nat) (M : NMPObjectAspects)
    (b1 b2 : Bool) (r : NMPCacheOpsResult)
    (h : nmp_cache_update s obj M b1 b2 = some r)
    (hret : r.ret = NMP_CACHE_OPS_ADDED) :
    r.store.cache.idx_main = obj :: s.cache.idx_main ∧
    nmp_cache_lookup_obj r.store obj = obj ∧
    is_cached_at r.store.heap obj = true ∧
    data_at r.store.heap obj = data_at s.heap obj ∧
    data_at s.heap obj ≠ none := by
  obtain ⟨old, -, hcase⟩ := nmp_cache_update_some h
  rcases hcase with ⟨-, -, e, -⟩ | ⟨-, ha, -, -, e⟩ | ⟨-, -, -, e, -⟩ | ⟨-, -, -, -, e, -⟩ |
    ⟨-, -, -, -, e, -⟩
  · rw [hret] at e; exact absurd e (by decide)
  · obtain ⟨-, hh, hm, o, ho, -⟩ := _nmp_cache_update_add_some e
    simp only at hh hm
    have hv := valid_of_nmp_object_is_alive ha
    obtain ⟨h0, -⟩ := heap_some_of_valid hv
    obtain ⟨d, hd⟩ := data_at_of_valid hv
    refine ⟨hm, ?_, ?_, ?_, by simp [hd]⟩
    · unfold nmp_cache_lookup_obj
      simp only [h0, if_false, hm]
      exact g_hash_table_lookup_main_cons_self _ _ _
    · rw [hh]
      apply is_cached_at_set_is_cached_same
      rw [NMP_OBJECT_IS_VALID_nmp_object_get, NMP_OBJECT_IS_VALID_out_obj_heap]
      exact hv
    · rw [hh, data_at_set_is_cached, data_at_nmp_object_get, data_at_out_obj_heap]
  · rw [hret] at e; exact absurd e (by decide)
  · rw [hret] at e; exact absurd e (by decide)
  · rw [hret] at e; exact absurd e (by decide)

/-- Witness of C12 as amended: the Link with both aspects, added with mask NETLINK. -/
theorem nmp_cache_update_added_holds_candidate_witness :
    nmp_cache_update demo_store_both 100 NMP_OBJECT_ASPECT_NETLINK false false
      = some demo_both_result ∧
    demo_both_result.ret = NMP_CACHE_OPS_ADDED ∧
    (demo_both_result.store.cache.idx_main = 100 :: demo_store_both.cache.idx_main ∧
    nmp_cache_lookup_obj demo_both_result.store 100 = 100 ∧
    is_cached_at demo_both_result.store.heap 100 = true ∧
    data_at demo_both_result.store.heap 100 = data_at demo_store_both.heap 100 ∧
    data_at demo_store_both.heap 100 ≠ none) :=
  ⟨rfl, by decide, nmp_cache_update_added_holds_candidate demo_store_both 100
    NMP_OBJECT_ASPECT_NETLINK false false demo_both_result rfl (by decide)⟩

/-- C13 (aliveness and visibility per kind): a Link is alive iff `is_in_netlink` is set or it
has a udev device, and visible iff `is_in_netlink` is set; an IPv4/IPv6 address is always
alive and always visible; an IPv4/IPv6 route is alive iff its source is not INTERNAL and
visible iff its source is neither RTPROT_KERNEL nor INTERNAL; every visible object is alive,
and `nmp_object_is_alive` and `nmp_object_is_visible` return these values for every valid
object. -/
theorem nmp_object_alive_visible_table :
    (∀ l : NMPObjectLink,
      (cmd_obj_is_alive (._link l) = true ↔ (l.netlink.is_in_netlink ≠ 0 ∨ l.udev.device ≠ 0)) ∧
      (cmd_obj_is_visible (._link l) = true ↔ l.netlink.is_in_netlink ≠ 0)) ∧
    (∀ a : NMPlatformIP4Address,
      cmd_obj_is_alive (._ip4_address a) = true ∧ cmd_obj_is_visible (._ip4_address a) = true) ∧
    (∀ a : NMPlatformIP6Address,
      cmd_obj_is_alive (._ip6_address a) = true ∧ cmd_obj_is_visible (._ip6_address a) = true) ∧
    (∀ r : NMPlatformIP4Route,
      (cmd_obj_is_alive (._ip4_route r) = true ↔ r.source ≠ NM_IP_CONFIG_SOURCE_INTERNAL) ∧
      (cmd_obj_is_visible (._ip4_route r) = true ↔
        (r.source ≠ NM_IP_CONFIG_SOURCE_RTPROT_KERNEL ∧
          r.source ≠ NM_IP_CONFIG_SOURCE_INTERNAL))) ∧
    (∀ r : NMPlatformIP6Route,
      (cmd_obj_is_alive (._ip6_route r) = true ↔ r.source ≠ NM_IP_CONFIG_SOURCE_INTERNAL) ∧
      (cmd_obj_is_visible (._ip6_route r) = true ↔
        (r.source ≠ NM_IP_CONFIG_SOURCE_RTPROT_KERNEL ∧
          r.source ≠ NM_IP_CONFIG_SOURCE_INTERNAL))) ∧
    (∀ d : NMPObjectData, cmd_obj_is_visible d = true → cmd_obj_is_alive d = true) ∧
    (∀ (heap : Heap) (p : Nat) (o : NMPObject), p ≠ 0 → heap p = some o → 0 < o._ref_count →
      nmp_object_is_alive heap p = cmd_obj_is_alive o.data ∧
      nmp_object_is_visible heap p = cmd_obj_is_visible o.data) ∧
    (∀ (heap : Heap) (p : Nat),
      nmp_object_is_visible heap p = true → nmp_object_is_alive heap p = true) := by
  have hvis : ∀ d : NMPObjectData, cmd_obj_is_visible d = true → cmd_obj_is_alive d = true := by
    intro d h
    cases d with
    | _link l =>
      simp only [cmd_obj_is_visible, _vt_cmd_obj_is_visible_link] at h
      simp [cmd_obj_is_alive, _vt_cmd_obj_is_alive_link, h]
    | _ip4_address a => rfl
    | _ip6_address a => rfl
    | _ip4_route r =>
      simp only [cmd_obj_is_visible, _vt_cmd_obj_is_visible_ipx_route, Bool.and_eq_true] at h
      simpa [cmd_obj_is_alive, _vt_cmd_obj_is_alive_ipx_route] using h.2
    | _ip6_route r =>
      simp only [cmd_obj_is_visible, _vt_cmd_obj_is_visible_ipx_route, Bool.and_eq_true] at h
      simpa [cmd_obj_is_alive, _vt_cmd_obj_is_alive_ipx_route] using h.2
  refine ⟨?_, ?_, ?_, ?_, ?_, hvis, ?_, ?_⟩
  · intro l
    simp [cmd_obj_is_alive, _vt_cmd_obj_is_alive_link, cmd_obj_is_visible,
      _vt_cmd_obj_is_visible_link]
  · intro a; exact ⟨rfl, rfl⟩
  · intro a; exact ⟨rfl, rfl⟩
  · intro r
    simp [cmd_obj_is_alive, _vt_cmd_obj_is_alive_ipx_route, cmd_obj_is_visible,
      _vt_cmd_obj_is_visible_ipx_route, ip_route_source]
  · intro r
    simp [cmd_obj_is_alive, _vt_cmd_obj_is_alive_ipx_route, cmd_obj_is_visible,
      _vt_cmd_obj_is_visible_ipx_route, ip_route_source]
  · intro heap p o hp ho hr
    have hv : NMP_OBJECT_IS_VALID heap p = true := by
      simp [NMP_OBJECT_IS_VALID, hp, ho, hr]
    simp [nmp_object_is_alive, nmp_object_is_visible, hv, ho]
  · intro heap p h
    unfold nmp_object_is_visible at h
    unfold nmp_object_is_alive
    by_cases hv : NMP_OBJECT_IS_VALID heap p = true
    · simp only [hv, Bool.not_true, Bool.false_eq_true, if_false] at h ⊢
      cases ho : heap p with
      | none => simp [ho] at h
      | some o =>
        simp only [ho] at h ⊢
        exact hvis _ h
    · simp [hv] at h

/-- C14 (link ghosting scenario) does not hold of the code: the Link with interface index 5
is added with mask NETLINK (Added, visible, in the visible-links group), a udev device is
attached by an update with mask UDEV whose candidate carries only the udev aspect (Updated),
and the following update with mask NETLINK by a valid, uncached candidate whose
`is_in_netlink` is clear aborts in `_nmp_cache_update_update`, because
`nm_multi_index_move` from the visible-links group returns false, instead of returning
Updated. -/
theorem nmp_cache_update_ghosting_aborts :
    demo_store2b.cache.idx_main = [] ∧
    nmp_cache_update demo_store2b 100 NMP_OBJECT_ASPECT_NETLINK false false
      = some demo_result3 ∧
    demo_result3.ret = NMP_CACHE_OPS_ADDED ∧
    nmp_object_is_visible demo_result3.store.heap 100 = true ∧
    nm_multi_index_contains demo_result3.store.cache.idx_multi (nmp_cache_id_init_links true) 100
      = true ∧
    nmp_cache_update demo_result3.store 200 NMP_OBJECT_ASPECT_UDEV false false
      = some demo_result4 ∧
    demo_result4.ret = NMP_CACHE_OPS_UPDATED ∧
    data_at demo_result4.store.heap 100
      = some (NMPObjectData._link ⟨⟨5, 0⟩, ⟨1, 0, 0, 0, 0⟩, ⟨7⟩⟩) ∧
    data_at demo_result4.store.heap 400
      = some (NMPObjectData._link ⟨⟨5, 0⟩, ⟨0, 0, 0, 0, 0⟩, ⟨0⟩⟩) ∧
    NMP_OBJECT_IS_VALID demo_result4.store.heap 400 = true ∧
    is_cached_at demo_result4.store.heap 400 = false ∧
    nmp_cache_update_alive demo_result4.store.heap 100 400 NMP_OBJECT_ASPECT_NETLINK = true ∧
    (nm_multi_index_move demo_result4.store.cache.idx_multi
      (some (nmp_cache_id_init_links true)) none 100).1 = false ∧
    nmp_cache_update demo_result4.store 400 NMP_OBJECT_ASPECT_NETLINK false false = none :=
  ⟨rfl, rfl, by decide, by decide, by decide, rfl, by decide, by decide, by decide, by decide,
    by decide, by decide, by decide, rfl⟩


/-- C16 (default-route grouping is a partition): for every visible IPv4 or IPv6 route the
derivation yields the routes-visible-all group of its interface, the routes-visible-only-default
group exactly when its prefix length is 0 and the routes-visible-no-default group exactly
when it is not (the `is_v4` byte of these ids is set for both families); hence after one
default and one non-default visible IPv4 route of the same interface are added to the empty
cache, in either order, `nmp_cache_lookup_multi` returns exactly the default route for
only-default and exactly the other route for no-default. -/
theorem nmp_cache_routes_visible_partition :
    (∀ d : NMPObjectData,
      (d._class = OBJECT_TYPE_IP4_ROUTE ∨ d._class = OBJECT_TYPE_IP6_ROUTE) →
      cmd_obj_is_visible d = true →
      cmd_obj_init_cache_id d NMP_CACHE_ID_TYPE_ROUTES_VISIBLE_ALL
        = some (some ⟨NMP_CACHE_ID_TYPE_ROUTES_VISIBLE_ALL, 1, object_ifindex d⟩) ∧
      cmd_obj_init_cache_id d NMP_CACHE_ID_TYPE_ROUTES_VISIBLE_ONLY_DEFAULT
        = (if ip_route_plen d = 0 then
            some (some ⟨NMP_CACHE_ID_TYPE_ROUTES_VISIBLE_ONLY_DEFAULT, 1, object_ifindex d⟩)
          else some none) ∧
      cmd_obj_init_cache_id d NMP_CACHE_ID_TYPE_ROUTES_VISIBLE_NO_DEFAULT
        = (if ip_route_plen d = 0 then some none
          else some (some ⟨NMP_CACHE_ID_TYPE_ROUTES_VISIBLE_NO_DEFAULT, 1, object_ifindex d⟩))) ∧
    (∀ (s : Store) (p q : Nat) (v w : NMPlatformIP4Route) (M N : NMPObjectAspects)
      (b1 b2 b3 b4 : Bool),
      s.cache = nmp_cache_new →
      NMP_OBJECT_IS_VALID s.heap p = true → NMP_OBJECT_IS_VALID s.heap q = true →
      data_at s.heap p = some (._ip4_route v) → data_at s.heap q = some (._ip4_route w) →
      cmd_obj_is_visible (._ip4_route v) = true → cmd_obj_is_visible (._ip4_route w) = true →
      v.ifindex = w.ifindex → v.plen = 0 → w.plen ≠ 0 →
      (∃ r1 r2, nmp_cache_update s p M b1 b2 = some r1 ∧ r1.ret = NMP_CACHE_OPS_ADDED ∧
        nmp_cache_update r1.store q N b3 b4 = some r2 ∧ r2.ret = NMP_CACHE_OPS_ADDED ∧
        nmp_cache_lookup_multi r2.store.cache
          ⟨NMP_CACHE_ID_TYPE_ROUTES_VISIBLE_ONLY_DEFAULT, 1, v.ifindex⟩ = (some [p, 0], 1) ∧
        nmp_cache_lookup_multi r2.store.cache
          ⟨NMP_CACHE_ID_TYPE_ROUTES_VISIBLE_NO_DEFAULT, 1, v.ifindex⟩ = (some [q, 0], 1)) ∧
      (∃ r1 r2, nmp_cache_update s q N b1 b2 = some r1 ∧ r1.ret = NMP_CACHE_OPS_ADDED ∧
        nmp_cache_update r1.store p M b3 b4 = some r2 ∧ r2.ret = NMP_CACHE_OPS_ADDED ∧
        nmp_cache_lookup_multi r2.store.cache
          ⟨NMP_CACHE_ID_TYPE_ROUTES_VISIBLE_ONLY_DEFAULT, 1, v.ifindex⟩ = (some [p, 0], 1) ∧
        nmp_cache_lookup_multi r2.store.cache
          ⟨NMP_CACHE_ID_TYPE_ROUTES_VISIBLE_NO_DEFAULT, 1, v.ifindex⟩ = (some [q, 0], 1))) := by
  have hderiv : ∀ d : NMPObjectData,
      (d._class = OBJECT_TYPE_IP4_ROUTE ∨ d._class = OBJECT_TYPE_IP6_ROUTE) →
      cmd_obj_is_visible d = true →
      cmd_obj_init_cache_id d NMP_CACHE_ID_TYPE_ROUTES_VISIBLE_ALL
        = some (some ⟨NMP_CACHE_ID_TYPE_ROUTES_VISIBLE_ALL, 1, object_ifindex d⟩) ∧
      cmd_obj_init_cache_id d NMP_CACHE_ID_TYPE_ROUTES_VISIBLE_ONLY_DEFAULT
        = (if ip_route_plen d = 0 then
            some (some ⟨NMP_CACHE_ID_TYPE_ROUTES_VISIBLE_ONLY_DEFAULT, 1, object_ifindex d⟩)
          else some none) ∧
      cmd_obj_init_cache_id d NMP_CACHE_ID_TYPE_ROUTES_VISIBLE_NO_DEFAULT
        = (if ip_route_plen d = 0 then some none
          else some (some ⟨NMP_CACHE_ID_TYPE_ROUTES_VISIBLE_NO_DEFAULT, 1, object_ifindex d⟩)) := by
    intro d hk hv
    cases d with
    | _link l => simp [NMPObjectData._class] at hk
    | _ip4_address a => simp [NMPObjectData._class] at hk
    | _ip6_address a => simp [NMPObjectData._class] at hk
    | _ip4_route r =>
      simp only [cmd_obj_is_visible] at hv
      by_cases h0 : r.plen = 0 <;>
        simp [cmd_obj_init_cache_id, _vt_cmd_obj_init_cache_id_ip4_route, hv,
          nmp_cache_id_init_routes_visible, nmp_cache_id_init, NM_PLATFORM_IP_ROUTE_IS_DEFAULT,
          ip_route_plen, h0]
    | _ip6_route r =>
      simp only [cmd_obj_is_visible] at hv
      by_cases h0 : r.plen = 0 <;>
        simp [cmd_obj_init_cache_id, _vt_cmd_obj_init_cache_id_ip6_route, hv,
          nmp_cache_id_init_routes_visible, nmp_cache_id_init, NM_PLATFORM_IP_ROUTE_IS_DEFAULT,
          ip_route_plen, h0]
  refine ⟨hderiv, ?_⟩
  intro s p q v w M N b1 b2 b3 b4 hempty hvp hvq hdp hdq hvv hvw hif hv0 hw0
  have hap : nmp_object_is_alive s.heap p = true := by
    rw [nmp_object_is_alive_eq, hvp, hdp]
    simp only [cmd_obj_is_visible, _vt_cmd_obj_is_visible_ipx_route, Bool.and_eq_true] at hvv
    simpa [cmd_obj_is_alive, _vt_cmd_obj_is_alive_ipx_route] using hvv.2
  have haq : nmp_object_is_alive s.heap q = true := by
    rw [nmp_object_is_alive_eq, hvq, hdq]
    simp only [cmd_obj_is_visible, _vt_cmd_obj_is_visible_ipx_route, Bool.and_eq_true] at hvw
    simpa [cmd_obj_is_alive, _vt_cmd_obj_is_alive_ipx_route] using hvw.2
  have hid : object_identity (._ip4_route v) ≠ object_identity (._ip4_route w) := by
    intro h
    have := (object_identity_eq_iff _ _).mp h
    simp only at this
    exact hw0 (this.2.1 ▸ hv0)
  have hpq : p ≠ q := by
    intro e
    rw [e, hdq] at hdp
    simp only [Option.some.injEq, NMPObjectData._ip4_route.injEq] at hdp
    exact hw0 (hdp ▸ hv0)
  obtain ⟨_, dvo, dvn⟩ := hderiv (._ip4_route v) (Or.inl rfl) hvv
  obtain ⟨_, dwo, dwn⟩ := hderiv (._ip4_route w) (Or.inl rfl) hvw
  simp only [ip_route_plen, hv0, if_true, object_ifindex] at dvo dvn
  simp only [ip_route_plen, hw0, if_false, object_ifindex] at dwo dwn
  constructor
  · obtain ⟨r1, r2, e1, t1, e2, t2, w2, m⟩ := nmp_cache_update_two_added s p q M N b1 b2 b3 b4
      _ _ hempty hap haq hdp hdq hpq hid
    refine ⟨r1, r2, e1, t1, e2, t2, ?_, ?_⟩
    · apply nm_multi_index_lookup_singleton w2
      intro x
      rw [m]
      simp [dvo, dwo]
    · apply nm_multi_index_lookup_singleton w2
      intro x
      rw [m]
      simp [dvn, dwn, hif]
  · obtain ⟨r1, r2, e1, t1, e2, t2, w2, m⟩ := nmp_cache_update_two_added s q p N M b1 b2 b3 b4
      _ _ hempty haq hap hdq hdp hpq.symm hid.symm
    refine ⟨r1, r2, e1, t1, e2, t2, ?_, ?_⟩
    · apply nm_multi_index_lookup_singleton w2
      intro x
      rw [m]
      simp [dvo, dwo]
    · apply nm_multi_index_lookup_singleton w2
      intro x
      rw [m]
      simp [dvn, dwn, hif]

/-- Witness of C16: the default route at address 100 and the route 10/8 at address 200, both
of interface 3, added to the empty cache. -/
theorem nmp_cache_routes_visible_partition_witness :
    (cmd_obj_init_cache_id demo_route_default.data NMP_CACHE_ID_TYPE_ROUTES_VISIBLE_ALL
        = some (some ⟨NMP_CACHE_ID_TYPE_ROUTES_VISIBLE_ALL, 1,
            object_ifindex demo_route_default.data⟩) ∧
      cmd_obj_init_cache_id demo_route_default.data NMP_CACHE_ID_TYPE_ROUTES_VISIBLE_ONLY_DEFAULT
        = (if ip_route_plen demo_route_default.data = 0 then
            some (some ⟨NMP_CACHE_ID_TYPE_ROUTES_VISIBLE_ONLY_DEFAULT, 1,
              object_ifindex demo_route_default.data⟩)
          else some none) ∧
      cmd_obj_init_cache_id demo_route_default.data NMP_CACHE_ID_TYPE_ROUTES_VISIBLE_NO_DEFAULT
        = (if ip_route_plen demo_route_default.data = 0 then some none
          else some (some ⟨NMP_CACHE_ID_TYPE_ROUTES_VISIBLE_NO_DEFAULT, 1,
            object_ifindex demo_route_default.data⟩))) ∧
    ∃ r1 r2, nmp_cache_update demo_route_pair_store 100 NMP_OBJECT_ASPECT_PUBLIC false false
        = some r1 ∧ r1.ret = NMP_CACHE_OPS_ADDED ∧
      nmp_cache_update r1.store 200 NMP_OBJECT_ASPECT_PUBLIC false false = some r2 ∧
      r2.ret = NMP_CACHE_OPS_ADDED ∧
      nmp_cache_lookup_multi r2.store.cache
        ⟨NMP_CACHE_ID_TYPE_ROUTES_VISIBLE_ONLY_DEFAULT, 1, 3⟩ = (some [100, 0], 1) ∧
      nmp_cache_lookup_multi r2.store.cache
        ⟨NMP_CACHE_ID_TYPE_ROUTES_VISIBLE_NO_DEFAULT, 1, 3⟩ = (some [200, 0], 1) :=
  ⟨nmp_cache_routes_visible_partition.1 demo_route_default.data (Or.inl rfl) rfl,
    (nmp_cache_routes_visible_partition.2 demo_route_pair_store 100 200
      ⟨3, NM_IP_CONFIG_SOURCE_USER, 0, 0, 1, 0⟩ ⟨3, NM_IP_CONFIG_SOURCE_USER, 10, 8, 1, 0⟩
      NMP_OBJECT_ASPECT_PUBLIC NMP_OBJECT_ASPECT_PUBLIC false false false false
      rfl (by decide) (by decide) rfl rfl rfl rfl rfl rfl (by decide)).1⟩

/-- C17 (index ids of different kinds do not overlap) does not hold of the code: for the id
types routes-visible-all and routes-visible-no-default the derivation of a visible IPv4
route and that of a visible IPv6 route on the same interface yield the same cache id, with
`is_v4` set, which is `nmp_cache_id_equal` to itself, and after both routes are added to the
empty cache the routes-visible-all group holds the two of them, objects of two kinds. -/
theorem cmd_obj_init_cache_id_route_families_overlap :
    NMP_OBJECT_GET_CLASS demo_route_user = OBJECT_TYPE_IP4_ROUTE ∧
    NMP_OBJECT_GET_CLASS demo_route6_user = OBJECT_TYPE_IP6_ROUTE ∧
    cmd_obj_is_visible demo_route_user.data = true ∧
    cmd_obj_is_visible demo_route6_user.data = true ∧
    cmd_obj_init_cache_id demo_route_user.data NMP_CACHE_ID_TYPE_ROUTES_VISIBLE_ALL
      = some (some ⟨NMP_CACHE_ID_TYPE_ROUTES_VISIBLE_ALL, 1, 3⟩) ∧
    cmd_obj_init_cache_id demo_route6_user.data NMP_CACHE_ID_TYPE_ROUTES_VISIBLE_ALL
      = some (some ⟨NMP_CACHE_ID_TYPE_ROUTES_VISIBLE_ALL, 1, 3⟩) ∧
    cmd_obj_init_cache_id demo_route_user.data NMP_CACHE_ID_TYPE_ROUTES_VISIBLE_NO_DEFAULT
      = some (some ⟨NMP_CACHE_ID_TYPE_ROUTES_VISIBLE_NO_DEFAULT, 1, 3⟩) ∧
    cmd_obj_init_cache_id demo_route6_user.data NMP_CACHE_ID_TYPE_ROUTES_VISIBLE_NO_DEFAULT
      = some (some ⟨NMP_CACHE_ID_TYPE_ROUTES_VISIBLE_NO_DEFAULT, 1, 3⟩) ∧
    nmp_cache_id_equal ⟨NMP_CACHE_ID_TYPE_ROUTES_VISIBLE_ALL, 1, 3⟩
      ⟨NMP_CACHE_ID_TYPE_ROUTES_VISIBLE_ALL, 1, 3⟩ = true ∧
    nmp_cache_update demo_route46_store 100 NMP_OBJECT_ASPECT_PUBLIC false false
      = some demo_route46_result1 ∧
    demo_route46_result1.ret = NMP_CACHE_OPS_ADDED ∧
    nmp_cache_update demo_route46_result1.store 200 NMP_OBJECT_ASPECT_PUBLIC false false
      = some demo_route46_result2 ∧
    demo_route46_result2.ret = NMP_CACHE_OPS_ADDED ∧
    nmp_cache_lookup_multi demo_route46_result2.store.cache
      ⟨NMP_CACHE_ID_TYPE_ROUTES_VISIBLE_ALL, 1, 3⟩ = (some [100, 200, 0], 2) ∧
    (data_at demo_route46_result2.store.heap 100).map NMPObjectData._class
      = some OBJECT_TYPE_IP4_ROUTE ∧
    (data_at demo_route46_result2.store.heap 200).map NMPObjectData._class
      = some OBJECT_TYPE_IP6_ROUTE ∧
    Reachable demo_route46_result2.store :=
  ⟨rfl, rfl, rfl, rfl, by decide, by decide, by decide, by decide, by decide, rfl, by decide,
    rfl, by decide, by decide, by decide, by decide, demo_route46_result2_reachable⟩

/-- C18 as stated does not hold: the group of key 0 of the well-formed index
`demo_full_index` holds the `G_MAXINT - 2` members `1, ..., G_MAXINT - 2`, the length at
which `_do_add` refuses to grow an array; `nm_multi_index_add` of the non-null member
`G_MAXINT - 1` returns false, and `nm_multi_index_contains` is false afterwards. -/
theorem nm_multi_index_add_full_not_contained :
    nm_multi_index_wf demo_full_index ∧
    (nm_multi_index_members demo_full_index 0).length = 2147483645 ∧
    (nm_multi_index_add demo_full_index 0 2147483646).1 = false ∧
    nm_multi_index_contains (nm_multi_index_add demo_full_index 0 2147483646).2 0 2147483646
      = false := by
  obtain ⟨hm, e⟩ := demo_full_index_add
  refine ⟨demo_full_index_wf, ?_, by rw [e], ?_⟩
  · rw [demo_full_index_members, demo_full_members_length]
  · rw [e, Bool.eq_false_iff]
    intro h
    exact hm ((nm_multi_index_contains_iff demo_full_index_wf 0 2147483646).mp h).2

/-- C18 (Multi-Index add/remove round trip, as amended): for every well-formed index, every
group key `g` and every non-null member `m`, after `nm_multi_index_add (g, m)`
`nm_multi_index_contains (g, m)` is true exactly when `m` was already a member of the group
or the group held fewer than `G_MAXINT - 2` members, and after `nm_multi_index_add (g, m)`
followed by `nm_multi_index_remove (g, m)` `nm_multi_index_contains (g, m)` is false. -/
theorem nm_multi_index_add_remove_round_trip {Id : Type} [DecidableEq Id]
    (index : NMMultiIndex Id) (g : Id) (m : Nat)
    (hwf : nm_multi_index_wf index) (hm : m ≠ 0) :
    (nm_multi_index_contains (nm_multi_index_add index g m).2 g m = true ↔
      (m ∈ nm_multi_index_members index g ∨
        ((nm_multi_index_members index g).length : Int) + 2 < G_MAXINT)) ∧
    nm_multi_index_contains
      (nm_multi_index_remove (nm_multi_index_add index g m).2 g m).2 g m = false := by
  obtain ⟨c1, c2⟩ := nm_multi_index_add_cases hwf g m hm
  have hrem : ∀ idx : NMMultiIndex Id, nm_multi_index_wf idx →
      nm_multi_index_contains (nm_multi_index_remove idx g m).2 g m = false := by
    intro idx hw
    have e : nm_multi_index_remove idx g m = _do_remove idx g m := by
      simp [nm_multi_index_remove, hm]
    rw [e, Bool.eq_false_iff]
    intro h
    have := ((nm_multi_index_contains_iff (_do_remove_wf hw g m) g m).mp h).2
    rw [_do_remove_members hw] at this
    exact this.2 ⟨rfl, rfl⟩
  by_cases h1 : m ∈ nm_multi_index_members index g
  · rw [c1 (Or.inl h1)]
    refine ⟨?_, hrem index hwf⟩
    simp only [h1, true_or, iff_true]
    exact (nm_multi_index_contains_iff hwf g m).mpr ⟨hm, h1⟩
  · by_cases h2 : ((nm_multi_index_members index g).length : Int) + 2 < G_MAXINT
    · obtain ⟨-, w, mem⟩ := c2 h1 h2
      refine ⟨?_, hrem _ w⟩
      simp only [h2, or_true, iff_true]
      exact (nm_multi_index_contains_iff w g m).mpr ⟨hm, (mem g m).mpr (Or.inr ⟨rfl, rfl⟩)⟩
    · rw [c1 (Or.inr h2)]
      refine ⟨?_, hrem index hwf⟩
      simp only [h1, h2, or_self, iff_false, Bool.not_eq_true]
      rw [Bool.eq_false_iff]
      intro h
      exact h1 ((nm_multi_index_contains_iff hwf g m).mp h).2

/-- Witness of C18 as amended: the member 7 added to the new index under the key 0. -/
theorem nm_multi_index_add_remove_round_trip_witness :
    nm_multi_index_wf (nm_multi_index_new : NMMultiIndex Nat) ∧ (7 : Nat) ≠ 0 ∧
    ((nm_multi_index_contains (nm_multi_index_add (nm_multi_index_new : NMMultiIndex Nat) 0 7).2
        0 7 = true ↔
      (7 ∈ nm_multi_index_members (nm_multi_index_new : NMMultiIndex Nat) 0 ∨
        ((nm_multi_index_members (nm_multi_index_new : NMMultiIndex Nat) 0).length : Int) + 2
          < G_MAXINT)) ∧
    nm_multi_index_contains
      (nm_multi_index_remove (nm_multi_index_add (nm_multi_index_new : NMMultiIndex Nat) 0 7).2
        0 7).2 0 7 = false) :=
  ⟨by decide, by decide,
    nm_multi_index_add_remove_round_trip (nm_multi_index_new : NMMultiIndex Nat) 0 7
      (by decide) (by decide)⟩

/-- C19 as stated does not hold: `nm_multi_index_move` of the non-null member
`G_MAXINT - 1` from the key 1 to the unequal key 0 of `demo_full_index`, whose group is full,
returns false and the group of key 0 does not contain the member afterwards. -/
theorem nm_multi_index_move_full_not_added :
    nm_multi_index_wf demo_full_index ∧
    (nm_multi_index_members demo_full_index 0).length = 2147483645 ∧
    (nm_multi_index_move demo_full_index (some 1) (some 0) 2147483646).1 = false ∧
    2147483646 ∉ nm_multi_index_members
      (nm_multi_index_move demo_full_index (some 1) (some 0) 2147483646).2 0 := by
  refine ⟨demo_full_index_wf, ?_, by rw [demo_full_index_move],
    by rw [demo_full_index_move]; exact demo_full_index_add.1⟩
  rw [demo_full_index_members, demo_full_members_length]

/-- C19 (Multi-Index move post-state, as amended): for every well-formed index, every two
group keys `A` and `B` that are not equal and every non-null member `m`, after
`nm_multi_index_move (A, B, m)` the sequence returned by `nm_multi_index_lookup (A)` does not
contain `m`, and the sequence returned by `nm_multi_index_lookup (B)` contains `m` exactly
when `m` was already a member of `B` or the group of `B` held fewer than `G_MAXINT - 2`
members, whatever the membership of `m` in `A` was before the call. -/
theorem nm_multi_index_move_post_state {Id : Type} [DecidableEq Id]
    (index : NMMultiIndex Id) (A B : Id) (m : Nat)
    (hwf : nm_multi_index_wf index) (hm : m ≠ 0) (hAB : A ≠ B) :
    m ∉ nm_multi_index_members (nm_multi_index_move index (some A) (some B) m).2 A ∧
    (m ∈ nm_multi_index_members (nm_multi_index_move index (some A) (some B) m).2 B ↔
      (m ∈ nm_multi_index_members index B ∨
        ((nm_multi_index_members index B).length : Int) + 2 < G_MAXINT)) := by
  rw [nm_multi_index_move_unequal index A B m hm hAB]
  simp only
  have w1 := _do_remove_wf hwf A m
  have hB : nm_multi_index_members (_do_remove index A m).2 B = nm_multi_index_members index B :=
    _do_remove_members_other hwf.1 A B m (Ne.symm hAB)
  have hA1 : m ∉ nm_multi_index_members (_do_remove index A m).2 A := by
    rw [_do_remove_members hwf]
    exact fun h => h.2 ⟨rfl, rfl⟩
  have hA : nm_multi_index_members (_do_add (_do_remove index A m).2 B m).2 A =
      nm_multi_index_members (_do_remove index A m).2 A :=
    _do_add_members_other _ B A m hAB
  refine ⟨by rw [hA]; exact hA1, ?_⟩
  rw [← hB]
  by_cases h1 : m ∈ nm_multi_index_members (_do_remove index A m).2 B
  · rw [(_do_add_spec w1 B m hm).1 h1]
    simp [h1]
  · by_cases h2 : ((nm_multi_index_members (_do_remove index A m).2 B).length : Int) + 2
        < G_MAXINT
    · obtain ⟨-, -, mem⟩ := (_do_add_spec w1 B m hm).2 h1 h2
      simp only [h2, or_true, iff_true]
      exact (mem B m).mpr (Or.inr ⟨rfl, rfl⟩)
    · rw [_do_add_full w1 B m h2]
      simp [h1, h2]

/-- Witness of C19 as amended: the member 7 moved from the key 0 to the key 1. -/
theorem nm_multi_index_move_post_state_witness :
    nm_multi_index_wf (nm_multi_index_add (nm_multi_index_new : NMMultiIndex Nat) 0 7).2 ∧
    (7 : Nat) ≠ 0 ∧ (0 : Nat) ≠ 1 ∧
    (7 ∉ nm_multi_index_members (nm_multi_index_move
        (nm_multi_index_add (nm_multi_index_new : NMMultiIndex Nat) 0 7).2 (some 0) (some 1) 7).2
        0 ∧
    (7 ∈ nm_multi_index_members (nm_multi_index_move
        (nm_multi_index_add (nm_multi_index_new : NMMultiIndex Nat) 0 7).2 (some 0) (some 1) 7).2
        1 ↔
      (7 ∈ nm_multi_index_members
          (nm_multi_index_add (nm_multi_index_new : NMMultiIndex Nat) 0 7).2 1 ∨
        ((nm_multi_index_members
          (nm_multi_index_add (nm_multi_index_new : NMMultiIndex Nat) 0 7).2 1).length : Int) + 2
          < G_MAXINT))) :=
  ⟨by decide, by decide, by decide,
    nm_multi_index_move_post_state
      (nm_multi_index_add (nm_multi_index_new : NMMultiIndex Nat) 0 7).2 0 1 7
      (by decide) (by decide) (by decide)⟩

/-- C20 as stated does not hold: `nm_multi_index_add` returns false for a member that is not
present in the group in two more cases, both guarded in the code: the `NULL` member, here on
the new index, and a non-null member when the group is full, here the member `G_MAXINT - 1`
and the group of key 0 of `demo_full_index`, which holds `G_MAXINT - 2` members. -/
theorem nm_multi_index_add_false_not_present :
    (nm_multi_index_add (nm_multi_index_new : NMMultiIndex Nat) 0 0).1 = false ∧
    0 ∉ nm_multi_index_members (nm_multi_index_new : NMMultiIndex Nat) 0 ∧
    nm_multi_index_wf demo_full_index ∧
    (nm_multi_index_members demo_full_index 0).length = 2147483645 ∧
    2147483646 ∉ nm_multi_index_members demo_full_index 0 ∧
    nm_multi_index_add demo_full_index 0 2147483646 = (false, demo_full_index) :=
  ⟨by decide, by decide, demo_full_index_wf,
    by rw [demo_full_index_members, demo_full_members_length],
    demo_full_index_add.1, demo_full_index_add.2⟩

/-- C20 (return value of `nm_multi_index_add`, as amended): on a well-formed index,
`nm_multi_index_add` of the `NULL` member returns false and leaves the index unchanged; for a
non-null member it returns false if and only if the member is already present in the group
or the group already holds `G_MAXINT - 2` members or more, and in that case leaves the index
unchanged; otherwise it returns true, the member occurs exactly once in the group, the
members of the group are the former ones and the new one, and the group count increases by
one exactly when the key had no group before (it is unchanged otherwise). -/
theorem nm_multi_index_add_result {Id : Type} [DecidableEq Id]
    (index : NMMultiIndex Id) (g : Id) (m : Nat) (hwf : nm_multi_index_wf index) :
    (m = 0 → nm_multi_index_add index g m = (false, index)) ∧
    (m ≠ 0 →
      ((nm_multi_index_add index g m).1 = false ↔
        (m ∈ nm_multi_index_members index g ∨
          ¬ ((nm_multi_index_members index g).length : Int) + 2 < G_MAXINT)) ∧
      ((nm_multi_index_add index g m).1 = false → (nm_multi_index_add index g m).2 = index) ∧
      ((nm_multi_index_add index g m).1 = true →
        (nm_multi_index_members (nm_multi_index_add index g m).2 g).count m = 1 ∧
        (∀ x, x ∈ nm_multi_index_members (nm_multi_index_add index g m).2 g ↔
          (x ∈ nm_multi_index_members index g ∨ x = m)) ∧
        nm_multi_index_get_num_groups (nm_multi_index_add index g m).2 =
          nm_multi_index_get_num_groups index +
            (if (nm_multi_index_lookup index g).1 = none then 1 else 0))) := by
  refine ⟨fun h0 => by simp [nm_multi_index_add, h0], ?_⟩
  intro hm
  obtain ⟨c1, c2⟩ := nm_multi_index_add_cases hwf g m hm
  have e : nm_multi_index_add index g m = _do_add index g m := by
    simp [nm_multi_index_add, hm]
  by_cases h : m ∈ nm_multi_index_members index g ∨
      ¬ ((nm_multi_index_members index g).length : Int) + 2 < G_MAXINT
  · rw [c1 h]
    exact ⟨⟨fun _ => h, fun _ => rfl⟩, fun _ => rfl, fun hf => absurd hf (by simp)⟩
  · simp only [not_or, not_not] at h
    obtain ⟨r, w, mem⟩ := c2 h.1 h.2
    refine ⟨?_, ?_, ?_⟩
    · rw [r]
      constructor
      · intro hf
        exact absurd hf (by decide)
      · rintro (h1 | h1)
        · exact absurd h1 h.1
        · exact absurd h.2 h1
    · rw [r]
      intro hf
      exact absurd hf (by decide)
    · intro _
      refine ⟨?_, ?_, ?_⟩
      · exact List.count_eq_one_of_mem (nm_multi_index_members_nodup w g)
          ((mem g m).mpr (Or.inr ⟨rfl, rfl⟩))
      · intro x
        rw [mem g x]
        simp
      · rw [e] at r ⊢
        exact _do_add_num_groups index g m r

/-- Witness of C20 as amended: the member 7 added to the new index under the key 0. -/
theorem nm_multi_index_add_result_witness :
    nm_multi_index_wf (nm_multi_index_new : NMMultiIndex Nat) ∧
    (nm_multi_index_add (nm_multi_index_new : NMMultiIndex Nat) 0 7).1 = true ∧
    nm_multi_index_get_num_groups (nm_multi_index_add (nm_multi_index_new : NMMultiIndex Nat) 0 7).2
      = 1 ∧
    ((7 = 0 → nm_multi_index_add (nm_multi_index_new : NMMultiIndex Nat) 0 7
        = (false, nm_multi_index_new)) ∧
    (7 ≠ 0 →
      ((nm_multi_index_add (nm_multi_index_new : NMMultiIndex Nat) 0 7).1 = false ↔
        (7 ∈ nm_multi_index_members (nm_multi_index_new : NMMultiIndex Nat) 0 ∨
          ¬ ((nm_multi_index_members (nm_multi_index_new : NMMultiIndex Nat) 0).length : Int) + 2
            < G_MAXINT)) ∧
      ((nm_multi_index_add (nm_multi_index_new : NMMultiIndex Nat) 0 7).1 = false →
        (nm_multi_index_add (nm_multi_index_new : NMMultiIndex Nat) 0 7).2 = nm_multi_index_new) ∧
      ((nm_multi_index_add (nm_multi_index_new : NMMultiIndex Nat) 0 7).1 = true →
        (nm_multi_index_members
          (nm_multi_index_add (nm_multi_index_new : NMMultiIndex Nat) 0 7).2 0).count 7 = 1 ∧
        (∀ x, x ∈ nm_multi_index_members
            (nm_multi_index_add (nm_multi_index_new : NMMultiIndex Nat) 0 7).2 0 ↔
          (x ∈ nm_multi_index_members (nm_multi_index_new : NMMultiIndex Nat) 0 ∨ x = 7)) ∧
        nm_multi_index_get_num_groups
            (nm_multi_index_add (nm_multi_index_new : NMMultiIndex Nat) 0 7).2 =
          nm_multi_index_get_num_groups (nm_multi_index_new : NMMultiIndex Nat) +
            (if (nm_multi_index_lookup (nm_multi_index_new : NMMultiIndex Nat) 0).1 = none
              then 1 else 0)))) :=
  ⟨by decide, by decide, by decide,
    nm_multi_index_add_result (nm_multi_index_new : NMMultiIndex Nat) 0 7 (by decide)⟩

/-! ## Claims C21 to C30 -/

/-- C21 (return value of `nm_multi_index_remove`): on a well-formed index
`nm_multi_index_remove` returns false if and only if the member is absent from the group
(also when the group does not exist), and in that case leaves the index unchanged; when it
returns true the member is gone from the group and nothing else changes, and when the member
was the last one of its group the group disappears: `nm_multi_index_lookup` on that key
returns `NULL` with length 0 and `nm_multi_index_get_num_groups` decreases by one, while
otherwise the group stays and the number of groups is unchanged. -/
theorem nm_multi_index_remove_result {Id : Type} [DecidableEq Id]
    (index : NMMultiIndex Id) (g : Id) (m : Nat) (hwf : nm_multi_index_wf index) :
    ((nm_multi_index_remove index g m).1 = false ↔ m ∉ nm_multi_index_members index g) ∧
    ((nm_multi_index_remove index g m).1 = false →
      (nm_multi_index_remove index g m).2 = index) ∧
    ((nm_multi_index_remove index g m).1 = true →
      (∀ g' x, x ∈ nm_multi_index_members (nm_multi_index_remove index g m).2 g' ↔
        (x ∈ nm_multi_index_members index g' ∧ ¬ (g' = g ∧ x = m))) ∧
      (nm_multi_index_members index g = [m] →
        nm_multi_index_lookup (nm_multi_index_remove index g m).2 g = (none, 0) ∧
        nm_multi_index_get_num_groups (nm_multi_index_remove index g m).2 + 1 =
          nm_multi_index_get_num_groups index) ∧
      (nm_multi_index_members index g ≠ [m] →
        (nm_multi_index_lookup (nm_multi_index_remove index g m).2 g).1 ≠ none ∧
        nm_multi_index_get_num_groups (nm_multi_index_remove index g m).2 =
          nm_multi_index_get_num_groups index)) := by
  have h0mem : (0 : Nat) ∉ nm_multi_index_members index g := by
    intro h
    cases hl : g_hash_table_lookup index.hash g with
    | none => rw [nm_multi_index_members_of_lookup_none hl] at h; simp at h
    | some array =>
      obtain ⟨ms, rfl, -, -, hnn⟩ := nm_multi_index_wf_lookup hwf hl
      rw [nm_multi_index_members_of_lookup hl] at h
      exact hnn 0 h rfl
  by_cases hm0 : m = 0
  · subst hm0
    have e : nm_multi_index_remove index g 0 = (false, index) := by
      simp [nm_multi_index_remove]
    rw [e]
    exact ⟨⟨fun _ => h0mem, fun _ => rfl⟩, fun _ => rfl, fun h => absurd h (by simp)⟩
  · have e : nm_multi_index_remove index g m = _do_remove index g m := by
      simp [nm_multi_index_remove, hm0]
    rw [e]
    obtain ⟨s1, s2⟩ := _do_remove_spec hwf g m
    by_cases hm : m ∈ nm_multi_index_members index g
    · obtain ⟨r, w, mem⟩ := s2 hm
      refine ⟨?_, ?_, ?_⟩
      · rw [r]
        exact ⟨fun h => absurd h (by simp), fun h => absurd hm h⟩
      · rw [r]
        exact fun h => absurd h (by simp)
      · intro _
        have hn := _do_remove_num_groups hwf g m hm
        refine ⟨mem, ?_, ?_⟩
        · intro h1
          refine ⟨?_, ?_⟩
          · apply nm_multi_index_lookup_none_of_members w
            apply List.eq_nil_iff_forall_not_mem.mpr
            intro x hx
            rw [mem g x, h1] at hx
            simp only [List.mem_singleton, true_and] at hx
            exact hx.2 hx.1
          · simpa [h1] using hn
        · intro h1
          refine ⟨?_, ?_⟩
          · apply nm_multi_index_lookup_some_of_members
            intro hnil
            have hsub : ∀ x, x ∈ nm_multi_index_members index g → x = m := by
              intro x hx
              by_contra hxm
              have := (mem g x).mpr ⟨hx, fun h => hxm h.2⟩
              rw [hnil] at this
              simp at this
            have hnd := nm_multi_index_members_nodup hwf g
            apply h1
            generalize nm_multi_index_members index g = l at hm hsub hnd
            match l, hm, hsub, hnd with
            | [a], hm, _, _ =>
              simp only [List.mem_singleton] at hm
              rw [hm]
            | a :: b :: rest, _, hsub, hnd =>
              have ha := hsub a (by simp)
              have hb := hsub b (by simp)
              simp only [List.nodup_cons, List.mem_cons] at hnd
              exact absurd (Or.inl (ha.trans hb.symm)) hnd.1
          · simpa [h1] using hn
    · rw [s1 hm]
      exact ⟨⟨fun _ => hm, fun _ => rfl⟩, fun _ => rfl, fun h => absurd h (by simp)⟩

/-- Witness of C21: the only member 7 removed from the group of key 0. -/
theorem nm_multi_index_remove_result_witness :
    nm_multi_index_wf (nm_multi_index_add (nm_multi_index_new : NMMultiIndex Nat) 0 7).2 ∧
    (nm_multi_index_remove (nm_multi_index_add (nm_multi_index_new : NMMultiIndex Nat) 0 7).2
      0 7).1 = true ∧
    nm_multi_index_members (nm_multi_index_add (nm_multi_index_new : NMMultiIndex Nat) 0 7).2 0
      = [7] ∧
    nm_multi_index_lookup (nm_multi_index_remove
      (nm_multi_index_add (nm_multi_index_new : NMMultiIndex Nat) 0 7).2 0 7).2 0 = (none, 0) ∧
    nm_multi_index_get_num_groups (nm_multi_index_remove
      (nm_multi_index_add (nm_multi_index_new : NMMultiIndex Nat) 0 7).2 0 7).2 + 1 =
      nm_multi_index_get_num_groups
        (nm_multi_index_add (nm_multi_index_new : NMMultiIndex Nat) 0 7).2 :=
  have h := nm_multi_index_remove_result
    (nm_multi_index_add (nm_multi_index_new : NMMultiIndex Nat) 0 7).2 0 7 (by decide)
  ⟨by decide, by decide, by decide, ((h.2.2 (by decide)).2.1 (by decide)).1,
    ((h.2.2 (by decide)).2.1 (by decide)).2⟩

/-- C22 as stated does not hold: `nm_multi_index_move` with equal keys calls `_do_add`; on
the new index, for the member 7 that is not in the group of key 0, it returns false and
leaves the member added to the group; and for the full group of `demo_full_index` it returns
true although the member `G_MAXINT - 1` is not a member of the group. -/
theorem nm_multi_index_move_equal_keys_adds :
    nm_multi_index_contains (nm_multi_index_new : NMMultiIndex Nat) 0 7 = false ∧
    (nm_multi_index_move (nm_multi_index_new : NMMultiIndex Nat) (some 0) (some 0) 7).1
      = false ∧
    nm_multi_index_contains
      (nm_multi_index_move (nm_multi_index_new : NMMultiIndex Nat) (some 0) (some 0) 7).2 0 7
      = true ∧
    nm_multi_index_get_num_groups
      (nm_multi_index_move (nm_multi_index_new : NMMultiIndex Nat) (some 0) (some 0) 7).2 = 1 ∧
    nm_multi_index_get_num_groups (nm_multi_index_new : NMMultiIndex Nat) = 0 ∧
    nm_multi_index_wf demo_full_index ∧
    2147483646 ∉ nm_multi_index_members demo_full_index 0 ∧
    nm_multi_index_move demo_full_index (some 0) (some 0) 2147483646
      = (true, demo_full_index) :=
  ⟨by decide, by decide, by decide, by decide, by decide, demo_full_index_wf,
    demo_full_index_add.1, demo_full_index_move_equal⟩

/-- C22 (`nm_multi_index_move` with equal keys, as amended): for every well-formed index,
every key `A` (the two keys being equal under the key equality) and every non-null member
`m`, `nm_multi_index_move (A, A, m)` returns true if and only if `m` is a member of the group
of `A` or that group holds `G_MAXINT - 2` members or more; when it returns true the index is
unchanged; when it returns false the member has been added to the group of `A` and nothing
else has changed. -/
theorem nm_multi_index_move_equal_keys {Id : Type} [DecidableEq Id]
    (index : NMMultiIndex Id) (A : Id) (m : Nat)
    (hwf : nm_multi_index_wf index) (hm : m ≠ 0) :
    ((nm_multi_index_move index (some A) (some A) m).1 = true ↔
      (m ∈ nm_multi_index_members index A ∨
        ¬ ((nm_multi_index_members index A).length : Int) + 2 < G_MAXINT)) ∧
    ((nm_multi_index_move index (some A) (some A) m).1 = true →
      (nm_multi_index_move index (some A) (some A) m).2 = index) ∧
    ((nm_multi_index_move index (some A) (some A) m).1 = false →
      ∀ g x, x ∈ nm_multi_index_members (nm_multi_index_move index (some A) (some A) m).2 g ↔
        (x ∈ nm_multi_index_members index g ∨ (g = A ∧ x = m))) := by
  rw [nm_multi_index_move_equal index A m hm]
  obtain ⟨c1, c2⟩ := nm_multi_index_add_cases hwf A m hm
  have e : nm_multi_index_add index A m = _do_add index A m := by
    simp [nm_multi_index_add, hm]
  rw [e] at c1 c2
  by_cases h : m ∈ nm_multi_index_members index A ∨
      ¬ ((nm_multi_index_members index A).length : Int) + 2 < G_MAXINT
  · rw [c1 h]
    exact ⟨⟨fun _ => h, fun _ => rfl⟩, fun _ => rfl, fun hf => absurd hf (by simp)⟩
  · have h' := h
    simp only [not_or, not_not] at h'
    obtain ⟨r, -, mem⟩ := c2 h'.1 h'.2
    refine ⟨?_, ?_, ?_⟩
    · simp only [r, Bool.not_true]
      exact ⟨fun hf => absurd hf (by simp), fun hh => absurd hh h⟩
    · simp only [r, Bool.not_true]
      exact fun hf => absurd hf (by simp)
    · intro _
      exact mem

/-- Witness of C22 as amended: the member 7 and the key 0 of the new index. -/
theorem nm_multi_index_move_equal_keys_witness :
    nm_multi_index_wf (nm_multi_index_new : NMMultiIndex Nat) ∧ (7 : Nat) ≠ 0 ∧
    (((nm_multi_index_move (nm_multi_index_new : NMMultiIndex Nat) (some 0) (some 0) 7).1
        = true ↔
      (7 ∈ nm_multi_index_members (nm_multi_index_new : NMMultiIndex Nat) 0 ∨
        ¬ ((nm_multi_index_members (nm_multi_index_new : NMMultiIndex Nat) 0).length : Int) + 2
          < G_MAXINT)) ∧
    ((nm_multi_index_move (nm_multi_index_new : NMMultiIndex Nat) (some 0) (some 0) 7).1
        = true →
      (nm_multi_index_move (nm_multi_index_new : NMMultiIndex Nat) (some 0) (some 0) 7).2
        = nm_multi_index_new) ∧
    ((nm_multi_index_move (nm_multi_index_new : NMMultiIndex Nat) (some 0) (some 0) 7).1
        = false →
      ∀ g x, x ∈ nm_multi_index_members
          (nm_multi_index_move (nm_multi_index_new : NMMultiIndex Nat) (some 0) (some 0) 7).2 g ↔
        (x ∈ nm_multi_index_members (nm_multi_index_new : NMMultiIndex Nat) g ∨
          (g = 0 ∧ x = 7)))) :=
  ⟨by decide, by decide,
    nm_multi_index_move_equal_keys (nm_multi_index_new : NMMultiIndex Nat) 0 7
      (by decide) (by decide)⟩

/-- C23 as stated does not hold: with both keys omitted `nm_multi_index_move` returns false
for the `NULL` member; and with the two unequal keys 1 and 0 of `demo_full_index2` it returns
false although the member `G_MAXINT - 1` was a member of the old group and not a member of
the new group, because the new group is full. -/
theorem nm_multi_index_move_false_clean :
    (nm_multi_index_move (nm_multi_index_new : NMMultiIndex Nat) none none 0).1 = false ∧
    nm_multi_index_wf demo_full_index2 ∧
    2147483646 ∈ nm_multi_index_members demo_full_index2 1 ∧
    2147483646 ∉ nm_multi_index_members demo_full_index2 0 ∧
    (nm_multi_index_members demo_full_index2 0).length = 2147483645 ∧
    (nm_multi_index_move demo_full_index2 (some 1) (some 0) 2147483646).1 = false := by
  refine ⟨by decide, demo_full_index2_wf, ?_, ?_, ?_, ?_⟩
  · rw [demo_full_index2_members1]
    exact List.mem_singleton.mpr rfl
  · rw [demo_full_index2_members0, demo_full_members_mem]
    omega
  · rw [demo_full_index2_members0, demo_full_members_length]
  · rw [demo_full_index2_move]

/-- C23 (return value of `nm_multi_index_move`, as amended): on a well-formed index, for the
`NULL` member `nm_multi_index_move` returns false and changes nothing; for a non-null member
with both keys omitted it returns true and changes nothing; with only the new key it behaves
exactly as `nm_multi_index_add (new, m)`; with only the old key it behaves exactly as
`nm_multi_index_remove (old, m)`; with two unequal keys and a non-null member it returns true
if and only if, before the call, `m` was a member of the old group and not a member of the
new group and the new group held fewer than `G_MAXINT - 2` members. -/
theorem nm_multi_index_move_result {Id : Type} [DecidableEq Id]
    (index : NMMultiIndex Id) (A B : Id) (m : Nat) (hwf : nm_multi_index_wf index) :
    (∀ a b : Option Id, nm_multi_index_move index a b 0 = (false, index)) ∧
    (m ≠ 0 → nm_multi_index_move index none none m = (true, index)) ∧
    nm_multi_index_move index none (some B) m = nm_multi_index_add index B m ∧
    nm_multi_index_move index (some A) none m = nm_multi_index_remove index A m ∧
    (m ≠ 0 → A ≠ B →
      ((nm_multi_index_move index (some A) (some B) m).1 = true ↔
        (m ∈ nm_multi_index_members index A ∧ m ∉ nm_multi_index_members index B ∧
          ((nm_multi_index_members index B).length : Int) + 2 < G_MAXINT))) := by
  refine ⟨nm_multi_index_move_null index, ?_, ?_, ?_, ?_⟩
  · intro hm
    simp [nm_multi_index_move, hm]
  · by_cases hm : m = 0
    · simp [nm_multi_index_move, nm_multi_index_add, hm]
    · simp [nm_multi_index_move, nm_multi_index_add, hm]
  · by_cases hm : m = 0
    · simp [nm_multi_index_move, nm_multi_index_remove, hm]
    · simp [nm_multi_index_move, nm_multi_index_remove, hm]
  · intro hm hAB
    rw [nm_multi_index_move_unequal index A B m hm hAB]
    simp only [Bool.and_eq_true]
    have w1 := _do_remove_wf hwf A m
    have hB : nm_multi_index_members (_do_remove index A m).2 B =
        nm_multi_index_members index B :=
      _do_remove_members_other hwf.1 A B m (Ne.symm hAB)
    obtain ⟨s1, s2⟩ := _do_remove_spec hwf A m
    have hrem : (_do_remove index A m).1 = true ↔ m ∈ nm_multi_index_members index A := by
      by_cases h : m ∈ nm_multi_index_members index A
      · exact ⟨fun _ => h, fun _ => (s2 h).1⟩
      · rw [s1 h]
        exact ⟨fun hf => absurd hf (by simp), fun hh => absurd hh h⟩
    obtain ⟨a1, a2⟩ := _do_add_spec w1 B m hm
    have hadd : (_do_add (_do_remove index A m).2 B m).1 = true ↔
        (m ∉ nm_multi_index_members index B ∧
          ((nm_multi_index_members index B).length : Int) + 2 < G_MAXINT) := by
      rw [← hB]
      by_cases h1 : m ∈ nm_multi_index_members (_do_remove index A m).2 B
      · rw [a1 h1]
        exact ⟨fun hf => absurd hf (by simp), fun hh => absurd h1 hh.1⟩
      · by_cases h2 : ((nm_multi_index_members (_do_remove index A m).2 B).length : Int) + 2
            < G_MAXINT
        · exact ⟨fun _ => ⟨h1, h2⟩, fun _ => (a2 h1 h2).1⟩
        · rw [_do_add_full w1 B m h2]
          exact ⟨fun hf => absurd hf (by simp), fun hh => absurd hh.2 h2⟩
    rw [hrem, hadd]
    exact ⟨fun h => ⟨h.2, h.1.1, h.1.2⟩, fun h => ⟨⟨h.2.1, h.2.2⟩, h.1⟩⟩

/-- Witness of C23 as amended: the member 7 moved from the key 0 to the key 1. -/
theorem nm_multi_index_move_result_witness :
    nm_multi_index_wf (nm_multi_index_add (nm_multi_index_new : NMMultiIndex Nat) 0 7).2 ∧
    (nm_multi_index_move (nm_multi_index_add (nm_multi_index_new : NMMultiIndex Nat) 0 7).2
      (some 0) (some 1) 7).1 = true ∧
    ((7 : Nat) ≠ 0 → (0 : Nat) ≠ 1 →
      ((nm_multi_index_move (nm_multi_index_add (nm_multi_index_new : NMMultiIndex Nat) 0 7).2
          (some 0) (some 1) 7).1 = true ↔
        (7 ∈ nm_multi_index_members
            (nm_multi_index_add (nm_multi_index_new : NMMultiIndex Nat) 0 7).2 0 ∧
          7 ∉ nm_multi_index_members
            (nm_multi_index_add (nm_multi_index_new : NMMultiIndex Nat) 0 7).2 1 ∧
          ((nm_multi_index_members
            (nm_multi_index_add (nm_multi_index_new : NMMultiIndex Nat) 0 7).2 1).length : Int)
              + 2 < G_MAXINT))) :=
  ⟨by decide, by decide,
    (nm_multi_index_move_result
      (nm_multi_index_add (nm_multi_index_new : NMMultiIndex Nat) 0 7).2 0 1 7
      (by decide)).2.2.2.2⟩

/-- C24 (sorted, deduplicated, non-empty groups): in every index state reached from a new
index by calls of `nm_multi_index_add`, `nm_multi_index_remove` and `nm_multi_index_move`,
whenever `nm_multi_index_lookup` returns an array for a key, the array consists of the
members followed by the terminating `NULL`, the reported length is the number of members,
there is at least one member, the members are strictly ascending (hence free of duplicates)
and none of them is `NULL`; no group of the table has zero members. -/
theorem nm_multi_index_groups_sorted {Id : Type} [DecidableEq Id] (index : NMMultiIndex Id)
    (h : NMMultiIndexReachable index) :
    (∀ (g : Id) (array : List Nat) (len : Nat),
      nm_multi_index_lookup index g = (some array, len) →
      array = array.take len ++ [0] ∧ len = (array.take len).length ∧ 1 ≤ len ∧
      (array.take len).Pairwise (fun a b => a < b) ∧ (array.take len).Nodup ∧
      ∀ m ∈ array.take len, m ≠ 0) ∧
    (∀ e ∈ index.hash, 2 ≤ e.2.length ∧ e.2.getD 0 0 ≠ 0) := by
  have hwf := nm_multi_index_wf_of_index_reachable h
  constructor
  · intro g array len hl
    unfold nm_multi_index_lookup at hl
    cases hg : g_hash_table_lookup index.hash g with
    | none => simp [hg] at hl
    | some a =>
      simp only [hg, Prod.mk.injEq, Option.some.injEq] at hl
      obtain ⟨rfl, rfl⟩ := hl
      obtain ⟨ms, rfl, hne, hs, hnn⟩ := nm_multi_index_wf_lookup hwf hg
      have ht : (ms ++ [0]).take ((ms ++ [0]).length - 1) = ms := by simp
      rw [ht]
      refine ⟨rfl, by simp, ?_, hs, sorted_nodup hs, hnn⟩
      have : 0 < ms.length := List.length_pos.mpr hne
      simp only [List.length_append, List.length_singleton]
      omega
  · intro e he
    obtain ⟨h1, h2, -, h4⟩ := hwf.2 e he
    have hd := GPtrArrayWF_eq (hwf.2 e he)
    generalize e.2.dropLast = ms at hd h2 h4
    rw [hd]
    cases ms with
    | nil => exact absurd rfl h2
    | cons a rest =>
      refine ⟨by simp, ?_⟩
      simp only [List.cons_append, List.getD_cons_zero]
      exact h4 a (by simp)

/-- Witness of C24: the index after the member 7 is added under the key 0, moved to the key 1
and the member 9 is added under the key 1. -/
theorem nm_multi_index_groups_sorted_witness :
    NMMultiIndexReachable
      (nm_multi_index_add (nm_multi_index_move
        (nm_multi_index_add (nm_multi_index_new : NMMultiIndex Nat) 0 7).2
        (some 0) (some 1) 7).2 1 9).2 ∧
    nm_multi_index_lookup
      (nm_multi_index_add (nm_multi_index_move
        (nm_multi_index_add (nm_multi_index_new : NMMultiIndex Nat) 0 7).2
        (some 0) (some 1) 7).2 1 9).2 1 = (some [7, 9, 0], 2) ∧
    ((∀ (g : Nat) (array : List Nat) (len : Nat),
      nm_multi_index_lookup
        (nm_multi_index_add (nm_multi_index_move
          (nm_multi_index_add (nm_multi_index_new : NMMultiIndex Nat) 0 7).2
          (some 0) (some 1) 7).2 1 9).2 g = (some array, len) →
      array = array.take len ++ [0] ∧ len = (array.take len).length ∧ 1 ≤ len ∧
      (array.take len).Pairwise (fun a b => a < b) ∧ (array.take len).Nodup ∧
      ∀ m ∈ array.take len, m ≠ 0) ∧
    (∀ e ∈ (nm_multi_index_add (nm_multi_index_move
          (nm_multi_index_add (nm_multi_index_new : NMMultiIndex Nat) 0 7).2
          (some 0) (some 1) 7).2 1 9).2.hash, 2 ≤ e.2.length ∧ e.2.getD 0 0 ≠ 0)) :=
  have hr : NMMultiIndexReachable
      (nm_multi_index_add (nm_multi_index_move
        (nm_multi_index_add (nm_multi_index_new : NMMultiIndex Nat) 0 7).2
        (some 0) (some 1) 7).2 1 9).2 :=
    NMMultiIndexReachable.add _ 1 9
      (NMMultiIndexReachable.move _ (some 0) (some 1) 7
        (NMMultiIndexReachable.add _ 0 7 NMMultiIndexReachable.new))
  ⟨hr, by decide, nm_multi_index_groups_sorted _ hr⟩

/-- C25 (`nm_multi_index_foreach` and `nm_multi_index_lookup_first_by_value`): on a
well-formed index `nm_multi_index_foreach` visits, in table order and until the visitor
returns false, exactly the groups that contain the member `m` when a member filter is given
and every group when there is none (`m` is `NULL`); a group passes the filter exactly when
`nm_multi_index_contains` holds for its key and `m`.
`nm_multi_index_lookup_first_by_value (m)` returns a group that contains `m` when some group
does, and none otherwise. -/
theorem nm_multi_index_foreach_visits {Id : Type} [DecidableEq Id] (index : NMMultiIndex Id)
    (m : Nat) (hwf : nm_multi_index_wf index) :
    (∀ (σ : Type) (visitor : Id → List Nat → Nat → σ → Bool × σ) (u : σ),
      nm_multi_index_foreach index m visitor u =
        visit_groups visitor
          (index.hash.filter (fun e => decide (m = 0 ∨ 0 ≤ _binary_search e.2 m))) u) ∧
    (∀ e ∈ index.hash, m ≠ 0 →
      (0 ≤ _binary_search e.2 m ↔ nm_multi_index_contains index e.1 m = true)) ∧
    (∀ (σ : Type) (visitor : Id → List Nat → Nat → σ → Bool × σ) (u : σ) (id : Id)
      (array : List Nat) (rest : List (Id × List Nat)),
      (visitor id array (array.length - 1) u).1 = false →
      visit_groups visitor ((id, array) :: rest) u
        = (visitor id array (array.length - 1) u).2) ∧
    (∀ g, nm_multi_index_lookup_first_by_value index m = some g →
      nm_multi_index_contains index g m = true) ∧
    (nm_multi_index_lookup_first_by_value index m = none ↔
      ∀ g, nm_multi_index_contains index g m = false) := by
  refine ⟨?_, ?_, ?_, ?_, ?_⟩
  · intro σ visitor u
    exact visit_groups_foreach_loop m visitor index.hash u
  · intro e he hm
    have hl := g_hash_table_lookup_of_mem index.hash e.1 e.2 hwf.1 he
    unfold nm_multi_index_contains
    simp [hm, hl]
  · intro σ visitor u id array rest hf
    simp [visit_groups, hf]
  · intro g hg
    exact nm_multi_index_lookup_first_by_value_some hwf hg
  · constructor
    · intro hn g
      rw [Bool.eq_false_iff]
      intro hc
      exact nm_multi_index_lookup_first_by_value_none hwf hn g
        ((nm_multi_index_contains_iff hwf g m).mp hc).2
    · intro hall
      apply nm_multi_index_lookup_first_by_value_eq_none hwf
      intro g hg
      by_cases hm : m = 0
      · subst hm
        cases hl : g_hash_table_lookup index.hash g with
        | none => rw [nm_multi_index_members_of_lookup_none hl] at hg; simp at hg
        | some array =>
          obtain ⟨ms, rfl, -, -, hnn⟩ := nm_multi_index_wf_lookup hwf hl
          rw [nm_multi_index_members_of_lookup hl] at hg
          exact hnn 0 hg rfl
      · have := (nm_multi_index_contains_iff hwf g m).mpr ⟨hm, hg⟩
        rw [hall g] at this
        exact absurd this (by simp)

/-- Witness of C25: the index with the member 7 under the key 0 and the member 9 under the
key 1, visited with the member filter 7 by a visitor that counts its calls. -/
theorem nm_multi_index_foreach_visits_witness :
    nm_multi_index_wf
      (nm_multi_index_add (nm_multi_index_add (nm_multi_index_new : NMMultiIndex Nat) 0 7).2
        1 9).2 ∧
    nm_multi_index_foreach
      (nm_multi_index_add (nm_multi_index_add (nm_multi_index_new : NMMultiIndex Nat) 0 7).2
        1 9).2 7 (fun _ _ _ n => (true, n + 1)) 0 =
      visit_groups (fun _ _ _ n => (true, n + 1))
        ((nm_multi_index_add (nm_multi_index_add (nm_multi_index_new : NMMultiIndex Nat) 0 7).2
          1 9).2.hash.filter (fun e => decide (7 = 0 ∨ 0 ≤ _binary_search e.2 7))) 0 ∧
    nm_multi_index_foreach
      (nm_multi_index_add (nm_multi_index_add (nm_multi_index_new : NMMultiIndex Nat) 0 7).2
        1 9).2 7 (fun _ _ _ n => (true, n + 1)) 0 = 1 ∧
    nm_multi_index_foreach
      (nm_multi_index_add (nm_multi_index_add (nm_multi_index_new : NMMultiIndex Nat) 0 7).2
        1 9).2 0 (fun _ _ _ n => (true, n + 1)) 0 = 2 ∧
    nm_multi_index_lookup_first_by_value
      (nm_multi_index_add (nm_multi_index_add (nm_multi_index_new : NMMultiIndex Nat) 0 7).2
        1 9).2 7 = some 0 :=
  ⟨by decide,
   (nm_multi_index_foreach_visits
      (nm_multi_index_add (nm_multi_index_add (nm_multi_index_new : NMMultiIndex Nat) 0 7).2
        1 9).2 7 (by decide)).1 Nat (fun _ _ _ n => (true, n + 1)) 0,
   by decide, by decide, by decide⟩

/-- A counterexample to C26 as stated: the identity hash of the IPv4 route with interface
index 0, prefix length 0, network 0 and metric 1 is not the combination of the interface
index, the prefix length, the network and the metric in this order. -/
theorem cmd_plobj_id_hash_route_order :
    cmd_plobj_id_hash (._ip4_route ⟨0, NM_IP_CONFIG_SOURCE_UNKNOWN, 0, 0, 1, 0⟩)
      ≠ spec_route_id_hash 2569857221 0 0 0 1 := by
  decide

/-- C26 (field order of the identity hash), amended: the identity hash of a route combines,
in this order, the interface index, the prefix length, the metric and then the network, and
the identity hash of an address combines the interface index, the prefix length and then the
address: starting from the seed of the kind plus the interface index, each step multiplies
the running 32-bit hash by 33 and adds the term modulo 2^32.  The term of an IPv4 address or
network is its 32-bit value, the term of an IPv6 address or network is its
`_id_hash_ip6_addr`. -/
theorem cmd_plobj_id_hash_field_order :
    (∀ r : NMPlatformIP4Route, cmd_plobj_id_hash (._ip4_route r) =
      id_hash_step (id_hash_step (id_hash_step
        ((2569857221 + guint_of_int r.ifindex) % 4294967296) (guint_of_int r.plen))
        (r.metric % 4294967296)) (r.network % 4294967296)) ∧
    (∀ r : NMPlatformIP6Route, cmd_plobj_id_hash (._ip6_route r) =
      id_hash_step (id_hash_step (id_hash_step
        ((3999787007 + guint_of_int r.ifindex) % 4294967296) (guint_of_int r.plen))
        (r.metric % 4294967296)) (_id_hash_ip6_addr r.network)) ∧
    (∀ a : NMPlatformIP4Address, cmd_plobj_id_hash (._ip4_address a) =
      id_hash_step (id_hash_step
        ((3591309853 + guint_of_int a.ifindex) % 4294967296) (guint_of_int a.plen))
        (a.address % 4294967296)) ∧
    (∀ a : NMPlatformIP6Address, cmd_plobj_id_hash (._ip6_address a) =
      id_hash_step (id_hash_step
        ((2907861637 + guint_of_int a.ifindex) % 4294967296) (guint_of_int a.plen))
        (_id_hash_ip6_addr a.address)) :=
  ⟨fun _ => rfl, fun _ => rfl, fun _ => rfl, fun _ => rfl⟩

/-- C27 (hash/equality consistency of the primary index key): when the object at the address
`p` is replaced by an object of the same kind with the same identity fields (any other field
changed, the object valid as before), `nmp_object_id_hash` and `nmp_object_id_equal` return
what they returned before, for all arguments; and for every two valid objects `a` and `b`,
`nmp_object_id_equal (a, b)` implies that the two have the same `nmp_object_id_hash`. -/
theorem nmp_object_id_hash_equal_consistent (heap : Heap) (p : Nat) (o o' : NMPObject)
    (ho : heap p = some o) (hid : same_identity_fields o.data o'.data)
    (hv : 0 < o'._ref_count ↔ 0 < o._ref_count) :
    (∀ a, nmp_object_id_hash (Function.update heap p (some o')) a = nmp_object_id_hash heap a) ∧
    (∀ a b, nmp_object_id_equal (Function.update heap p (some o')) a b
      = nmp_object_id_equal heap a b) ∧
    (∀ a b, NMP_OBJECT_IS_VALID heap a = true → NMP_OBJECT_IS_VALID heap b = true →
      nmp_object_id_equal heap a b = true →
      nmp_object_id_hash heap a = nmp_object_id_hash heap b) := by
  have hk : ∀ q, ptr_key (Function.update heap p (some o')) q = ptr_key heap q := by
    intro q
    by_cases hq : q = p
    · subst hq
      have e := (same_identity_fields_iff _ _).mp hid
      by_cases h0 : 0 < o._ref_count
      · simp [ptr_key, ho, h0, hv.mpr h0, e]
      · have h1 : ¬ 0 < o'._ref_count := fun h => h0 (hv.mp h)
        simp [ptr_key, ho, h0, h1]
    · exact ptr_key_update_ne _ _ _ _ hq
  refine ⟨fun a => nmp_object_id_hash_congr (hk a),
    fun a b => nmp_object_id_equal_congr _ _ a b (hk a) (hk b), ?_⟩
  intro a b hva hvb he
  by_cases e : a = b
  · rw [e]
  · obtain ⟨a0, -⟩ := heap_some_of_valid hva
    obtain ⟨b0, -⟩ := heap_some_of_valid hvb
    have k := (nmp_object_id_equal_iff heap a b a0 b0 e).mp he
    rw [nmp_object_id_hash_eq, nmp_object_id_hash_eq, k.1]
    simp [a0, b0]

/-- Witness of C27: the link at address 100 of `demo_heap_refs`, replaced by a link with the
same interface index whose other fields all differ. -/
theorem nmp_object_id_hash_equal_consistent_witness :
    demo_heap_refs 100 = some ⟨2147483646, false, ._link ⟨⟨5, 0⟩, ⟨1, 0, 0, 0, 0⟩, ⟨0⟩⟩⟩ ∧
    nmp_object_id_hash (Function.update demo_heap_refs 100 (some demo_link_changed)) 100
      = nmp_object_id_hash demo_heap_refs 100 :=
  ⟨by decide,
   (nmp_object_id_hash_equal_consistent demo_heap_refs 100
      ⟨2147483646, false, ._link ⟨⟨5, 0⟩, ⟨1, 0, 0, 0, 0⟩, ⟨0⟩⟩⟩ demo_link_changed
      (by decide) (by decide) (by decide)).1 100⟩

/-- C28 (identity definition): for two valid objects `nmp_object_id_equal` holds exactly when
they have the same kind and equal identity fields (link: interface index; address: interface
index, prefix length and address; route: interface index, prefix length, metric and
network).  `nmp_object_id_equal` is reflexive, symmetric and transitive, two objects of
different kinds never compare equal, two `NULL` pointers compare equal, and `NULL` and a
pointer that is not `NULL` do not. -/
theorem nmp_object_id_equal_identity (heap : Heap) :
    (∀ (a b : Nat) (x y : NMPObject), heap a = some x → heap b = some y →
      NMP_OBJECT_IS_VALID heap a = true → NMP_OBJECT_IS_VALID heap b = true →
      (nmp_object_id_equal heap a b = true ↔ same_identity_fields x.data y.data)) ∧
    (∀ a, nmp_object_id_equal heap a a = true) ∧
    (∀ a b, nmp_object_id_equal heap a b = nmp_object_id_equal heap b a) ∧
    (∀ a b c, nmp_object_id_equal heap a b = true → nmp_object_id_equal heap b c = true →
      nmp_object_id_equal heap a c = true) ∧
    (∀ (a b : Nat) (x y : NMPObject), heap a = some x → heap b = some y →
      NMP_OBJECT_GET_CLASS x ≠ NMP_OBJECT_GET_CLASS y →
      nmp_object_id_equal heap a b = false) ∧
    nmp_object_id_equal heap 0 0 = true ∧
    (∀ a, a ≠ 0 → nmp_object_id_equal heap a 0 = false ∧
      nmp_object_id_equal heap 0 a = false) := by
  refine ⟨?_, ?_, ?_, ?_, ?_, ?_, ?_⟩
  · intro a b x y ha hb hva hvb
    exact nmp_object_id_equal_valid ha hb hva hvb
  · intro a
    simp [nmp_object_id_equal]
  · intro a b
    exact nmp_object_id_equal_comm heap a b
  · intro a b c hab hbc
    exact nmp_object_id_equal_trans_general hab hbc
  · intro a b x y ha hb hc
    have e : a ≠ b := by
      intro e
      subst e
      rw [ha] at hb
      simp only [Option.some.injEq] at hb
      subst hb
      exact hc rfl
    unfold nmp_object_id_equal
    simp only [e, if_false, ha, hb]
    split_ifs
    · rfl
    · simp [nmp_object_id_equal_value, hc]
  · simp [nmp_object_id_equal]
  · intro a ha
    have h1 : ¬ (0 = a) := fun e => ha e.symm
    simp [nmp_object_id_equal, ha, h1]

/-- C29 (ephemeral lookup probe): for a valid object `src` of any of the five kinds and a
probe at another address, `nmp_object_stackinit_id (probe, src)` writes to the probe an
object of the kind of `src` that carries the reference count `NMP_REF_COUNT_INITSTACK`, is
not marked cached, has the identity fields of `src` and every other field zero; no other
object changes; the probe is `nmp_object_id_equal` to `src` and has the `nmp_object_id_hash`
of `src`; `nmp_cache_lookup_obj` with the probe returns what it returns with `src`.  In a
cache with a well-formed primary index, `nmp_cache_lookup_link (ifindex)` returns the cached
link with that interface index if there is one, and `NULL` if there is none. -/
theorem nmp_object_stackinit_id_probe (s : Store) (probe src needle : Nat) (o : NMPObject)
    (ifindex : Int) (hp : probe ≠ 0) (hps : probe ≠ src) (ho : s.heap src = some o)
    (hv : NMP_OBJECT_IS_VALID s.heap src = true) (hwf : nmp_cache_main_wf s)
    (hn : needle ≠ 0) (hnc : needle ∉ s.cache.idx_main) :
    (∃ o', nmp_object_stackinit_id s.heap probe src probe = some o' ∧
      NMP_OBJECT_GET_CLASS o' = NMP_OBJECT_GET_CLASS o ∧
      o'._ref_count = NMP_REF_COUNT_INITSTACK ∧ o'.is_cached = false ∧
      same_identity_fields o'.data o.data ∧
      o'.data =
        match o.data with
        | ._link l => ._link ⟨⟨l._public.ifindex, 0⟩, ⟨0, 0, 0, 0, 0⟩, ⟨0⟩⟩
        | ._ip4_address a =>
          ._ip4_address ⟨a.ifindex, NM_IP_CONFIG_SOURCE_UNKNOWN, a.address, a.plen, 0⟩
        | ._ip6_address a =>
          ._ip6_address ⟨a.ifindex, NM_IP_CONFIG_SOURCE_UNKNOWN, a.address, a.plen, 0⟩
        | ._ip4_route r =>
          ._ip4_route ⟨r.ifindex, NM_IP_CONFIG_SOURCE_UNKNOWN, r.network, r.plen, r.metric, 0⟩
        | ._ip6_route r =>
          ._ip6_route ⟨r.ifindex, NM_IP_CONFIG_SOURCE_UNKNOWN, r.network, r.plen, r.metric, 0⟩) ∧
    (∀ q, q ≠ probe → nmp_object_stackinit_id s.heap probe src q = s.heap q) ∧
    nmp_object_id_equal (nmp_object_stackinit_id s.heap probe src) probe src = true ∧
    nmp_object_id_hash (nmp_object_stackinit_id s.heap probe src) probe
      = nmp_object_id_hash (nmp_object_stackinit_id s.heap probe src) src ∧
    nmp_object_id_hash (nmp_object_stackinit_id s.heap probe src) src
      = nmp_object_id_hash s.heap src ∧
    nmp_cache_lookup_obj { s with heap := nmp_object_stackinit_id s.heap probe src } probe
      = nmp_cache_lookup_obj { s with heap := nmp_object_stackinit_id s.heap probe src } src ∧
    (probe ∉ s.cache.idx_main →
      nmp_cache_lookup_obj { s with heap := nmp_object_stackinit_id s.heap probe src } probe
        = nmp_cache_lookup_obj s src) ∧
    (∀ p ∈ s.cache.idx_main, ∀ l, data_at s.heap p = some (._link l) →
      l._public.ifindex = ifindex → nmp_cache_lookup_link s needle ifindex = p) ∧
    ((∀ p ∈ s.cache.idx_main, ∀ l, data_at s.heap p = some (._link l) →
      l._public.ifindex ≠ ifindex) → nmp_cache_lookup_link s needle ifindex = 0) := by
  have hh := nmp_object_stackinit_id_heap hp hps ho
  have hsp : src ≠ probe := fun e => hps e.symm
  obtain ⟨hs0, -⟩ := heap_some_of_valid hv
  have k1 : ptr_key (nmp_object_stackinit_id s.heap probe src) probe
      = some (object_identity o.data) := by
    rw [hh]; exact ptr_key_stackinit _ _ _
  have k2 : ptr_key (nmp_object_stackinit_id s.heap probe src) src = ptr_key s.heap src := by
    rw [hh]; exact ptr_key_update_ne _ _ _ _ hsp
  have k3 : ptr_key s.heap src = some (object_identity o.data) := ptr_key_of_valid ho hv
  have heq : nmp_object_id_equal (nmp_object_stackinit_id s.heap probe src) probe src = true := by
    rw [nmp_object_id_equal_iff _ probe src hp hs0 hps, k1, k2, k3]
    simp
  have hl : nmp_cache_lookup_obj { s with heap := nmp_object_stackinit_id s.heap probe src } probe
      = nmp_cache_lookup_obj { s with heap := nmp_object_stackinit_id s.heap probe src } src := by
    unfold nmp_cache_lookup_obj
    simp only [hp, hs0, if_false]
    exact g_hash_table_lookup_main_of_id_equal _ heq
  refine ⟨?_, ?_, heq, ?_, nmp_object_id_hash_congr k2, hl, ?_, ?_, ?_⟩
  · refine ⟨⟨NMP_REF_COUNT_INITSTACK, false, object_identity o.data⟩, ?_, ?_, rfl, rfl, ?_, ?_⟩
    · rw [hh]; exact Function.update_same _ _ _
    · cases hd : o.data <;> simp [NMP_OBJECT_GET_CLASS, hd] <;> rfl
    · rw [same_identity_fields_iff]
      exact object_identity_idem _
    · cases hd : o.data <;> rfl
  · intro q hq
    rw [hh]
    exact Function.update_noteq hq _ _
  · rw [nmp_object_id_hash_eq, nmp_object_id_hash_eq, k1, k2, k3]
    simp [hp, hs0]
  · intro hpc
    rw [hl]
    unfold nmp_cache_lookup_obj
    simp only [hs0, if_false]
    apply g_hash_table_lookup_main_congr
    · intro k hk
      have hkp : k ≠ probe := fun e => hpc (e ▸ hk)
      rw [hh]
      exact ptr_key_update_ne _ _ _ _ hkp
    · exact k2
  · intro p hpm l hd hi
    exact nmp_cache_lookup_link_found hwf hn hnc ifindex hpm hd hi
  · intro hno
    exact nmp_cache_lookup_link_absent hwf hn hnc ifindex hno

/-- Witness of C29: in the cache that holds the link with interface index 5 at address 100,
a probe at address 500 is initialised from the candidate at address 300, and the link with
interface index 5 is looked up with a needle at address 600. -/
theorem nmp_object_stackinit_id_probe_witness :
    nmp_cache_main_wf demo_result3.store ∧
    NMP_OBJECT_IS_VALID demo_result3.store.heap 300 = true ∧
    600 ∉ demo_result3.store.cache.idx_main ∧
    nmp_object_id_equal (nmp_object_stackinit_id demo_result3.store.heap 500 300) 500 300 = true ∧
    nmp_cache_lookup_link demo_result3.store 600 5 = 100 :=
  ⟨by decide, by decide, by decide,
   (nmp_object_stackinit_id_probe demo_result3.store 500 300 600 demo_link_netlink 5
      (by decide) (by decide) (by decide) (by decide) (by decide) (by decide) (by decide)).2.2.1,
   (nmp_object_stackinit_id_probe demo_result3.store 500 300 600 demo_link_netlink 5
      (by decide) (by decide) (by decide) (by decide) (by decide) (by decide)
      (by decide)).2.2.2.2.2.2.2.1 100 (by decide) ⟨⟨5, 0⟩, ⟨1, 0, 0, 0, 0⟩, ⟨0⟩⟩ (by decide) rfl⟩

/-- A counterexample to C30 as stated: the object at address 100 of `demo_heap_refs` is a
valid heap object with `G_MAXINT - 1` references; `nmp_object_get` returns it with the count
`NMP_REF_COUNT_INITSTACK`, the following `nmp_object_put` is rejected, and the count is not
the one before the two calls. -/
theorem nmp_object_get_put_not_restored :
    NMP_OBJECT_IS_VALID demo_heap_refs 100 = true ∧
    NMP_OBJECT_IS_STACKINIT demo_heap_refs 100 = false ∧
    (nmp_object_get demo_heap_refs 100).1 = 100 ∧
    ref_count_at (nmp_object_get demo_heap_refs 100).2 100 = 2147483647 ∧
    ref_count_at (nmp_object_put (nmp_object_get demo_heap_refs 100).2 100) 100 = 2147483647 ∧
    ref_count_at (nmp_object_put (nmp_object_get demo_heap_refs 100).2 100) 100
      ≠ ref_count_at demo_heap_refs 100 := by
  decide

/-- C30 (reference counting), amended: for every valid heap object (one whose count is not
`NMP_REF_COUNT_INITSTACK`), `nmp_object_get` returns the same object with its reference count
increased by exactly one, and `nmp_object_put` decreases the count by exactly one, disposing
of the object exactly when the count was one; `nmp_object_get` followed by `nmp_object_put`
restores the heap whenever the increased count is not `NMP_REF_COUNT_INITSTACK`.  For every
object with the count `NMP_REF_COUNT_INITSTACK` both operations are rejected:
`nmp_object_get` returns `NULL` and `nmp_object_put` does nothing, the heap being left
unchanged. -/
theorem nmp_object_get_put_counts (heap : Heap) (p : Nat) (o : NMPObject) (hp : p ≠ 0)
    (ho : heap p = some o) (hv : 0 < o._ref_count) :
    (o._ref_count ≠ NMP_REF_COUNT_INITSTACK →
      nmp_object_get heap p =
        (p, Function.update heap p (some { o with _ref_count := o._ref_count + 1 })) ∧
      nmp_object_put heap p =
        (if o._ref_count = 1 then Function.update heap p none
         else Function.update heap p (some { o with _ref_count := o._ref_count - 1 })) ∧
      (o._ref_count + 1 ≠ NMP_REF_COUNT_INITSTACK →
        nmp_object_put (nmp_object_get heap p).2 p = heap)) ∧
    (o._ref_count = NMP_REF_COUNT_INITSTACK →
      nmp_object_get heap p = (0, heap) ∧ nmp_object_put heap p = heap) := by
  have hvalid : NMP_OBJECT_IS_VALID heap p = true := by
    simp [NMP_OBJECT_IS_VALID, hp, ho, hv]
  constructor
  · intro hns
    have hget : nmp_object_get heap p =
        (p, Function.update heap p (some { o with _ref_count := o._ref_count + 1 })) := by
      unfold nmp_object_get
      simp [hvalid, ho, hns]
    have hput : nmp_object_put heap p =
        (if o._ref_count = 1 then Function.update heap p none
         else Function.update heap p (some { o with _ref_count := o._ref_count - 1 })) := by
      unfold nmp_object_put
      simp only [hp, if_false, ho, hv, not_true_eq_false, hns]
      by_cases h1 : o._ref_count = 1
      · have : o._ref_count - 1 ≤ 0 := by omega
        simp [h1]
      · have : ¬ o._ref_count - 1 ≤ 0 := by omega
        simp [h1, this]
    refine ⟨hget, hput, ?_⟩
    intro hn1
    rw [hget]
    unfold nmp_object_put
    have h2 : (0 : Int) < o._ref_count + 1 := by omega
    have h3 : ¬ (o._ref_count + 1 - 1 ≤ 0) := by omega
    simp only [hp, if_false, Function.update_same, h2, not_true_eq_false, hn1, h3,
      Function.update_idem]
    have : o._ref_count + 1 - 1 = o._ref_count := by omega
    rw [this]
    rw [← ho]
    exact Function.update_eq_self p heap
  · intro hs
    constructor
    · unfold nmp_object_get
      simp [hvalid, ho, hs]
    · unfold nmp_object_put
      simp [hp, ho, hs]

/-- Witness of C30: the link with one reference at address 100 of `demo_store1`. -/
theorem nmp_object_get_put_counts_witness :
    demo_store1.heap 100 = some demo_link_netlink ∧
    nmp_object_get demo_store1.heap 100 =
      (100, Function.update demo_store1.heap 100
        (some { demo_link_netlink with _ref_count := demo_link_netlink._ref_count + 1 })) ∧
    nmp_object_put demo_store1.heap 100 = Function.update demo_store1.heap 100 none ∧
    nmp_object_put (nmp_object_get demo_store1.heap 100).2 100 = demo_store1.heap :=
  ⟨by decide,
   ((nmp_object_get_put_counts demo_store1.heap 100 demo_link_netlink (by decide) (by decide)
      (by decide)).1 (by decide)).1,
   ((nmp_object_get_put_counts demo_store1.heap 100 demo_link_netlink (by decide) (by decide)
      (by decide)).1 (by decide)).2.1,
   ((nmp_object_get_put_counts demo_store1.heap 100 demo_link_netlink (by decide) (by decide)
      (by decide)).1 (by decide)).2.2 (by decide)⟩


/-! ## Claims C31 to C40 -/

/-- A counterexample to C31 as stated: the link of `demo_refs_store` is a valid heap object
with `G_MAXINT - 1` references; `nmp_cache_update` adds it, and the reference of the cache
takes its count to `NMP_REF_COUNT_INITSTACK`: the state is reachable and the cached object
is stack-initialised by its count.  The following `nmp_cache_remove` takes the object out of
the primary index, and `nmp_object_put` leaves the count as it is. -/
theorem nmp_cache_update_cached_ephemeral :
    Reachable demo_refs_result.store ∧
    demo_refs_result.ret = NMP_CACHE_OPS_ADDED ∧
    demo_refs_result.store.cache.idx_main = [100] ∧
    is_cached_at demo_refs_result.store.heap 100 = true ∧
    NMP_OBJECT_IS_STACKINIT demo_refs_result.store.heap 100 = true ∧
    nmp_cache_remove demo_refs_result.store 100 false false = some demo_refs_removed ∧
    demo_refs_removed.ret = NMP_CACHE_OPS_REMOVED ∧
    demo_refs_removed.store.cache.idx_main = [] ∧
    ref_count_at demo_refs_result.store.heap 100 = 2147483647 ∧
    ref_count_at demo_refs_removed.store.heap 100 = 2147483647 :=
  ⟨Reachable.update demo_refs_store 100 NMP_OBJECT_ASPECT_NETLINK false false demo_refs_result
      (Reachable.alloc demo_store0 100
        ⟨2147483646, false, ._link ⟨⟨5, 0⟩, ⟨1, 0, 0, 0, 0⟩, ⟨0⟩⟩⟩ Reachable.init (by decide) rfl
        (by decide) rfl)
      (by decide) (by decide) (by decide) rfl,
   by decide, by decide, by decide, by decide, rfl, by decide, by decide, by decide, by decide⟩

/-- C31 (cache ownership invariant), amended: in every cache state reached by
`nmp_cache_update` and `nmp_cache_remove`, an object is in the primary index if and only if
its `is_cached` flag is set, and every such object is valid, with reference count at least
1; it is stack-initialised by its count only when the count is `G_MAXINT`.  A call of
`nmp_cache_update` or `nmp_cache_remove` does not lower the reference count of an object
that stays in the primary index, and for the object that leaves the primary index it clears
the `is_cached` flag and then releases the reference of the cache with `nmp_object_put`: the
cache calls `nmp_object_put` on no object whose `is_cached` flag is set. -/
theorem nmp_cache_ownership (s : Store) (h : Reachable s) :
    (∀ p, p ∈ s.cache.idx_main ↔ is_cached_at s.heap p = true) ∧
    (∀ p ∈ s.cache.idx_main, NMP_OBJECT_IS_VALID s.heap p = true ∧ 1 ≤ ref_count_at s.heap p ∧
      (NMP_OBJECT_IS_STACKINIT s.heap p = true ↔ ref_count_at s.heap p = G_MAXINT)) ∧
    (∀ (obj : Nat) (M : NMPObjectAspects) (b1 b2 : Bool) (r : NMPCacheOpsResult),
      nmp_cache_update s obj M b1 b2 = some r →
      (∀ p ∈ s.cache.idx_main, p ∈ r.store.cache.idx_main →
        ref_count_at s.heap p ≤ ref_count_at r.store.heap p) ∧
      (∀ p ∈ s.cache.idx_main, p ∉ r.store.cache.idx_main →
        r.store.heap = nmp_object_put (set_is_cached (out_obj_heap b1 s.heap p) p false) p ∧
        is_cached_at (set_is_cached (out_obj_heap b1 s.heap p) p false) p = false)) ∧
    (∀ (obj : Nat) (b1 b2 : Bool) (r : NMPCacheOpsResult),
      nmp_cache_remove s obj b1 b2 = some r →
      (∀ p ∈ s.cache.idx_main, p ∈ r.store.cache.idx_main →
        ref_count_at s.heap p ≤ ref_count_at r.store.heap p) ∧
      (∀ p ∈ s.cache.idx_main, p ∉ r.store.cache.idx_main →
        r.store.heap = nmp_object_put (set_is_cached (out_obj_heap b1 s.heap p) p false) p ∧
        is_cached_at (set_is_cached (out_obj_heap b1 s.heap p) p false) p = false)) := by
  have hwf := nmp_cache_main_wf_of_reachable h
  refine ⟨?_, ?_, ?_, ?_⟩
  · intro p
    exact ⟨fun hp => (hwf.2.1 p hp).2.2, mem_idx_main_of_is_cached h p⟩
  · intro p hp
    have hv := (hwf.2.1 p hp).2.1
    obtain ⟨p0, o, ho, h0⟩ := heap_some_of_valid hv
    refine ⟨hv, ?_, ?_⟩
    · simp only [ref_count_at, ho]
      omega
    · simp [NMP_OBJECT_IS_STACKINIT, ref_count_at, ho, p0, NMP_REF_COUNT_INITSTACK]
  · intro obj M b1 b2 r hres
    rcases nmp_cache_update_step hwf hres with e | ⟨ha, -, hidx, hheap⟩ |
      ⟨old, hm, -, e⟩ | ⟨old, hm, -, hidx, hheap⟩ | ⟨old, hm, -, hne, he, hal, hidx, hheap⟩
    · rw [e]
      exact ⟨fun p _ _ => le_refl _, fun p hp hp' => absurd hp hp'⟩
    · refine ⟨?_, ?_⟩
      · intro p _ _
        rw [hheap, ref_count_at_set_is_cached]
        exact le_trans (ref_count_at_out_obj_heap_ge s.heap b1 obj p)
          (ref_count_at_nmp_object_get_ge _ obj p)
      · intro p hp hp'
        rw [hidx] at hp'
        exact absurd (List.mem_cons.mpr (Or.inr hp)) hp'
    · rw [e]
      exact ⟨fun p _ _ => ref_count_at_out_obj_heap_ge s.heap b1 old p,
        fun p hp hp' => absurd hp hp'⟩
    · exact removed_counts hwf hm hidx hheap
    · refine ⟨?_, ?_⟩
      · intro p _ _
        rw [hheap, ref_count_at_nmp_object_copy]
        exact ref_count_at_out_obj_heap_ge s.heap b1 old p
      · intro p hp hp'
        rw [hidx] at hp'
        exact absurd hp hp'
  · intro obj b1 b2 r hres
    rcases nmp_cache_remove_step hwf hres with e | ⟨old, hm, -, hidx, hheap⟩
    · rw [e]
      exact ⟨fun p _ _ => le_refl _, fun p hp hp' => absurd hp hp'⟩
    · exact removed_counts hwf hm hidx hheap

/-- Witness of C31 as amended: the cache of `demo_result3`, which holds the link at address
100, and the removal of that link. -/
theorem nmp_cache_ownership_witness :
    Reachable demo_result3.store ∧
    (100 ∈ demo_result3.store.cache.idx_main ↔ is_cached_at demo_result3.store.heap 100 = true) ∧
    1 ≤ ref_count_at demo_result3.store.heap 100 :=
  ⟨demo_result3_reachable,
   (nmp_cache_ownership demo_result3.store demo_result3_reachable).1 100,
   ((nmp_cache_ownership demo_result3.store demo_result3_reachable).2.1 100 (by decide)).2.1⟩

/-- C32 (cache-identifier equality): for cache ids built by `nmp_cache_id_init_links`,
`nmp_cache_id_init_addrroute_by_ifindex` or `nmp_cache_id_init_routes_visible`,
`nmp_cache_id_equal` holds if and only if the two ids are built by the same function with the
same id type and the same parameters (the flag of the links; the object kind and the
interface index; the address-family flag, stored as 0 or 1, and the interface index); equal
ids have equal `nmp_cache_id_hash`; the bytes of two zeroed ids are equal exactly when
`nmp_cache_id_equal` holds; and `nmp_cache_id_init_routes_visible` returns `NULL` exactly for
the id types other than the three routes-visible types. -/
theorem nmp_cache_id_equal_structural :
    (∀ v v' : Bool,
      nmp_cache_id_equal (nmp_cache_id_init_links v) (nmp_cache_id_init_links v') = true
        ↔ v = v') ∧
    (∀ (t t' : ObjectType) (i i' : Int),
      nmp_cache_id_equal (nmp_cache_id_init_addrroute_by_ifindex t i)
        (nmp_cache_id_init_addrroute_by_ifindex t' i') = true ↔ (t = t' ∧ i = i')) ∧
    (∀ (T T' : NMPCacheIdType) (v v' : Bool) (i i' : Int) (a b : NMPCacheId),
      nmp_cache_id_init_routes_visible T v i = some a →
      nmp_cache_id_init_routes_visible T' v' i' = some b →
      (a.is_v4 = (if v then 1 else 0) ∧
        (nmp_cache_id_equal a b = true ↔ (T = T' ∧ v = v' ∧ i = i')))) ∧
    (∀ (v : Bool) (t : ObjectType) (i : Int),
      nmp_cache_id_equal (nmp_cache_id_init_links v)
        (nmp_cache_id_init_addrroute_by_ifindex t i) = false) ∧
    (∀ (v : Bool) (T : NMPCacheIdType) (w : Bool) (i : Int) (b : NMPCacheId),
      nmp_cache_id_init_routes_visible T w i = some b →
      nmp_cache_id_equal (nmp_cache_id_init_links v) b = false) ∧
    (∀ (t : ObjectType) (j : Int) (T : NMPCacheIdType) (w : Bool) (i : Int) (b : NMPCacheId),
      nmp_cache_id_init_routes_visible T w i = some b →
      nmp_cache_id_equal (nmp_cache_id_init_addrroute_by_ifindex t j) b = false) ∧
    (∀ a b : NMPCacheId, nmp_cache_id_equal a b = true →
      nmp_cache_id_hash a = nmp_cache_id_hash b) ∧
    (∀ a b : NMPCacheId, a.obj_type < 256 → b.obj_type < 256 →
      -2147483648 ≤ a.ifindex → a.ifindex ≤ 2147483647 →
      -2147483648 ≤ b.ifindex → b.ifindex ≤ 2147483647 →
      (NMPCacheId_bytes a = NMPCacheId_bytes b ↔ nmp_cache_id_equal a b = true)) ∧
    (∀ (T : NMPCacheIdType) (v : Bool) (i : Int),
      nmp_cache_id_init_routes_visible T v i = none ↔
        (T ≠ NMP_CACHE_ID_TYPE_ROUTES_VISIBLE_ALL ∧
          T ≠ NMP_CACHE_ID_TYPE_ROUTES_VISIBLE_NO_DEFAULT ∧
          T ≠ NMP_CACHE_ID_TYPE_ROUTES_VISIBLE_ONLY_DEFAULT)) := by
  refine ⟨?_, ?_, ?_, ?_, ?_, ?_, ?_, ?_, ?_⟩
  · intro v v'
    cases v <;> cases v' <;> simp [nmp_cache_id_equal, nmp_cache_id_init_links, nmp_cache_id_init]
  · intro t t' i i'
    simp only [nmp_cache_id_equal, nmp_cache_id_init_addrroute_by_ifindex, nmp_cache_id_init,
      decide_eq_true_eq, NMPCacheId.mk.injEq, true_and]
    constructor
    · rintro ⟨h1, h2⟩
      exact ⟨ObjectType_toNat_injective h1, h2⟩
    · rintro ⟨h1, h2⟩
      rw [h1, h2]
      exact ⟨rfl, rfl⟩
  · intro T T' v v' i i' a b ha hb
    unfold nmp_cache_id_init_routes_visible at ha hb
    by_cases hT : T = NMP_CACHE_ID_TYPE_ROUTES_VISIBLE_ALL
        ∨ T = NMP_CACHE_ID_TYPE_ROUTES_VISIBLE_NO_DEFAULT
        ∨ T = NMP_CACHE_ID_TYPE_ROUTES_VISIBLE_ONLY_DEFAULT
    · by_cases hT' : T' = NMP_CACHE_ID_TYPE_ROUTES_VISIBLE_ALL
          ∨ T' = NMP_CACHE_ID_TYPE_ROUTES_VISIBLE_NO_DEFAULT
          ∨ T' = NMP_CACHE_ID_TYPE_ROUTES_VISIBLE_ONLY_DEFAULT
      · rw [if_pos hT] at ha
        rw [if_pos hT'] at hb
        simp only [Option.some.injEq] at ha hb
        subst ha hb
        refine ⟨rfl, ?_⟩
        simp only [nmp_cache_id_equal, nmp_cache_id_init, decide_eq_true_eq, NMPCacheId.mk.injEq]
        cases v <;> cases v' <;> simp
      · rw [if_neg hT'] at hb
        exact absurd hb (by simp)
    · rw [if_neg hT] at ha
      exact absurd ha (by simp)
  · intro v t i
    cases v <;>
      simp [nmp_cache_id_equal, nmp_cache_id_init_links, nmp_cache_id_init,
        nmp_cache_id_init_addrroute_by_ifindex]
  · intro v T w i b hb
    unfold nmp_cache_id_init_routes_visible at hb
    by_cases hT : T = NMP_CACHE_ID_TYPE_ROUTES_VISIBLE_ALL
        ∨ T = NMP_CACHE_ID_TYPE_ROUTES_VISIBLE_NO_DEFAULT
        ∨ T = NMP_CACHE_ID_TYPE_ROUTES_VISIBLE_ONLY_DEFAULT
    swap
    · rw [if_neg hT] at hb
      exact absurd hb (by simp)
    rw [if_pos hT] at hb
    simp only [Option.some.injEq] at hb
    subst hb
    rcases hT with hT | hT | hT <;> subst hT <;> cases v <;>
      simp [nmp_cache_id_equal, nmp_cache_id_init_links, nmp_cache_id_init]
  · intro t j T w i b hb
    unfold nmp_cache_id_init_routes_visible at hb
    by_cases hT : T = NMP_CACHE_ID_TYPE_ROUTES_VISIBLE_ALL
        ∨ T = NMP_CACHE_ID_TYPE_ROUTES_VISIBLE_NO_DEFAULT
        ∨ T = NMP_CACHE_ID_TYPE_ROUTES_VISIBLE_ONLY_DEFAULT
    swap
    · rw [if_neg hT] at hb
      exact absurd hb (by simp)
    rw [if_pos hT] at hb
    simp only [Option.some.injEq] at hb
    subst hb
    rcases hT with hT | hT | hT <;> subst hT <;>
      simp [nmp_cache_id_equal, nmp_cache_id_init, nmp_cache_id_init_addrroute_by_ifindex]
  · intro a b h
    simp only [nmp_cache_id_equal, decide_eq_true_eq] at h
    rw [h]
  · intro a b ha hb ha1 ha2 hb1 hb2
    rw [NMPCacheId_bytes_eq_iff a b ha hb ha1 ha2 hb1 hb2]
    simp [nmp_cache_id_equal]
  · intro T v i
    unfold nmp_cache_id_init_routes_visible
    cases T <;> simp

/-- C33 (outputs of an Unchanged update) does not hold of the code: in the cache that holds
the link with interface index 5 at address 100, `nmp_cache_update` with the equal candidate
at address 300 and both outputs requested returns Unchanged, but `*out_obj` is the cached
object, `*out_was_visible` is true, and the reference count of the cached object has
increased by one. -/
theorem nmp_cache_update_unchanged_sets_outputs :
    nmp_cache_lookup_obj demo_result3.store 300 = 100 ∧
    nmp_object_equal demo_result3.store.heap 100 300 NMP_OBJECT_ASPECT_ALL = true ∧
    nmp_cache_update demo_result3.store 300 NMP_OBJECT_ASPECT_ALL true true
      = some demo_result3_equal ∧
    demo_result3_equal.ret = NMP_CACHE_OPS_UNCHANGED ∧
    demo_result3_equal.out_obj = 100 ∧
    demo_result3_equal.out_was_visible = true ∧
    ref_count_at demo_result3.store.heap 100 = 2 ∧
    ref_count_at demo_result3_equal.store.heap 100 = 3 :=
  ⟨by decide, by decide, rfl, by decide, by decide, by decide, by decide, by decide⟩

/-- C34 as stated does not hold: in the reachable cache `demo_route_refs_added` the IPv4
route cached at address 100 under the identity of the candidate at address 200 has the
reference count `NMP_REF_COUNT_INITSTACK`.  `nmp_cache_update` with the candidate, mask
PUBLIC and both outputs requested returns Updated, and the object reported in `*out_obj` is
`NULL`, not the route at address 100: `nmp_object_get` rejects the object as
stack-initialised. -/
theorem nmp_cache_update_reports_null_for_sentinel :
    Reachable demo_route_refs_added.store ∧
    NMP_OBJECT_IS_VALID demo_route_refs_added.store.heap 200 = true ∧
    nmp_cache_lookup_obj demo_route_refs_added.store 200 = 100 ∧
    ref_count_at demo_route_refs_added.store.heap 100 = NMP_REF_COUNT_INITSTACK ∧
    nmp_cache_update demo_route_refs_added.store 200 NMP_OBJECT_ASPECT_PUBLIC true true
      = some demo_route_refs_reported ∧
    demo_route_refs_reported.ret = NMP_CACHE_OPS_UPDATED ∧
    demo_route_refs_reported.out_obj = 0 :=
  ⟨demo_route_refs_added_reachable, by decide, by decide, by decide, rfl, by decide,
    by decide⟩

/-- C34 (outputs of a changing update, as amended): whenever `nmp_cache_update` returns
Updated or Removed, an object was cached under the identity of the candidate before the
call; `*out_obj`, when requested, is that object, unless the reference count of that object
is `NMP_REF_COUNT_INITSTACK`, in which case `*out_obj` is `NULL`; and `*out_was_visible`,
when requested, is `nmp_object_is_visible` of that object before the call.  Whenever it
returns Added, no object was cached under the identity of the candidate and
`*out_was_visible` is false. -/
theorem nmp_cache_update_changed_outputs (s : Store) (obj : Nat) (M : NMPObjectAspects)
    (b1 b2 : Bool) (r : NMPCacheOpsResult)
    (hr : nmp_cache_update s obj M b1 b2 = some r) :
    ((r.ret = NMP_CACHE_OPS_UPDATED ∨ r.ret = NMP_CACHE_OPS_REMOVED) →
      nmp_cache_lookup_obj s obj ≠ 0 ∧
      nmp_cache_lookup_obj s obj ∈ s.cache.idx_main ∧
      nmp_object_id_equal s.heap (nmp_cache_lookup_obj s obj) obj = true ∧
      (b1 = true →
        r.out_obj = if NMP_OBJECT_IS_STACKINIT s.heap (nmp_cache_lookup_obj s obj) = true
          then 0 else nmp_cache_lookup_obj s obj) ∧
      (b2 = true →
        r.out_was_visible = nmp_object_is_visible s.heap (nmp_cache_lookup_obj s obj))) ∧
    (r.ret = NMP_CACHE_OPS_ADDED →
      nmp_cache_lookup_obj s obj = 0 ∧ r.out_was_visible = false) := by
  obtain ⟨o1, o2⟩ := nmp_cache_update_outputs hr
  constructor
  · intro hret
    have hne : g_hash_table_lookup_main s.heap s.cache.idx_main obj ≠ 0 := by
      intro e
      rcases (o1 e).2 with h | h <;> rcases hret with h' | h' <;> rw [h] at h' <;>
        exact absurd h' (by simp)
    obtain ⟨-, p1, p2⟩ := o2 hne
    obtain ⟨hm, he⟩ := g_hash_table_lookup_main_ne_zero hne
    have hno := nmp_cache_update_lookup_ne hr hne
    obtain ⟨hvo, hvc, -⟩ := valid_of_nmp_object_id_equal he hno
    obtain ⟨obj0, -⟩ := heap_some_of_valid hvc
    have hl : nmp_cache_lookup_obj s obj
        = g_hash_table_lookup_main s.heap s.cache.idx_main obj := by
      simp [nmp_cache_lookup_obj, obj0]
    rw [hl]
    refine ⟨hne, hm, he, ?_, ?_⟩
    · intro hb1
      rw [p1, hb1]
      simp only [if_true]
      exact nmp_object_get_fst_eq _ _ hvo
    · intro hb2
      rw [p2, hb2]
      simp only [if_true]
      exact nmp_object_is_visible_out_obj_heap _ _ _ _
  · intro hret
    by_cases e : g_hash_table_lookup_main s.heap s.cache.idx_main obj = 0
    · refine ⟨?_, (o1 e).1⟩
      unfold nmp_cache_lookup_obj
      split_ifs
      · rfl
      · exact e
    · exact absurd hret (o2 e).1

/-- Witness of C34 as amended: the update of the cached link of `demo_result3` with the udev
candidate at address 200, which reports the link, and the update of the route of
`demo_route_refs_added`, whose count is the sentinel, which reports `NULL`; both outputs are
requested. -/
theorem nmp_cache_update_changed_outputs_witness :
    (nmp_cache_update demo_result3.store 200 NMP_OBJECT_ASPECT_UDEV true true
        = some demo_result3_updated ∧
      demo_result3_updated.ret = NMP_CACHE_OPS_UPDATED ∧
      nmp_cache_lookup_obj demo_result3.store 200 = 100 ∧
      NMP_OBJECT_IS_STACKINIT demo_result3.store.heap 100 = false ∧
      demo_result3_updated.out_obj = 100 ∧
      demo_result3_updated.out_was_visible = nmp_object_is_visible demo_result3.store.heap 100) ∧
    (nmp_cache_update demo_route_refs_added.store 200 NMP_OBJECT_ASPECT_PUBLIC true true
        = some demo_route_refs_reported ∧
      demo_route_refs_reported.ret = NMP_CACHE_OPS_UPDATED ∧
      nmp_cache_lookup_obj demo_route_refs_added.store 200 = 100 ∧
      NMP_OBJECT_IS_STACKINIT demo_route_refs_added.store.heap 100 = true ∧
      demo_route_refs_reported.out_obj = 0) :=
  ⟨⟨rfl, by decide, by decide, by decide,
     ((nmp_cache_update_changed_outputs demo_result3.store 200 NMP_OBJECT_ASPECT_UDEV true true
       demo_result3_updated rfl).1 (Or.inl (by decide))).2.2.2.1 rfl,
     ((nmp_cache_update_changed_outputs demo_result3.store 200 NMP_OBJECT_ASPECT_UDEV true true
       demo_result3_updated rfl).1 (Or.inl (by decide))).2.2.2.2 rfl⟩,
   ⟨rfl, by decide, by decide, by decide,
     ((nmp_cache_update_changed_outputs demo_route_refs_added.store 200
       NMP_OBJECT_ASPECT_PUBLIC true true demo_route_refs_reported rfl).1
         (Or.inl (by decide))).2.2.2.1 rfl⟩⟩

/-- C35 (binary search): for every `NULL`-terminated array whose members are strictly
ascending and every value, the loop of `_binary_search` ends within as many iterations as
the array is long, with the result of `_binary_search`.  If the value occurs in the array,
the result is an index `i >= 0` of a member with `array[i] = value`.  Otherwise the result
is the complement `~p`, a negative number, of the insertion point `p`, where
`0 <= p <= number of members`, every member before `p` is smaller than the value and every
member from `p` on is greater; `p` is the only such position, and the final assertion of the
function holds for it. -/
theorem _binary_search_correct (ms : List Nat) (value : Nat)
    (hs : ms.Pairwise (fun a b => a < b)) :
    (∀ fuel, (ms ++ [0]).length ≤ fuel →
      _binary_search_loop (ms ++ [0]) value fuel 0 (((ms ++ [0]).length : Int) - 2)
        = some (_binary_search (ms ++ [0]) value)) ∧
    (value ∈ ms →
      0 ≤ _binary_search (ms ++ [0]) value ∧
      (_binary_search (ms ++ [0]) value).toNat < ms.length ∧
      (ms ++ [0]).getD (_binary_search (ms ++ [0]) value).toNat 0 = value) ∧
    (value ∉ ms →
      ∃ p : Nat, _binary_search (ms ++ [0]) value = ~~~(p : Int) ∧
        _binary_search (ms ++ [0]) value < 0 ∧ p ≤ ms.length ∧
        (∀ j, j < p → (ms ++ [0]).getD j 0 < value) ∧
        (∀ j, p ≤ j → j < ms.length → value < (ms ++ [0]).getD j 0) ∧
        (∀ q, q ≤ ms.length → (∀ j, j < q → (ms ++ [0]).getD j 0 < value) →
          (∀ j, q ≤ j → j < ms.length → value < (ms ++ [0]).getD j 0) → q = p) ∧
        ((0 : Int) ≤ p ∧ p ≤ (ms ++ [0]).length - 1 ∧
          (p = 0 ∨ (ms ++ [0]).getD (p - 1) 0 < value) ∧
          (p = (ms ++ [0]).length - 1 ∨ (ms ++ [0]).getD p 0 > value))) := by
  have hspec := _binary_search_spec ms value hs
  have hiff := _binary_search_nonneg_iff ms value hs
  refine ⟨?_, ?_, ?_⟩
  · intro fuel hf
    obtain ⟨r, hr, hres⟩ := _binary_search_loop_spec ms value hs fuel 0
      (((ms ++ [0]).length : Int) - 2) (by omega) (by simp; omega) (by simp; omega)
      (by simp at hf ⊢; omega)
      (by intro j hj; omega) (by intro j hj1 hj2; simp at hj1; omega)
    rw [hr, search_result_unique hs hres hspec]
  · intro hm
    have h0 := hiff.mpr hm
    rcases hspec with ⟨-, h1, h2⟩ | ⟨p, hp, -⟩
    · refine ⟨h0, by omega, ?_⟩
      rw [getD_append_null]
      exact h2
    · omega
  · intro hm
    have h0 : ¬ 0 ≤ _binary_search (ms ++ [0]) value := fun h => hm (hiff.mp h)
    rcases hspec with ⟨h1, -⟩ | ⟨p, hp, hple, hlo, hhi⟩
    · exact absurd h1 h0
    · refine ⟨p, ?_, by omega, hple, ?_, ?_, ?_, by omega, ?_, ?_, ?_⟩
      · rw [int_complement_eq]; exact hp
      · intro j hj
        rw [getD_append_null]
        exact hlo j hj
      · intro j hj1 hj2
        rw [getD_append_null]
        exact hhi j hj1 hj2
      · intro q hq hqlo hqhi
        have hq' : search_result ms value (-(q : Int) - 1) :=
          Or.inr ⟨q, rfl, hq, fun j hj => by rw [← getD_append_null]; exact hqlo j hj,
            fun j hj1 hj2 => by rw [← getD_append_null]; exact hqhi j hj1 hj2⟩
        have hp' : search_result ms value (-(p : Int) - 1) := Or.inr ⟨p, rfl, hple, hlo, hhi⟩
        have := search_result_unique hs hq' hp'
        omega
      · simp only [List.length_append, List.length_singleton]
        omega
      · by_cases hp0 : p = 0
        · exact Or.inl hp0
        · right
          rw [getD_append_null]
          exact hlo (p - 1) (by omega)
      · by_cases hpl : p = ms.length
        · left
          simp only [List.length_append, List.length_singleton]
          omega
        · right
          rw [getD_append_null]
          exact hhi p (le_refl p) (by omega)

/-- Witness of C35: the array of the members 3, 5 and 9. -/
theorem _binary_search_correct_witness :
    _binary_search ([3, 5, 9] ++ [0]) 5 = 1 ∧ _binary_search ([3, 5, 9] ++ [0]) 7 = ~~~(2 : Int) ∧
    _binary_search_loop ([3, 5, 9] ++ [0]) 7 4 0 ((([3, 5, 9] ++ [0]).length : Int) - 2)
      = some (_binary_search ([3, 5, 9] ++ [0]) 7) :=
  ⟨by decide, by decide,
   (_binary_search_correct [3, 5, 9] 7 (by decide)).1 4 (by decide)⟩

/-- C36 (cache teardown) does not hold of the code: in the reachable cache left by the two
updates of C1, whose only cached object is the link at address 100, the first iteration of
the loop of `nmp_cache_free` aborts in `_nmp_cache_update_remove`, because
`nm_multi_index_remove` for the visible-links group returns false; the loop does not end
with an empty primary index.  On the cache before the second update the loop ends after one
removal with an empty primary index and no group. -/
theorem nmp_cache_free_aborts_after_udev_update :
    Reachable demo_result4.store ∧
    demo_result4.store.cache.idx_main = [100] ∧
    (nm_multi_index_remove demo_result4.store.cache.idx_multi (nmp_cache_id_init_links true)
      100).1 = false ∧
    (_nmp_cache_update_remove demo_result4.store 100).isNone = true ∧
    (∀ fuel, nmp_cache_free_loop (fuel + 1) demo_result4.store = some none) ∧
    nmp_cache_free demo_result4.store = some none ∧
    nmp_cache_free_loop 2 demo_result3.store = some (some demo_result3_freed) ∧
    demo_result3_freed.cache.idx_main = [] ∧
    nm_multi_index_get_num_groups demo_result3_freed.cache.idx_multi = 0 :=
  ⟨demo_result4_reachable, by decide, by decide, by decide, fun _ => rfl, rfl, rfl, by decide,
    by decide⟩

/-- C37 (every cached object is alive): in every cache state reached from the empty cache by
calls of `nmp_cache_update` and `nmp_cache_remove` (the caller allocating objects and
releasing references it owns), `nmp_object_is_alive` holds for every object of the primary
index: a link has `is_in_netlink` set or a udev device, a route has a source other than
INTERNAL. -/
theorem nmp_cache_cached_alive (s : Store) (h : Reachable s) :
    ∀ p ∈ s.cache.idx_main, nmp_object_is_alive s.heap p = true ∧
      ∀ d, data_at s.heap p = some d →
        match d with
        | ._link x => x.netlink.is_in_netlink ≠ 0 ∨ x.udev.device ≠ 0
        | ._ip4_route x => x.source ≠ NM_IP_CONFIG_SOURCE_INTERNAL
        | ._ip6_route x => x.source ≠ NM_IP_CONFIG_SOURCE_INTERNAL
        | _ => True := by
  have key : ∀ p ∈ s.cache.idx_main, nmp_object_is_alive s.heap p = true := by
    induction h with
    | init => intro p hp; simp [nmp_cache_new] at hp
    | alloc s p o hr hp0 hnone href hcached ih =>
      intro q hq
      have hwf := nmp_cache_main_wf_of_reachable hr
      have hqp : q ≠ p := by
        intro e
        obtain ⟨-, o', ho', -⟩ := heap_some_of_valid (hwf.2.1 q hq).2.1
        rw [e, hnone] at ho'
        exact absurd ho' (by simp)
      have e : Function.update s.heap p (some o) q = s.heap q := Function.update_noteq hqp _ _
      exact (nmp_object_is_alive_congr e).trans (ih q hq)
    | put s p hr hv hown ih =>
      intro q hq
      have hwf := nmp_cache_main_wf_of_reachable hr
      by_cases hqp : q = p
      · subst hqp
        obtain ⟨-, o, ho, -⟩ := heap_some_of_valid hv
        have hc := (hwf.2.1 q hq).2.2
        simp only [is_cached_at, ho] at hc
        have h1 := hown o ho hc
        have hval := (nmp_object_put_owned s.heap q o ho h1).2.1
        have hdat : data_at (nmp_object_put s.heap q) q = data_at s.heap q := by
          rcases nmp_object_put_self s.heap q with e | e | ⟨o2, ho2, -, e⟩
          · simp only [data_at, e]
          · have hv' : NMP_OBJECT_IS_VALID (nmp_object_put s.heap q) q = true := by
              rw [hval]; exact hv
            simp [NMP_OBJECT_IS_VALID, e] at hv'
          · simp [data_at, e, ho2]
        exact (nmp_object_is_alive_of_valid_data hval hdat).trans (ih q hq)
      · exact (nmp_object_is_alive_congr (nmp_object_put_ne s.heap p q hqp)).trans (ih q hq)
    | update s p M b1 b2 r hr hv hst hc hres ih =>
      have hwf := nmp_cache_main_wf_of_reachable hr
      rcases nmp_cache_update_step hwf hres with e | ⟨ha, -, hidx, hheap⟩ |
        ⟨old, hm, -, e⟩ | ⟨old, hm, -, hidx, hheap⟩ | ⟨old, hm, -, hne, he, hal, hidx, hheap⟩
      · rw [e]; exact ih
      · intro q hq
        have hal : nmp_object_is_alive r.store.heap q = nmp_object_is_alive s.heap q := by
          apply nmp_object_is_alive_of_valid_data
          · rw [hheap, NMP_OBJECT_IS_VALID_set_is_cached, NMP_OBJECT_IS_VALID_nmp_object_get,
              NMP_OBJECT_IS_VALID_out_obj_heap]
          · rw [hheap, data_at_set_is_cached, data_at_nmp_object_get, data_at_out_obj_heap]
        rw [hal]
        rw [hidx] at hq
        rcases List.mem_cons.mp hq with rfl | hq
        · exact ha
        · exact ih q hq
      · intro q hq
        rw [e] at hq ⊢
        have hal : nmp_object_is_alive (out_obj_heap b1 s.heap old) q
            = nmp_object_is_alive s.heap q :=
          nmp_object_is_alive_of_valid_data (NMP_OBJECT_IS_VALID_out_obj_heap _ _ _ _)
            (data_at_out_obj_heap _ _ _ _)
        exact hal.trans (ih q hq)
      · intro q hq
        rw [hidx] at hq
        have hq' := (List.Nodup.mem_erase_iff hwf.1).mp hq
        rw [hheap, nmp_object_is_alive_congr (removed_heap_ne s.heap b1 old q hq'.1)]
        exact ih q hq'.2
      · intro q hq
        rw [hidx] at hq
        have hvq : NMP_OBJECT_IS_VALID r.store.heap q = NMP_OBJECT_IS_VALID s.heap q := by
          rw [hheap, NMP_OBJECT_IS_VALID_nmp_object_copy, NMP_OBJECT_IS_VALID_out_obj_heap]
        have hq1 := (hwf.2.1 q hq).2.1
        obtain ⟨c1, c2⟩ := data_at_nmp_object_copy (out_obj_heap b1 s.heap old) old p M
        by_cases hqo : q = old
        · subst hqo
          rcases c2 with c | ⟨d, n, hd, hn, hcl, -, c⟩
          · rw [← hheap, data_at_out_obj_heap] at c
            exact (nmp_object_is_alive_of_valid_data hvq c).trans (ih q hq)
          · rw [← hheap] at c
            rw [nmp_object_is_alive_eq, hvq, hq1, c]
            simp only [Bool.true_and]
            have hda : cmd_obj_is_alive d = true := by
              have := ih q hq
              rw [nmp_object_is_alive_eq, hq1] at this
              rw [data_at_out_obj_heap] at hd
              simpa [hd] using this
            refine cmd_obj_is_alive_cmd_obj_copy ?_ ?_ hd hn hcl hal hda
            · rw [NMP_OBJECT_IS_VALID_out_obj_heap]; exact hq1
            · rw [NMP_OBJECT_IS_VALID_out_obj_heap]; exact hv
        · have c := c1 q hqo
          rw [← hheap, data_at_out_obj_heap] at c
          exact (nmp_object_is_alive_of_valid_data hvq c).trans (ih q hq)
    | remove s p b1 b2 r hr hv hres ih =>
      have hwf := nmp_cache_main_wf_of_reachable hr
      rcases nmp_cache_remove_step hwf hres with e | ⟨old, hm, -, hidx, hheap⟩
      · rw [e]; exact ih
      · intro q hq
        rw [hidx] at hq
        have hq' := (List.Nodup.mem_erase_iff hwf.1).mp hq
        rw [hheap, nmp_object_is_alive_congr (removed_heap_ne s.heap b1 old q hq'.1)]
        exact ih q hq'.2
  intro p hp
  refine ⟨key p hp, ?_⟩
  intro d hd
  have := key p hp
  rw [nmp_object_is_alive_eq, hd] at this
  simp only [Bool.and_eq_true] at this
  have ha := this.2
  cases d <;>
    simp_all [cmd_obj_is_alive, _vt_cmd_obj_is_alive_link, _vt_cmd_obj_is_alive_ipx_route,
      ip_route_source]

/-- Witness of C37: the cache of `demo_result4`, reached by two updates of a link. -/
theorem nmp_cache_cached_alive_witness :
    Reachable demo_result4.store ∧ 100 ∈ demo_result4.store.cache.idx_main ∧
    nmp_object_is_alive demo_result4.store.heap 100 = true :=
  ⟨demo_result4_reachable, by decide,
   (nmp_cache_cached_alive demo_result4.store demo_result4_reachable 100 (by decide)).1⟩

/-- C38 (copy establishes aspect-scoped equality): for every valid heap object `dst` (one
that is not stack-initialised), every valid object `src` of the same kind and every aspect
mask `M`, after `nmp_object_copy (dst, src, M)` both `nmp_object_id_equal (dst, src)` and
`nmp_object_equal (dst, src, M)` hold, no other object has changed, the reference count and
the `is_cached` flag of `dst` are unchanged, and for links the public attributes, the netlink
part and the udev part of `dst` that `M` does not name are unchanged.  A clone of a valid
object, placed at a free address, has reference count 1 and is not cached; made with
`id_only = FALSE` it is `nmp_object_equal` to the object under all aspects, made with
`id_only = TRUE` it is `nmp_object_id_equal` to the object. -/
theorem nmp_object_copy_establishes_equality (heap : Heap) (dst src : Nat) (d s : NMPObject)
    (M : NMPObjectAspects) (hd : heap dst = some d) (hs : heap src = some s)
    (hvd : NMP_OBJECT_IS_VALID heap dst = true) (hvs : NMP_OBJECT_IS_VALID heap src = true)
    (hst : NMP_OBJECT_IS_STACKINIT heap dst = false)
    (hc : NMP_OBJECT_GET_CLASS d = NMP_OBJECT_GET_CLASS s) :
    nmp_object_id_equal (nmp_object_copy heap dst src M) dst src = true ∧
    nmp_object_equal (nmp_object_copy heap dst src M) dst src M = true ∧
    (∀ q, q ≠ dst → nmp_object_copy heap dst src M q = heap q) ∧
    ref_count_at (nmp_object_copy heap dst src M) dst = ref_count_at heap dst ∧
    is_cached_at (nmp_object_copy heap dst src M) dst = is_cached_at heap dst ∧
    (∀ x y, d.data = ._link x → s.data = ._link y → dst ≠ src →
      ∃ z, data_at (nmp_object_copy heap dst src M) dst = some (._link z) ∧
        z._public.ifindex = y._public.ifindex ∧
        (NM_FLAGS_ANY M NMP_OBJECT_ASPECT_PUBLIC = false → z._public.attrs = x._public.attrs) ∧
        (NM_FLAGS_HAS M NMP_OBJECT_ASPECT_NETLINK = false → z.netlink = x.netlink) ∧
        (NM_FLAGS_HAS M NMP_OBJECT_ASPECT_UDEV = false → z.udev = x.udev)) ∧
    (∀ p, p ≠ 0 → heap p = none →
      (nmp_object_clone_value s false)._ref_count = 1 ∧
      (nmp_object_clone_value s false).is_cached = false ∧
      nmp_object_equal (Function.update heap p (some (nmp_object_clone_value s false))) p src
        NMP_OBJECT_ASPECT_ALL = true ∧
      (nmp_object_clone_value s true)._ref_count = 1 ∧
      (nmp_object_clone_value s true).is_cached = false ∧
      nmp_object_id_equal (Function.update heap p (some (nmp_object_clone_value s true))) p src
        = true) := by
  obtain ⟨d0, d', hd', hdr⟩ := heap_some_of_valid hvd
  obtain ⟨s0, s', hs', hsr⟩ := heap_some_of_valid hvs
  rw [hd] at hd'; rw [hs] at hs'
  simp only [Option.some.injEq] at hd' hs'
  subst hd' hs'
  have hc' : d.data._class = s.data._class := hc
  have hns : d._ref_count ≠ NMP_REF_COUNT_INITSTACK := by
    intro e
    simp [NMP_OBJECT_IS_STACKINIT, hd, d0, e] at hst
  have hclone : ∀ p, p ≠ 0 → heap p = none →
      (nmp_object_clone_value s false)._ref_count = 1 ∧
      (nmp_object_clone_value s false).is_cached = false ∧
      nmp_object_equal (Function.update heap p (some (nmp_object_clone_value s false))) p src
        NMP_OBJECT_ASPECT_ALL = true ∧
      (nmp_object_clone_value s true)._ref_count = 1 ∧
      (nmp_object_clone_value s true).is_cached = false ∧
      nmp_object_id_equal (Function.update heap p (some (nmp_object_clone_value s true))) p src
        = true := by
    intro p hp0 hpn
    have hps : src ≠ p := by
      intro e
      rw [e, hpn] at hs
      exact absurd hs (by simp)
    have hz : (zeroed_data (NMP_OBJECT_GET_CLASS s))._class = s.data._class := by
      cases hsd : s.data <;> simp [NMP_OBJECT_GET_CLASS, hsd, NMPObjectData._class, zeroed_data]
    rw [nmp_object_clone_value_eq s false hsr, nmp_object_clone_value_eq s true hsr]
    refine ⟨rfl, rfl, ?_, rfl, rfl, ?_⟩
    · have k := cmd_obj_equal_cmd_obj_copy (zeroed_data (NMP_OBJECT_GET_CLASS s)) s.data
        NMP_OBJECT_ASPECT_ALL hz
      apply nmp_object_equal_of_data (Function.update_same _ _ _)
        ((Function.update_noteq hps _ _).trans hs)
      · simp [NMP_OBJECT_IS_VALID, hp0]
      · rw [NMP_OBJECT_IS_VALID_update_ne _ _ _ _ hps]; exact hvs
      · exact k.2.2
      · exact k.2.1
    · have k := cmd_obj_equal_cmd_obj_copy (zeroed_data (NMP_OBJECT_GET_CLASS s)) s.data
        NMP_OBJECT_ASPECT_NONE hz
      apply nmp_object_id_equal_of_data (Function.update_same _ _ _)
        ((Function.update_noteq hps _ _).trans hs)
      · simp [NMP_OBJECT_IS_VALID, hp0]
      · rw [NMP_OBJECT_IS_VALID_update_ne _ _ _ _ hps]; exact hvs
      · exact k.1
  by_cases hne : src = dst
  · subst hne
    have e : nmp_object_copy heap src src M = heap := by
      simp [nmp_object_copy, hvs]
    rw [e]
    refine ⟨by simp [nmp_object_id_equal], ?_, fun _ _ => rfl, rfl, rfl, ?_, hclone⟩
    · simp [nmp_object_equal, hvs]
    · intro x y _ _ h
      exact absurd rfl h
  · have e : nmp_object_copy heap dst src M =
        Function.update heap dst (some { d with data := cmd_obj_copy d.data s.data M }) := by
      simp [nmp_object_copy, hvd, hvs, hne, hd, hs, nmp_object_copy_value, hdr, hsr, hns, hc]
    have k := cmd_obj_equal_cmd_obj_copy d.data s.data M hc'
    have v1 : NMP_OBJECT_IS_VALID (nmp_object_copy heap dst src M) dst = true := by
      rw [e]; simp [NMP_OBJECT_IS_VALID, d0, hdr]
    have v2 : NMP_OBJECT_IS_VALID (nmp_object_copy heap dst src M) src = true := by
      rw [e, NMP_OBJECT_IS_VALID_update_ne _ _ _ _ hne]; exact hvs
    have g1 : nmp_object_copy heap dst src M dst
        = some { d with data := cmd_obj_copy d.data s.data M } := by
      rw [e]; exact Function.update_same _ _ _
    have g2 : nmp_object_copy heap dst src M src = some s := by
      rw [e, Function.update_noteq hne]; exact hs
    refine ⟨nmp_object_id_equal_of_data g1 g2 v1 v2 k.1,
      nmp_object_equal_of_data g1 g2 v1 v2 k.2.2 k.2.1, ?_, ?_, ?_, ?_, hclone⟩
    · intro q hq
      rw [e]; exact Function.update_noteq hq _ _
    · simp [ref_count_at, g1, hd]
    · simp [is_cached_at, g1, hd]
    · intro x y hx hy _
      refine ⟨_vt_cmd_obj_copy_link x y M, ?_, _vt_cmd_obj_copy_link_frame x y M⟩
      simp [data_at, g1, hx, hy, cmd_obj_copy]

/-- Witness of C38: the udev candidate at address 200 copied with mask UDEV into the netlink
link at address 100 of `demo_store2`. -/
theorem nmp_object_copy_establishes_equality_witness :
    demo_store2.heap 100 = some demo_link_netlink ∧
    demo_store2.heap 200 = some demo_link_udev ∧
    nmp_object_id_equal (nmp_object_copy demo_store2.heap 100 200 NMP_OBJECT_ASPECT_UDEV)
      100 200 = true ∧
    nmp_object_equal (nmp_object_copy demo_store2.heap 100 200 NMP_OBJECT_ASPECT_UDEV)
      100 200 NMP_OBJECT_ASPECT_UDEV = true :=
  ⟨by decide, by decide,
   (nmp_object_copy_establishes_equality demo_store2.heap 100 200 demo_link_netlink
      demo_link_udev NMP_OBJECT_ASPECT_UDEV (by decide) (by decide) (by decide) (by decide)
      (by decide) (by decide)).1,
   (nmp_object_copy_establishes_equality demo_store2.heap 100 200 demo_link_netlink
      demo_link_udev NMP_OBJECT_ASPECT_UDEV (by decide) (by decide) (by decide) (by decide)
      (by decide) (by decide)).2.1⟩

/-- C39 (by-interface-index membership follows visibility) does not hold of the code for
IPv6 routes: the IPv6 route that the kernel protocol reports is not visible, yet its
derivation for the id type by-interface-index yields the group of its kind and interface,
where the derivation of the IPv4 route with the same fields yields no group; added to the
empty cache, the IPv6 route is a member of that group. -/
theorem cmd_obj_init_cache_id_ip6_route_by_ifindex_invisible :
    cmd_obj_is_visible demo_route6_kernel.data = false ∧
    cmd_obj_init_cache_id demo_route6_kernel.data NMP_CACHE_ID_TYPE_ADDRROUTE_BY_IFINDEX
      = some (some (nmp_cache_id_init_addrroute_by_ifindex OBJECT_TYPE_IP6_ROUTE 3)) ∧
    cmd_obj_is_visible demo_route_kernel.data = false ∧
    cmd_obj_init_cache_id demo_route_kernel.data NMP_CACHE_ID_TYPE_ADDRROUTE_BY_IFINDEX
      = some none ∧
    nmp_cache_update demo_route6_kernel_store 100 NMP_OBJECT_ASPECT_PUBLIC false false
      = some demo_route6_kernel_result ∧
    demo_route6_kernel_result.ret = NMP_CACHE_OPS_ADDED ∧
    nmp_object_is_visible demo_route6_kernel_result.store.heap 100 = false ∧
    nmp_cache_lookup_multi demo_route6_kernel_result.store.cache
      (nmp_cache_id_init_addrroute_by_ifindex OBJECT_TYPE_IP6_ROUTE 3) = (some [100, 0], 1) :=
  ⟨by decide, by decide, by decide, by decide, rfl, by decide, by decide, by decide⟩

/-- C40 (frame property of the Multi-Index): for every well-formed index, key `g` and member
`m`, `nm_multi_index_add (g, m)` and `nm_multi_index_remove (g, m)` change the membership of
no pair other than `(g, m)`: for every other pair `nm_multi_index_contains` returns the same
value before and after, every other group has the same members, and the members of the
group of `g` other than `m` are the same in the same order. -/
theorem nm_multi_index_add_remove_frame {Id : Type} [DecidableEq Id]
    (index : NMMultiIndex Id) (g : Id) (m : Nat) (hwf : nm_multi_index_wf index) :
    ((∀ g' m', ¬ (g' = g ∧ m' = m) →
        nm_multi_index_contains (nm_multi_index_add index g m).2 g' m'
          = nm_multi_index_contains index g' m') ∧
      (∀ g', g' ≠ g → nm_multi_index_members (nm_multi_index_add index g m).2 g'
        = nm_multi_index_members index g') ∧
      (∀ g', (nm_multi_index_members (nm_multi_index_add index g m).2 g').filter
          (fun x => decide (x ≠ m)) =
        (nm_multi_index_members index g').filter (fun x => decide (x ≠ m)))) ∧
    ((∀ g' m', ¬ (g' = g ∧ m' = m) →
        nm_multi_index_contains (nm_multi_index_remove index g m).2 g' m'
          = nm_multi_index_contains index g' m') ∧
      (∀ g', g' ≠ g → nm_multi_index_members (nm_multi_index_remove index g m).2 g'
        = nm_multi_index_members index g') ∧
      (∀ g', (nm_multi_index_members (nm_multi_index_remove index g m).2 g').filter
          (fun x => decide (x ≠ m)) =
        (nm_multi_index_members index g').filter (fun x => decide (x ≠ m)))) := by
  constructor
  · apply nm_multi_index_frame_of_members hwf (nm_multi_index_add_wf hwf g m)
    intro g' x hne
    by_cases hm : m = 0
    · simp [nm_multi_index_add, hm]
    · obtain ⟨c1, c2⟩ := nm_multi_index_add_cases hwf g m hm
      by_cases hc : m ∈ nm_multi_index_members index g ∨
          ¬ ((nm_multi_index_members index g).length : Int) + 2 < G_MAXINT
      · rw [c1 hc]
      · simp only [not_or, not_not] at hc
        rw [(c2 hc.1 hc.2).2.2 g' x]
        constructor
        · rintro (h | h)
          · exact h
          · exact absurd h hne
        · exact fun h => Or.inl h
  · apply nm_multi_index_frame_of_members hwf (nm_multi_index_remove_wf hwf g m)
    intro g' x hne
    by_cases hm : m = 0
    · simp [nm_multi_index_remove, hm]
    · have e : nm_multi_index_remove index g m = _do_remove index g m := by
        simp [nm_multi_index_remove, hm]
      rw [e, _do_remove_members hwf g m g' x]
      exact ⟨fun h => h.1, fun h => ⟨h, hne⟩⟩

/-- Witness of C40: the member 5 added to, and the member 7 removed from, the group of key 0
that holds the members 3, 7 and 9. -/
theorem nm_multi_index_add_remove_frame_witness :
    nm_multi_index_wf ({ hash := [(0, [3, 7, 9, 0]), (1, [7, 0])] } : NMMultiIndex Nat) ∧
    nm_multi_index_members
      (nm_multi_index_add ({ hash := [(0, [3, 7, 9, 0]), (1, [7, 0])] } : NMMultiIndex Nat)
        0 5).2 0 = [3, 5, 7, 9] ∧
    (nm_multi_index_members
      (nm_multi_index_add ({ hash := [(0, [3, 7, 9, 0]), (1, [7, 0])] } : NMMultiIndex Nat)
        0 5).2 0).filter (fun x => decide (x ≠ 5)) =
      (nm_multi_index_members ({ hash := [(0, [3, 7, 9, 0]), (1, [7, 0])] } : NMMultiIndex Nat)
        0).filter (fun x => decide (x ≠ 5)) ∧
    nm_multi_index_contains
      (nm_multi_index_remove ({ hash := [(0, [3, 7, 9, 0]), (1, [7, 0])] } : NMMultiIndex Nat)
        0 7).2 1 7 =
      nm_multi_index_contains ({ hash := [(0, [3, 7, 9, 0]), (1, [7, 0])] } : NMMultiIndex Nat)
        1 7 :=
  ⟨by decide, by decide,
   (nm_multi_index_add_remove_frame
      ({ hash := [(0, [3, 7, 9, 0]), (1, [7, 0])] } : NMMultiIndex Nat) 0 5
      (by decide)).1.2.2 0,
   (nm_multi_index_add_remove_frame
      ({ hash := [(0, [3, 7, 9, 0]), (1, [7, 0])] } : NMMultiIndex Nat) 0 7
      (by decide)).2.1 1 7 (by decide)⟩

end NM
